import Mathlib

/-!
# Checkpointed ingestion pipeline (stream producer, durable queue, consumer)

A shallow embedding of the producer worker (stream/producer_chain.go), the
queue and checkpoint persistence (db/dbmodel.go, stream/processor.go) and the
queue consumer (stream/consumer_db.go).

Conventions of the embedding:

* a Go value of type error is an Option GoError, where none is nil;
* the relational store is a record of tables, each table a list of rows in
  insertion order; a statement either hits a storage-layer failure supplied
  by the environment or is executed on the table;
* calls into collaborators that have no visible state here (metrics, sleeps,
  the in-process notification, the decoder) are appended to a trace;
* uint64 arithmetic is arithmetic on Nat modulo 2^64.
-/

namespace Ortelius

/-! ## Errors -/

/-- Go error values that the pipeline distinguishes.  The first three are the
sentinels compared by identity in runProcessor; ErrNotFound is the sentinel of
the query layer for an empty result; duplicateEntry and lockError are the
two signals of the storage layer; errorString is any other error, carrying its
message; wrapError is the result of fmt.Errorf with the verb %w. -/
inductive GoError where
  | DeadlineExceeded : GoError
  | EOF : GoError
  | ErrNoMessage : GoError
  | ErrNotFound : GoError
  | duplicateEntry (msg : String) : GoError
  | lockError (msg : String) : GoError
  | errorString (msg : String) : GoError
  | wrapError (inner : GoError) (suffix : String) : GoError
  deriving DecidableEq, Repr

/-- The text of err.Error(). -/
def GoError.Error : GoError → String
  | .DeadlineExceeded => "context deadline exceeded"
  | .EOF => "EOF"
  | .ErrNoMessage => "no message"
  | .ErrNotFound => "dbr: not found"
  | .duplicateEntry msg => msg
  | .lockError msg => msg
  | .errorString msg => msg
  | .wrapError inner suffix => inner.Error ++ suffix

/-- Modelled from the spec: utils.ErrIsDuplicateEntryError is not among the
sources.  It recognises the storage layer's duplicate-key signal, also below a
wrapping that keeps the original error. -/
def GoError.isDuplicateEntry : GoError → Bool
  | .duplicateEntry _ => true
  | .wrapError inner _ => inner.isDuplicateEntry
  | _ => false

/-- Modelled from the spec: utils.ErrIsDuplicateEntryError, which is not among
the sources, on a Go error value; it is false on nil. -/
def ErrIsDuplicateEntryError : Option GoError → Bool
  | none => false
  | some e => e.isDuplicateEntry

/-- Modelled from the spec: utils.ErrIsLockError is not among the sources.  It
recognises the storage layer's transient lock/contention error, also below a
wrapping that keeps the original error. -/
def GoError.isLock : GoError → Bool
  | .lockError _ => true
  | .wrapError inner _ => inner.isLock
  | _ => false

/-- Modelled from the spec: utils.ErrIsLockError, which is not among the
sources, on a Go error value; it is false on nil. -/
def ErrIsLockError : Option GoError → Bool
  | none => false
  | some e => e.isLock

/-- EventErr of db/dbmodel.go: fmt.Errorf("%w (%s%s)", err, t, updmsg). -/
def EventErr (t : String) (upd : Bool) (err : GoError) : GoError :=
  let updmsg := if upd then " upd" else ""
  .wrapError err (" (" ++ t ++ updmsg ++ ")")

/-- A failure of the storage layer that is not the duplicate-key signal: the
duplicate-key signal is raised by the table itself, exactly when the key of
the inserted row is already present. -/
inductive Fault where
  | lock (msg : String) : Fault
  | failure (msg : String) : Fault
  deriving DecidableEq, Repr

/-- The error value a statement returns when it hits the fault. -/
def Fault.toError : Fault → GoError
  | .lock msg => .lockError msg
  | .failure msg => .errorString msg

/-! ## Data model -/

/-- A byte string; every element stands for one byte. -/
abbrev ByteSlice := List Nat

/-- A time.Time value: seconds since the epoch and nanoseconds within it. -/
structure Time where
  sec : Int
  nsec : Int
  deriving DecidableEq, Repr

/-- The value of time.Unix(sec, 0). -/
def Time.Unix (sec : Int) : Time := { sec := sec, nsec := 0 }

/-- The functions of the ledger library that the pipeline calls:
hashing.ComputeHash256Array (SHA-256) and ids.ID.String. -/
structure Hashing where
  ComputeHash256Array : ByteSlice → ByteSlice
  IDString : ByteSlice → String

/-- The bytes of a Go string: the UTF-8 encoding of its characters. -/
def stringBytes (s : String) : ByteSlice :=
  (s.data.map (fun c => (String.utf8EncodeChar c).map UInt8.toNat)).flatten

/-- TxPool of db/dbmodel.go: one row of the queue table. -/
structure TxPool where
  ID : String
  NetworkID : Nat
  ChainID : String
  MsgKey : String
  Serialization : ByteSlice
  Topic : String
  CreatedAt : Time
  deriving DecidableEq, Repr

/-- NodeIndex of db/dbmodel.go: one row of the checkpoint table. -/
structure NodeIndex where
  Instance : String
  Topic : String
  Idx : Nat
  deriving DecidableEq, Repr

/-- TxPool.ComputeID: the string that is hashed, fmt.Sprintf("%s:%s", MsgKey, Topic). -/
def TxPool.idsv (b : TxPool) : String := b.MsgKey ++ ":" ++ b.Topic

/-- TxPool.ComputeID of db/dbmodel.go. -/
def TxPool.ComputeID (h : Hashing) (b : TxPool) : TxPool :=
  let idsv := b.idsv
  let id := h.ComputeHash256Array (stringBytes idsv)
  { b with ID := h.IDString id }

/-- The metric keys: a key built by the worker at construction, or one of the
package constants of servicesctrl, which are taken symbolically. -/
inductive MetricKey where
  | key (s : String) : MetricKey
  | MetricProduceProcessedCountKey : MetricKey
  | MetricProduceSuccessCountKey : MetricKey
  | MetricProduceFailureCountKey : MetricKey
  | MetricConsumeSuccessCountKey : MetricKey
  | MetricConsumeFailureCountKey : MetricKey
  deriving DecidableEq, Repr

/-- Message of stream/stream.go. -/
structure Message where
  id : String
  chainID : String
  body : ByteSlice
  timestamp : Int
  nanosecond : Int
  deriving DecidableEq, Repr

/-- The operation of the decoder that an attempt invokes. -/
inductive DecoderOp where
  | Consume : DecoderOp
  | ConsumeConsensus : DecoderOp
  deriving DecidableEq, Repr

/-- The calls into collaborators, in the order they are made. -/
inductive Event where
  | CounterInc (key : MetricKey) : Event
  | Sleep (millis : Nat) : Event
  | GetContainerRange (startIndex numToFetch : Nat) : Event
  | Enqueue (txPool : TxPool) : Event
  | Decode (op : DecoderOp) (msg : Message) : Event
  | RetrySleeperInc : Event
  | CollectorsError : Event
  | CollectorsCollect : Event
  | BalanceManagerExec : Event
  deriving DecidableEq, Repr

/-- The state outside the worker: the queue table, the checkpoint table and
the trace of collaborator calls. -/
structure World where
  txPool : List TxPool
  nodeIndex : List NodeIndex
  trace : List Event
  deriving DecidableEq, Repr

/-- Appends one collaborator call to the trace. -/
def World.emit (w : World) (e : Event) : World := { w with trace := w.trace ++ [e] }

/-- How many times the counter of the key was incremented in the trace. -/
def counterIncs (key : MetricKey) (tr : List Event) : Nat := tr.count (Event.CounterInc key)

/-! ## The storage layer -/

/-- An INSERT statement on a table with a primary key: a storage failure
leaves the table as it is; a row whose key is present raises the duplicate-key
signal and leaves the table as it is; otherwise the row is added. -/
def sqlInsert {α κ : Type} [DecidableEq κ] (key : α → κ) (fault : Option Fault)
    (rows : List α) (v : α) : List α × Option GoError :=
  match fault with
  | some f => (rows, some f.toError)
  | none =>
    if rows.any (fun r => decide (key r = key v)) then
      (rows, some (.duplicateEntry "Error 1062: Duplicate entry"))
    else (rows ++ [v], none)

/-- An UPDATE statement: a storage failure leaves the table as it is;
otherwise every row selected by the WHERE clause is rewritten, and updating
no row is not an error. -/
def sqlUpdate {α : Type} (sel : α → Bool) (set : α → α) (fault : Option Fault)
    (rows : List α) : List α × Option GoError :=
  match fault with
  | some f => (rows, some f.toError)
  | none => (rows.map (fun r => if sel r then set r else r), none)

/-- A SELECT loaded with LoadOneContext: the first selected row, or ErrNotFound. -/
def sqlLoadOne {α : Type} (sel : α → Bool) (fault : Option Fault)
    (rows : List α) : Except GoError α :=
  match fault with
  | some f => .error f.toError
  | none =>
    match rows.find? sel with
    | some r => .ok r
    | none => .error .ErrNotFound

/-- The WHERE clause "instance=? and topic=?" of the checkpoint statements. -/
def whereInstanceTopic (inst topic : String) (r : NodeIndex) : Bool :=
  decide (r.Instance = inst) && decide (r.Topic = topic)

/-- The name of the queue table. -/
def TableTxPool : String := "tx_pool"

/-- The name of the checkpoint table. -/
def TableNodeIndex : String := "node_index"

/-- persist.InsertTxPool of db/dbmodel.go.  The key of the table is the column
id, as the spec has it for the queue table. -/
def InsertTxPool (fault : Option Fault) (v : TxPool) (w : World) : World × Option GoError :=
  let (rows, err) := sqlInsert TxPool.ID fault w.txPool v
  let w1 := { w with txPool := rows }
  match err with
  | some e =>
    if !ErrIsDuplicateEntryError (some e) then (w1, some (EventErr TableTxPool false e))
    else (w1, none)
  | none => (w1, none)

/-- persist.QueryTxPool of db/dbmodel.go. -/
def QueryTxPool (fault : Option Fault) (q : TxPool) (w : World) : Except GoError TxPool :=
  sqlLoadOne (fun r => decide (r.ID = q.ID)) fault w.txPool

/-- persist.QueryNodeIndex of db/dbmodel.go. -/
def QueryNodeIndex (fault : Option Fault) (q : NodeIndex) (w : World) : Except GoError NodeIndex :=
  sqlLoadOne (whereInstanceTopic q.Instance q.Topic) fault w.nodeIndex

/-- persist.UpdateNodeIndex of db/dbmodel.go. -/
def UpdateNodeIndex (fault : Option Fault) (v : NodeIndex) (w : World) : World × Option GoError :=
  let (rows, err) := sqlUpdate (whereInstanceTopic v.Instance v.Topic)
    (fun r => { r with Idx := v.Idx }) fault w.nodeIndex
  let w1 := { w with nodeIndex := rows }
  match err with
  | some e => (w1, some (EventErr TableNodeIndex true e))
  | none => (w1, none)

/-- persist.InsertNodeIndex of db/dbmodel.go; the two faults are those of the
INSERT and of the UPDATE statement.  The key of the table is the pair
(instance, topic), as the spec has it for the checkpoint table. -/
def InsertNodeIndex (faultIns faultUpd : Option Fault) (v : NodeIndex) (upd : Bool) (w : World) :
    World × Option GoError :=
  let (rows, err) := sqlInsert (fun r : NodeIndex => (r.Instance, r.Topic)) faultIns w.nodeIndex v
  let w1 := { w with nodeIndex := rows }
  if err.isSome && !ErrIsDuplicateEntryError err then
    (w1, err.map (EventErr TableNodeIndex false))
  else if upd then
    let (rows2, err2) := sqlUpdate (whereInstanceTopic v.Instance v.Topic)
      (fun r => { r with Idx := v.Idx }) faultUpd w1.nodeIndex
    let w2 := { w1 with nodeIndex := rows2 }
    match err2 with
    | some e => (w2, some (EventErr TableNodeIndex true e))
    | none => (w2, none)
  else (w1, none)

/-! ## The producer worker (stream/producer_chain.go) -/

/-- The constant readRPCTimeout of stream/stream.go, in milliseconds. -/
def readRPCTimeout : Nat := 500

/-- The constant MaxTxRead of stream/producer_chain.go. -/
def MaxTxRead : Nat := 500

/-- IndexedChain of stream/producer_chain.go, a byte. -/
abbrev IndexedChain := Nat

/-- The constant IndexXChain. -/
def IndexXChain : IndexedChain := 0

/-- The constant IndexPChain. -/
def IndexPChain : IndexedChain := 1

/-- The constant IndexCChain. -/
def IndexCChain : IndexedChain := 2

/-- The result of strings.HasPrefix on the characters of two strings. -/
def hasPrefixChars : List Char → List Char → Bool
  | _, [] => true
  | [], _ :: _ => false
  | c :: s, d :: pre => c == d && hasPrefixChars s pre

/-- The result of strings.Contains on the characters of two strings. -/
def containsChars : List Char → List Char → Bool
  | [], sub => hasPrefixChars [] sub
  | c :: s, sub => hasPrefixChars (c :: s) sub || containsChars s sub

/-- The function strings.HasPrefix. -/
def stringsHasPrefix (s pre : String) : Bool := hasPrefixChars s.data pre.data

/-- The function strings.Contains. -/
def stringsContains (s sub : String) : Bool := containsChars s.data sub.data

/-- IndexNotReady of stream/producer_chain.go. -/
def IndexNotReady (err : GoError) : Bool :=
  if stringsHasPrefix err.Error "start index" && stringsContains err.Error "last accepted index" then
    true
  else if stringsHasPrefix err.Error "received status code '404'" then true
  else false

/-- A container of the ledger's index API (indexer.Container). -/
structure Container where
  ID : ByteSlice
  Bytes : ByteSlice
  Timestamp : Int
  deriving DecidableEq, Repr

/-- The fields of cfg.Config that the worker reads. -/
structure Config where
  NetworkID : Nat
  NodeInstance : String
  deriving DecidableEq, Repr

/-- The struct producerChainContainer: the fields that ProcessNextMessage,
getIndex and newContainer read or write. -/
structure producerChainContainer where
  conf : Config
  nodeIndex : NodeIndex
  nodeinstance : String
  topic : String
  chainID : String
  indexerChain : IndexedChain
  metricProcessedCountKey : String
  deriving DecidableEq, Repr

/-- What the environment decides during one call of ProcessNextMessage: the
answer of the ledger's GetContainerRange(startIndex, numToFetch), the storage
failure (if any) that hits the INSERT for the k-th container of the batch
(counted from 0), and the one that hits the UPDATE of the checkpoint. -/
structure Oracle where
  GetContainerRange : Nat → Nat → Except GoError (List Container)
  insertFault : Nat → Option Fault
  updateFault : Option Fault

/-- The conversion uint64(i) of a Go int. -/
def uint64 (i : Int) : Nat := (i % 2 ^ 64).toNat

/-- UpdateTxPool of stream/processor.go. -/
def UpdateTxPool (fault : Option Fault) (txPool : TxPool) (w : World) : World × Option GoError :=
  let (w1, err) := InsertTxPool fault txPool w
  match err with
  | none => (w1.emit (.Enqueue txPool), none)
  | some e => (w1, some e)

/-- The queue entry that the loop body of ProcessNextMessage builds for one
container, after txPool.ComputeID(). -/
def producerChainContainer.txPoolOf (h : Hashing) (p : producerChainContainer)
    (container : Container) : TxPool :=
  let id := if p.indexerChain = IndexCChain then container.ID
    else h.ComputeHash256Array container.Bytes
  let txPool : TxPool :=
    { ID := ""
      NetworkID := p.conf.NetworkID
      ChainID := p.chainID
      MsgKey := h.IDString id
      Serialization := container.Bytes
      Topic := p.topic
      CreatedAt := Time.Unix container.Timestamp }
  txPool.ComputeID h

/-- The loop over the batch in ProcessNextMessage, from the k-th container on.
The result some e is the early return of e; none is the end of the loop.
The argument err is the variable err at the top of the iteration. -/
def producerChainContainer.drain (h : Hashing) (o : Oracle) (p : producerChainContainer) :
    Nat → Option GoError → List Container → World → World × Option GoError
  | _, _, [], w => (w, none)
  | k, err, container :: rest, w =>
    match err with
    | some e => (w, some e)
    | none =>
      let txPool := p.txPoolOf h container
      match UpdateTxPool (o.insertFault k) txPool w with
      | (w1, some e) => (w1, some e)
      | (w1, none) =>
        let w2 := w1.emit (.CounterInc (.key p.metricProcessedCountKey))
        let w3 := w2.emit (.CounterInc .MetricProduceProcessedCountKey)
        p.drain h o (k + 1) none rest w3

/-- producerChainContainer.updateNodeIndex. -/
def producerChainContainer.updateNodeIndex (_p : producerChainContainer) (fault : Option Fault)
    (nodeIndex : NodeIndex) (w : World) : World × Option GoError :=
  UpdateNodeIndex fault nodeIndex w

/-- producerChainContainer.ProcessNextMessage, with the batch limit as an
argument in place of the constant MaxTxRead. -/
def producerChainContainer.ProcessNextMessageWith (maxTxRead : Nat) (h : Hashing) (o : Oracle)
    (p : producerChainContainer) (w : World) : producerChainContainer × World × Option GoError :=
  let w0 := w.emit (.GetContainerRange p.nodeIndex.Idx maxTxRead)
  match o.GetContainerRange p.nodeIndex.Idx maxTxRead with
  | .error err =>
    let w1 := w0.emit (.Sleep readRPCTimeout)
    if IndexNotReady err then (p, w1, none) else (p, w1, some err)
  | .ok containers =>
    if containers.length = 0 then
      (p, w0.emit (.Sleep readRPCTimeout), some .ErrNoMessage)
    else
      match p.drain h o 0 none containers w0 with
      | (w1, some e) => (p, w1, some e)
      | (w1, none) =>
        let nodeIdx : NodeIndex :=
          { Instance := p.nodeinstance
            Topic := p.topic
            Idx := (p.nodeIndex.Idx + uint64 ((containers.length : Int) - 1)) % 2 ^ 64 }
        match p.updateNodeIndex o.updateFault nodeIdx w1 with
        | (w2, some e) => (p, w2, some e)
        | (w2, none) =>
          let p1 := { p with nodeIndex := { p.nodeIndex with Idx := nodeIdx.Idx } }
          let w3 := if containers.length < maxTxRead then w2.emit (.Sleep readRPCTimeout) else w2
          (p1, w3, none)

/-- producerChainContainer.ProcessNextMessage. -/
def producerChainContainer.ProcessNextMessage (h : Hashing) (o : Oracle)
    (p : producerChainContainer) (w : World) : producerChainContainer × World × Option GoError :=
  p.ProcessNextMessageWith MaxTxRead h o w

/-- producerChainContainer.insertNodeIndex; performUpdates is the value of the
variable cfg.PerformUpdates, whose declaration is not among the sources. -/
def producerChainContainer.insertNodeIndex (_p : producerChainContainer) (performUpdates : Bool)
    (faultIns faultUpd : Option Fault) (nodeIndex : NodeIndex) (w : World) :
    World × Option GoError :=
  InsertNodeIndex faultIns faultUpd nodeIndex performUpdates w

/-- producerChainContainer.getIndex. -/
def producerChainContainer.getIndex (fault : Option Fault) (p : producerChainContainer)
    (w : World) : producerChainContainer × Option GoError :=
  let qn : NodeIndex := { Instance := p.nodeinstance, Topic := p.topic, Idx := 0 }
  match QueryNodeIndex fault qn w with
  | .error err => (p, some err)
  | .ok nodeIndex =>
    ({ p with nodeIndex := { nodeIndex with Instance := p.nodeinstance, Topic := p.topic } }, none)

/-- What the environment decides during newContainer: the error of
sc.Database() (if any) and the storage failures of the three statements. -/
structure StartOracle where
  database : Option GoError
  insertFault : Option Fault
  updateFault : Option Fault
  queryFault : Option Fault

/-- The function newContainer.  The field nodeIndex is a nil pointer until
getIndex sets it; it is shown here as the zero NodeIndex. -/
def newContainer (performUpdates : Bool) (so : StartOracle) (conf : Config) (topic chainID : String)
    (indexerChain : IndexedChain) (metricProcessedCountKey : String) (w : World) :
    World × Except GoError producerChainContainer :=
  match so.database with
  | some err => (w, .error err)
  | none =>
    let pc : producerChainContainer :=
      { conf := conf
        nodeIndex := { Instance := "", Topic := "", Idx := 0 }
        nodeinstance := conf.NodeInstance
        topic := topic
        chainID := chainID
        indexerChain := indexerChain
        metricProcessedCountKey := metricProcessedCountKey }
    match pc.insertNodeIndex performUpdates so.insertFault so.updateFault
        { Instance := pc.nodeinstance, Topic := pc.topic, Idx := 0 } w with
    | (w1, some err) => (w1, .error err)
    | (w1, none) =>
      match pc.getIndex so.queryFault w1 with
      | (_, some err) => (w1, .error err)
      | (pc1, none) => (w1, .ok pc1)

/-! ## The queue consumer (stream/consumer_db.go) -/

/-- EventType of stream/stream.go, a string. -/
abbrev EventType := String

/-- The constant EventTypeConsensus. -/
def EventTypeConsensus : EventType := "consensus"

/-- The constant EventTypeDecisions. -/
def EventTypeDecisions : EventType := "decisions"

/-- The struct consumerDB: the fields that Consume reads. -/
structure consumerDB where
  id : String
  eventType : EventType
  chainID : String
  metricProcessedCountKey : String
  metricFailureCountKey : String
  metricProcessMillisCounterKey : String
  metricSuccessCountKey : String
  topicName : String
  deriving DecidableEq, Repr

/-- The decoder behind services.Consumer, as the environment of one call of
consumerDB.Consume: what the operation returns for the message at the attempt
with the given number, counted from 0.  The writes of the decoder go to the
business tables, which are not part of the state here. -/
abbrev Decoder := DecoderOp → Nat → Message → Option GoError

/-- consumerDB.persistConsume: one attempt, the attempt-th of the call. -/
def consumerDB.persistConsume (c : consumerDB) (d : Decoder) (attempt : Nat) (msg : Message)
    (w : World) : World × Option GoError :=
  if c.eventType = EventTypeDecisions then
    (w.emit (.Decode .Consume msg), d .Consume attempt msg)
  else if c.eventType = EventTypeConsensus then
    (w.emit (.Decode .ConsumeConsensus msg), d .ConsumeConsensus attempt msg)
  else (w, some (.errorString ("invalid eventType " ++ c.eventType)))

/-- consumerDB.Failure. -/
def consumerDB.Failure (c : consumerDB) (w : World) : World :=
  (w.emit (.CounterInc (.key c.metricFailureCountKey))).emit
    (.CounterInc .MetricConsumeFailureCountKey)

/-- consumerDB.Success. -/
def consumerDB.Success (c : consumerDB) (w : World) : World :=
  (w.emit (.CounterInc (.key c.metricSuccessCountKey))).emit
    (.CounterInc .MetricConsumeSuccessCountKey)

/-- The retry loop of consumerDB.Consume, from the attempt with the given
number on: it ends with the first result that is not a lock error.  The loop
of the source has no bound; the result is none when the fuel runs out
before the loop ends. -/
def consumerDB.retryLoop (c : consumerDB) (d : Decoder) (msg : Message) :
    Nat → Nat → World → Option (World × Option GoError)
  | 0, _, _ => none
  | fuel + 1, attempt, w =>
    match c.persistConsume d attempt msg w with
    | (w1, err) =>
      if !ErrIsLockError err then some (w1, err)
      else consumerDB.retryLoop c d msg fuel (attempt + 1) (w1.emit .RetrySleeperInc)

/-- consumerDB.Consume; the deferred collectors.Collect() is the last call. -/
def consumerDB.Consume (c : consumerDB) (d : Decoder) (fuel : Nat) (msg : Message) (w : World) :
    Option (World × Option GoError) :=
  match c.retryLoop d msg fuel 0 w with
  | none => none
  | some (w1, some err) =>
    let w2 := c.Failure w1
    let w3 := w2.emit .CollectorsError
    some (w3.emit .CollectorsCollect, some err)
  | some (w1, none) =>
    let w2 := c.Success w1
    let w3 := w2.emit .BalanceManagerExec
    some (w3.emit .CollectorsCollect, none)

/-! ## Topic names (stream/stream.go) -/

/-- The text that fmt.Sprintf prints for the verb %d: the decimal digits. -/
def decimal (n : Nat) : String := String.mk (Nat.toDigits 10 n)

/-- GetTopicName of stream/stream.go: fmt.Sprintf("%d-%s-%s", networkID, chainID, eventType). -/
def GetTopicName (networkID : Nat) (chainID : String) (eventType : EventType) : String :=
  decimal networkID ++ "-" ++ chainID ++ "-" ++ eventType

/-- The parts between the occurrences of a separator character. -/
def splitChars (sep : Char) : List Char → List (List Char)
  | [] => [[]]
  | c :: s =>
    if c = sep then [] :: splitChars sep s
    else
      match splitChars sep s with
      | [] => [[c]]
      | part :: parts => (c :: part) :: parts

/-- The function strings.Split for a separator of one character. -/
def stringsSplit (s : String) (sep : Char) : List String :=
  (splitChars sep s.data).map String.mk

/-! ## The worker loop (stream/producer_chain.go) -/

/-- ChainNotReady of stream/producer_chain.go. -/
def ChainNotReady (err : GoError) : Bool :=
  stringsHasPrefix err.Error "received status code '404'"

/-- ZeroAcceptedContainers of stream/producer_chain.go. -/
def ZeroAcceptedContainers (err : GoError) : Bool :=
  stringsContains err.Error "no containers have been accepted"

/-- The struct ProducerChain: the fields that runProcessor reads. -/
structure ProducerChain where
  id : String
  metricProcessedCountKey : String
  metricSuccessCountKey : String
  metricFailureCountKey : String
  conf : Config
  topic : String
  chainID : String
  indexerChain : IndexedChain
  deriving DecidableEq, Repr

/-- ProducerChain.Failure. -/
def ProducerChain.Failure (p : ProducerChain) (w : World) : World :=
  (w.emit (.CounterInc (.key p.metricFailureCountKey))).emit
    (.CounterInc .MetricProduceFailureCountKey)

/-- ProducerChain.Success. -/
def ProducerChain.Success (p : ProducerChain) (w : World) : World :=
  (w.emit (.CounterInc (.key p.metricSuccessCountKey))).emit
    (.CounterInc .MetricProduceSuccessCountKey)

/-- The closure processNextMessage of ProducerChain.runProcessor: one call of
ProcessNextMessage and the switch over its result. -/
def ProducerChain.processNextMessage (p : ProducerChain) (h : Hashing) (o : Oracle)
    (pc : producerChainContainer) (w : World) : producerChainContainer × World × Option GoError :=
  match pc.ProcessNextMessage h o w with
  | (pc1, w1, none) => (pc1, p.Success w1, none)
  | (pc1, w1, some .DeadlineExceeded) => (pc1, w1, none)
  | (pc1, w1, some .ErrNoMessage) => (pc1, w1, none)
  | (pc1, w1, some .EOF) => (pc1, w1, some .EOF)
  | (pc1, w1, some err) =>
    if ChainNotReady err then (pc1, w1, none)
    else if ZeroAcceptedContainers err then (pc1, w1, none)
    else (pc1, p.Failure w1, some err)

/-- What the environment decides at one iteration of the loop of
runProcessor: whether one of the two running controls is stopped at the top of
the iteration, and the environment of the call of ProcessNextMessage. -/
structure Poll where
  stopped : Bool
  oracle : Oracle

/-- The loop of ProducerChain.runProcessor over the iterations that the
environment provides.  The result some r is the end of the loop with the
return value r of runProcessor (nil after a stop, or the error that the
closure returned); the result none says that the loop is still running after
the iterations given. -/
def ProducerChain.loop (p : ProducerChain) (h : Hashing) :
    List Poll → producerChainContainer → World →
      producerChainContainer × World × Option (Option GoError)
  | [], pc, w => (pc, w, none)
  | poll :: rest, pc, w =>
    if poll.stopped then (pc, w, some none)
    else
      match p.processNextMessage h poll.oracle pc w with
      | (pc1, w1, some err) => (pc1, w1, some (some err))
      | (pc1, w1, none) => ProducerChain.loop p h rest pc1 w1

/-- The constant processorFailureRetryInterval of stream/processor.go, in
milliseconds. -/
def processorFailureRetryInterval : Nat := 200

/-- What the environment decides during one call of runProcessor: whether the
running control of the producer is stopped at the entry, the environment of
newContainer, and the iterations of the loop. -/
structure Run where
  stoppedAtStart : Bool
  start : StartOracle
  polls : List Poll

/-- ProducerChain.runProcessor; performUpdates is the value of
cfg.PerformUpdates.  The result some r is the return value r of runProcessor;
the result none says that its loop is still running after the iterations
given.  The deferred close of the container has no effect on the state shown
here. -/
def ProducerChain.runProcessor (p : ProducerChain) (performUpdates : Bool) (h : Hashing)
    (run : Run) (w : World) : World × Option (Option GoError) :=
  if run.stoppedAtStart then (w, some none)
  else
    match newContainer performUpdates run.start p.conf p.topic p.chainID p.indexerChain
        p.metricProcessedCountKey w with
    | (w1, .error err) => (w1, some (some err))
    | (w1, .ok pc) => ((p.loop h run.polls pc w1).2.1, (p.loop h run.polls pc w1).2.2)

/-- What the environment decides during one iteration of the loop of Listen:
whether the running control is stopped at the loop condition, the call of
runProcessor, and whether the running control is stopped after it. -/
structure Round where
  stopped : Bool
  run : Run
  stoppedAfter : Bool

/-- ProducerChain.Listen over the iterations that the environment provides.
The result some r is the return value r of Listen; the result none says that
Listen is still running after the iterations given.  The wait on
time.After(processorFailureRetryInterval) is recorded as a sleep. -/
def ProducerChain.Listen (p : ProducerChain) (performUpdates : Bool) (h : Hashing) :
    List Round → World → World × Option (Option GoError)
  | [], w => (w, none)
  | r :: rest, w =>
    if r.stopped then (w, some none)
    else
      match p.runProcessor performUpdates h r.run w with
      | (w1, none) => (w1, none)
      | (w1, some err) =>
        if r.stoppedAfter then (w1, some none)
        else if err.isSome then
          ProducerChain.Listen p performUpdates h rest
            (w1.emit (.Sleep processorFailureRetryInterval))
        else ProducerChain.Listen p performUpdates h rest w1

/-! ## The business tables (db/dbmodel.go) -/

/-- A value bound to a statement or stored in a column; null is also the value
of a nil pointer field. -/
inductive Val where
  | null : Val
  | text (s : String) : Val
  | number (n : Int) : Val
  | blob (b : ByteSlice) : Val
  | time (t : Time) : Val
  | flag (b : Bool) : Val
  deriving DecidableEq, Repr

/-- A struct of db/dbmodel.go that an Insert function receives, read through
the names of its fields: v "ID" is v.ID. -/
abbrev Entity := String → Val

/-- A row of a business table, read through the names of its columns. -/
abbrev Row := String → Val

/-- A business table: its rows in insertion order. -/
abbrev Table := List Row

/-- The storage layer compares column names without regard to case; a row is
read at the lower-case form of the name. -/
def column (name : String) : String := String.mk (name.data.map Char.toLower)

/-- What the statements depend on in the storage layer, whose schema and SQL
reader are not among the sources: the columns of the unique key of every
table; the values a new row of a table takes in the columns that the INSERT
does not name (column defaults, counters), which may depend on the rows
present; how a text that a statement splices into its own text at the place
of a value is read, as one expression, evaluated on a row, or not as one
(splice); and, for a text that is not read as one expression, what the
statement then does to the table and returns, given the statement, the text
and the bound values (foreign). -/
structure Schema where
  key : String → List String
  defaults : String → Table → Row
  splice : String → Option (Row → Val)
  foreign : String → String → List Val → Table → Table × Option GoError

/-- The row after the assignments column = value, made in the order of the
list. -/
def assign (sets : List (String × Val)) (r : Row) : Row :=
  fun c =>
    match sets.reverse.find? (fun p => column p.1 == c) with
    | some p => p.2
    | none => r c

/-- The values of a row in the key columns. -/
def keyOf (key : List String) (r : Row) : List Val := key.map (fun c => r (column c))

/-- A WHERE clause that is a conjunction of comparisons column = value. -/
def whereCols (cond : List (String × Val)) (r : Row) : Bool :=
  cond.all (fun p => r (column p.1) == p.2)

/-- INSERT INTO table (columns) VALUES (values). -/
def tableInsert (sch : Schema) (table : String) (fault : Option Fault) (rows : Table)
    (pairs : List (String × Val)) : Table × Option GoError :=
  sqlInsert (keyOf (sch.key table)) fault rows (assign pairs (sch.defaults table rows))

/-- UPDATE table SET assignments WHERE condition. -/
def tableUpdate (fault : Option Fault) (rows : Table) (sets cond : List (String × Val)) :
    Table × Option GoError :=
  sqlUpdate (whereCols cond) (assign sets) fault rows

/-- The Go string held by a field of type string. -/
def Val.goString : Val → String
  | .text s => s
  | _ => ""

/-- A statement written out with InsertBySql, INSERT INTO table (columns)
VALUES (values), in which the value of the column col is the text spliced
into the statement and the other values are bound; before and after are the
columns in front of col and behind it.  A text that the storage layer reads
as one expression is evaluated on the new row as it is when the column is
reached. -/
def tableInsertBySql (sch : Schema) (table : String) (fault : Option Fault) (rows : Table)
    (before : List (String × Val)) (col text : String) (after : List (String × Val)) :
    Table × Option GoError :=
  match fault with
  | some f => (rows, some f.toError)
  | none =>
    match sch.splice text with
    | some f =>
      tableInsert sch table none rows
        (before ++ (col, f (assign before (sch.defaults table rows))) :: after)
    | none =>
      sch.foreign ("insert into " ++ table) text ((before ++ after).map Prod.snd) rows

/-- A statement written out with UpdateBySql, UPDATE table SET col = text,
assignments WHERE condition, in which the text is spliced into the statement
and the other values are bound.  A text that the storage layer reads as one
expression is evaluated on the row that is rewritten. -/
def tableUpdateBySql (sch : Schema) (table : String) (fault : Option Fault) (rows : Table)
    (col text : String) (sets cond : List (String × Val)) : Table × Option GoError :=
  match fault with
  | some f => (rows, some f.toError)
  | none =>
    match sch.splice text with
    | some f => sqlUpdate (whereCols cond) (fun r => assign ((col, f r) :: sets) r) none rows
    | none =>
      sch.foreign ("update " ++ table) text ((sets ++ cond).map Prod.snd) rows

/-- The sum computed by the storage layer for column = column + value. -/
def Val.add : Val → Val → Val
  | .number a, .number b => .number (a + b)
  | _, _ => .null

/-- UPDATE table SET column = column + value WHERE condition, the statement
built by IncrBy. -/
def tableIncrBy (fault : Option Fault) (rows : Table) (col : String) (value : Val)
    (cond : List (String × Val)) : Table × Option GoError :=
  sqlUpdate (whereCols cond) (fun r => assign [(col, (r (column col)).add value)] r) fault rows

/-- INSERT INTO table (columns) VALUES (values) ON DUPLICATE KEY UPDATE
assignments: a storage failure leaves the table as it is; when the key of the
new row is present the assignments are made to the row that has it, and no
duplicate-key signal is raised; otherwise the row is added. -/
def tableUpsert (sch : Schema) (table : String) (fault : Option Fault) (rows : Table)
    (pairs sets : List (String × Val)) : Table × Option GoError :=
  match fault with
  | some f => (rows, some f.toError)
  | none =>
    let row := assign pairs (sch.defaults table rows)
    if rows.any (fun r => decide (keyOf (sch.key table) r = keyOf (sch.key table) row)) then
      (rows.map (fun r =>
        if keyOf (sch.key table) r = keyOf (sch.key table) row then assign sets r else r), none)
    else (rows ++ [row], none)

/-- The scalar subquery SELECT id FROM cvm_accounts WHERE address = ?: the id
of the account row of the address, null when there is none. -/
def selectAccountID (accounts : Table) (address : Val) : Val :=
  match accounts.find? (fun r => r (column "address") == address) with
  | some r => r (column "id")
  | none => .null

/-- The body shared by the Insert functions that have no upd flag: the INSERT
is executed, and its error is returned through EventErr unless it is the
duplicate-key signal. -/
def insertIgnoreDuplicate (sch : Schema) (table : String) (fault : Option Fault)
    (pairs : List (String × Val)) (rows : Table) : Table × Option GoError :=
  let (rows1, err) := tableInsert sch table fault rows pairs
  if err.isSome && !ErrIsDuplicateEntryError err then
    (rows1, err.map (EventErr table false))
  else (rows1, none)

/-- The body shared by the Insert functions that have an upd flag: the INSERT
is executed, and its error is returned through EventErr unless it is the
duplicate-key signal; then, if upd is set, the UPDATE is executed, and its
error is returned through EventErr, under the table name the function passes
there. -/
def insertThenUpdate (sch : Schema) (table updTable : String) (faultIns faultUpd : Option Fault)
    (pairs : List (String × Val)) (upd : Bool) (sets cond : List (String × Val))
    (rows : Table) : Table × Option GoError :=
  let (rows1, err) := tableInsert sch table faultIns rows pairs
  if err.isSome && !ErrIsDuplicateEntryError err then
    (rows1, err.map (EventErr table false))
  else if upd then
    let (rows2, err2) := tableUpdate faultUpd rows1 sets cond
    match err2 with
    | some e => (rows2, some (EventErr updTable true e))
    | none => (rows2, none)
  else (rows1, none)

/-! ### Table names -/

/-- The constant TableTransactions of db/dbmodel.go. -/
def TableTransactions : String := "avm_transactions"

/-- The constant TableOutputsRedeeming of db/dbmodel.go. -/
def TableOutputsRedeeming : String := "avm_outputs_redeeming"

/-- The constant TableOutputs of db/dbmodel.go. -/
def TableOutputs : String := "avm_outputs"

/-- The constant TableAssets of db/dbmodel.go. -/
def TableAssets : String := "avm_assets"

/-- The constant TableAddresses of db/dbmodel.go. -/
def TableAddresses : String := "addresses"

/-- The constant TableAddressChain of db/dbmodel.go. -/
def TableAddressChain : String := "address_chain"

/-- The constant TableOutputAddresses of db/dbmodel.go. -/
def TableOutputAddresses : String := "avm_output_addresses"

/-- The constant TableTransactionsEpochs of db/dbmodel.go. -/
def TableTransactionsEpochs : String := "transactions_epoch"

/-- The constant TableCvmAddresses of db/dbmodel.go. -/
def TableCvmAddresses : String := "cvm_addresses"

/-- The constant TableCvmBlocks of db/dbmodel.go. -/
def TableCvmBlocks : String := "cvm_blocks"

/-- The constant TableCvmTransactionsAtomic of db/dbmodel.go. -/
def TableCvmTransactionsAtomic : String := "cvm_transactions_atomic"

/-- The constant TableCvmTransactionsTxdata of db/dbmodel.go. -/
def TableCvmTransactionsTxdata : String := "cvm_transactions_txdata"

/-- The constant TableCvmAccounts of db/dbmodel.go. -/
def TableCvmAccounts : String := "cvm_accounts"

/-- The constant TablePvmBlocks of db/dbmodel.go. -/
def TablePvmBlocks : String := "pvm_blocks"

/-- The constant TableTransactionsValidator of db/dbmodel.go. -/
def TableTransactionsValidator : String := "transactions_validator"

/-- The constant TableTransactionsBlock of db/dbmodel.go. -/
def TableTransactionsBlock : String := "transactions_block"

/-- The constant TableAddressBech32 of db/dbmodel.go. -/
def TableAddressBech32 : String := "addresses_bech32"

/-- The constant TableOutputAddressAccumulateOut of db/dbmodel.go. -/
def TableOutputAddressAccumulateOut : String := "output_addresses_accumulate_out"

/-- The constant TableOutputAddressAccumulateIn of db/dbmodel.go. -/
def TableOutputAddressAccumulateIn : String := "output_addresses_accumulate_in"

/-- The constant TableOutputTxsAccumulate of db/dbmodel.go. -/
def TableOutputTxsAccumulate : String := "output_txs_accumulate"

/-- The constant TableAccumulateBalancesReceived of db/dbmodel.go. -/
def TableAccumulateBalancesReceived : String := "accumulate_balances_received"

/-- The constant TableAccumulateBalancesSent of db/dbmodel.go. -/
def TableAccumulateBalancesSent : String := "accumulate_balances_sent"

/-- The constant TableAccumulateBalancesTransactions of db/dbmodel.go. -/
def TableAccumulateBalancesTransactions : String := "accumulate_balances_transactions"

/-- The constant TableKeyValueStore of db/dbmodel.go. -/
def TableKeyValueStore : String := "key_value_store"

/-- The constant TableCamLastBlockCache of db/dbmodel.go. -/
def TableCamLastBlockCache : String := "cam_last_block_cache"

/-- The constant TableMultisigAliases of db/dbmodel.go. -/
def TableMultisigAliases : String := "multisig_aliases"

/-- The constant TableReward of db/dbmodel.go. -/
def TableReward : String := "reward"

/-- The constant TableRewardOwner of db/dbmodel.go. -/
def TableRewardOwner : String := "reward_owner"

/-! ### The Insert functions of persist -/

/-- The columns and values of the INSERT of persist.InsertTransactions. -/
def InsertTransactions.pairs (v : Entity) : List (String × Val) :=
  [("id", v "ID"), ("chain_id", v "ChainID"), ("type", v "Type"), ("memo", v "Memo"),
   ("created_at", v "CreatedAt"),
   ("canonical_serialization", v "CanonicalSerialization"), ("txfee", v "Txfee"),
   ("genesis", v "Genesis"), ("network_id", v "NetworkID"), ("status", v "Status")]

/-- The assignments of the UPDATE of persist.InsertTransactions. -/
def InsertTransactions.sets (v : Entity) : List (String × Val) :=
  [("chain_id", v "ChainID"), ("type", v "Type"), ("memo", v "Memo"),
   ("canonical_serialization", v "CanonicalSerialization"), ("txfee", v "Txfee"),
   ("genesis", v "Genesis"), ("network_id", v "NetworkID"),
   ("created_at", v "CreatedAt"), ("Status", v "Status")]

/-- The WHERE clause of the UPDATE of persist.InsertTransactions. -/
def InsertTransactions.cond (v : Entity) : List (String × Val) :=
  [("id", v "ID")]

/-- persist.InsertTransactions of db/dbmodel.go (lines 503 to 545); the two faults are those
of the INSERT and of the UPDATE statement. -/
def InsertTransactions (sch : Schema) (faultIns faultUpd : Option Fault) (v : Entity) (upd : Bool)
    (rows : Table) : Table × Option GoError :=
  insertThenUpdate sch TableTransactions TableTransactions faultIns faultUpd
    (InsertTransactions.pairs v) upd (InsertTransactions.sets v) (InsertTransactions.cond v) rows

/-- The columns and values of the INSERT of persist.InsertOutputsRedeeming. -/
def InsertOutputsRedeeming.pairs (v : Entity) : List (String × Val) :=
  [("id", v "ID"), ("redeemed_at", v "RedeemedAt"),
   ("redeeming_transaction_id", v "RedeemingTransactionID"), ("amount", v "Amount"),
   ("output_index", v "OutputIndex"), ("intx", v "Intx"), ("asset_id", v "AssetID"),
   ("created_at", v "CreatedAt"), ("chain_id", v "ChainID")]

/-- The assignments of the UPDATE of persist.InsertOutputsRedeeming. -/
def InsertOutputsRedeeming.sets (v : Entity) : List (String × Val) :=
  [("redeeming_transaction_id", v "RedeemingTransactionID"), ("amount", v "Amount"),
   ("output_index", v "OutputIndex"), ("intx", v "Intx"), ("asset_id", v "AssetID"),
   ("chain_id", v "ChainID"), ("created_at", v "CreatedAt")]

/-- The WHERE clause of the UPDATE of persist.InsertOutputsRedeeming. -/
def InsertOutputsRedeeming.cond (v : Entity) : List (String × Val) :=
  [("id", v "ID")]

/-- persist.InsertOutputsRedeeming of db/dbmodel.go (lines 581 to 620); the two faults are those
of the INSERT and of the UPDATE statement. -/
def InsertOutputsRedeeming (sch : Schema) (faultIns faultUpd : Option Fault) (v : Entity) (upd : Bool)
    (rows : Table) : Table × Option GoError :=
  insertThenUpdate sch TableOutputsRedeeming TableOutputsRedeeming faultIns faultUpd
    (InsertOutputsRedeeming.pairs v) upd (InsertOutputsRedeeming.sets v) (InsertOutputsRedeeming.cond v) rows

/-- The columns and values of the INSERT of persist.InsertOutputs. -/
def InsertOutputs.pairs (v : Entity) : List (String × Val) :=
  [("id", v "ID"), ("chain_id", v "ChainID"), ("transaction_id", v "TransactionID"),
   ("output_index", v "OutputIndex"), ("asset_id", v "AssetID"),
   ("output_type", v "OutputType"), ("amount", v "Amount"), ("locktime", v "Locktime"),
   ("threshold", v "Threshold"), ("group_id", v "GroupID"), ("payload", v "Payload"),
   ("stake_locktime", v "StakeLocktime"), ("stake", v "Stake"), ("frozen", v "Frozen"),
   ("stakeableout", v "Stakeableout"), ("genesisutxo", v "Genesisutxo"),
   ("created_at", v "CreatedAt")]

/-- The assignments of the UPDATE of persist.InsertOutputs. -/
def InsertOutputs.sets (v : Entity) : List (String × Val) :=
  [("chain_id", v "ChainID"), ("transaction_id", v "TransactionID"),
   ("output_index", v "OutputIndex"), ("asset_id", v "AssetID"),
   ("output_type", v "OutputType"), ("amount", v "Amount"), ("locktime", v "Locktime"),
   ("threshold", v "Threshold"), ("group_id", v "GroupID"), ("payload", v "Payload"),
   ("stake_locktime", v "StakeLocktime"), ("stake", v "Stake"), ("frozen", v "Frozen"),
   ("stakeableout", v "Stakeableout"), ("genesisutxo", v "Genesisutxo"),
   ("created_at", v "CreatedAt")]

/-- The WHERE clause of the UPDATE of persist.InsertOutputs. -/
def InsertOutputs.cond (v : Entity) : List (String × Val) :=
  [("id", v "ID")]

/-- persist.InsertOutputs of db/dbmodel.go (lines 672 to 728); the two faults are those
of the INSERT and of the UPDATE statement. -/
def InsertOutputs (sch : Schema) (faultIns faultUpd : Option Fault) (v : Entity) (upd : Bool)
    (rows : Table) : Table × Option GoError :=
  insertThenUpdate sch TableOutputs TableOutputs faultIns faultUpd
    (InsertOutputs.pairs v) upd (InsertOutputs.sets v) (InsertOutputs.cond v) rows

/-- The columns and values of the INSERT of persist.InsertAssets. -/
def InsertAssets.pairs (v : Entity) : List (String × Val) :=
  [("id", v "ID"), ("chain_Id", v "ChainID"), ("name", v "Name"), ("symbol", v "Symbol"),
   ("denomination", v "Denomination"), ("alias", v "Alias"),
   ("current_supply", v "CurrentSupply"), ("created_at", v "CreatedAt")]

/-- The assignments of the UPDATE of persist.InsertAssets. -/
def InsertAssets.sets (v : Entity) : List (String × Val) :=
  [("chain_Id", v "ChainID"), ("name", v "Name"), ("symbol", v "Symbol"),
   ("denomination", v "Denomination"), ("alias", v "Alias"),
   ("current_supply", v "CurrentSupply"), ("created_at", v "CreatedAt")]

/-- The WHERE clause of the UPDATE of persist.InsertAssets. -/
def InsertAssets.cond (v : Entity) : List (String × Val) :=
  [("id", v "ID")]

/-- persist.InsertAssets of db/dbmodel.go (lines 762 to 800); the two faults are those
of the INSERT and of the UPDATE statement. -/
def InsertAssets (sch : Schema) (faultIns faultUpd : Option Fault) (v : Entity) (upd : Bool)
    (rows : Table) : Table × Option GoError :=
  insertThenUpdate sch TableAssets TableAssets faultIns faultUpd
    (InsertAssets.pairs v) upd (InsertAssets.sets v) (InsertAssets.cond v) rows

/-- The columns and values of the INSERT of persist.InsertAddresses. -/
def InsertAddresses.pairs (v : Entity) : List (String × Val) :=
  [("address", v "Address"), ("public_key", v "PublicKey"),
   ("created_at", v "CreatedAt"), ("updated_at", v "UpdatedAt")]

/-- The assignments of the UPDATE of persist.InsertAddresses. -/
def InsertAddresses.sets (v : Entity) : List (String × Val) :=
  [("public_key", v "PublicKey"), ("updated_at", v "UpdatedAt"),
   ("created_at", v "CreatedAt")]

/-- The WHERE clause of the UPDATE of persist.InsertAddresses. -/
def InsertAddresses.cond (v : Entity) : List (String × Val) :=
  [("address", v "Address")]

/-- persist.InsertAddresses of db/dbmodel.go (lines 826 to 857); the two faults are those
of the INSERT and of the UPDATE statement. -/
def InsertAddresses (sch : Schema) (faultIns faultUpd : Option Fault) (v : Entity) (upd : Bool)
    (rows : Table) : Table × Option GoError :=
  insertThenUpdate sch TableAddresses TableAddresses faultIns faultUpd
    (InsertAddresses.pairs v) upd (InsertAddresses.sets v) (InsertAddresses.cond v) rows

/-- The columns and values of the INSERT of persist.InsertAddressChain. -/
def InsertAddressChain.pairs (v : Entity) : List (String × Val) :=
  [("address", v "Address"), ("chain_id", v "ChainID"), ("created_at", v "CreatedAt"),
   ("updated_at", v "UpdatedAt")]

/-- The assignments of the UPDATE of persist.InsertAddressChain. -/
def InsertAddressChain.sets (v : Entity) : List (String × Val) :=
  [("updated_at", v "UpdatedAt"), ("created_at", v "CreatedAt")]

/-- The WHERE clause of the UPDATE of persist.InsertAddressChain. -/
def InsertAddressChain.cond (v : Entity) : List (String × Val) :=
  [("address", v "Address"), ("chain_id", v "ChainID")]

/-- persist.InsertAddressChain of db/dbmodel.go (lines 883 to 912); the two faults are those
of the INSERT and of the UPDATE statement. -/
def InsertAddressChain (sch : Schema) (faultIns faultUpd : Option Fault) (v : Entity) (upd : Bool)
    (rows : Table) : Table × Option GoError :=
  insertThenUpdate sch TableAddressChain TableAddressChain faultIns faultUpd
    (InsertAddressChain.pairs v) upd (InsertAddressChain.sets v) (InsertAddressChain.cond v) rows

/-- The columns and values of the INSERT of persist.InsertTransactionsEpoch. -/
def InsertTransactionsEpoch.pairs (v : Entity) : List (String × Val) :=
  [("id", v "ID"), ("epoch", v "Epoch"), ("vertex_id", v "VertexID"),
   ("created_at", v "CreatedAt")]

/-- The assignments of the UPDATE of persist.InsertTransactionsEpoch. -/
def InsertTransactionsEpoch.sets (v : Entity) : List (String × Val) :=
  [("epoch", v "Epoch"), ("vertex_id", v "VertexID"), ("created_at", v "CreatedAt")]

/-- The WHERE clause of the UPDATE of persist.InsertTransactionsEpoch. -/
def InsertTransactionsEpoch.cond (v : Entity) : List (String × Val) :=
  [("id", v "ID")]

/-- persist.InsertTransactionsEpoch of db/dbmodel.go (lines 1020 to 1051); the two faults are those
of the INSERT and of the UPDATE statement. -/
def InsertTransactionsEpoch (sch : Schema) (faultIns faultUpd : Option Fault) (v : Entity) (upd : Bool)
    (rows : Table) : Table × Option GoError :=
  insertThenUpdate sch TableTransactionsEpochs TableTransactionsEpochs faultIns faultUpd
    (InsertTransactionsEpoch.pairs v) upd (InsertTransactionsEpoch.sets v) (InsertTransactionsEpoch.cond v) rows

/-- The columns and values of the INSERT of persist.InsertCvmAddresses. -/
def InsertCvmAddresses.pairs (v : Entity) : List (String × Val) :=
  [("id", v "ID"), ("type", v "Type"), ("idx", v "Idx"),
   ("transaction_id", v "TransactionID"), ("address", v "Address"),
   ("asset_id", v "AssetID"), ("amount", v "Amount"), ("nonce", v "Nonce"),
   ("created_at", v "CreatedAt")]

/-- The assignments of the UPDATE of persist.InsertCvmAddresses. -/
def InsertCvmAddresses.sets (v : Entity) : List (String × Val) :=
  [("type", v "Type"), ("idx", v "Idx"), ("transaction_id", v "TransactionID"),
   ("address", v "Address"), ("asset_id", v "AssetID"), ("amount", v "Amount"),
   ("nonce", v "Nonce"), ("created_at", v "CreatedAt")]

/-- The WHERE clause of the UPDATE of persist.InsertCvmAddresses. -/
def InsertCvmAddresses.cond (v : Entity) : List (String × Val) :=
  [("id", v "ID")]

/-- persist.InsertCvmAddresses of db/dbmodel.go (lines 1204 to 1244); the two faults are those
of the INSERT and of the UPDATE statement. -/
def InsertCvmAddresses (sch : Schema) (faultIns faultUpd : Option Fault) (v : Entity) (upd : Bool)
    (rows : Table) : Table × Option GoError :=
  insertThenUpdate sch TableCvmAddresses TableCvmAddresses faultIns faultUpd
    (InsertCvmAddresses.pairs v) upd (InsertCvmAddresses.sets v) (InsertCvmAddresses.cond v) rows

/-- The columns and values of the INSERT of persist.InsertPvmBlocks. -/
def InsertPvmBlocks.pairs (v : Entity) : List (String × Val) :=
  [("id", v "ID"), ("chain_id", v "ChainID"), ("type", v "Type"),
   ("parent_id", v "ParentID"), ("created_at", v "CreatedAt"),
   ("serialization", v "Serialization"), ("height", v "Height"),
   ("proposer", v "Proposer"), ("proposer_time", v "ProposerTime")]

/-- The assignments of the UPDATE of persist.InsertPvmBlocks. -/
def InsertPvmBlocks.sets (v : Entity) : List (String × Val) :=
  [("chain_id", v "ChainID"), ("type", v "Type"), ("parent_id", v "ParentID"),
   ("serialization", v "Serialization"), ("height", v "Height"),
   ("created_at", v "CreatedAt"), ("proposer", v "Proposer"),
   ("proposer_time", v "ProposerTime")]

/-- The WHERE clause of the UPDATE of persist.InsertPvmBlocks. -/
def InsertPvmBlocks.cond (v : Entity) : List (String × Val) :=
  [("id", v "ID")]

/-- persist.InsertPvmBlocks of db/dbmodel.go (lines 1478 to 1519); the two faults are those
of the INSERT and of the UPDATE statement. -/
def InsertPvmBlocks (sch : Schema) (faultIns faultUpd : Option Fault) (v : Entity) (upd : Bool)
    (rows : Table) : Table × Option GoError :=
  insertThenUpdate sch TablePvmBlocks TablePvmBlocks faultIns faultUpd
    (InsertPvmBlocks.pairs v) upd (InsertPvmBlocks.sets v) (InsertPvmBlocks.cond v) rows

/-- The columns and values of the INSERT of persist.InsertTransactionsValidator. -/
def InsertTransactionsValidator.pairs (v : Entity) : List (String × Val) :=
  [("id", v "ID"), ("node_id", v "NodeID"), ("start", v "Start"), ("end", v "End"),
   ("created_at", v "CreatedAt")]

/-- The assignments of the UPDATE of persist.InsertTransactionsValidator. -/
def InsertTransactionsValidator.sets (v : Entity) : List (String × Val) :=
  [("node_id", v "NodeID"), ("start", v "Start"), ("end", v "End"),
   ("created_at", v "CreatedAt")]

/-- The WHERE clause of the UPDATE of persist.InsertTransactionsValidator. -/
def InsertTransactionsValidator.cond (v : Entity) : List (String × Val) :=
  [("id", v "ID")]

/-- persist.InsertTransactionsValidator of db/dbmodel.go (lines 1547 to 1579); the two faults are those
of the INSERT and of the UPDATE statement. -/
def InsertTransactionsValidator (sch : Schema) (faultIns faultUpd : Option Fault) (v : Entity) (upd : Bool)
    (rows : Table) : Table × Option GoError :=
  insertThenUpdate sch TableTransactionsValidator TableTransactionsValidator faultIns faultUpd
    (InsertTransactionsValidator.pairs v) upd (InsertTransactionsValidator.sets v) (InsertTransactionsValidator.cond v) rows

/-- The columns and values of the INSERT of persist.InsertTransactionsBlock. -/
def InsertTransactionsBlock.pairs (v : Entity) : List (String × Val) :=
  [("id", v "ID"), ("tx_block_id", v "TxBlockID"), ("created_at", v "CreatedAt")]

/-- The assignments of the UPDATE of persist.InsertTransactionsBlock. -/
def InsertTransactionsBlock.sets (v : Entity) : List (String × Val) :=
  [("tx_block_id", v "TxBlockID"), ("created_at", v "CreatedAt")]

/-- The WHERE clause of the UPDATE of persist.InsertTransactionsBlock. -/
def InsertTransactionsBlock.cond (v : Entity) : List (String × Val) :=
  [("id", v "ID")]

/-- persist.InsertTransactionsBlock of db/dbmodel.go (lines 1603 to 1631); the two faults are those
of the INSERT and of the UPDATE statement. -/
def InsertTransactionsBlock (sch : Schema) (faultIns faultUpd : Option Fault) (v : Entity) (upd : Bool)
    (rows : Table) : Table × Option GoError :=
  insertThenUpdate sch TableTransactionsBlock TableTransactionsBlock faultIns faultUpd
    (InsertTransactionsBlock.pairs v) upd (InsertTransactionsBlock.sets v) (InsertTransactionsBlock.cond v) rows

/-- The columns and values of the INSERT of persist.InsertAddressBech32. -/
def InsertAddressBech32.pairs (v : Entity) : List (String × Val) :=
  [("address", v "Address"), ("bech32_address", v "Bech32Address"),
   ("updated_at", v "UpdatedAt")]

/-- The assignments of the UPDATE of persist.InsertAddressBech32. -/
def InsertAddressBech32.sets (v : Entity) : List (String × Val) :=
  [("bech32_address", v "Bech32Address"), ("updated_at", v "UpdatedAt")]

/-- The WHERE clause of the UPDATE of persist.InsertAddressBech32. -/
def InsertAddressBech32.cond (v : Entity) : List (String × Val) :=
  [("address", v "Address")]

/-- persist.InsertAddressBech32 of db/dbmodel.go (lines 1655 to 1683); the two faults are those
of the INSERT and of the UPDATE statement. -/
def InsertAddressBech32 (sch : Schema) (faultIns faultUpd : Option Fault) (v : Entity) (upd : Bool)
    (rows : Table) : Table × Option GoError :=
  insertThenUpdate sch TableAddressBech32 TableAddressBech32 faultIns faultUpd
    (InsertAddressBech32.pairs v) upd (InsertAddressBech32.sets v) (InsertAddressBech32.cond v) rows

/-- The columns and values of the INSERT of persist.InsertOutputAddressAccumulateOut. -/
def InsertOutputAddressAccumulateOut.pairs (v : Entity) : List (String × Val) :=
  [("id", v "ID"), ("output_id", v "OutputID"), ("address", v "Address"),
   ("transaction_id", v "TransactionID"), ("output_index", v "OutputIndex"),
   ("created_at", v "CreatedAt")]

/-- The assignments of the UPDATE of persist.InsertOutputAddressAccumulateOut. -/
def InsertOutputAddressAccumulateOut.sets (v : Entity) : List (String × Val) :=
  [("output_id", v "OutputID"), ("address", v "Address"),
   ("transaction_id", v "TransactionID"), ("output_index", v "OutputIndex"),
   ("created_at", v "CreatedAt")]

/-- The WHERE clause of the UPDATE of persist.InsertOutputAddressAccumulateOut. -/
def InsertOutputAddressAccumulateOut.cond (v : Entity) : List (String × Val) :=
  [("id", v "ID")]

/-- persist.InsertOutputAddressAccumulateOut of db/dbmodel.go (lines 1722 to 1758); the two faults are those
of the INSERT and of the UPDATE statement.  The error of the UPDATE is
reported under TableAddressBech32, as in the source. -/
def InsertOutputAddressAccumulateOut (sch : Schema) (faultIns faultUpd : Option Fault) (v : Entity) (upd : Bool)
    (rows : Table) : Table × Option GoError :=
  insertThenUpdate sch TableOutputAddressAccumulateOut TableAddressBech32 faultIns faultUpd
    (InsertOutputAddressAccumulateOut.pairs v) upd (InsertOutputAddressAccumulateOut.sets v) (InsertOutputAddressAccumulateOut.cond v) rows

/-- The columns and values of the INSERT of persist.InsertOutputAddressAccumulateIn. -/
def InsertOutputAddressAccumulateIn.pairs (v : Entity) : List (String × Val) :=
  [("id", v "ID"), ("output_id", v "OutputID"), ("address", v "Address"),
   ("transaction_id", v "TransactionID"), ("output_index", v "OutputIndex"),
   ("created_at", v "CreatedAt")]

/-- The assignments of the UPDATE of persist.InsertOutputAddressAccumulateIn. -/
def InsertOutputAddressAccumulateIn.sets (v : Entity) : List (String × Val) :=
  [("output_id", v "OutputID"), ("address", v "Address"),
   ("transaction_id", v "TransactionID"), ("output_index", v "OutputIndex"),
   ("created_at", v "CreatedAt")]

/-- The WHERE clause of the UPDATE of persist.InsertOutputAddressAccumulateIn. -/
def InsertOutputAddressAccumulateIn.cond (v : Entity) : List (String × Val) :=
  [("id", v "ID")]

/-- persist.InsertOutputAddressAccumulateIn of db/dbmodel.go (lines 1780 to 1814); the two faults are those
of the INSERT and of the UPDATE statement.  The error of the UPDATE is
reported under TableAddressBech32, as in the source. -/
def InsertOutputAddressAccumulateIn (sch : Schema) (faultIns faultUpd : Option Fault) (v : Entity) (upd : Bool)
    (rows : Table) : Table × Option GoError :=
  insertThenUpdate sch TableOutputAddressAccumulateIn TableAddressBech32 faultIns faultUpd
    (InsertOutputAddressAccumulateIn.pairs v) upd (InsertOutputAddressAccumulateIn.sets v) (InsertOutputAddressAccumulateIn.cond v) rows

/-- The columns and values of the INSERT of persist.InsertOutputTxsAccumulate. -/
def InsertOutputTxsAccumulate.pairs (v : Entity) : List (String × Val) :=
  [("id", v "ID"), ("chain_id", v "ChainID"), ("asset_id", v "AssetID"),
   ("address", v "Address"), ("transaction_id", v "TransactionID"),
   ("created_at", v "CreatedAt")]

/-- persist.InsertOutputTxsAccumulate of db/dbmodel.go (lines 1870 to 1890). -/
def InsertOutputTxsAccumulate (sch : Schema) (fault : Option Fault) (v : Entity) (rows : Table) :
    Table × Option GoError :=
  insertIgnoreDuplicate sch TableOutputTxsAccumulate fault (InsertOutputTxsAccumulate.pairs v) rows

/-- The columns and values of the INSERT of persist.InsertAccumulateBalancesReceived. -/
def InsertAccumulateBalancesReceived.pairs (v : Entity) : List (String × Val) :=
  [("id", v "ID"), ("chain_id", v "ChainID"), ("asset_id", v "AssetID"),
   ("address", v "Address"), ("updated_at", v "UpdatedAt")]

/-- persist.InsertAccumulateBalancesReceived of db/dbmodel.go (lines 1928 to 1947). -/
def InsertAccumulateBalancesReceived (sch : Schema) (fault : Option Fault) (v : Entity) (rows : Table) :
    Table × Option GoError :=
  insertIgnoreDuplicate sch TableAccumulateBalancesReceived fault (InsertAccumulateBalancesReceived.pairs v) rows

/-- The columns and values of the INSERT of persist.InsertAccumulateBalancesSent. -/
def InsertAccumulateBalancesSent.pairs (v : Entity) : List (String × Val) :=
  [("id", v "ID"), ("chain_id", v "ChainID"), ("asset_id", v "AssetID"),
   ("address", v "Address"), ("updated_at", v "UpdatedAt")]

/-- persist.InsertAccumulateBalancesSent of db/dbmodel.go (lines 1969 to 1988). -/
def InsertAccumulateBalancesSent (sch : Schema) (fault : Option Fault) (v : Entity) (rows : Table) :
    Table × Option GoError :=
  insertIgnoreDuplicate sch TableAccumulateBalancesSent fault (InsertAccumulateBalancesSent.pairs v) rows

/-- The columns and values of the INSERT of persist.InsertAccumulateBalancesTransactions. -/
def InsertAccumulateBalancesTransactions.pairs (v : Entity) : List (String × Val) :=
  [("id", v "ID"), ("chain_id", v "ChainID"), ("asset_id", v "AssetID"),
   ("address", v "Address"), ("updated_at", v "UpdatedAt")]

/-- persist.InsertAccumulateBalancesTransactions of db/dbmodel.go (lines 2024 to 2043). -/
def InsertAccumulateBalancesTransactions (sch : Schema) (fault : Option Fault) (v : Entity) (rows : Table) :
    Table × Option GoError :=
  insertIgnoreDuplicate sch TableAccumulateBalancesTransactions fault (InsertAccumulateBalancesTransactions.pairs v) rows

/-- The columns and values of the INSERT of persist.InsertKeyValueStore. -/
def InsertKeyValueStore.pairs (v : Entity) : List (String × Val) :=
  [("k", v "K"), ("v", v "V")]

/-- persist.InsertKeyValueStore of db/dbmodel.go (lines 2141 to 2157). -/
def InsertKeyValueStore (sch : Schema) (fault : Option Fault) (v : Entity) (rows : Table) :
    Table × Option GoError :=
  insertIgnoreDuplicate sch TableKeyValueStore fault (InsertKeyValueStore.pairs v) rows

/-- The columns and values of the INSERT of persist.InsertMultisigAlias. -/
def InsertMultisigAlias.pairs (v : Entity) : List (String × Val) :=
  [("alias", v "Alias"), ("memo", v "Memo"), ("owner", v "Owner"),
   ("transaction_id", v "TransactionID"), ("created_at", v "CreatedAt")]

/-- persist.InsertMultisigAlias of db/dbmodel.go (lines 2254 to 2269). -/
def InsertMultisigAlias (sch : Schema) (fault : Option Fault) (v : Entity) (rows : Table) :
    Table × Option GoError :=
  insertIgnoreDuplicate sch TableMultisigAliases fault (InsertMultisigAlias.pairs v) rows

/-- The columns and values of the INSERT of persist.InsertRewardOwner. -/
def InsertRewardOwner.pairs (v : Entity) : List (String × Val) :=
  [("address", v "Address"), ("hash", v "Hash"), ("created_at", v "CreatedAt")]

/-- persist.InsertRewardOwner of db/dbmodel.go (lines 2322 to 2335). -/
def InsertRewardOwner (sch : Schema) (fault : Option Fault) (v : Entity) (rows : Table) :
    Table × Option GoError :=
  insertIgnoreDuplicate sch TableRewardOwner fault (InsertRewardOwner.pairs v) rows
/-- The columns and values of the INSERT of persist.InsertOutputAddresses: the
column redeeming_signature is named only when the field is not nil. -/
def InsertOutputAddresses.pairs (v : Entity) : List (String × Val) :=
  let stmt := [("output_id", v "OutputID"), ("address", v "Address"),
    ("created_at", v "CreatedAt"), ("updated_at", v "UpdatedAt")]
  if v "RedeemingSignature" ≠ .null then
    stmt ++ [("redeeming_signature", v "RedeemingSignature")]
  else stmt

/-- The assignments of the UPDATE of persist.InsertOutputAddresses: the column
redeeming_signature is assigned only when the field is not nil. -/
def InsertOutputAddresses.sets (v : Entity) : List (String × Val) :=
  let stmt := if v "RedeemingSignature" ≠ .null then
      [("redeeming_signature", v "RedeemingSignature")]
    else []
  stmt ++ [("updated_at", v "UpdatedAt"), ("created_at", v "CreatedAt")]

/-- The WHERE clause of the UPDATE of persist.InsertOutputAddresses. -/
def InsertOutputAddresses.cond (v : Entity) : List (String × Val) :=
  [("output_id", v "OutputID"), ("address", v "Address")]

/-- persist.InsertOutputAddresses of db/dbmodel.go (lines 940 to 976); the two
faults are those of the INSERT and of the UPDATE statement. -/
def InsertOutputAddresses (sch : Schema) (faultIns faultUpd : Option Fault) (v : Entity)
    (upd : Bool) (rows : Table) : Table × Option GoError :=
  insertThenUpdate sch TableOutputAddresses TableOutputAddresses faultIns faultUpd
    (InsertOutputAddresses.pairs v) upd (InsertOutputAddresses.sets v)
    (InsertOutputAddresses.cond v) rows

/-- The columns with bound values of the statement of persist.InsertCvmBlocks,
which is written out with InsertBySql; they follow the column block, whose
value is the text v.Block spliced into the statement. -/
def InsertCvmBlocks.pairs (v : Entity) : List (String × Val) :=
  [("hash", v "Hash"), ("chain_id", v "ChainID"), ("evm_tx", v "EvmTx"),
   ("atomic_tx", v "AtomicTx"), ("serialization", v "Serialization"),
   ("created_at", v "CreatedAt"), ("proposer", v "Proposer"),
   ("proposer_time", v "ProposerTime"), ("size", v "Size")]

/-- persist.InsertCvmBlocks of db/dbmodel.go (lines 1088 to 1102). -/
def InsertCvmBlocks (sch : Schema) (fault : Option Fault) (v : Entity) (rows : Table) :
    Table × Option GoError :=
  let (rows1, err) := tableInsertBySql sch TableCvmBlocks fault rows [] "block"
    (v "Block").goString (InsertCvmBlocks.pairs v)
  if err.isSome && !ErrIsDuplicateEntryError err then
    (rows1, err.map (EventErr TableCvmBlocks false))
  else (rows1, none)

/-- The column with a bound value of the INSERT of
persist.InsertCamLastBlockCache, which is written out with InsertBySql; it
follows the column current_block, whose value is the text v.CurrentBlock
spliced into the statement. -/
def InsertCamLastBlockCache.pairs (v : Entity) : List (String × Val) :=
  [("chainid", v "ChainID")]

/-- The assignments of the UPDATE of persist.InsertCamLastBlockCache. -/
def InsertCamLastBlockCache.sets (v : Entity) : List (String × Val) :=
  [("current_block", v "CurrentBlock")]

/-- The WHERE clause of the UPDATE of persist.InsertCamLastBlockCache. -/
def InsertCamLastBlockCache.cond (v : Entity) : List (String × Val) :=
  [("chainid", v "ChainID")]

/-- persist.InsertCamLastBlockCache of db/dbmodel.go (lines 1142 to 1168): with
upd set only the UPDATE is executed, whose values are bound, without it only
the INSERT, whose duplicate-key signal is not returned. -/
def InsertCamLastBlockCache (sch : Schema) (faultIns faultUpd : Option Fault) (v : Entity)
    (upd : Bool) (rows : Table) : Table × Option GoError :=
  if upd then
    let (rows1, err) := tableUpdate faultUpd rows (InsertCamLastBlockCache.sets v)
      (InsertCamLastBlockCache.cond v)
    match err with
    | some e => (rows1, some (EventErr TableCamLastBlockCache true e))
    | none => (rows1, none)
  else
    let (rows1, err) := tableInsertBySql sch TableCamLastBlockCache faultIns rows []
      "current_block" (v "CurrentBlock").goString (InsertCamLastBlockCache.pairs v)
    if err.isSome && !ErrIsDuplicateEntryError err then
      (rows1, err.map (EventErr TableCamLastBlockCache false))
    else (rows1, none)

/-- The column of the INSERT of persist.InsertCvmTransactionsAtomic in front of
the column block; the statement is written out with InsertBySql and the value
of block is the text v.Block spliced into it. -/
def InsertCvmTransactionsAtomic.before (v : Entity) : List (String × Val) :=
  [("transaction_id", v "TransactionID")]

/-- The columns with bound values of the INSERT of
persist.InsertCvmTransactionsAtomic behind the column block. -/
def InsertCvmTransactionsAtomic.pairs (v : Entity) : List (String × Val) :=
  [("chain_id", v "ChainID"), ("type", v "Type"), ("created_at", v "CreatedAt")]

/-- The assignments with bound values of the UPDATE of
persist.InsertCvmTransactionsAtomic, which is written out with UpdateBySql;
they follow the assignment block = v.Block, whose right side is spliced into
the statement. -/
def InsertCvmTransactionsAtomic.sets (v : Entity) : List (String × Val) :=
  [("chain_id", v "ChainID"), ("type", v "Type"), ("created_at", v "CreatedAt")]

/-- The WHERE clause of the UPDATE of persist.InsertCvmTransactionsAtomic. -/
def InsertCvmTransactionsAtomic.cond (v : Entity) : List (String × Val) :=
  [("transaction_id", v "TransactionID")]

/-- persist.InsertCvmTransactionsAtomic of db/dbmodel.go (lines 1272 to 1296);
the two faults are those of the INSERT and of the UPDATE statement. -/
def InsertCvmTransactionsAtomic (sch : Schema) (faultIns faultUpd : Option Fault) (v : Entity)
    (upd : Bool) (rows : Table) : Table × Option GoError :=
  let (rows1, err) := tableInsertBySql sch TableCvmTransactionsAtomic faultIns rows
    (InsertCvmTransactionsAtomic.before v) "block" (v "Block").goString
    (InsertCvmTransactionsAtomic.pairs v)
  if err.isSome && !ErrIsDuplicateEntryError err then
    (rows1, err.map (EventErr TableCvmTransactionsAtomic false))
  else if upd then
    let (rows2, err2) := tableUpdateBySql sch TableCvmTransactionsAtomic faultUpd rows1 "block"
      (v "Block").goString (InsertCvmTransactionsAtomic.sets v)
      (InsertCvmTransactionsAtomic.cond v)
    match err2 with
    | some e => (rows2, some (EventErr TableCvmTransactionsAtomic true e))
    | none => (rows2, none)
  else (rows1, none)

/-- The columns and values of the INSERT of persist.InsertCvmTransactionsTxdata;
the two account ids are subqueries on the account table. -/
def InsertCvmTransactionsTxdata.pairs (accounts : Table) (v : Entity) : List (String × Val) :=
  [("hash", v "Hash"), ("block", v "Block"), ("idx", v "Idx"),
   ("id_from_addr", selectAccountID accounts (v "FromAddr")),
   ("id_to_addr", selectAccountID accounts (v "ToAddr")),
   ("nonce", v "Nonce"), ("amount", v "Amount"), ("status", v "Status"),
   ("gas_used", v "GasUsed"), ("gas_price", v "GasPrice"),
   ("serialization", v "Serialization"), ("receipt", v "Receipt"),
   ("created_at", v "CreatedAt")]

/-- The assignments of the UPDATE of persist.InsertCvmTransactionsTxdata. -/
def InsertCvmTransactionsTxdata.sets (accounts : Table) (v : Entity) : List (String × Val) :=
  [("block", v "Block"), ("idx", v "Idx"),
   ("id_from_addr", selectAccountID accounts (v "FromAddr")),
   ("id_to_addr", selectAccountID accounts (v "ToAddr")),
   ("nonce", v "Nonce"), ("amount", v "Amount"), ("status", v "Status"),
   ("gas_used", v "GasUsed"), ("gas_price", v "GasPrice"),
   ("serialization", v "Serialization"), ("receipt", v "Receipt"),
   ("created_at", v "CreatedAt")]

/-- The WHERE clause of the UPDATE of persist.InsertCvmTransactionsTxdata. -/
def InsertCvmTransactionsTxdata.cond (v : Entity) : List (String × Val) :=
  [("hash", v "Hash")]

/-- persist.InsertCvmTransactionsTxdata of db/dbmodel.go (lines 1342 to 1390),
on its own table; accounts is the account table that its subqueries read. -/
def InsertCvmTransactionsTxdata (sch : Schema) (accounts : Table)
    (faultIns faultUpd : Option Fault) (v : Entity) (upd : Bool) (rows : Table) :
    Table × Option GoError :=
  insertThenUpdate sch TableCvmTransactionsTxdata TableCvmTransactionsTxdata faultIns faultUpd
    (InsertCvmTransactionsTxdata.pairs accounts v) upd
    (InsertCvmTransactionsTxdata.sets accounts v) (InsertCvmTransactionsTxdata.cond v) rows

/-- The columns and values of the INSERT of persist.InsertCvmAccount. -/
def InsertCvmAccount.pairs (v : Entity) : List (String × Val) :=
  [("address", v "Address"), ("tx_count", v "TxCount"), ("creation_tx", v "CreationTx")]

/-- The WHERE clause of the UPDATE of persist.InsertCvmAccount. -/
def InsertCvmAccount.cond (v : Entity) : List (String × Val) :=
  [("address", v "Address")]

/-- persist.InsertCvmAccount of db/dbmodel.go (lines 1415 to 1442): an INSERT
that succeeds ends the call; its error is returned through EventErr when upd
is not set or the error is not the duplicate-key signal; otherwise tx_count of
the row of the address is increased by v.TxCount. -/
def InsertCvmAccount (sch : Schema) (faultIns faultUpd : Option Fault) (v : Entity)
    (upd : Bool) (rows : Table) : Table × Option GoError :=
  let (rows1, err) := tableInsert sch TableCvmAccounts faultIns rows (InsertCvmAccount.pairs v)
  match err with
  | none => (rows1, none)
  | some e =>
    if !upd || !ErrIsDuplicateEntryError (some e) then
      (rows1, some (EventErr TableCvmAccounts false e))
    else
      let (rows2, err2) := tableIncrBy faultUpd rows1 "tx_count" (v "TxCount")
        (InsertCvmAccount.cond v)
      match err2 with
      | some e2 => (rows2, some (EventErr TableCvmAccounts true e2))
      | none => (rows2, none)

/-- The columns and values of the INSERT of persist.InsertReward; updated_at
takes reward.CreatedAt. -/
def InsertReward.pairs (v : Entity) : List (String × Val) :=
  [("reward_owner_bytes", v "RewardOwnerBytes"), ("reward_owner_hash", v "RewardOwnerHash"),
   ("tx_id", v "TxID"), ("type", v "Type"), ("updated_at", v "CreatedAt")]

/-- The assignment of the ON DUPLICATE KEY UPDATE part of persist.InsertReward. -/
def InsertReward.sets (v : Entity) : List (String × Val) :=
  [("updated_at", v "CreatedAt")]

/-- persist.InsertReward of db/dbmodel.go (lines 2352 to 2367): one statement,
INSERT with ON DUPLICATE KEY UPDATE; every error is returned through EventErr. -/
def InsertReward (sch : Schema) (fault : Option Fault) (v : Entity) (rows : Table) :
    Table × Option GoError :=
  let (rows1, err) := tableUpsert sch TableReward fault rows (InsertReward.pairs v)
    (InsertReward.sets v)
  match err with
  | some e => (rows1, some (EventErr TableReward false e))
  | none => (rows1, none)


/-! ### Queries of persist -/

/-- The struct that LoadOneContext fills from a row: every field of the list
takes the value of its column; a field that is not listed keeps its zero
value, shown as null. -/
def loadStruct (fields : List (String × String)) (r : Row) : Entity :=
  fun f =>
    match fields.find? (fun p => p.1 == f) with
    | some p => r (column p.2)
    | none => .null

/-- The fields of the struct OutputsRedeeming and the columns that
QueryOutputsRedeeming selects for them. -/
def OutputsRedeeming.fields : List (String × String) :=
  [("ID", "id"), ("RedeemedAt", "redeemed_at"),
   ("RedeemingTransactionID", "redeeming_transaction_id"), ("Amount", "amount"),
   ("OutputIndex", "output_index"), ("Intx", "intx"), ("AssetID", "asset_id"),
   ("ChainID", "chain_id"), ("CreatedAt", "created_at")]

/-- persist.QueryOutputsRedeeming of db/dbmodel.go (lines 559 to 579). -/
def QueryOutputsRedeeming (fault : Option Fault) (q : Entity) (rows : Table) :
    Except GoError Entity :=
  match sqlLoadOne (whereCols [("id", q "ID")]) fault rows with
  | .ok r => .ok (loadStruct OutputsRedeeming.fields r)
  | .error e => .error e

/-! ## Asset totals (services/indexes/avax/reader_util.go) -/

/-- Modelled from the spec: the struct models.AssetInfo, whose declaration is
not among the sources, with the fields that addAssetInfoMap reads and writes;
the two counts are taken as uint64 and the three amounts are strings of
decimal digits (models.TokenAmount). -/
structure AssetInfo where
  TransactionCount : Nat
  UTXOCount : Nat
  Balance : String
  TotalReceived : String
  TotalSent : String
  deriving DecidableEq, Repr

/-- A Go map from models.StringID to models.AssetInfo that is not nil: its
entries, one for every key; the loop over the map visits them in the order of
the list.  A map that may be nil is an Option AssetMap, with none for nil. -/
abbrev AssetMap := List (String × AssetInfo)

/-- The map index expression assets[k] with the comma-ok form. -/
def AssetMap.lookup (m : AssetMap) (k : String) : Option AssetInfo :=
  (m.find? (fun p => p.1 == k)).map Prod.snd

/-- The assignment assets[k] = v. -/
def AssetMap.set (m : AssetMap) (k : String) (v : AssetInfo) : AssetMap :=
  if m.any (fun p => p.1 == k) then m.map (fun p => if p.1 == k then (k, v) else p)
  else m ++ [(k, v)]

/-- The number that tbi.SetString(s, 10) leaves in the new big.Int tbi; the
result of the call, which tells whether the whole text was a number, is not
looked at.  The library reads an optional sign and then decimal digits up to
the first byte that is not one, and the digits read are the number, also when
more text follows; without a digit the number is zero. -/
def parseBigInt (s : String) : Int :=
  let digits (cs : List Char) : Nat :=
    (cs.takeWhile Char.isDigit).foldl (fun a c => 10 * a + (c.toNat - 48)) 0
  match s.data with
  | '-' :: cs => - (digits cs : Int)
  | '+' :: cs => (digits cs : Int)
  | cs => (digits cs : Int)

/-- The text of big.Int.String. -/
def bigIntString (i : Int) : String :=
  if i < 0 then "-" ++ decimal i.natAbs else decimal i.toNat

/-- The closure addStringsFunc of addAssetInfoMap. -/
def addStringsFunc (t f : String) : String :=
  bigIntString (parseBigInt t + parseBigInt f)

/-- The closure addAssetInfos of addAssetInfoMap; the sums of the counts are
uint64 sums. -/
def addAssetInfos (t f : AssetInfo) : AssetInfo :=
  let t1 := { t with TransactionCount := (t.TransactionCount + f.TransactionCount) % 2 ^ 64 }
  let t2 := { t1 with UTXOCount := (t1.UTXOCount + t1.UTXOCount) % 2 ^ 64 }
  let t3 := { t2 with Balance := addStringsFunc t2.Balance f.Balance }
  let t4 := { t3 with TotalReceived := addStringsFunc t3.TotalReceived f.TotalReceived }
  { t4 with TotalSent := addStringsFunc t4.TotalSent f.TotalSent }

/-- The function addAssetInfoMap of services/indexes/avax/reader_util.go.  The
loop over a nil assets2 has no round; reading a key of a nil assets finds
nothing, and the assignment assets[k] = v into a nil assets stops the program
with the run-time error of the language, which is the error of the result. -/
def addAssetInfoMap (assets assets2 : Option AssetMap) : Except String (Option AssetMap) :=
  (assets2.getD []).foldl (fun acc kv =>
    match acc with
    | .error e => .error e
    | .ok none => .error "assignment to entry in nil map"
    | .ok (some assets) =>
      match assets.lookup kv.1 with
      | some assetInfo => .ok (some (assets.set kv.1 (addAssetInfos assetInfo kv.2)))
      | none => .ok (some (assets.set kv.1 kv.2))) (.ok assets)

/-! ## The decoders (services/indexes/avm/writer.go, services/indexes/pvm/writer.go) -/

/-- Modelled from the spec: the constants BlockTypeProposal, BlockTypeAbort,
BlockTypeCommit and BlockTypeStandard of models, whose declaration is not
among the sources, as four distinct values. -/
inductive BlockType where
  | BlockTypeProposal : BlockType
  | BlockTypeAbort : BlockType
  | BlockTypeCommit : BlockType
  | BlockTypeStandard : BlockType
  deriving DecidableEq, Repr

/-- A constant of models.TransactionType, whose declaration is not among the
sources, under its identifier. -/
abbrev TransactionType := String

/-- RewardType of db/dbmodel.go, an int. -/
abbrev RewardType := Nat

/-- The constant Deposit of db/dbmodel.go. -/
def Deposit : RewardType := 0

/-- The constant Validator of db/dbmodel.go. -/
def Validator : RewardType := 1

/-- Modelled from the spec: models.BlockProposal, whose declaration is not
among the sources, with the two fields that the decoder reads and writes. -/
structure BlockProposal where
  Proposer : String
  TimeStamp : Option Time
  deriving DecidableEq, Repr

/-- The struct blocks.CommonBlock of the ledger library: Parent() returns
PrntID and Height() returns Hght. -/
structure CommonBlock where
  PrntID : ByteSlice
  Hght : Nat
  deriving DecidableEq, Repr

/-- PvmBlocks of db/dbmodel.go; the field Type is named Typ here. -/
structure PvmBlocks where
  ID : String
  ChainID : String
  Typ : BlockType
  ParentID : String
  Serialization : ByteSlice
  CreatedAt : Time
  Height : Nat
  Proposer : String
  ProposerTime : Option Time
  deriving DecidableEq, Repr

/-- The variable MaxSerializationLen of pvm/writer.go. -/
def MaxSerializationLen : Nat := 16 * 1024 * 1024 - 1

/-- Modelled from the spec: services.ConsumerCtx, whose declaration is not
among the sources; Time() returns the time given at construction or last set
by SetTime. -/
structure ConsumerCtx where
  time : Time
  deriving DecidableEq, Repr

/-- ConsumerCtx.Time. -/
def ConsumerCtx.Time (ctx : ConsumerCtx) : Ortelius.Time := ctx.time

/-- ConsumerCtx.SetTime. -/
def ConsumerCtx.SetTime (_ctx : ConsumerCtx) (t : Ortelius.Time) : ConsumerCtx := { time := t }

/-- The calls that the decoders make into the persistence interface and into
the methods that write for one transaction.  The arguments shown are the
context time, the ids and what the calling switch decides. -/
inductive WriterCall where
  | InsertPvmBlocks (v : PvmBlocks) (upd : Bool) : WriterCall
  | InsertTransactionValidator (ctxTime : Time) (txID : ByteSlice) : WriterCall
  | insertReward (ctxTime : Time) (txID : ByteSlice) (rewardType : RewardType) : WriterCall
  | InsertMultisigAlias (ctxTime : Time) (txID : ByteSlice) : WriterCall
  | InsertTransactionBlock (ctxTime : Time) (txID blkID : ByteSlice) : WriterCall
  | InsertTransaction (ctxTime : Time) (txID : ByteSlice) (typ : TransactionType)
      (ins outs genesis : Bool) : WriterCall
  | insertCreateAssetTx (ctxTime : Time) (txID : ByteSlice) (aliasName : String)
      (genesis : Bool) : WriterCall
  | insertOperationTx (ctxTime : Time) (txID : ByteSlice) (genesis : Bool) : WriterCall
  deriving DecidableEq, Repr

/-- What the environment answers to a call of a decoder, given the calls made
before it: nil or an error. -/
structure DecoderEnv where
  answer : List WriterCall → WriterCall → Option GoError

/-- One call: it is recorded after the calls made so far and answered by the
environment. -/
def DecoderEnv.call (env : DecoderEnv) (c : WriterCall) (calls : List WriterCall) :
    List WriterCall × Option GoError :=
  (calls ++ [c], env.answer calls c)

/-- The method Add of wrappers.Errs of the ledger library: the first error
added is kept. -/
def errsAdd (errs err : Option GoError) : Option GoError :=
  match errs with
  | some e => some e
  | none => err

/-- The conversion int64(tm) of a uint64. -/
def int64 (tm : Nat) : Int :=
  if tm % 2 ^ 64 < 2 ^ 63 then (tm % 2 ^ 64 : Nat) else ((tm % 2 ^ 64 : Nat) : Int) - 2 ^ 64

/-! ### The X-chain decoder -/

/-- The unsigned transactions of the X chain: the types that the switch of
insertTxInternal lists, and every other type under the name of its Go type. -/
inductive avm.Unsigned where
  | CreateAssetTx : avm.Unsigned
  | OperationTx : avm.Unsigned
  | ImportTx : avm.Unsigned
  | ExportTx : avm.Unsigned
  | BaseTx : avm.Unsigned
  | other (goType : String) : avm.Unsigned
  deriving DecidableEq, Repr

/-- A transaction of the X chain: its id and its unsigned part. -/
structure avm.Tx where
  ID : ByteSlice
  Unsigned : avm.Unsigned
  deriving DecidableEq, Repr

/-- Writer.insertTxInternal of avm/writer.go.  The methods that the listed
cases call (insertCreateAssetTx, insertOperationTx, and InsertTransaction of
the avax writer) are recorded as calls. -/
def avm.insertTxInternal (env : DecoderEnv) (ctx : ConsumerCtx) (tx : avm.Tx)
    (calls : List WriterCall) : List WriterCall × Option GoError :=
  let txID := tx.ID
  match tx.Unsigned with
  | .CreateAssetTx => env.call (.insertCreateAssetTx ctx.Time txID "" false) calls
  | .OperationTx => env.call (.insertOperationTx ctx.Time txID false) calls
  | .ImportTx =>
    env.call (.InsertTransaction ctx.Time txID "TransactionTypeAVMImport" true false false) calls
  | .ExportTx =>
    env.call (.InsertTransaction ctx.Time txID "TransactionTypeAVMExport" false true false) calls
  | .BaseTx =>
    env.call (.InsertTransaction ctx.Time txID "TransactionTypeBase" false false false) calls
  | .other goType => (calls, some (.errorString ("unknown tx type " ++ goType)))

/-! ### The P-chain decoder -/

/-- The unsigned transactions of the P chain: the types that the switch of
indexTransaction lists, with what its cases test (whether the subnet is the
primary network, whether the rewards owner is set), and every other type under
the name of its Go type. -/
inductive pvm.Unsigned where
  | AddValidatorTx : pvm.Unsigned
  | AddSubnetValidatorTx : pvm.Unsigned
  | CreateSubnetTx : pvm.Unsigned
  | CreateChainTx : pvm.Unsigned
  | ImportTx : pvm.Unsigned
  | ExportTx : pvm.Unsigned
  | AdvanceTimeTx : pvm.Unsigned
  | RemoveSubnetValidatorTx : pvm.Unsigned
  | TransformSubnetTx : pvm.Unsigned
  | AddPermissionlessValidatorTx (primaryNetwork : Bool) : pvm.Unsigned
  | AddPermissionlessDelegatorTx (primaryNetwork : Bool) : pvm.Unsigned
  | CaminoAddValidatorTx (rewardsOwner : Bool) : pvm.Unsigned
  | DepositTx (rewardsOwner : Bool) : pvm.Unsigned
  | UnlockDepositTx : pvm.Unsigned
  | AddressStateTx : pvm.Unsigned
  | RegisterNodeTx : pvm.Unsigned
  | BaseTx : pvm.Unsigned
  | MultisigAliasTx : pvm.Unsigned
  | ClaimTx : pvm.Unsigned
  | RewardsImportTx : pvm.Unsigned
  | CaminoRewardValidatorTx : pvm.Unsigned
  | AddDepositOfferTx : pvm.Unsigned
  | other (goType : String) : pvm.Unsigned
  deriving DecidableEq, Repr

/-- A transaction of the P chain: its id and its unsigned part. -/
structure pvm.Tx where
  ID : ByteSlice
  Unsigned : pvm.Unsigned
  deriving DecidableEq, Repr

/-- The fields of the P-chain Writer that the decoder reads. -/
structure pvm.Writer where
  chainID : String
  deriving DecidableEq, Repr

/-- The end of Writer.indexTransaction, after the switch: InsertTransactionBlock
and then InsertTransaction of the avax writer, with the type and the
containers that the case has set. -/
def pvm.Writer.indexTransactionEnd (_w : pvm.Writer) (env : DecoderEnv) (ctx : ConsumerCtx)
    (blkID txID : ByteSlice) (typ : TransactionType) (ins outs genesis : Bool)
    (calls : List WriterCall) : List WriterCall × Option GoError :=
  match env.call (.InsertTransactionBlock ctx.Time txID blkID) calls with
  | (calls1, some err) => (calls1, some err)
  | (calls1, none) => env.call (.InsertTransaction ctx.Time txID typ ins outs genesis) calls1

/-- Writer.indexTransaction of pvm/writer.go.  The methods that the listed
cases call (InsertTransactionValidator, insertReward, InsertMultisigAlias,
InsertTransactionBlock, and InsertTransaction of the avax writer) are recorded
as calls. -/
def pvm.Writer.indexTransaction (w : pvm.Writer) (env : DecoderEnv) (ctx : ConsumerCtx)
    (blkID : ByteSlice) (tx : pvm.Tx) (genesis : Bool) (calls : List WriterCall) :
    List WriterCall × Option GoError :=
  let txID := tx.ID
  match tx.Unsigned with
  | .AddValidatorTx =>
    match env.call (.InsertTransactionValidator ctx.Time txID) calls with
    | (calls1, some err) => (calls1, some err)
    | (calls1, none) =>
      w.indexTransactionEnd env ctx blkID txID "TransactionTypeAddValidator" false true genesis
        calls1
  | .AddSubnetValidatorTx =>
    w.indexTransactionEnd env ctx blkID txID "TransactionTypeAddSubnetValidator" false false
      genesis calls
  | .CreateSubnetTx =>
    w.indexTransactionEnd env ctx blkID txID "TransactionTypeCreateSubnet" false false genesis
      calls
  | .CreateChainTx =>
    w.indexTransactionEnd env ctx blkID txID "TransactionTypeCreateChain" false false genesis
      calls
  | .ImportTx =>
    w.indexTransactionEnd env ctx blkID txID "TransactionTypePVMImport" true false genesis calls
  | .ExportTx =>
    w.indexTransactionEnd env ctx blkID txID "TransactionTypePVMExport" false true genesis calls
  | .AdvanceTimeTx => (calls, none)
  | .RemoveSubnetValidatorTx =>
    w.indexTransactionEnd env ctx blkID txID "TransactionTypeRemoveSubnetValidator" false false
      genesis calls
  | .TransformSubnetTx =>
    w.indexTransactionEnd env ctx blkID txID "TransactionTypeTransformSubnet" false false genesis
      calls
  | .AddPermissionlessValidatorTx primaryNetwork =>
    if !primaryNetwork then
      w.indexTransactionEnd env ctx blkID txID "TransactionTypeAddPermissionlessValidator" false
        false genesis calls
    else
      match env.call (.InsertTransactionValidator ctx.Time txID) calls with
      | (calls1, some err) => (calls1, some err)
      | (calls1, none) =>
        w.indexTransactionEnd env ctx blkID txID "TransactionTypeAddPermissionlessValidator"
          false true genesis calls1
  | .AddPermissionlessDelegatorTx primaryNetwork =>
    if !primaryNetwork then
      w.indexTransactionEnd env ctx blkID txID "TransactionTypeAddPermissionlessDelegator" false
        false genesis calls
    else
      match env.call (.InsertTransactionValidator ctx.Time txID) calls with
      | (calls1, some err) => (calls1, some err)
      | (calls1, none) =>
        w.indexTransactionEnd env ctx blkID txID "TransactionTypeAddPermissionlessDelegator"
          false true genesis calls1
  | .CaminoAddValidatorTx rewardsOwner =>
    match env.call (.InsertTransactionValidator ctx.Time txID) calls with
    | (calls1, some err) => (calls1, some err)
    | (calls1, none) =>
      if rewardsOwner then
        match env.call (.insertReward ctx.Time txID Validator) calls1 with
        | (calls2, some err) => (calls2, some err)
        | (calls2, none) =>
          w.indexTransactionEnd env ctx blkID txID "TransactionTypeAddValidator" false false
            genesis calls2
      else
        w.indexTransactionEnd env ctx blkID txID "TransactionTypeAddValidator" false false
          genesis calls1
  | .DepositTx rewardsOwner =>
    if rewardsOwner then
      match env.call (.insertReward ctx.Time txID Deposit) calls with
      | (calls1, some err) => (calls1, some err)
      | (calls1, none) =>
        w.indexTransactionEnd env ctx blkID txID "TransactionTypeDeposit" false false genesis
          calls1
    else
      w.indexTransactionEnd env ctx blkID txID "TransactionTypeDeposit" false false genesis calls
  | .UnlockDepositTx =>
    w.indexTransactionEnd env ctx blkID txID "TransactionTypeUnlockDeposit" false false genesis
      calls
  | .AddressStateTx =>
    w.indexTransactionEnd env ctx blkID txID "TransactionTypeAddAddressState" false false genesis
      calls
  | .RegisterNodeTx =>
    w.indexTransactionEnd env ctx blkID txID "TransactionTypeRegisterNodeTx" false false genesis
      calls
  | .BaseTx =>
    w.indexTransactionEnd env ctx blkID txID "TransactionTypePvmBase" false false genesis calls
  | .MultisigAliasTx =>
    match env.call (.InsertMultisigAlias ctx.Time txID) calls with
    | (calls1, some err) => (calls1, some err)
    | (calls1, none) =>
      w.indexTransactionEnd env ctx blkID txID "TransactionTypeMultisigAlias" false false genesis
        calls1
  | .ClaimTx =>
    w.indexTransactionEnd env ctx blkID txID "TransactionTypeClaimReward" false false genesis
      calls
  | .RewardsImportTx =>
    w.indexTransactionEnd env ctx blkID txID "TransactionTypeRewardsImport" false false genesis
      calls
  | .CaminoRewardValidatorTx =>
    w.indexTransactionEnd env ctx blkID txID "TransactionTypeCaminoRewardValidator" false false
      genesis calls
  | .AddDepositOfferTx =>
    w.indexTransactionEnd env ctx blkID txID "TransactionTypeAddDepositOffer" false false genesis
      calls
  | .other goType => (calls, some (.errorString ("unknown tx type " ++ goType)))

/-- Writer.indexCommonBlock of pvm/writer.go; performUpdates is the value of
cfg.PerformUpdates. -/
def pvm.Writer.indexCommonBlock (w : pvm.Writer) (env : DecoderEnv) (h : Hashing)
    (performUpdates : Bool) (ctx : ConsumerCtx) (blkID : ByteSlice) (blkType : BlockType)
    (blk : CommonBlock) (proposer : BlockProposal) (blockBytes : ByteSlice)
    (calls : List WriterCall) : List WriterCall × Option GoError :=
  let blockBytes := if blockBytes.length > MaxSerializationLen then [] else blockBytes
  let pvmBlocks : PvmBlocks :=
    { ID := h.IDString blkID
      ChainID := w.chainID
      Typ := blkType
      ParentID := h.IDString blk.PrntID
      Serialization := blockBytes
      CreatedAt := ctx.Time
      Height := blk.Hght
      Proposer := proposer.Proposer
      ProposerTime := proposer.TimeStamp }
  env.call (.InsertPvmBlocks pvmBlocks performUpdates) calls

/-- The blocks of the P chain: the types that the switch of indexBlock lists,
the Banff ones with their field Time, and every other type under the name of
its Go type. -/
inductive pvm.BlockKind where
  | ApricotProposalBlock : pvm.BlockKind
  | ApricotStandardBlock : pvm.BlockKind
  | ApricotAtomicBlock : pvm.BlockKind
  | ApricotAbortBlock : pvm.BlockKind
  | ApricotCommitBlock : pvm.BlockKind
  | BanffProposalBlock (Time : Nat) : pvm.BlockKind
  | BanffStandardBlock (Time : Nat) : pvm.BlockKind
  | BanffAbortBlock (Time : Nat) : pvm.BlockKind
  | BanffCommitBlock (Time : Nat) : pvm.BlockKind
  | other (goType : String) : pvm.BlockKind
  deriving DecidableEq, Repr

/-- A parsed block of the P chain: the results of ID() and Txs(), its type and
its embedded CommonBlock. -/
structure pvm.Block where
  ID : ByteSlice
  kind : pvm.BlockKind
  CommonBlock : CommonBlock
  Txs : List pvm.Tx
  deriving DecidableEq, Repr

/-- A parsed block of the proposer chain: the result of Block(), the inner
bytes, and its header, which stands for everything else in it. -/
structure pvm.ProposerBlock where
  Block : ByteSlice
  header : ByteSlice
  deriving DecidableEq, Repr

/-- The functions outside the sources that indexBlock calls: block.Parse of
the proposer chain, blocks.Parse with the genesis codec, and
models.NewBlockProposal, which builds the proposal from the proposer block,
if any, and the context time. -/
structure pvm.Library where
  proposerParse : ByteSlice → Except GoError pvm.ProposerBlock
  blocksParse : ByteSlice → Except GoError pvm.Block
  NewBlockProposal : Option pvm.ProposerBlock → Time → BlockProposal

/-- The loop of indexBlock over the transactions of the block: every
transaction is indexed and the first error is kept. -/
def pvm.Writer.indexTransactions (w : pvm.Writer) (env : DecoderEnv) (ctx : ConsumerCtx)
    (blkID : ByteSlice) : List pvm.Tx → List WriterCall × Option GoError →
      List WriterCall × Option GoError
  | [], acc => acc
  | tx :: txs, acc =>
    pvm.Writer.indexTransactions w env ctx blkID txs
      ((w.indexTransaction env ctx blkID tx false acc.1).1,
        errsAdd acc.2 (w.indexTransaction env ctx blkID tx false acc.1).2)

/-- Writer.indexBlock of pvm/writer.go; the context is returned with the time
that the call has set. -/
def pvm.Writer.indexBlock (w : pvm.Writer) (lib : pvm.Library) (env : DecoderEnv) (h : Hashing)
    (performUpdates : Bool) (ctx : ConsumerCtx) (blockBytes : ByteSlice)
    (calls : List WriterCall) : ConsumerCtx × List WriterCall × Option GoError :=
  let proposerBlock : Option pvm.ProposerBlock :=
    match lib.proposerParse blockBytes with
    | .error _ => none
    | .ok b => some b
  let innerBlockBytes : ByteSlice :=
    match lib.proposerParse blockBytes with
    | .error _ => blockBytes
    | .ok b => b.Block
  match lib.blocksParse innerBlockBytes with
  | .error err => (ctx, calls, some err)
  | .ok blk =>
    let blkID := blk.ID
    let pvmProposer := lib.NewBlockProposal proposerBlock ctx.Time
    let adjusted (tm : Nat) : ConsumerCtx := ctx.SetTime (Time.Unix (int64 tm))
    let adjustedProposer (tm : Nat) : BlockProposal :=
      { pvmProposer with TimeStamp := some (Time.Unix (int64 tm)) }
    let index (ctx1 : ConsumerCtx) (proposer : BlockProposal) (blkType : BlockType) :
        ConsumerCtx × List WriterCall × Option GoError :=
      let r := w.indexCommonBlock env h performUpdates ctx1 blkID blkType blk.CommonBlock proposer
        innerBlockBytes calls
      let r2 := w.indexTransactions env ctx1 blkID blk.Txs (r.1, errsAdd none r.2)
      (ctx1, r2.1, r2.2)
    match blk.kind with
    | .ApricotProposalBlock => index ctx pvmProposer .BlockTypeProposal
    | .ApricotStandardBlock => index ctx pvmProposer .BlockTypeStandard
    | .ApricotAtomicBlock => index ctx pvmProposer .BlockTypeProposal
    | .ApricotAbortBlock => index ctx pvmProposer .BlockTypeAbort
    | .ApricotCommitBlock => index ctx pvmProposer .BlockTypeCommit
    | .BanffProposalBlock tm => index (adjusted tm) (adjustedProposer tm) .BlockTypeStandard
    | .BanffStandardBlock tm => index (adjusted tm) (adjustedProposer tm) .BlockTypeStandard
    | .BanffAbortBlock tm => index (adjusted tm) (adjustedProposer tm) .BlockTypeAbort
    | .BanffCommitBlock tm => index (adjusted tm) (adjustedProposer tm) .BlockTypeCommit
    | .other goType => (ctx, calls, some (.errorString ("unknown type " ++ goType)))

/-! ## Definitions used to state the facts -/

/-- The queue table after an INSERT that the storage layer executes: the row
is added unless its id is present. -/
def insertRow (rows : List TxPool) (v : TxPool) : List TxPool :=
  if rows.any (fun r => decide (r.ID = v.ID)) then rows else rows ++ [v]

/-- The collaborator calls of one successful pass over a batch. -/
def drainEvents (h : Hashing) (p : producerChainContainer) : List Container → List Event
  | [] => []
  | c :: cs =>
    [Event.Enqueue (p.txPoolOf h c), Event.CounterInc (.key p.metricProcessedCountKey),
      Event.CounterInc .MetricProduceProcessedCountKey] ++ drainEvents h p cs

/-- The checkpoint table after an UPDATE of (inst, topic) to idx that the
storage layer executes. -/
def setIdx (inst topic : String) (idx : Nat) (rows : List NodeIndex) : List NodeIndex :=
  rows.map (fun r => if whereInstanceTopic inst topic r then { r with Idx := idx } else r)

/-- The durable checkpoint of (inst, topic): the index of the row that
QueryNodeIndex loads, if there is one. -/
def checkpoint (inst topic : String) (w : World) : Option Nat :=
  match QueryNodeIndex none { Instance := inst, Topic := topic, Idx := 0 } w with
  | .ok r => some r.Idx
  | .error _ => none

/-- Whether a call of ProcessNextMessage completes a batch: the ledger answers
with at least one container and the call returns nil. -/
def producerChainContainer.completesBatch (h : Hashing) (o : Oracle)
    (p : producerChainContainer) (w : World) : Bool :=
  match o.GetContainerRange p.nodeIndex.Idx MaxTxRead with
  | .ok cs => !cs.isEmpty && (p.ProcessNextMessage h o w).2.2.isNone
  | .error _ => false

/-- A sequence of calls of ProcessNextMessage by one worker, each call in its
own environment; the flag tells whether some call so far completed a batch. -/
def producerChainContainer.calls (h : Hashing) :
    List Oracle → producerChainContainer → World → Bool → producerChainContainer × World × Bool
  | [], p, w, done => (p, w, done)
  | o :: os, p, w, done =>
    producerChainContainer.calls h os (p.ProcessNextMessage h o w).1
      (p.ProcessNextMessage h o w).2.1 (done || p.completesBatch h o w)

/-- The queue has a row with the id of the entry that the worker builds for
the container. -/
def queued (h : Hashing) (p : producerChainContainer) (w : World) (c : Container) : Prop :=
  ∃ r ∈ w.txPool, r.ID = (p.txPoolOf h c).ID

/-- The ledger behind the environment of a call serves contiguous ranges of
the containers chain 0, chain 1, ...: a returned batch holds the containers at
the requested start index and the indices that follow, and the index of its
last container is a uint64. -/
def servesChain (chain : Nat → Container) (o : Oracle) : Prop :=
  ∀ (start limit : Nat) (cs : List Container), o.GetContainerRange start limit = .ok cs →
    (∀ t, t < cs.length → cs[t]? = some (chain (start + t))) ∧
    (cs ≠ [] → start + cs.length - 1 < 2 ^ 64)

/-- The state of a worker that started as p0, after some calls: it is p0 up to
the cursor, the cursor is not below the one of p0, the durable checkpoint is
the cursor, every container from the initial cursor up to, not including, the
cursor is queued, and so is the one at the cursor once a batch was completed. -/
def producerInv (h : Hashing) (chain : Nat → Container) (p0 p : producerChainContainer)
    (w : World) (done : Bool) : Prop :=
  p = { p0 with nodeIndex := { p0.nodeIndex with Idx := p.nodeIndex.Idx } } ∧
  p0.nodeIndex.Idx ≤ p.nodeIndex.Idx ∧
  QueryNodeIndex none { Instance := p0.nodeinstance, Topic := p0.topic, Idx := 0 } w =
    .ok { Instance := p0.nodeinstance, Topic := p0.topic, Idx := p.nodeIndex.Idx } ∧
  (∀ j, p0.nodeIndex.Idx ≤ j → j < p.nodeIndex.Idx → queued h p0 w (chain j)) ∧
  (done = true → queued h p0 w (chain p.nodeIndex.Idx))

/-- The number of rows of the queue table that have the id. -/
def rowsWithID (id : String) (rows : List TxPool) : Nat :=
  rows.countP (fun r => decide (r.ID = id))

/-- The number of rows of the queue table whose id is one of the given ids. -/
def rowsWithIDs (ids : List String) (rows : List TxPool) : Nat :=
  rows.countP (fun r => decide (r.ID ∈ ids))

/-- The first n calls of ProcessNextMessage of a worker, with the given batch
limit, all in the same environment. -/
def producerChainContainer.repeatWith (maxTxRead : Nat) (h : Hashing) (o : Oracle) :
    Nat → producerChainContainer → World → producerChainContainer × World
  | 0, p, w => (p, w)
  | n + 1, p, w =>
    producerChainContainer.repeatWith maxTxRead h o n
      (p.ProcessNextMessageWith maxTxRead h o w).1 (p.ProcessNextMessageWith maxTxRead h o w).2.1

/-- The ranges (startIndex, numToFetch) requested from the ledger, in order. -/
def requests (tr : List Event) : List (Nat × Nat) :=
  tr.filterMap (fun e => match e with
    | .GetContainerRange startIndex numToFetch => some (startIndex, numToFetch)
    | _ => none)

/-- The batches that the ledger of the environment returned to the polls of
the trace, in order; a poll that failed has no batch. -/
def polledBatches (o : Oracle) (tr : List Event) : List (List Container) :=
  (requests tr).filterMap (fun r => match o.GetContainerRange r.1 r.2 with
    | .ok cs => some cs
    | .error _ => none)

/-- How many decoder attempts the trace holds. -/
def decodeCalls (tr : List Event) : Nat :=
  tr.countP (fun e => match e with
    | .Decode _ _ => true
    | _ => false)

/-- The collaborator calls of k attempts that each ended in a lock error. -/
def retryEvents (op : DecoderOp) (msg : Message) : Nat → List Event
  | 0 => []
  | k + 1 => [Event.Decode op msg, Event.RetrySleeperInc] ++ retryEvents op msg k

/-- The checkpoint table after an INSERT that the storage layer executes: the
row is added unless a row with its instance and topic is present. -/
def addNodeIndex (rows : List NodeIndex) (v : NodeIndex) : List NodeIndex :=
  if (rows.find? (whereInstanceTopic v.Instance v.Topic)).isSome then rows else rows ++ [v]

/-- The number that a list of decimal digit characters spells. -/
def digitsValue (cs : List Char) : Nat :=
  cs.foldl (fun a c => 10 * a + (c.toNat - 48)) 0

/-- The queue entries handed to the in-process notification, in order. -/
def enqueued (tr : List Event) : List TxPool :=
  tr.filterMap (fun e => match e with
    | .Enqueue txPool => some txPool
    | _ => none)

/-- One Insert operation of db.Persist with the statements of the storage
layer executed without a failure: its name, the state it writes, the struct
it receives, the call (an operation without an upd flag ignores the flag),
when the key of the struct is present in the state (for an operation that
splices a text of the struct into its INSERT: the text is read as one
expression and the key of the row that the INSERT then makes is present),
what the operation needs of the schema: the key of the table is made of
columns that the INSERT names and that the UPDATE does not assign, and for
which structs the text that the operation splices into its statements, if it
splices one, is read as a constant. -/
structure PersistInsert where
  name : String
  State : Type
  Ent : Type
  run : Ent → Bool → State → State × Option GoError
  present : Ent → State → Prop
  keyOk : Prop
  constant : Ent → Prop

/-- Every key column is named by the INSERT, for every struct. -/
def writesKey (key : List String) (pairs : Entity → List (String × Val)) : Prop :=
  ∀ v, ∀ c ∈ key, ∃ p ∈ pairs v, column p.1 = column c

/-- No key column is assigned by the UPDATE, for every struct. -/
def keepsKey (key : List String) (sets : Entity → List (String × Val)) : Prop :=
  ∀ v, ∀ c ∈ key, ∀ p ∈ sets v, column p.1 ≠ column c

/-- An Insert operation on a business table. -/
def PersistInsert.onTable (sch : Schema) (name table : String)
    (pairs sets : Entity → List (String × Val))
    (run : Entity → Bool → Table → Table × Option GoError) : PersistInsert where
  name := name
  State := Table
  Ent := Entity
  run := run
  present := fun v rows =>
    ∃ r ∈ rows, keyOf (sch.key table) r =
      keyOf (sch.key table) (assign (pairs v) (sch.defaults table rows))
  keyOk := writesKey (sch.key table) pairs ∧ keepsKey (sch.key table) sets
  constant := fun _ => True

/-- An Insert operation on a business table whose INSERT splices the text of
a field of the struct into the statement as the value of the column col,
between the columns before and after; sets are the columns that its UPDATE
assigns. -/
def PersistInsert.onSpliced (sch : Schema) (name table : String) (text : Entity → String)
    (before : Entity → List (String × Val)) (col : String)
    (after sets : Entity → List (String × Val))
    (run : Entity → Bool → Table → Table × Option GoError) : PersistInsert where
  name := name
  State := Table
  Ent := Entity
  run := run
  present := fun v rows =>
    ∃ f, sch.splice (text v) = some f ∧
      ∃ r ∈ rows, keyOf (sch.key table) r =
        keyOf (sch.key table)
          (assign (before v ++ (col, f (assign (before v) (sch.defaults table rows))) :: after v)
            (sch.defaults table rows))
  keyOk := writesKey (sch.key table) (fun v => before v ++ (col, Val.null) :: after v) ∧
    keepsKey (sch.key table) sets
  constant := fun v => ∃ c, sch.splice (text v) = some (fun _ => c)

/-- The Insert operation of the queue table. -/
def PersistInsert.onTxPool : PersistInsert where
  name := "InsertTxPool"
  State := World
  Ent := TxPool
  run := fun v _ w => InsertTxPool none v w
  present := fun v w => ∃ r ∈ w.txPool, r.ID = v.ID
  keyOk := True
  constant := fun _ => True

/-- The Insert operation of the checkpoint table. -/
def PersistInsert.onNodeIndex : PersistInsert where
  name := "InsertNodeIndex"
  State := World
  Ent := NodeIndex
  run := fun v upd w => InsertNodeIndex none none v upd w
  present := fun v w => ∃ r ∈ w.nodeIndex, r.Instance = v.Instance ∧ r.Topic = v.Topic
  keyOk := True
  constant := fun _ => True

/-- The Insert operations of the interface Persist of db/dbmodel.go, all
thirty, in the order of the file; accounts is the account table read by the
subqueries of InsertCvmTransactionsTxdata. -/
def persistInserts (sch : Schema) (accounts : Table) : List PersistInsert :=
  [.onTable sch "InsertTransactions" TableTransactions InsertTransactions.pairs InsertTransactions.sets
      (fun v upd rows => InsertTransactions sch none none v upd rows),
   .onTable sch "InsertOutputsRedeeming" TableOutputsRedeeming InsertOutputsRedeeming.pairs InsertOutputsRedeeming.sets
      (fun v upd rows => InsertOutputsRedeeming sch none none v upd rows),
   .onTable sch "InsertOutputs" TableOutputs InsertOutputs.pairs InsertOutputs.sets
      (fun v upd rows => InsertOutputs sch none none v upd rows),
   .onTable sch "InsertAssets" TableAssets InsertAssets.pairs InsertAssets.sets
      (fun v upd rows => InsertAssets sch none none v upd rows),
   .onTable sch "InsertAddresses" TableAddresses InsertAddresses.pairs InsertAddresses.sets
      (fun v upd rows => InsertAddresses sch none none v upd rows),
   .onTable sch "InsertAddressChain" TableAddressChain InsertAddressChain.pairs InsertAddressChain.sets
      (fun v upd rows => InsertAddressChain sch none none v upd rows),
   .onTable sch "InsertOutputAddresses" TableOutputAddresses
      InsertOutputAddresses.pairs InsertOutputAddresses.sets
      (fun v upd rows => InsertOutputAddresses sch none none v upd rows),
   .onTable sch "InsertTransactionsEpoch" TableTransactionsEpochs InsertTransactionsEpoch.pairs InsertTransactionsEpoch.sets
      (fun v upd rows => InsertTransactionsEpoch sch none none v upd rows),
   .onSpliced sch "InsertCvmBlocks" TableCvmBlocks (fun v => (v "Block").goString)
      (fun _ => []) "block" InsertCvmBlocks.pairs (fun _ => [])
      (fun v _ rows => InsertCvmBlocks sch none v rows),
   .onSpliced sch "InsertCamLastBlockCache" TableCamLastBlockCache
      (fun v => (v "CurrentBlock").goString) (fun _ => []) "current_block"
      InsertCamLastBlockCache.pairs InsertCamLastBlockCache.sets
      (fun v upd rows => InsertCamLastBlockCache sch none none v upd rows),
   .onTable sch "InsertCvmAddresses" TableCvmAddresses InsertCvmAddresses.pairs InsertCvmAddresses.sets
      (fun v upd rows => InsertCvmAddresses sch none none v upd rows),
   .onSpliced sch "InsertCvmTransactionsAtomic" TableCvmTransactionsAtomic
      (fun v => (v "Block").goString) InsertCvmTransactionsAtomic.before "block"
      InsertCvmTransactionsAtomic.pairs
      (fun v => ("block", Val.null) :: InsertCvmTransactionsAtomic.sets v)
      (fun v upd rows => InsertCvmTransactionsAtomic sch none none v upd rows),
   .onTable sch "InsertCvmTransactionsTxdata" TableCvmTransactionsTxdata
      (InsertCvmTransactionsTxdata.pairs accounts) (InsertCvmTransactionsTxdata.sets accounts)
      (fun v upd rows => InsertCvmTransactionsTxdata sch accounts none none v upd rows),
   .onTable sch "InsertCvmAccount" TableCvmAccounts InsertCvmAccount.pairs (fun _ => [])
      (fun v upd rows => InsertCvmAccount sch none none v upd rows),
   .onTable sch "InsertPvmBlocks" TablePvmBlocks InsertPvmBlocks.pairs InsertPvmBlocks.sets
      (fun v upd rows => InsertPvmBlocks sch none none v upd rows),
   .onTable sch "InsertTransactionsValidator" TableTransactionsValidator InsertTransactionsValidator.pairs InsertTransactionsValidator.sets
      (fun v upd rows => InsertTransactionsValidator sch none none v upd rows),
   .onTable sch "InsertTransactionsBlock" TableTransactionsBlock InsertTransactionsBlock.pairs InsertTransactionsBlock.sets
      (fun v upd rows => InsertTransactionsBlock sch none none v upd rows),
   .onTable sch "InsertAddressBech32" TableAddressBech32 InsertAddressBech32.pairs InsertAddressBech32.sets
      (fun v upd rows => InsertAddressBech32 sch none none v upd rows),
   .onTable sch "InsertOutputAddressAccumulateOut" TableOutputAddressAccumulateOut InsertOutputAddressAccumulateOut.pairs InsertOutputAddressAccumulateOut.sets
      (fun v upd rows => InsertOutputAddressAccumulateOut sch none none v upd rows),
   .onTable sch "InsertOutputAddressAccumulateIn" TableOutputAddressAccumulateIn InsertOutputAddressAccumulateIn.pairs InsertOutputAddressAccumulateIn.sets
      (fun v upd rows => InsertOutputAddressAccumulateIn sch none none v upd rows),
   .onTable sch "InsertOutputTxsAccumulate" TableOutputTxsAccumulate InsertOutputTxsAccumulate.pairs (fun _ => [])
      (fun v _ rows => InsertOutputTxsAccumulate sch none v rows),
   .onTable sch "InsertAccumulateBalancesReceived" TableAccumulateBalancesReceived InsertAccumulateBalancesReceived.pairs (fun _ => [])
      (fun v _ rows => InsertAccumulateBalancesReceived sch none v rows),
   .onTable sch "InsertAccumulateBalancesSent" TableAccumulateBalancesSent InsertAccumulateBalancesSent.pairs (fun _ => [])
      (fun v _ rows => InsertAccumulateBalancesSent sch none v rows),
   .onTable sch "InsertAccumulateBalancesTransactions" TableAccumulateBalancesTransactions InsertAccumulateBalancesTransactions.pairs (fun _ => [])
      (fun v _ rows => InsertAccumulateBalancesTransactions sch none v rows),
   PersistInsert.onTxPool,
   .onTable sch "InsertKeyValueStore" TableKeyValueStore InsertKeyValueStore.pairs (fun _ => [])
      (fun v _ rows => InsertKeyValueStore sch none v rows),
   PersistInsert.onNodeIndex,
   .onTable sch "InsertMultisigAlias" TableMultisigAliases InsertMultisigAlias.pairs (fun _ => [])
      (fun v _ rows => InsertMultisigAlias sch none v rows),
   .onTable sch "InsertRewardOwner" TableRewardOwner InsertRewardOwner.pairs (fun _ => [])
      (fun v _ rows => InsertRewardOwner sch none v rows),
   .onTable sch "InsertReward" TableReward InsertReward.pairs InsertReward.sets
      (fun v _ rows => InsertReward sch none v rows)]

/-- A table after an INSERT that the storage layer executes: the row is added
unless its key is present. -/
def insertIfAbsent {α κ : Type} [DecidableEq κ] (key : α → κ) (rows : List α) (v : α) : List α :=
  if rows.any (fun r => decide (key r = key v)) then rows else rows ++ [v]

/-- The rewriting of one row by an UPDATE statement. -/
def updateRow {α : Type} (sel : α → Bool) (set : α → α) (r : α) : α :=
  if sel r then set r else r

/-- The results of ProcessNextMessage after which the closure of runProcessor
returns nil, so that the loop goes on: nil, the two sentinels compared by
identity, and the errors that ChainNotReady or ZeroAcceptedContainers
recognises. -/
def keepsPolling : Option GoError → Bool
  | none => true
  | some err =>
    decide (err = .DeadlineExceeded) || decide (err = .ErrNoMessage) || ChainNotReady err ||
      ZeroAcceptedContainers err

/-- The results of ProcessNextMessage that the closure of runProcessor counts
as a failure: an error after which the loop does not go on and which is not
io.EOF. -/
def countsFailure (e : Option GoError) : Bool :=
  !keepsPolling e && !decide (e = some .EOF)

/-! ## Concrete inputs -/

/-- A stand-in for the library functions: the digest of a byte string is the
byte string itself and the string form of an id spells its bytes as characters. -/
def exHashing : Hashing :=
  { ComputeHash256Array := fun b => b
    IDString := fun b => String.mk (b.map Char.ofNat) }

/-- A ledger that holds the given containers at the indices 0, 1, 2, ... and
serves the closed range that starts at the requested index; a start index
past the last container is answered with the ledger's not-ready error. -/
def listLedger (chain : List Container) (startIndex numToFetch : Nat) :
    Except GoError (List Container) :=
  if startIndex < chain.length then .ok ((chain.drop startIndex).take numToFetch)
  else .error (.errorString "start index > last accepted index")

/-- Five containers, at the indices 0 to 4. -/
def exChain : List Container :=
  [ { ID := [10], Bytes := [65], Timestamp := 1000 },
    { ID := [11], Bytes := [66], Timestamp := 1001 },
    { ID := [12], Bytes := [67], Timestamp := 1002 },
    { ID := [13], Bytes := [68], Timestamp := 1003 },
    { ID := [14], Bytes := [69], Timestamp := 1004 } ]

/-- An environment without storage failures over the five containers. -/
def exOracle : Oracle :=
  { GetContainerRange := listLedger exChain
    insertFault := fun _ => none
    updateFault := none }

/-- A worker of instance "default" on topic "1-ch-decisions" whose cursor is 0. -/
def exWorker : producerChainContainer :=
  { conf := { NetworkID := 1, NodeInstance := "default" }
    nodeIndex := { Instance := "default", Topic := "1-ch-decisions", Idx := 0 }
    nodeinstance := "default"
    topic := "1-ch-decisions"
    chainID := "ch"
    indexerChain := IndexXChain
    metricProcessedCountKey := "produce_records_processed_ch_decisions" }

/-- An empty queue and the checkpoint row of the worker at index 0. -/
def exWorld : World :=
  { txPool := []
    nodeIndex := [{ Instance := "default", Topic := "1-ch-decisions", Idx := 0 }]
    trace := [] }

/-- An environment over the five containers in which the INSERT for the
container at position 2 of a batch hits a storage failure. -/
def exFaultyOracle : Oracle :=
  { GetContainerRange := listLedger exChain
    insertFault := fun k => if k = 2 then some (Fault.failure "connection lost") else none
    updateFault := none }

/-- The container at every index of the example ledger; exChain lists the
first five. -/
def exChainAt (j : Nat) : Container :=
  { ID := [10 + j], Bytes := [65 + j], Timestamp := 1000 + (j : Int) }

/-- An environment whose ledger read runs into its deadline. -/
def exDownOracle : Oracle :=
  { GetContainerRange := fun _ _ => .error .DeadlineExceeded
    insertFault := fun _ => none
    updateFault := none }

/-- A queue entry with id "q1". -/
def exEntry : TxPool :=
  { ID := "q1", NetworkID := 1, ChainID := "ch", MsgKey := "key1", Serialization := [104, 105],
    Topic := "topic1", CreatedAt := Time.Unix 1000 }

/-- An entry with the same id "q1" and another payload. -/
def exEntryOther : TxPool :=
  { ID := "q1", NetworkID := 7, ChainID := "other", MsgKey := "key1",
    Serialization := [98, 121, 101], Topic := "topic1", CreatedAt := Time.Unix 2000 }

/-- The example worker with its cursor at index i. -/
def exWorkerAt (i : Nat) : producerChainContainer :=
  { exWorker with nodeIndex := { exWorker.nodeIndex with Idx := i } }

/-- A consumer of decisions. -/
def exConsumer : consumerDB :=
  { id := "consumer 1 avm ch"
    eventType := EventTypeDecisions
    chainID := "ch"
    metricProcessedCountKey := "consume_records_processed_ch"
    metricFailureCountKey := "consume_records_failure_ch"
    metricProcessMillisCounterKey := "consume_records_process_millis_ch"
    metricSuccessCountKey := "consume_records_success_ch"
    topicName := "1-ch-decisions" }

/-- A message of the queue. -/
def exMessage : Message :=
  { id := "key1", chainID := "ch", body := [104, 105], timestamp := 1000, nanosecond := 0 }

/-- A decoder that fails with a lock error on its first two attempts and then
succeeds. -/
def exLockTwice : Decoder := fun _ attempt _ =>
  if attempt < 2 then some (.lockError "Deadlock found when trying to get lock") else none

/-- A decoder that fails with a lock error on its first two attempts and then
rejects the message. -/
def exLockTwiceThenReject : Decoder := fun _ attempt _ =>
  if attempt < 2 then some (.lockError "Deadlock found when trying to get lock")
  else some (.errorString "unknown tx type")

/-- The producer of the example worker. -/
def exProducer : ProducerChain :=
  { id := "producer 1 ch decisions"
    metricProcessedCountKey := "produce_records_processed_ch_decisions"
    metricSuccessCountKey := "produce_records_success_ch_decisions"
    metricFailureCountKey := "produce_records_failure_ch_decisions"
    conf := { NetworkID := 1, NodeInstance := "default" }
    topic := "1-ch-decisions"
    chainID := "ch"
    indexerChain := IndexXChain }

/-- An environment whose ledger answers with its not-ready error. -/
def exNotReadyOracle : Oracle :=
  { GetContainerRange := fun _ _ =>
      .error (.errorString "start index (5) > last accepted index (4)")
    insertFault := fun _ => none
    updateFault := none }

/-- An environment whose ledger returns no container. -/
def exEmptyOracle : Oracle :=
  { GetContainerRange := fun _ _ => .ok []
    insertFault := fun _ => none
    updateFault := none }

/-- A storage layer for the examples: the account table is keyed by address,
the block cache by chainid, the atomic transactions by transaction_id, every
other table by id; a new row is null in the columns its INSERT does not name;
a spliced text of decimal digits is read as that number, the text "block+1"
as the column block plus one, and every other text makes the statement fail
with a syntax error. -/
def exSchema : Schema where
  key := fun t =>
    if t = TableCvmAccounts then ["address"]
    else if t = TableCamLastBlockCache then ["chainid"]
    else if t = TableCvmTransactionsAtomic then ["transaction_id"]
    else ["id"]
  defaults := fun _ _ _ => .null
  splice := fun text =>
    if text.data ≠ [] ∧ text.data.all Char.isDigit = true then
      some (fun _ => .number (digitsValue text.data))
    else if text = "block+1" then some (fun r => (r (column "block")).add (.number 1))
    else none
  foreign := fun _ _ _ rows =>
    (rows, some (.errorString "Error 1064: You have an error in your SQL syntax"))

/-- An account with one transaction. -/
def exAccount : Entity := fun f =>
  if f = "Address" then .text "0xabc"
  else if f = "TxCount" then .number 1
  else .null

/-- The row of the example account, as its INSERT stores it. -/
def exAccountRow : Row := assign (InsertCvmAccount.pairs exAccount) (fun _ => .null)

/-- A block cache entry of chain 7 at block 42. -/
def exBlockCache : Entity := fun f =>
  if f = "ChainID" then .text "7"
  else if f = "CurrentBlock" then .text "42"
  else .null

/-- A stored block cache row of chain 7, at block 41. -/
def exBlockCacheRow : Row :=
  assign [("current_block", .text "41"), ("chainid", .text "7")] (fun _ => .null)

/-- A block cache entry of chain 7 whose CurrentBlock is the empty string. -/
def exBlockCacheEmpty : Entity := fun f =>
  if f = "ChainID" then .text "7"
  else if f = "CurrentBlock" then .text ""
  else .null

/-- An atomic transaction tx1 of block 42. -/
def exAtomic : Entity := fun f =>
  if f = "TransactionID" then .text "tx1"
  else if f = "Block" then .text "42"
  else .null

/-- An atomic transaction tx1 whose Block is the text of an expression over
the stored row. -/
def exAtomicIncr : Entity := fun f =>
  if f = "TransactionID" then .text "tx1"
  else if f = "Block" then .text "block+1"
  else .null

/-- A stored row of the atomic transaction tx1, at block 5. -/
def exAtomicRow : Row :=
  assign [("transaction_id", .text "tx1"), ("block", .number 5)] (fun _ => .null)

/-- A transaction row to insert. -/
def exTransaction : Entity := fun f =>
  if f = "ID" then .text "tx1"
  else if f = "ChainID" then .text "chain"
  else .null

/-- An environment whose ledger read fails with a transport error. -/
def exRefusedOracle : Oracle :=
  { GetContainerRange := fun _ _ => .error (.errorString "dial tcp: connection refused")
    insertFault := fun _ => none
    updateFault := none }

/-- A start of the worker in which every statement is executed. -/
def exStart : StartOracle :=
  { database := none, insertFault := none, updateFault := none, queryFault := none }

/-- A start of the worker in which the database connections cannot be
obtained. -/
def exNoDatabase : StartOracle :=
  { database := some (.errorString "dial tcp: connection refused"), insertFault := none,
    updateFault := none, queryFault := none }

/-- A call of runProcessor whose start fails. -/
def exFailedRun : Run :=
  { stoppedAtStart := false, start := exNoDatabase, polls := [] }

/-- A redeemed output "id1" as the decoder passes it at time 2000. -/
def exRedeeming : Entity := fun f =>
  if f = "ID" then .text "id1"
  else if f = "RedeemedAt" then .time (Time.Unix 2000)
  else if f = "RedeemingTransactionID" then .text "rtxid1"
  else if f = "Amount" then .number 102
  else if f = "OutputIndex" then .number 3
  else if f = "Intx" then .text "intx2"
  else if f = "AssetID" then .text "aid2"
  else if f = "ChainID" then .text "cid2"
  else if f = "CreatedAt" then .time (Time.Unix 2000)
  else .null

/-- A stored row of the output "id1", redeemed at time 1000, with other
values in every other column. -/
def exRedeemingRow : Row :=
  assign [("id", .text "id1"), ("redeemed_at", .time (Time.Unix 1000)),
    ("redeeming_transaction_id", .text "rtxid"), ("amount", .number 100),
    ("output_index", .number 1), ("intx", .text "intx1"), ("asset_id", .text "aid1"),
    ("created_at", .time (Time.Unix 1000)), ("chain_id", .text "cid1")] (fun _ => .null)

/-- Totals of the asset "avax" on one chain. -/
def exAssets : AssetMap :=
  [("avax",
    { TransactionCount := 1
      UTXOCount := 1
      Balance := "10"
      TotalReceived := "30"
      TotalSent := "20" })]

/-- Totals of the asset "avax" on another chain. -/
def exAssets2 : AssetMap :=
  [("avax",
    { TransactionCount := 2
      UTXOCount := 5
      Balance := "5"
      TotalReceived := "7"
      TotalSent := "2" })]

/-- A persistence layer that answers nil to every call. -/
def exDecoderEnv : DecoderEnv := { answer := fun _ _ => none }

/-- A Banff proposal block with timestamp 1700000000, parent [1], height 8
and no transactions. -/
def exBanffProposal : pvm.Block :=
  { ID := [9]
    kind := .BanffProposalBlock 1700000000
    CommonBlock := { PrntID := [1], Hght := 8 }
    Txs := [] }

/-- A library in which the bytes are not a proposer block and parse as the
Banff proposal block. -/
def exLibrary : pvm.Library :=
  { proposerParse := fun _ => .error (.errorString "not a proposer block")
    blocksParse := fun _ => .ok exBanffProposal
    NewBlockProposal := fun _ t => { Proposer := "", TimeStamp := some t } }

/-- A P-chain writer for the chain "pchain". -/
def exPvmWriter : pvm.Writer := { chainID := "pchain" }

/-- An empty queue and the checkpoint row of the worker at index i. -/
def exWorldAt (i : Nat) : World :=
  { txPool := []
    nodeIndex := [{ Instance := "default", Topic := "1-ch-decisions", Idx := i }]
    trace := [] }

/-- A stand-in for the library functions with a weak digest: the digest of a
byte string is its first byte, and the string form of an id is a run of the
letter a whose length is the code of the id, so that two ids have two string
forms. -/
def exFirstByteHashing : Hashing :=
  { ComputeHash256Array := fun b => b.take 1
    IDString := fun b => String.mk (List.replicate (Encodable.encode b) 'a') }


/-! ## Facts about the storage layer -/

@[simp] theorem emit_txPool (w : World) (e : Event) : (w.emit e).txPool = w.txPool := rfl

@[simp] theorem emit_nodeIndex (w : World) (e : Event) : (w.emit e).nodeIndex = w.nodeIndex := rfl

@[simp] theorem emit_trace (w : World) (e : Event) : (w.emit e).trace = w.trace ++ [e] := rfl

theorem ErrIsDuplicateEntryError_fault (f : Fault) :
    ErrIsDuplicateEntryError (some f.toError) = false := by
  cases f <;> rfl

theorem InsertTxPool_none (v : TxPool) (w : World) :
    InsertTxPool none v w = ({ w with txPool := insertRow w.txPool v }, none) := by
  unfold InsertTxPool sqlInsert insertRow
  by_cases hany : (w.txPool.any (fun r => decide (r.ID = v.ID))) = true
  · simp [hany, ErrIsDuplicateEntryError, GoError.isDuplicateEntry]
  · simp [hany]

theorem InsertTxPool_fault (f : Fault) (v : TxPool) (w : World) :
    InsertTxPool (some f) v w = (w, some (EventErr TableTxPool false f.toError)) := by
  unfold InsertTxPool sqlInsert
  simp [ErrIsDuplicateEntryError_fault]

theorem UpdateTxPool_none (v : TxPool) (w : World) :
    UpdateTxPool none v w =
      ({ w with txPool := insertRow w.txPool v, trace := w.trace ++ [Event.Enqueue v] }, none) := by
  simp [UpdateTxPool, InsertTxPool_none, World.emit]

theorem UpdateTxPool_fault (f : Fault) (v : TxPool) (w : World) :
    UpdateTxPool (some f) v w = (w, some (EventErr TableTxPool false f.toError)) := by
  simp [UpdateTxPool, InsertTxPool_fault]

theorem UpdateNodeIndex_none (v : NodeIndex) (w : World) :
    UpdateNodeIndex none v w =
      ({ w with nodeIndex := setIdx v.Instance v.Topic v.Idx w.nodeIndex }, none) := by
  simp [UpdateNodeIndex, sqlUpdate, setIdx]

theorem UpdateNodeIndex_fault (f : Fault) (v : NodeIndex) (w : World) :
    UpdateNodeIndex (some f) v w = (w, some (EventErr TableNodeIndex true f.toError)) := by
  simp [UpdateNodeIndex, sqlUpdate]

/-- The pass over a batch when no INSERT hits a storage failure. -/
theorem drain_ok (h : Hashing) (o : Oracle) (p : producerChainContainer) :
    ∀ (cs : List Container) (k : Nat) (w : World),
      (∀ j, j < cs.length → o.insertFault (k + j) = none) →
      p.drain h o k none cs w =
        ({ txPool := (cs.map (p.txPoolOf h)).foldl insertRow w.txPool
           nodeIndex := w.nodeIndex
           trace := w.trace ++ drainEvents h p cs }, none) := by
  intro cs
  induction cs with
  | nil => intro k w _; simp [producerChainContainer.drain, drainEvents]
  | cons c cs ih =>
    intro k w hf
    have h0 : o.insertFault k = none := by simpa using hf 0 (by simp)
    have hrest : ∀ j, j < cs.length → o.insertFault (k + 1 + j) = none := by
      intro j hj
      have := hf (j + 1) (by simpa using hj)
      simpa [Nat.add_assoc, Nat.add_comm 1 j] using this
    simp only [producerChainContainer.drain, h0, UpdateTxPool_none]
    rw [ih (k + 1) _ hrest]
    simp [World.emit, drainEvents, List.append_assoc]

/-- The pass over a batch when the INSERT for the m-th container is the first
one to hit a storage failure. -/
theorem drain_fault (h : Hashing) (o : Oracle) (p : producerChainContainer) (f : Fault) :
    ∀ (cs : List Container) (m k : Nat) (w : World),
      m < cs.length →
      (∀ j, j < m → o.insertFault (k + j) = none) →
      o.insertFault (k + m) = some f →
      p.drain h o k none cs w =
        ({ txPool := ((cs.take m).map (p.txPoolOf h)).foldl insertRow w.txPool
           nodeIndex := w.nodeIndex
           trace := w.trace ++ drainEvents h p (cs.take m) },
          some (EventErr TableTxPool false f.toError)) := by
  intro cs
  induction cs with
  | nil => intro m k w hm; simp at hm
  | cons c cs ih =>
    intro m k w hm hbefore hat
    cases m with
    | zero =>
      have h0 : o.insertFault k = some f := by simpa using hat
      simp [producerChainContainer.drain, h0, UpdateTxPool_fault, drainEvents]
    | succ m =>
      have h0 : o.insertFault k = none := by simpa using hbefore 0 (by simp)
      have hrest : ∀ j, j < m → o.insertFault (k + 1 + j) = none := by
        intro j hj
        have := hbefore (j + 1) (by omega)
        simpa [Nat.add_assoc, Nat.add_comm 1 j] using this
      have hat2 : o.insertFault (k + 1 + m) = some f := by
        simpa [Nat.add_assoc, Nat.add_comm 1 m] using hat
      simp only [producerChainContainer.drain, h0, UpdateTxPool_none]
      rw [ih m (k + 1) _ (by simpa using hm) hrest hat2]
      simp [World.emit, drainEvents, List.append_assoc]

theorem whereInstanceTopic_iff (inst topic : String) (r : NodeIndex) :
    whereInstanceTopic inst topic r = true ↔ r.Instance = inst ∧ r.Topic = topic := by
  simp [whereInstanceTopic]

theorem find_setIdx (inst topic : String) (idx : Nat) (rows : List NodeIndex) :
    (setIdx inst topic idx rows).find? (whereInstanceTopic inst topic) =
      (rows.find? (whereInstanceTopic inst topic)).map (fun r => { r with Idx := idx }) := by
  induction rows with
  | nil => simp [setIdx]
  | cons r rows ih =>
    unfold setIdx at ih ⊢
    by_cases hr : whereInstanceTopic inst topic r = true
    · have hr2 : whereInstanceTopic inst topic { r with Idx := idx } = true := by
        simpa [whereInstanceTopic] using hr
      simp [List.find?, hr, hr2]
    · simp only [List.map_cons, hr, Bool.false_eq_true, if_false, List.find?]
      exact ih

theorem find_setIdx_other (inst topic inst2 topic2 : String) (idx : Nat) (rows : List NodeIndex)
    (hne : ¬ (inst2 = inst ∧ topic2 = topic)) :
    (setIdx inst topic idx rows).find? (whereInstanceTopic inst2 topic2) =
      rows.find? (whereInstanceTopic inst2 topic2) := by
  induction rows with
  | nil => simp [setIdx]
  | cons r rows ih =>
    unfold setIdx at ih ⊢
    by_cases hr : whereInstanceTopic inst topic r = true
    · have hk := (whereInstanceTopic_iff inst topic r).mp hr
      have hr2 : whereInstanceTopic inst2 topic2 r = false := by
        apply Bool.eq_false_iff.mpr
        intro h2
        have hk2 := (whereInstanceTopic_iff inst2 topic2 r).mp h2
        exact hne ⟨hk2.1.symm.trans hk.1, hk2.2.symm.trans hk.2⟩
      have hr3 : whereInstanceTopic inst2 topic2 { r with Idx := idx } = false := by
        simpa [whereInstanceTopic] using hr2
      simp only [List.map_cons, hr, if_true, List.find?, hr2, hr3]
      exact ih
    · simp only [List.map_cons, hr, Bool.false_eq_true, if_false, List.find?]
      rw [ih]

/-- What QueryNodeIndex loads for a key from a table whose rows selected by
the key are rewritten by an UPDATE. -/
theorem QueryNodeIndex_setIdx (inst topic : String) (idx any : Nat) (w : World)
    (rows : List TxPool) (tr : List Event) (r : NodeIndex)
    (hq : QueryNodeIndex none { Instance := inst, Topic := topic, Idx := any } w = .ok r) :
    QueryNodeIndex none { Instance := inst, Topic := topic, Idx := any }
        { txPool := rows, nodeIndex := setIdx inst topic idx w.nodeIndex, trace := tr } =
      .ok { Instance := inst, Topic := topic, Idx := idx } := by
  unfold QueryNodeIndex sqlLoadOne at hq ⊢
  simp only at hq ⊢
  rw [find_setIdx]
  cases hfind : w.nodeIndex.find? (whereInstanceTopic inst topic) with
  | none => simp [hfind] at hq
  | some r0 =>
    have hsel := (whereInstanceTopic_iff inst topic r0).mp (List.find?_some hfind)
    simp [hsel.1, hsel.2]

theorem uint64_pred_length {α : Type} (cs : List α) (hne : cs ≠ []) (hfit : cs.length - 1 < 2 ^ 64) :
    uint64 ((cs.length : Int) - 1) = cs.length - 1 := by
  have hpos : 0 < cs.length := List.length_pos.mpr hne
  unfold uint64
  have h1 : ((cs.length : Int) - 1) = ((cs.length - 1 : Nat) : Int) := by omega
  rw [h1]
  have h2 : (((cs.length - 1 : Nat) : Int) % 2 ^ 64) = ((cs.length - 1 : Nat) : Int) := by
    apply Int.emod_eq_of_lt
    · omega
    · have : ((cs.length - 1 : Nat) : Int) < ((2 ^ 64 : Nat) : Int) := by exact_mod_cast hfit
      simpa using this
  rw [h2]
  simp

/-- One call of ProcessNextMessage on a non-empty batch when no statement hits
a storage failure. -/
theorem ProcessNextMessageWith_ok (maxTxRead : Nat) (h : Hashing) (o : Oracle)
    (p : producerChainContainer) (w : World) (cs : List Container)
    (hbatch : o.GetContainerRange p.nodeIndex.Idx maxTxRead = .ok cs)
    (hne : cs ≠ [])
    (hins : ∀ k, k < cs.length → o.insertFault k = none)
    (hupd : o.updateFault = none)
    (hfit : p.nodeIndex.Idx + (cs.length - 1) < 2 ^ 64) :
    p.ProcessNextMessageWith maxTxRead h o w =
      ({ p with nodeIndex := { p.nodeIndex with Idx := p.nodeIndex.Idx + (cs.length - 1) } },
        { txPool := (cs.map (p.txPoolOf h)).foldl insertRow w.txPool
          nodeIndex := setIdx p.nodeinstance p.topic (p.nodeIndex.Idx + (cs.length - 1)) w.nodeIndex
          trace := w.trace ++ [Event.GetContainerRange p.nodeIndex.Idx maxTxRead] ++
            drainEvents h p cs ++
            (if cs.length < maxTxRead then [Event.Sleep readRPCTimeout] else []) },
        none) := by
  have hlen : cs.length ≠ 0 := by simpa using hne
  have hu : uint64 ((cs.length : Int) - 1) = cs.length - 1 :=
    uint64_pred_length cs hne (by omega)
  have hmod : (p.nodeIndex.Idx + (cs.length - 1)) % 2 ^ 64 = p.nodeIndex.Idx + (cs.length - 1) :=
    Nat.mod_eq_of_lt hfit
  have hd := drain_ok h o p cs 0 (w.emit (.GetContainerRange p.nodeIndex.Idx maxTxRead))
    (by intro j hj; simpa using hins j hj)
  simp only [emit_txPool, emit_nodeIndex, emit_trace] at hd
  unfold producerChainContainer.ProcessNextMessageWith
  simp only [hbatch, hlen, if_false, hd, producerChainContainer.updateNodeIndex, hupd,
    UpdateNodeIndex_none, hu, hmod]
  by_cases hlt : cs.length < maxTxRead
  · simp [hlt, World.emit]
  · simp [hlt]

/-- One call of ProcessNextMessage on a non-empty batch when the INSERT for the
m-th container is the first statement to hit a storage failure. -/
theorem ProcessNextMessageWith_insert_fault (maxTxRead : Nat) (h : Hashing) (o : Oracle)
    (p : producerChainContainer) (w : World) (cs : List Container) (m : Nat) (f : Fault)
    (hbatch : o.GetContainerRange p.nodeIndex.Idx maxTxRead = .ok cs)
    (hm : m < cs.length)
    (hbefore : ∀ j, j < m → o.insertFault j = none)
    (hat : o.insertFault m = some f) :
    p.ProcessNextMessageWith maxTxRead h o w =
      (p,
        { txPool := ((cs.take m).map (p.txPoolOf h)).foldl insertRow w.txPool
          nodeIndex := w.nodeIndex
          trace := w.trace ++ [Event.GetContainerRange p.nodeIndex.Idx maxTxRead] ++
            drainEvents h p (cs.take m) },
        some (EventErr TableTxPool false f.toError)) := by
  have hlen : cs.length ≠ 0 := by omega
  have hd := drain_fault h o p f cs m 0 (w.emit (.GetContainerRange p.nodeIndex.Idx maxTxRead))
    hm (by intro j hj; simpa using hbefore j hj) (by simpa using hat)
  simp only [emit_txPool, emit_nodeIndex, emit_trace] at hd
  unfold producerChainContainer.ProcessNextMessageWith
  simp only [hbatch, hlen, if_false, hd]

/-- One call of ProcessNextMessage on a non-empty batch when every INSERT is
executed and the UPDATE of the checkpoint hits a storage failure. -/
theorem ProcessNextMessageWith_update_fault (maxTxRead : Nat) (h : Hashing) (o : Oracle)
    (p : producerChainContainer) (w : World) (cs : List Container) (f : Fault)
    (hbatch : o.GetContainerRange p.nodeIndex.Idx maxTxRead = .ok cs)
    (hne : cs ≠ [])
    (hins : ∀ k, k < cs.length → o.insertFault k = none)
    (hupd : o.updateFault = some f) :
    p.ProcessNextMessageWith maxTxRead h o w =
      (p,
        { txPool := (cs.map (p.txPoolOf h)).foldl insertRow w.txPool
          nodeIndex := w.nodeIndex
          trace := w.trace ++ [Event.GetContainerRange p.nodeIndex.Idx maxTxRead] ++
            drainEvents h p cs },
        some (EventErr TableNodeIndex true f.toError)) := by
  have hlen : cs.length ≠ 0 := by simpa using hne
  have hd := drain_ok h o p cs 0 (w.emit (.GetContainerRange p.nodeIndex.Idx maxTxRead))
    (by intro j hj; simpa using hins j hj)
  simp only [emit_txPool, emit_nodeIndex, emit_trace] at hd
  unfold producerChainContainer.ProcessNextMessageWith
  simp only [hbatch, hlen, if_false, hd, producerChainContainer.updateNodeIndex, hupd,
    UpdateNodeIndex_fault]

theorem mem_insertRow_of_mem (rows : List TxPool) (v r : TxPool) (hr : r ∈ rows) :
    r ∈ insertRow rows v := by
  unfold insertRow
  split
  · exact hr
  · exact List.mem_append_left _ hr

theorem mem_insertRow (rows : List TxPool) (v r : TxPool) (hr : r ∈ insertRow rows v) :
    r ∈ rows ∨ r = v := by
  unfold insertRow at hr
  split at hr
  · exact Or.inl hr
  · simpa using hr

theorem insertRow_has_id (rows : List TxPool) (v : TxPool) :
    ∃ r ∈ insertRow rows v, r.ID = v.ID := by
  unfold insertRow
  by_cases hany : (rows.any (fun r => decide (r.ID = v.ID))) = true
  · simp only [hany, if_true]
    obtain ⟨r, hr, hid⟩ := List.any_eq_true.mp hany
    exact ⟨r, hr, by simpa using hid⟩
  · simp only [hany, Bool.false_eq_true, if_false]
    exact ⟨v, by simp, rfl⟩

/-- Rows of the queue stay in it through a pass of inserts. -/
theorem mem_foldl_insertRow_of_mem (vs : List TxPool) :
    ∀ (rows : List TxPool) (r : TxPool), r ∈ rows → r ∈ vs.foldl insertRow rows := by
  induction vs with
  | nil => intro rows r hr; simpa using hr
  | cons v vs ih =>
    intro rows r hr
    simp only [List.foldl_cons]
    exact ih _ r (mem_insertRow_of_mem rows v r hr)

/-- Every row of the queue after a pass of inserts was there before or is one
of the inserted entries. -/
theorem mem_foldl_insertRow (vs : List TxPool) :
    ∀ (rows : List TxPool) (r : TxPool), r ∈ vs.foldl insertRow rows → r ∈ rows ∨ r ∈ vs := by
  induction vs with
  | nil => intro rows r hr; exact Or.inl (by simpa using hr)
  | cons v vs ih =>
    intro rows r hr
    simp only [List.foldl_cons] at hr
    rcases ih _ r hr with h1 | h1
    · rcases mem_insertRow rows v r h1 with h2 | h2
      · exact Or.inl h2
      · exact Or.inr (by simp [h2])
    · exact Or.inr (List.mem_cons_of_mem _ h1)

/-- After a pass of inserts the queue has a row with the id of every inserted entry. -/
theorem foldl_insertRow_has_id (vs : List TxPool) :
    ∀ (rows : List TxPool) (v : TxPool), v ∈ vs →
      ∃ r ∈ vs.foldl insertRow rows, r.ID = v.ID := by
  induction vs with
  | nil => intro rows v hv; simp at hv
  | cons v0 vs ih =>
    intro rows v hv
    simp only [List.foldl_cons]
    rcases List.mem_cons.mp hv with h1 | h1
    · subst h1
      obtain ⟨r, hr, hid⟩ := insertRow_has_id rows v
      exact ⟨r, mem_foldl_insertRow_of_mem vs _ r hr, hid⟩
    · exact ih _ v h1

theorem any_key_of_find (inst topic : String) (rows : List NodeIndex) (r0 : NodeIndex)
    (hfind : rows.find? (whereInstanceTopic inst topic) = some r0) (idx : Nat) :
    rows.any (fun r => decide ((r.Instance, r.Topic) =
      (({ Instance := inst, Topic := topic, Idx := idx } : NodeIndex).Instance,
        ({ Instance := inst, Topic := topic, Idx := idx } : NodeIndex).Topic))) = true := by
  have hmem := List.mem_of_find?_eq_some hfind
  have hsel := (whereInstanceTopic_iff inst topic r0).mp (List.find?_some hfind)
  apply List.any_eq_true.mpr
  exact ⟨r0, hmem, by simp [hsel.1, hsel.2]⟩

/-- A worker start on a store that has the checkpoint row of (instance, topic),
with cfg.PerformUpdates false and no failure: the store is left as it is and
the cursor is the index of the row. -/
theorem newContainer_existing_row (conf : Config) (topic chainID : String)
    (indexerChain : IndexedChain) (key : String) (w : World) (r0 : NodeIndex)
    (hq : QueryNodeIndex none { Instance := conf.NodeInstance, Topic := topic, Idx := 0 } w = .ok r0) :
    newContainer false
        { database := none, insertFault := none, updateFault := none, queryFault := none }
        conf topic chainID indexerChain key w =
      (w, .ok
        { conf := conf
          nodeIndex := { Instance := conf.NodeInstance, Topic := topic, Idx := r0.Idx }
          nodeinstance := conf.NodeInstance
          topic := topic
          chainID := chainID
          indexerChain := indexerChain
          metricProcessedCountKey := key }) := by
  have hfind : w.nodeIndex.find? (whereInstanceTopic conf.NodeInstance topic) = some r0 := by
    unfold QueryNodeIndex sqlLoadOne at hq
    simp only at hq
    cases hf : w.nodeIndex.find? (whereInstanceTopic conf.NodeInstance topic) with
    | none => simp [hf] at hq
    | some r1 =>
      rw [hf] at hq
      simp only [Except.ok.injEq] at hq
      rw [hq]
  have hany := any_key_of_find conf.NodeInstance topic w.nodeIndex r0 hfind 0
  unfold newContainer producerChainContainer.insertNodeIndex InsertNodeIndex sqlInsert
  simp only [hany, if_true, Option.isSome_some, ErrIsDuplicateEntryError,
    GoError.isDuplicateEntry, Bool.not_true, Bool.and_false, Bool.false_eq_true, if_false,
    producerChainContainer.getIndex, hq]

theorem mem_take_of_getElem? {α : Type} (cs : List α) (m j : Nat) (c : α) (hj : j < m)
    (hc : cs[j]? = some c) : c ∈ cs.take m := by
  apply List.getElem?_mem (n := j)
  rw [List.getElem?_take_of_lt hj]
  exact hc

theorem getElem?_of_mem_take {α : Type} (cs : List α) (m : Nat) (c : α) (hc : c ∈ cs.take m) :
    ∃ j, j < m ∧ cs[j]? = some c := by
  obtain ⟨n, hn⟩ := List.mem_iff_getElem?.mp hc
  by_cases hlt : n < m
  · exact ⟨n, hlt, by rw [← List.getElem?_take_of_lt hlt]; exact hn⟩
  · rw [List.getElem?_take_eq_none (by omega)] at hn
    simp at hn

/-- The queue after the first m containers of a batch were inserted: earlier
rows stay, each of the m containers has a row with its id, and no other row
was added. -/
theorem queue_after_prefix (h : Hashing) (p : producerChainContainer) (cs : List Container)
    (m : Nat) (rows : List TxPool) :
    (∀ r, r ∈ rows → r ∈ ((cs.take m).map (p.txPoolOf h)).foldl insertRow rows) ∧
    (∀ j c, j < m → cs[j]? = some c →
      ∃ r ∈ ((cs.take m).map (p.txPoolOf h)).foldl insertRow rows, r.ID = (p.txPoolOf h c).ID) ∧
    (∀ r, r ∈ ((cs.take m).map (p.txPoolOf h)).foldl insertRow rows →
      r ∈ rows ∨ ∃ j c, j < m ∧ cs[j]? = some c ∧ r = p.txPoolOf h c) := by
  refine ⟨fun r hr => mem_foldl_insertRow_of_mem _ rows r hr, ?_, ?_⟩
  · intro j c hj hc
    exact foldl_insertRow_has_id _ rows _
      (List.mem_map_of_mem _ (mem_take_of_getElem? cs m j c hj hc))
  · intro r hr
    rcases mem_foldl_insertRow _ rows r hr with h1 | h1
    · exact Or.inl h1
    · obtain ⟨c, hc, hrc⟩ := List.mem_map.mp h1
      obtain ⟨j, hj, hcj⟩ := getElem?_of_mem_take cs m c hc
      exact Or.inr ⟨j, c, hj, hcj, hrc.symm⟩

/-- The pass over a batch, whatever the storage does: the rows of some first
m containers were inserted, the checkpoint table is untouched, and the loop
ends without an error only when m is the whole batch. -/
theorem drain_general (h : Hashing) (o : Oracle) (p : producerChainContainer) :
    ∀ (cs : List Container) (k : Nat) (w : World),
      ∃ m, m ≤ cs.length ∧
        (p.drain h o k none cs w).1.txPool =
          ((cs.take m).map (p.txPoolOf h)).foldl insertRow w.txPool ∧
        (p.drain h o k none cs w).1.nodeIndex = w.nodeIndex ∧
        ((p.drain h o k none cs w).2 = none → m = cs.length) := by
  intro cs
  induction cs with
  | nil => intro k w; exact ⟨0, by simp [producerChainContainer.drain]⟩
  | cons c cs ih =>
    intro k w
    cases hf : o.insertFault k with
    | some f =>
      refine ⟨0, by simp, ?_⟩
      simp [producerChainContainer.drain, hf, UpdateTxPool_fault]
    | none =>
      simp only [producerChainContainer.drain, hf, UpdateTxPool_none]
      obtain ⟨m, hm, h1, h2, h3⟩ := ih (k + 1)
        ((({ w with txPool := insertRow w.txPool (p.txPoolOf h c),
                    trace := w.trace ++ [Event.Enqueue (p.txPoolOf h c)] } : World).emit
            (.CounterInc (.key p.metricProcessedCountKey))).emit
          (.CounterInc .MetricProduceProcessedCountKey))
      refine ⟨m + 1, by simpa using hm, ?_, ?_, ?_⟩
      · rw [h1]; simp [World.emit]
      · rw [h2]; simp [World.emit]
      · intro hnone; simpa using h3 hnone

/-- One call of ProcessNextMessage, whatever the ledger and the storage do:
either the worker and the checkpoint table are unchanged and the queue has
kept its rows, or the call completed a non-empty batch. -/
theorem ProcessNextMessage_step (h : Hashing) (o : Oracle) (p : producerChainContainer)
    (w : World) :
    ((p.ProcessNextMessage h o w).1 = p ∧
      (p.ProcessNextMessage h o w).2.1.nodeIndex = w.nodeIndex ∧
      (∀ r, r ∈ w.txPool → r ∈ (p.ProcessNextMessage h o w).2.1.txPool) ∧
      p.completesBatch h o w = false) ∨
    (∃ cs, o.GetContainerRange p.nodeIndex.Idx MaxTxRead = .ok cs ∧ cs ≠ [] ∧
      (p.ProcessNextMessage h o w).1 =
        { p with nodeIndex := { p.nodeIndex with
            Idx := (p.nodeIndex.Idx + uint64 ((cs.length : Int) - 1)) % 2 ^ 64 } } ∧
      (p.ProcessNextMessage h o w).2.1.nodeIndex =
        setIdx p.nodeinstance p.topic
          ((p.nodeIndex.Idx + uint64 ((cs.length : Int) - 1)) % 2 ^ 64) w.nodeIndex ∧
      (p.ProcessNextMessage h o w).2.1.txPool =
        (cs.map (p.txPoolOf h)).foldl insertRow w.txPool ∧
      p.completesBatch h o w = true) := by
  cases hL : o.GetContainerRange p.nodeIndex.Idx MaxTxRead with
  | error err =>
    left
    unfold producerChainContainer.completesBatch producerChainContainer.ProcessNextMessage
      producerChainContainer.ProcessNextMessageWith
    simp only [hL]
    by_cases hnr : IndexNotReady err = true
    · simp [hnr, World.emit]
    · simp [hnr, World.emit]
  | ok cs =>
    by_cases hlen : cs.length = 0
    · left
      have hcs : cs = [] := List.length_eq_zero.mp hlen
      unfold producerChainContainer.completesBatch producerChainContainer.ProcessNextMessage
        producerChainContainer.ProcessNextMessageWith
      simp [hL, hcs, World.emit]
    · have hne : cs ≠ [] := fun hc => hlen (by simp [hc])
      have hemp : cs.isEmpty = false := by
        cases cs with
        | nil => exact absurd rfl hne
        | cons c cs => rfl
      obtain ⟨m, _, h1, h2, h3⟩ := drain_general h o p cs 0
        (w.emit (.GetContainerRange p.nodeIndex.Idx MaxTxRead))
      cases hd : p.drain h o 0 none cs
          (w.emit (.GetContainerRange p.nodeIndex.Idx MaxTxRead)) with
      | mk w1 e1 =>
        rw [hd] at h1 h2 h3
        simp only at h1 h2 h3
        cases e1 with
        | some e =>
          left
          unfold producerChainContainer.completesBatch producerChainContainer.ProcessNextMessage
            producerChainContainer.ProcessNextMessageWith
          simp only [hL, hlen, if_false, hd]
          refine ⟨trivial, h2, ?_, by simp⟩
          intro r hr
          rw [h1]
          exact mem_foldl_insertRow_of_mem _ _ r hr
        | none =>
          have hm : m = cs.length := h3 rfl
          rw [hm, List.take_length] at h1
          cases hu : o.updateFault with
          | some f =>
            left
            unfold producerChainContainer.completesBatch producerChainContainer.ProcessNextMessage
              producerChainContainer.ProcessNextMessageWith
            simp only [hL, hlen, if_false, hd, producerChainContainer.updateNodeIndex, hu,
              UpdateNodeIndex_fault]
            refine ⟨trivial, h2, ?_, by simp⟩
            intro r hr
            rw [h1]
            exact mem_foldl_insertRow_of_mem _ _ r hr
          | none =>
            right
            refine ⟨cs, rfl, hne, ?_⟩
            unfold producerChainContainer.completesBatch producerChainContainer.ProcessNextMessage
              producerChainContainer.ProcessNextMessageWith
            simp only [hL, hlen, if_false, hd, producerChainContainer.updateNodeIndex, hu,
              UpdateNodeIndex_none]
            by_cases hlt : cs.length < MaxTxRead
            · simp [hlt, World.emit, h1, h2, hemp]
            · simp [hlt, h1, h2, hemp]

theorem QueryNodeIndex_congr (fault : Option Fault) (q : NodeIndex) (w w2 : World)
    (hn : w2.nodeIndex = w.nodeIndex) : QueryNodeIndex fault q w2 = QueryNodeIndex fault q w := by
  unfold QueryNodeIndex
  rw [hn]

theorem queued_mono (h : Hashing) (p : producerChainContainer) (w w2 : World) (c : Container)
    (hsub : ∀ r, r ∈ w.txPool → r ∈ w2.txPool) (hq : queued h p w c) : queued h p w2 c := by
  obtain ⟨r, hr, hid⟩ := hq
  exact ⟨r, hsub r hr, hid⟩

/-- The invariant of a worker is kept by every call of ProcessNextMessage, and
the cursor does not decrease. -/
theorem producerInv_step (h : Hashing) (chain : Nat → Container) (p0 p : producerChainContainer)
    (w : World) (done : Bool) (o : Oracle)
    (hinv : producerInv h chain p0 p w done) (hserve : servesChain chain o) :
    producerInv h chain p0 (p.ProcessNextMessage h o w).1 (p.ProcessNextMessage h o w).2.1
        (done || p.completesBatch h o w) ∧
      p.nodeIndex.Idx ≤ (p.ProcessNextMessage h o w).1.nodeIndex.Idx := by
  obtain ⟨hp, hle, hq, hbelow, hat⟩ := hinv
  rcases ProcessNextMessage_step h o p w with ⟨h1, h2, h3, h4⟩ | ⟨cs, hL, hne, h1, h2, h3, h4⟩
  · rw [h1, h4]
    refine ⟨⟨hp, hle, ?_, ?_, ?_⟩, le_refl _⟩
    · rw [QueryNodeIndex_congr none _ w _ h2]; exact hq
    · intro j hj1 hj2
      exact queued_mono h p0 w _ _ h3 (hbelow j hj1 hj2)
    · intro hdone
      exact queued_mono h p0 w _ _ h3 (hat (by simpa using hdone))
  · obtain ⟨hcont, hfit⟩ := hserve _ _ cs hL
    have hpos : 0 < cs.length := List.length_pos.mpr hne
    have hfit2 := hfit hne
    have hu : uint64 ((cs.length : Int) - 1) = cs.length - 1 :=
      uint64_pred_length cs hne (by omega)
    have hmod : (p.nodeIndex.Idx + (cs.length - 1)) % 2 ^ 64 = p.nodeIndex.Idx + (cs.length - 1) :=
      Nat.mod_eq_of_lt (by omega)
    rw [hu, hmod] at h1 h2
    have hinst : p.nodeinstance = p0.nodeinstance := by rw [hp]
    have htopic : p.topic = p0.topic := by rw [hp]
    have hentry : ∀ c, p.txPoolOf h c = p0.txPoolOf h c := by
      intro c; rw [hp]; rfl
    have hsub : ∀ r, r ∈ w.txPool → r ∈ (p.ProcessNextMessage h o w).2.1.txPool := by
      intro r hr; rw [h3]; exact mem_foldl_insertRow_of_mem _ _ r hr
    have hnew : ∀ j, p.nodeIndex.Idx ≤ j → j ≤ p.nodeIndex.Idx + (cs.length - 1) →
        queued h p0 (p.ProcessNextMessage h o w).2.1 (chain j) := by
      intro j hj1 hj2
      have hc := hcont (j - p.nodeIndex.Idx) (by omega)
      have hjj : p.nodeIndex.Idx + (j - p.nodeIndex.Idx) = j := by omega
      rw [hjj] at hc
      have hmem : p.txPoolOf h (chain j) ∈ cs.map (p.txPoolOf h) :=
        List.mem_map_of_mem _ (List.getElem?_mem hc)
      obtain ⟨r, hr, hid⟩ := foldl_insertRow_has_id _ w.txPool _ hmem
      refine ⟨r, ?_, ?_⟩
      · rw [h3]; exact hr
      · rw [hid, hentry]
    rw [h4, h1]
    refine ⟨⟨?_, ?_, ?_, ?_, ?_⟩, ?_⟩
    · simp only
      rw [hp]
    · simp only; omega
    · simp only
      rw [QueryNodeIndex_congr none _
        { txPool := [], nodeIndex := setIdx p.nodeinstance p.topic
            (p.nodeIndex.Idx + (cs.length - 1)) w.nodeIndex, trace := [] } _ (by rw [h2])]
      rw [hinst, htopic]
      exact QueryNodeIndex_setIdx p0.nodeinstance p0.topic _ 0 w _ _ _ hq
    · intro j hj1 hj2
      simp only at hj2
      by_cases hlt : j < p.nodeIndex.Idx
      · exact queued_mono h p0 w _ _ hsub (hbelow j hj1 hlt)
      · exact hnew j (by omega) (by omega)
    · intro _
      simp only
      exact hnew _ (by omega) (le_refl _)
    · simp only; omega

/-- The invariant of a worker is kept by every sequence of calls, and the
cursor does not decrease over it. -/
theorem producerInv_calls (h : Hashing) (chain : Nat → Container) (p0 : producerChainContainer) :
    ∀ (os : List Oracle) (p : producerChainContainer) (w : World) (done : Bool),
      producerInv h chain p0 p w done → (∀ o, o ∈ os → servesChain chain o) →
      producerInv h chain p0 (p.calls h os w done).1 (p.calls h os w done).2.1
          (p.calls h os w done).2.2 ∧
        p.nodeIndex.Idx ≤ (p.calls h os w done).1.nodeIndex.Idx := by
  intro os
  induction os with
  | nil => intro p w done hinv _; exact ⟨hinv, le_refl _⟩
  | cons o os ih =>
    intro p w done hinv hserve
    obtain ⟨hstep, hle⟩ := producerInv_step h chain p0 p w done o hinv
      (hserve o (List.mem_cons_self _ _))
    obtain ⟨hrest, hle2⟩ := ih _ _ _ hstep (fun o2 ho2 => hserve o2 (List.mem_cons_of_mem _ ho2))
    simp only [producerChainContainer.calls]
    exact ⟨hrest, le_trans hle hle2⟩

theorem calls_append (h : Hashing) :
    ∀ (os1 os2 : List Oracle) (p : producerChainContainer) (w : World) (done : Bool),
      p.calls h (os1 ++ os2) w done =
        (p.calls h os1 w done).1.calls h os2 (p.calls h os1 w done).2.1
          (p.calls h os1 w done).2.2 := by
  intro os1
  induction os1 with
  | nil => intro os2 p w done; rfl
  | cons o os1 ih =>
    intro os2 p w done
    simp only [List.cons_append, producerChainContainer.calls]
    exact ih os2 _ _ _

/-- A ledger over a list of containers serves contiguous ranges of them. -/
theorem listLedger_servesChain (chain : Nat → Container) (l : List Container)
    (insertFault : Nat → Option Fault) (updateFault : Option Fault)
    (hl : ∀ i, i < l.length → l[i]? = some (chain i)) (hlen : l.length ≤ 2 ^ 64) :
    servesChain chain
      { GetContainerRange := listLedger l, insertFault := insertFault,
        updateFault := updateFault } := by
  intro start limit cs hcs
  simp only [listLedger] at hcs
  by_cases hs : start < l.length
  · simp only [hs, if_true, Except.ok.injEq] at hcs
    subst hcs
    have hlen2 : ((l.drop start).take limit).length ≤ l.length - start := by
      simp only [List.length_take, List.length_drop]
      omega
    constructor
    · intro t ht
      rw [List.getElem?_take_of_lt (by simp only [List.length_take] at ht; omega),
        List.getElem?_drop]
      exact hl _ (by omega)
    · intro _
      omega
  · simp [hs] at hcs

theorem rowsWithID_eq_count (id : String) (rows : List TxPool) :
    rowsWithID id rows = (rows.map TxPool.ID).count id := by
  unfold rowsWithID
  induction rows with
  | nil => rfl
  | cons r rows ih =>
    by_cases hr : r.ID = id
    · simp [List.countP_cons, hr, ih]
    · have hr2 : ¬ (r.ID == id) = true := by simpa using hr
      simp [List.countP_cons, hr, ih, List.count_cons, hr2]

theorem rowsWithID_of_any (id : String) (rows : List TxPool)
    (hmap : (rows.map TxPool.ID).Nodup)
    (hany : (rows.any (fun r => decide (r.ID = id))) = true) : rowsWithID id rows = 1 := by
  rw [rowsWithID_eq_count]
  obtain ⟨r, hr, hid⟩ := List.any_eq_true.mp hany
  have hmem : id ∈ rows.map TxPool.ID := by
    have := List.mem_map_of_mem TxPool.ID hr
    simpa [of_decide_eq_true hid] using this
  exact List.count_eq_one_of_mem hmap hmem

theorem rowsWithID_of_not_any (id : String) (rows : List TxPool)
    (hany : ¬ (rows.any (fun r => decide (r.ID = id))) = true) : rowsWithID id rows = 0 := by
  unfold rowsWithID
  rw [List.countP_eq_zero]
  intro r hr hid
  exact hany (List.any_eq_true.mpr ⟨r, hr, hid⟩)

theorem insertRow_of_any (rows : List TxPool) (v : TxPool)
    (hany : (rows.any (fun r => decide (r.ID = v.ID))) = true) : insertRow rows v = rows := by
  unfold insertRow
  rw [if_pos hany]

theorem insertRow_insertRow_same_id (rows : List TxPool) (e e2 : TxPool) (hid : e2.ID = e.ID) :
    insertRow (insertRow rows e) e2 = insertRow rows e := by
  have hany : ((insertRow rows e).any (fun r => decide (r.ID = e2.ID))) = true := by
    obtain ⟨r, hr, hrid⟩ := insertRow_has_id rows e
    exact List.any_eq_true.mpr ⟨r, hr, by simp [hrid, hid]⟩
  exact insertRow_of_any _ _ hany

theorem any_id_iff (rows : List TxPool) (id : String) :
    (rows.any (fun r => decide (r.ID = id))) = true ↔ id ∈ rows.map TxPool.ID := by
  rw [List.any_eq_true, List.mem_map]
  constructor
  · rintro ⟨r, hr, hid⟩
    exact ⟨r, hr, of_decide_eq_true hid⟩
  · rintro ⟨r, hr, hid⟩
    exact ⟨r, hr, decide_eq_true hid⟩

theorem insertRow_nodup (rows : List TxPool) (v : TxPool) (hmap : (rows.map TxPool.ID).Nodup) :
    ((insertRow rows v).map TxPool.ID).Nodup := by
  unfold insertRow
  by_cases hany : (rows.any (fun r => decide (r.ID = v.ID))) = true
  · rw [if_pos hany]; exact hmap
  · rw [if_neg hany]
    have hnot : v.ID ∉ rows.map TxPool.ID := fun hm => hany ((any_id_iff rows v.ID).mpr hm)
    rw [List.map_append]
    apply List.Nodup.append hmap (by simp)
    intro x hx hx2
    simp only [List.map_cons, List.map_nil, List.mem_singleton] at hx2
    subst hx2
    exact hnot hx

/-- A pass of inserts keeps the queue a map keyed by id. -/
theorem foldl_insertRow_nodup (vs : List TxPool) :
    ∀ rows : List TxPool, (rows.map TxPool.ID).Nodup →
      ((vs.foldl insertRow rows).map TxPool.ID).Nodup := by
  induction vs with
  | nil => intro rows hmap; simpa using hmap
  | cons v vs ih =>
    intro rows hmap
    simp only [List.foldl_cons]
    exact ih _ (insertRow_nodup rows v hmap)

/-- A pass of inserts of entries whose ids are all queued changes nothing. -/
theorem foldl_insertRow_of_present (vs : List TxPool) :
    ∀ rows : List TxPool, (∀ v, v ∈ vs → v.ID ∈ rows.map TxPool.ID) →
      vs.foldl insertRow rows = rows := by
  induction vs with
  | nil => intro rows _; rfl
  | cons v vs ih =>
    intro rows hpres
    simp only [List.foldl_cons]
    have hv : insertRow rows v = rows :=
      insertRow_of_any rows v ((any_id_iff rows v.ID).mpr (hpres v (List.mem_cons_self _ _)))
    rw [hv]
    exact ih rows (fun v2 hv2 => hpres v2 (List.mem_cons_of_mem _ hv2))

theorem foldl_insertRow_append_resume (a b rows : List TxPool) :
    (a ++ b).foldl insertRow (a.foldl insertRow rows) = (a ++ b).foldl insertRow rows := by
  have hpres : ∀ v, v ∈ a → v.ID ∈ (a.foldl insertRow rows).map TxPool.ID := by
    intro v hv
    obtain ⟨r, hr, hid⟩ := foldl_insertRow_has_id a rows v hv
    rw [← hid]
    exact List.mem_map_of_mem _ hr
  rw [List.foldl_append, List.foldl_append, foldl_insertRow_of_present a _ hpres]

/-- Inserting a batch into a queue that already got its first k entries gives
the queue that inserting the batch alone gives. -/
theorem foldl_insertRow_resume (vs rows : List TxPool) (k : Nat) :
    vs.foldl insertRow ((vs.take k).foldl insertRow rows) = vs.foldl insertRow rows := by
  have hres := foldl_insertRow_append_resume (vs.take k) (vs.drop k) rows
  rw [List.take_append_drop] at hres
  exact hres

/-- In a queue that is a map keyed by id and has a row for each of the
pairwise distinct ids, the rows with one of these ids are as many as the ids. -/
theorem rowsWithIDs_eq_length (ids : List String) (rows : List TxPool)
    (hids : ids.Nodup) (hmap : (rows.map TxPool.ID).Nodup)
    (hall : ∀ id, id ∈ ids → id ∈ rows.map TxPool.ID) :
    rowsWithIDs ids rows = ids.length := by
  unfold rowsWithIDs
  have h1 : rows.countP (fun r => decide (r.ID ∈ ids)) =
      ((rows.map TxPool.ID).filter (fun id => decide (id ∈ ids))).length := by
    rw [← List.countP_eq_length_filter, List.countP_map]
    rfl
  rw [h1]
  apply List.Perm.length_eq
  rw [List.perm_ext_iff_of_nodup (List.Nodup.filter _ hmap) hids]
  intro id
  simp only [List.mem_filter, decide_eq_true_eq]
  constructor
  · exact fun hx => hx.2
  · exact fun hx => ⟨hall id hx, hx⟩

theorem requests_append (a b : List Event) : requests (a ++ b) = requests a ++ requests b := by
  simp [requests, List.filterMap_append]

theorem polledBatches_append (o : Oracle) (a b : List Event) :
    polledBatches o (a ++ b) = polledBatches o a ++ polledBatches o b := by
  simp [polledBatches, requests_append, List.filterMap_append]

theorem repeatWith_add (maxTxRead : Nat) (h : Hashing) (o : Oracle) :
    ∀ (m n : Nat) (p : producerChainContainer) (w : World),
      p.repeatWith maxTxRead h o (m + n) w =
        (p.repeatWith maxTxRead h o m w).1.repeatWith maxTxRead h o n
          (p.repeatWith maxTxRead h o m w).2 := by
  intro m
  induction m with
  | zero => intro n p w; simp [producerChainContainer.repeatWith]
  | succ m ih =>
    intro n p w
    have hmn : m + 1 + n = (m + n) + 1 := by omega
    rw [hmn]
    simp only [producerChainContainer.repeatWith]
    exact ih n _ _

/-- The pass over a batch only appends to the trace. -/
theorem drain_trace (h : Hashing) (o : Oracle) (p : producerChainContainer) :
    ∀ (cs : List Container) (k : Nat) (w : World),
      ∃ evs, (p.drain h o k none cs w).1.trace = w.trace ++ evs := by
  intro cs
  induction cs with
  | nil => intro k w; exact ⟨[], by simp [producerChainContainer.drain]⟩
  | cons c cs ih =>
    intro k w
    cases hf : o.insertFault k with
    | some f =>
      exact ⟨[], by simp [producerChainContainer.drain, hf, UpdateTxPool_fault]⟩
    | none =>
      simp only [producerChainContainer.drain, hf, UpdateTxPool_none]
      obtain ⟨evs, hevs⟩ := ih (k + 1)
        ((({ w with txPool := insertRow w.txPool (p.txPoolOf h c),
                    trace := w.trace ++ [Event.Enqueue (p.txPoolOf h c)] } : World).emit
            (.CounterInc (.key p.metricProcessedCountKey))).emit
          (.CounterInc .MetricProduceProcessedCountKey))
      refine ⟨[Event.Enqueue (p.txPoolOf h c), Event.CounterInc (.key p.metricProcessedCountKey),
        Event.CounterInc .MetricProduceProcessedCountKey] ++ evs, ?_⟩
      rw [hevs]
      simp [World.emit]

/-- Every call of ProcessNextMessage first requests, from the ledger, the
range that starts at the in-memory cursor. -/
theorem ProcessNextMessageWith_requests_cursor (maxTxRead : Nat) (h : Hashing) (o : Oracle)
    (p : producerChainContainer) (w : World) :
    ∃ rest, (p.ProcessNextMessageWith maxTxRead h o w).2.1.trace =
      w.trace ++ Event.GetContainerRange p.nodeIndex.Idx maxTxRead :: rest := by
  unfold producerChainContainer.ProcessNextMessageWith
  cases hL : o.GetContainerRange p.nodeIndex.Idx maxTxRead with
  | error err =>
    by_cases hnr : IndexNotReady err = true
    · exact ⟨[Event.Sleep readRPCTimeout], by simp [hnr, World.emit]⟩
    · exact ⟨[Event.Sleep readRPCTimeout], by simp [hnr, World.emit]⟩
  | ok cs =>
    by_cases hlen : cs.length = 0
    · exact ⟨[Event.Sleep readRPCTimeout], by simp [hlen, World.emit]⟩
    · obtain ⟨evs, hevs⟩ := drain_trace h o p cs 0
        (w.emit (.GetContainerRange p.nodeIndex.Idx maxTxRead))
      simp only [hlen, if_false]
      cases hd : p.drain h o 0 none cs
          (w.emit (.GetContainerRange p.nodeIndex.Idx maxTxRead)) with
      | mk w1 e1 =>
        rw [hd] at hevs
        simp only [emit_trace] at hevs
        cases e1 with
        | some e => exact ⟨evs, by simp [hevs]⟩
        | none =>
          cases hu : o.updateFault with
          | some f =>
            exact ⟨evs, by
              simp [producerChainContainer.updateNodeIndex, UpdateNodeIndex_fault, hevs]⟩
          | none =>
            by_cases hlt : cs.length < maxTxRead
            · exact ⟨evs ++ [Event.Sleep readRPCTimeout], by
                simp [producerChainContainer.updateNodeIndex, UpdateNodeIndex_none, hevs, hlt,
                  World.emit]⟩
            · exact ⟨evs, by
                simp [producerChainContainer.updateNodeIndex, UpdateNodeIndex_none, hevs, hlt]⟩

/-- A poll of the example worker at cursor 4, with batch limit 2, once the
five containers are queued and the checkpoint is 4: the ledger returns the
container at index 4 again and neither the worker nor the tables change. -/
theorem exWorkerAt_four_poll (w : World)
    (hq : w.txPool = exChain.map (exWorker.txPoolOf exHashing))
    (hn : w.nodeIndex = [{ Instance := "default", Topic := "1-ch-decisions", Idx := 4 }]) :
    (exWorkerAt 4).ProcessNextMessageWith 2 exHashing exOracle w =
      (exWorkerAt 4,
        { txPool := w.txPool
          nodeIndex := w.nodeIndex
          trace := w.trace ++ [Event.GetContainerRange 4 2] ++
            drainEvents exHashing (exWorkerAt 4) [exChainAt 4] ++ [Event.Sleep readRPCTimeout] },
        none) := by
  rw [ProcessNextMessageWith_ok 2 exHashing exOracle (exWorkerAt 4) w [exChainAt 4] rfl
    (by decide) (fun _ _ => rfl) rfl (by decide)]
  rw [hq, hn]
  have h1 : ([exChainAt 4].map ((exWorkerAt 4).txPoolOf exHashing)).foldl insertRow
      (exChain.map (exWorker.txPoolOf exHashing)) = exChain.map (exWorker.txPoolOf exHashing) := by
    decide
  have h2 : setIdx (exWorkerAt 4).nodeinstance (exWorkerAt 4).topic
      ((exWorkerAt 4).nodeIndex.Idx + ([exChainAt 4].length - 1))
      [{ Instance := "default", Topic := "1-ch-decisions", Idx := 4 }] =
      [{ Instance := "default", Topic := "1-ch-decisions", Idx := 4 }] := by
    decide
  rw [h1, h2]
  rfl

theorem exWorkerAt_four_repeat :
    ∀ (n : Nat) (w : World), w.txPool = exChain.map (exWorker.txPoolOf exHashing) →
      w.nodeIndex = [{ Instance := "default", Topic := "1-ch-decisions", Idx := 4 }] →
      ((exWorkerAt 4).repeatWith 2 exHashing exOracle n w).1 = exWorkerAt 4 ∧
      ((exWorkerAt 4).repeatWith 2 exHashing exOracle n w).2.txPool = w.txPool ∧
      ((exWorkerAt 4).repeatWith 2 exHashing exOracle n w).2.nodeIndex = w.nodeIndex ∧
      polledBatches exOracle ((exWorkerAt 4).repeatWith 2 exHashing exOracle n w).2.trace =
        polledBatches exOracle w.trace ++ List.replicate n [exChainAt 4] := by
  intro n
  induction n with
  | zero => intro w _ _; simp [producerChainContainer.repeatWith]
  | succ n ih =>
    intro w hq hn
    simp only [producerChainContainer.repeatWith, exWorkerAt_four_poll w hq hn]
    obtain ⟨h1, h2, h3, h4⟩ := ih
      { txPool := w.txPool
        nodeIndex := w.nodeIndex
        trace := w.trace ++ [Event.GetContainerRange 4 2] ++
          drainEvents exHashing (exWorkerAt 4) [exChainAt 4] ++ [Event.Sleep readRPCTimeout] }
      hq hn
    refine ⟨h1, h2, h3, ?_⟩
    rw [h4]
    have hblock : polledBatches exOracle ([Event.GetContainerRange 4 2] ++
        drainEvents exHashing (exWorkerAt 4) [exChainAt 4] ++ [Event.Sleep readRPCTimeout]) =
        [[exChainAt 4]] := by
      decide
    rw [List.append_assoc, List.append_assoc, polledBatches_append, ← List.append_assoc, hblock,
      List.append_assoc]
    rfl

theorem persistConsume_op (c : consumerDB) (d : Decoder) (attempt : Nat) (msg : Message)
    (w : World) (op : DecoderOp)
    (hop : (c.eventType = EventTypeDecisions ∧ op = .Consume) ∨
      (c.eventType = EventTypeConsensus ∧ op = .ConsumeConsensus)) :
    c.persistConsume d attempt msg w = (w.emit (.Decode op msg), d op attempt msg) := by
  unfold consumerDB.persistConsume
  rcases hop with ⟨hc, hop⟩ | ⟨hc, hop⟩
  · simp [hc, hop]
  · have hne : EventTypeConsensus ≠ EventTypeDecisions := by decide
    simp [hc, hop, hne]

/-- The retry loop ends at the first attempt whose result is not a lock error,
when the fuel allows that many attempts. -/
theorem retryLoop_ends (c : consumerDB) (d : Decoder) (msg : Message) (op : DecoderOp)
    (hop : (c.eventType = EventTypeDecisions ∧ op = .Consume) ∨
      (c.eventType = EventTypeConsensus ∧ op = .ConsumeConsensus)) :
    ∀ (k fuel attempt : Nat) (w : World),
      (∀ j, j < k → ErrIsLockError (d op (attempt + j) msg) = true) →
      ErrIsLockError (d op (attempt + k) msg) = false →
      k < fuel →
      c.retryLoop d msg fuel attempt w =
        some ({ w with trace := w.trace ++ retryEvents op msg k ++ [Event.Decode op msg] },
          d op (attempt + k) msg) := by
  intro k
  induction k with
  | zero =>
    intro fuel attempt w _ hres hfuel
    obtain ⟨fuel, rfl⟩ : ∃ n, fuel = n + 1 := ⟨fuel - 1, by omega⟩
    simp only [Nat.add_zero] at hres
    simp [consumerDB.retryLoop, persistConsume_op c d attempt msg w op hop, hres, retryEvents,
      World.emit]
  | succ k ih =>
    intro fuel attempt w hlock hres hfuel
    obtain ⟨fuel, rfl⟩ : ∃ n, fuel = n + 1 := ⟨fuel - 1, by omega⟩
    have h0 : ErrIsLockError (d op attempt msg) = true := by simpa using hlock 0 (by omega)
    have hlock2 : ∀ j, j < k → ErrIsLockError (d op (attempt + 1 + j) msg) = true := by
      intro j hj
      have := hlock (j + 1) (by omega)
      simpa [Nat.add_assoc, Nat.add_comm 1 j] using this
    have hres2 : ErrIsLockError (d op (attempt + 1 + k) msg) = false := by
      simpa [Nat.add_assoc, Nat.add_comm 1 k] using hres
    simp only [consumerDB.retryLoop, persistConsume_op c d attempt msg w op hop, h0,
      Bool.not_true, Bool.false_eq_true, if_false]
    rw [ih fuel (attempt + 1) _ hlock2 hres2 (by omega)]
    have hidx : attempt + 1 + k = attempt + (k + 1) := by omega
    simp [World.emit, retryEvents, hidx, List.append_assoc]

theorem decodeCalls_append (a b : List Event) :
    decodeCalls (a ++ b) = decodeCalls a + decodeCalls b := by
  simp [decodeCalls, List.countP_append]

theorem counterIncs_append (key : MetricKey) (a b : List Event) :
    counterIncs key (a ++ b) = counterIncs key a + counterIncs key b := by
  simp [counterIncs, List.count_append]

theorem decodeCalls_retryEvents (op : DecoderOp) (msg : Message) (k : Nat) :
    decodeCalls (retryEvents op msg k) = k := by
  induction k with
  | zero => rfl
  | succ k ih =>
    simp only [retryEvents, decodeCalls_append, ih]
    simp [decodeCalls, List.countP_cons]
    omega

theorem counterIncs_retryEvents (key : MetricKey) (op : DecoderOp) (msg : Message) (k : Nat) :
    counterIncs key (retryEvents op msg k) = 0 := by
  induction k with
  | zero => rfl
  | succ k ih =>
    simp only [retryEvents, counterIncs_append, ih]
    simp [counterIncs, List.count_cons]

theorem count_balance_retryEvents (op : DecoderOp) (msg : Message) (k : Nat) :
    (retryEvents op msg k).count Event.BalanceManagerExec = 0 := by
  induction k with
  | zero => rfl
  | succ k ih =>
    simp only [retryEvents, List.count_append, ih]
    simp [List.count_cons]

theorem any_key_eq_isSome_find (v : NodeIndex) (rows : List NodeIndex) :
    rows.any (fun r => decide ((r.Instance, r.Topic) = (v.Instance, v.Topic))) =
      (rows.find? (whereInstanceTopic v.Instance v.Topic)).isSome := by
  induction rows with
  | nil => rfl
  | cons r rows ih =>
    by_cases hr : whereInstanceTopic v.Instance v.Topic r = true
    · have hk := (whereInstanceTopic_iff v.Instance v.Topic r).mp hr
      simp [List.find?, hr, hk.1, hk.2]
    · have hk : ¬ (r.Instance = v.Instance ∧ r.Topic = v.Topic) := fun hk =>
        hr ((whereInstanceTopic_iff v.Instance v.Topic r).mpr hk)
      have hk2 : ¬ (r.Instance, r.Topic) = (v.Instance, v.Topic) := by
        intro hp
        exact hk ⟨congrArg Prod.fst hp, congrArg Prod.snd hp⟩
      simp only [List.any_cons, hk2, decide_False, Bool.false_or, List.find?, hr]
      exact ih

/-- What InsertNodeIndex does when the storage layer executes its statements:
the row is added unless its key is present, and with upd the index of the row
of the key is then set. -/
theorem InsertNodeIndex_none (v : NodeIndex) (upd : Bool) (w : World) :
    InsertNodeIndex none none v upd w =
      ({ w with nodeIndex :=
          if upd then setIdx v.Instance v.Topic v.Idx (addNodeIndex w.nodeIndex v)
          else addNodeIndex w.nodeIndex v }, none) := by
  unfold InsertNodeIndex sqlInsert sqlUpdate addNodeIndex
  simp only [any_key_eq_isSome_find]
  cases hf : (w.nodeIndex.find? (whereInstanceTopic v.Instance v.Topic)).isSome <;>
    cases upd <;>
    simp [ErrIsDuplicateEntryError, GoError.isDuplicateEntry, setIdx]

theorem QueryNodeIndex_eq (q : NodeIndex) (w : World) :
    QueryNodeIndex none q w =
      match w.nodeIndex.find? (whereInstanceTopic q.Instance q.Topic) with
      | some r => .ok r
      | none => .error .ErrNotFound := by
  unfold QueryNodeIndex sqlLoadOne
  cases w.nodeIndex.find? (whereInstanceTopic q.Instance q.Topic) <;> rfl

theorem find_append_self (v : NodeIndex) (rows : List NodeIndex)
    (hnone : rows.find? (whereInstanceTopic v.Instance v.Topic) = none) :
    (rows ++ [v]).find? (whereInstanceTopic v.Instance v.Topic) = some v := by
  have hv : whereInstanceTopic v.Instance v.Topic v = true :=
    (whereInstanceTopic_iff _ _ _).mpr ⟨rfl, rfl⟩
  rw [List.find?_append, hnone]
  simp [List.find?, hv]

/-- A worker start on a store without the checkpoint row of (instance, topic),
with cfg.PerformUpdates false and no failure: the row is created with index 0
and the cursor is 0. -/
theorem newContainer_absent_row (conf : Config) (topic chainID : String)
    (indexerChain : IndexedChain) (key : String) (w : World)
    (hq : QueryNodeIndex none { Instance := conf.NodeInstance, Topic := topic, Idx := 0 } w =
      .error .ErrNotFound) :
    newContainer false
        { database := none, insertFault := none, updateFault := none, queryFault := none }
        conf topic chainID indexerChain key w =
      ({ w with nodeIndex :=
          w.nodeIndex ++ [{ Instance := conf.NodeInstance, Topic := topic, Idx := 0 }] }, .ok
        { conf := conf
          nodeIndex := { Instance := conf.NodeInstance, Topic := topic, Idx := 0 }
          nodeinstance := conf.NodeInstance
          topic := topic
          chainID := chainID
          indexerChain := indexerChain
          metricProcessedCountKey := key }) := by
  have hfind : w.nodeIndex.find? (whereInstanceTopic conf.NodeInstance topic) = none := by
    rw [QueryNodeIndex_eq] at hq
    cases hf : w.nodeIndex.find? (whereInstanceTopic conf.NodeInstance topic) with
    | none => rfl
    | some r1 => simp [hf] at hq
  have hfind2 := find_append_self { Instance := conf.NodeInstance, Topic := topic, Idx := 0 }
    w.nodeIndex hfind
  simp only at hfind2
  unfold newContainer producerChainContainer.insertNodeIndex
  simp only [InsertNodeIndex_none, addNodeIndex, hfind, Option.isSome_none, Bool.false_eq_true,
    if_false, producerChainContainer.getIndex, QueryNodeIndex_eq, hfind2]

theorem digitChar_ne_hyphen (m : Nat) (hm : m < 10) : Nat.digitChar m ≠ '-' := by
  interval_cases m <;> decide

theorem digitChar_value (m : Nat) (hm : m < 10) : (Nat.digitChar m).toNat - 48 = m := by
  interval_cases m <;> decide

theorem toDigitsCore_no_hyphen :
    ∀ (fuel n : Nat) (ds : List Char), (∀ c, c ∈ ds → c ≠ '-') →
      ∀ c, c ∈ Nat.toDigitsCore 10 fuel n ds → c ≠ '-' := by
  intro fuel
  induction fuel with
  | zero => intro n ds hds c hc; exact hds c (by simpa [Nat.toDigitsCore] using hc)
  | succ fuel ih =>
    intro n ds hds c hc
    have hd : ∀ c, c ∈ Nat.digitChar (n % 10) :: ds → c ≠ '-' := by
      intro c hc
      rcases List.mem_cons.mp hc with h1 | h1
      · rw [h1]; exact digitChar_ne_hyphen _ (Nat.mod_lt _ (by decide))
      · exact hds c h1
    simp only [Nat.toDigitsCore] at hc
    split at hc
    · exact hd c hc
    · exact ih _ _ hd c hc

theorem toDigitsCore_value :
    ∀ (fuel n : Nat) (ds : List Char), n < fuel →
      ∃ pre, Nat.toDigitsCore 10 fuel n ds = pre ++ ds ∧ digitsValue pre = n := by
  intro fuel
  induction fuel with
  | zero => intro n ds hn; omega
  | succ fuel ih =>
    intro n ds hn
    simp only [Nat.toDigitsCore]
    by_cases h0 : n / 10 = 0
    · simp only [h0, if_true]
      refine ⟨[Nat.digitChar (n % 10)], rfl, ?_⟩
      have hlt : n < 10 := by omega
      simp only [digitsValue, List.foldl_cons, List.foldl_nil, Nat.mul_zero, Nat.zero_add]
      rw [digitChar_value _ (Nat.mod_lt _ (by decide))]
      exact Nat.mod_eq_of_lt hlt
    · simp only [h0, if_false]
      obtain ⟨pre, hpre, hval⟩ := ih (n / 10) (Nat.digitChar (n % 10) :: ds) (by omega)
      refine ⟨pre ++ [Nat.digitChar (n % 10)], by rw [hpre]; simp, ?_⟩
      unfold digitsValue at hval ⊢
      rw [List.foldl_append, hval]
      simp only [List.foldl_cons, List.foldl_nil]
      rw [digitChar_value _ (Nat.mod_lt _ (by decide))]
      omega

theorem decimal_no_hyphen (n : Nat) : ∀ c, c ∈ (decimal n).data → c ≠ '-' := by
  intro c hc
  exact toDigitsCore_no_hyphen (n + 1) n [] (by simp) c hc

theorem decimal_value (n : Nat) : digitsValue (decimal n).data = n := by
  obtain ⟨pre, hpre, hval⟩ := toDigitsCore_value (n + 1) n [] (by omega)
  have hdata : (decimal n).data = pre := by
    simp only [decimal, Nat.toDigits, hpre, List.append_nil]
  rw [hdata, hval]

theorem decimal_injective (m n : Nat) (h : decimal m = decimal n) : m = n := by
  rw [← decimal_value m, ← decimal_value n, h]

theorem splitChars_ne_nil (sep : Char) (s : List Char) : splitChars sep s ≠ [] := by
  cases s with
  | nil => simp [splitChars]
  | cons c s =>
    simp only [splitChars]
    split
    · simp
    · split <;> simp

/-- A string without the separator is one part. -/
theorem splitChars_of_not_mem (sep : Char) :
    ∀ s : List Char, (∀ c, c ∈ s → c ≠ sep) → splitChars sep s = [s] := by
  intro s
  induction s with
  | nil => intro _; rfl
  | cons c s ih =>
    intro hs
    have hc : c ≠ sep := hs c (List.mem_cons_self _ _)
    have ih2 := ih (fun c2 hc2 => hs c2 (List.mem_cons_of_mem _ hc2))
    simp only [splitChars, hc, if_false, ih2]

/-- The first part of a string ends at the first separator. -/
theorem splitChars_append (sep : Char) (rest : List Char) :
    ∀ a : List Char, (∀ c, c ∈ a → c ≠ sep) →
      splitChars sep (a ++ sep :: rest) = a :: splitChars sep rest := by
  intro a
  induction a with
  | nil => intro _; simp [splitChars]
  | cons c a ih =>
    intro ha
    have hc : c ≠ sep := ha c (List.mem_cons_self _ _)
    have ih2 := ih (fun c2 hc2 => ha c2 (List.mem_cons_of_mem _ hc2))
    have happ : a.append (sep :: rest) = a ++ sep :: rest := rfl
    simp only [List.cons_append, splitChars, hc, if_false, happ, ih2]

theorem eventType_no_hyphen (eventType : EventType)
    (hevent : eventType = EventTypeDecisions ∨ eventType = EventTypeConsensus) :
    ∀ c, c ∈ eventType.data → c ≠ '-' := by
  rcases hevent with h | h <;> subst h <;> decide

/-- The three parts of a topic name whose chain id and event type have no hyphen. -/
theorem stringsSplit_GetTopicName (networkID : Nat) (chainID : String) (eventType : EventType)
    (hchain : ∀ c, c ∈ chainID.data → c ≠ '-')
    (hevent : ∀ c, c ∈ eventType.data → c ≠ '-') :
    stringsSplit (GetTopicName networkID chainID eventType) '-' =
      [decimal networkID, chainID, eventType] := by
  have hdata : (GetTopicName networkID chainID eventType).data =
      (decimal networkID).data ++ '-' :: (chainID.data ++ '-' :: eventType.data) := by
    simp [GetTopicName, String.data_append]
  unfold stringsSplit
  rw [hdata, splitChars_append '-' _ _ (decimal_no_hyphen networkID),
    splitChars_append '-' _ _ hchain, splitChars_of_not_mem '-' _ hevent]
  rfl

theorem enqueued_append (a b : List Event) : enqueued (a ++ b) = enqueued a ++ enqueued b := by
  simp [enqueued, List.filterMap_append]

/-- The entries that a pass over a batch enqueues are those built for some
first m containers, all of them when the loop ends without an error. -/
theorem drain_enqueued (h : Hashing) (o : Oracle) (p : producerChainContainer) :
    ∀ (cs : List Container) (k : Nat) (w : World),
      ∃ m, m ≤ cs.length ∧
        enqueued (p.drain h o k none cs w).1.trace =
          enqueued w.trace ++ (cs.take m).map (p.txPoolOf h) ∧
        ((p.drain h o k none cs w).2 = none → m = cs.length) := by
  intro cs
  induction cs with
  | nil => intro k w; exact ⟨0, by simp [producerChainContainer.drain]⟩
  | cons c cs ih =>
    intro k w
    cases hf : o.insertFault k with
    | some f =>
      refine ⟨0, by simp, ?_⟩
      simp [producerChainContainer.drain, hf, UpdateTxPool_fault]
    | none =>
      simp only [producerChainContainer.drain, hf, UpdateTxPool_none]
      obtain ⟨m, hm, h1, h2⟩ := ih (k + 1)
        ((({ w with txPool := insertRow w.txPool (p.txPoolOf h c),
                    trace := w.trace ++ [Event.Enqueue (p.txPoolOf h c)] } : World).emit
            (.CounterInc (.key p.metricProcessedCountKey))).emit
          (.CounterInc .MetricProduceProcessedCountKey))
      refine ⟨m + 1, by simpa using hm, ?_, ?_⟩
      · rw [h1]
        simp [World.emit, enqueued, List.filterMap_append]
      · intro hnone; simpa using h2 hnone

/-- The entries that one call of ProcessNextMessage enqueues are those built
for some first m containers of the batch, all of them when it returns nil. -/
theorem ProcessNextMessageWith_enqueued (maxTxRead : Nat) (h : Hashing) (o : Oracle)
    (p : producerChainContainer) (w : World) (cs : List Container)
    (hbatch : o.GetContainerRange p.nodeIndex.Idx maxTxRead = .ok cs) :
    ∃ m, m ≤ cs.length ∧
      enqueued (p.ProcessNextMessageWith maxTxRead h o w).2.1.trace =
        enqueued w.trace ++ (cs.take m).map (p.txPoolOf h) ∧
      ((p.ProcessNextMessageWith maxTxRead h o w).2.2 = none → m = cs.length) := by
  unfold producerChainContainer.ProcessNextMessageWith
  simp only [hbatch]
  by_cases hlen : cs.length = 0
  · refine ⟨0, by omega, ?_, fun _ => hlen.symm⟩
    simp [hlen, World.emit, enqueued, List.filterMap_append]
  · obtain ⟨m, hm, h1, h2⟩ := drain_enqueued h o p cs 0
      (w.emit (.GetContainerRange p.nodeIndex.Idx maxTxRead))
    have hw0 : enqueued (w.emit (.GetContainerRange p.nodeIndex.Idx maxTxRead)).trace =
        enqueued w.trace := by
      simp [World.emit, enqueued, List.filterMap_append]
    rw [hw0] at h1
    simp only [hlen, if_false]
    cases hd : p.drain h o 0 none cs
        (w.emit (.GetContainerRange p.nodeIndex.Idx maxTxRead)) with
    | mk w1 e1 =>
      rw [hd] at h1 h2
      simp only at h1 h2
      cases e1 with
      | some e => exact ⟨m, hm, h1, fun hn => by simp at hn⟩
      | none =>
        have hmm := h2 rfl
        cases hu : o.updateFault with
        | some f =>
          refine ⟨m, hm, ?_, fun _ => hmm⟩
          simpa [producerChainContainer.updateNodeIndex, UpdateNodeIndex_fault] using h1
        | none =>
          refine ⟨m, hm, ?_, fun _ => hmm⟩
          by_cases hlt : cs.length < maxTxRead
          · simp only [producerChainContainer.updateNodeIndex, UpdateNodeIndex_none, hlt, if_true,
              emit_trace, enqueued_append, h1]
            simp [enqueued]
          · simpa [producerChainContainer.updateNodeIndex, UpdateNodeIndex_none, hlt] using h1

/-- One call of ProcessNextMessage when the ledger read fails. -/
theorem ProcessNextMessage_ledger_error (h : Hashing) (o : Oracle)
    (p : producerChainContainer) (w : World) (e : GoError)
    (hread : o.GetContainerRange p.nodeIndex.Idx MaxTxRead = .error e) :
    p.ProcessNextMessage h o w =
      (p,
        { w with trace := w.trace ++
            [Event.GetContainerRange p.nodeIndex.Idx MaxTxRead, Event.Sleep readRPCTimeout] },
        if IndexNotReady e then none else some e) := by
  unfold producerChainContainer.ProcessNextMessage producerChainContainer.ProcessNextMessageWith
  simp only [hread]
  by_cases hnr : IndexNotReady e = true
  · simp [hnr, World.emit]
  · simp [hnr, World.emit]

/-- One call of ProcessNextMessage when the ledger returns no container. -/
theorem ProcessNextMessage_empty (h : Hashing) (o : Oracle)
    (p : producerChainContainer) (w : World)
    (hread : o.GetContainerRange p.nodeIndex.Idx MaxTxRead = .ok []) :
    p.ProcessNextMessage h o w =
      (p,
        { w with trace := w.trace ++
            [Event.GetContainerRange p.nodeIndex.Idx MaxTxRead, Event.Sleep readRPCTimeout] },
        some .ErrNoMessage) := by
  unfold producerChainContainer.ProcessNextMessage producerChainContainer.ProcessNextMessageWith
  simp [hread, World.emit]

/-- The function strings.HasPrefix holds exactly when the string starts with
the given characters. -/
theorem hasPrefixChars_iff :
    ∀ (s pre : List Char), hasPrefixChars s pre = true ↔ ∃ t, s = pre ++ t := by
  intro s
  induction s with
  | nil =>
    intro pre
    cases pre with
    | nil => simp [hasPrefixChars]
    | cons d pre => simp [hasPrefixChars]
  | cons c s ih =>
    intro pre
    cases pre with
    | nil => simp [hasPrefixChars]
    | cons d pre =>
      simp only [hasPrefixChars, Bool.and_eq_true, beq_iff_eq, ih pre, List.cons_append,
        List.cons.injEq]
      constructor
      · rintro ⟨hcd, t, ht⟩
        exact ⟨t, hcd, ht⟩
      · rintro ⟨t, hcd, ht⟩
        exact ⟨hcd, t, ht⟩

/-- The function strings.Contains holds exactly when the given characters
occur somewhere in the string. -/
theorem containsChars_iff (sub : List Char) :
    ∀ s : List Char, containsChars s sub = true ↔ ∃ a b, s = a ++ sub ++ b := by
  intro s
  induction s with
  | nil =>
    simp only [containsChars, hasPrefixChars_iff]
    constructor
    · rintro ⟨t, ht⟩
      exact ⟨[], t, by simpa using ht⟩
    · rintro ⟨a, b, hab⟩
      have h1 : a ++ sub ++ b = [] := hab.symm
      simp only [List.append_eq_nil] at h1
      exact ⟨[], by simp [h1.1.2]⟩
  | cons c s ih =>
    simp only [containsChars, Bool.or_eq_true, hasPrefixChars_iff, ih]
    constructor
    · rintro (⟨t, ht⟩ | ⟨a, b, hab⟩)
      · exact ⟨[], t, by simpa using ht⟩
      · exact ⟨c :: a, b, by simp [hab]⟩
    · rintro ⟨a, b, hab⟩
      cases a with
      | nil => exact Or.inl ⟨b, by simpa using hab⟩
      | cons a0 a =>
        simp only [List.cons_append, List.cons.injEq] at hab
        exact Or.inr ⟨a, b, hab.2⟩

/-! ## Facts about the business tables -/

theorem sqlInsert_none_fst {α κ : Type} [DecidableEq κ] (key : α → κ) (rows : List α) (v : α) :
    (sqlInsert key none rows v).1 = insertIfAbsent key rows v := by
  unfold sqlInsert insertIfAbsent
  by_cases hany : (rows.any (fun r => decide (key r = key v))) = true
  · simp [hany]
  · simp [hany]

theorem sqlInsert_none_swallowed {α κ : Type} [DecidableEq κ] (key : α → κ) (rows : List α)
    (v : α) :
    ((sqlInsert key none rows v).2.isSome &&
      !ErrIsDuplicateEntryError (sqlInsert key none rows v).2) = false := by
  unfold sqlInsert
  by_cases hany : (rows.any (fun r => decide (key r = key v))) = true
  · simp [hany, ErrIsDuplicateEntryError, GoError.isDuplicateEntry]
  · simp [hany]

theorem insertIfAbsent_of_present {α κ : Type} [DecidableEq κ] (key : α → κ) (rows : List α)
    (v : α) (hpresent : ∃ r ∈ rows, key r = key v) : insertIfAbsent key rows v = rows := by
  unfold insertIfAbsent
  obtain ⟨r, hr, hk⟩ := hpresent
  rw [if_pos (List.any_eq_true.mpr ⟨r, hr, decide_eq_true hk⟩)]

theorem insertIfAbsent_has_key {α κ : Type} [DecidableEq κ] (key : α → κ) (rows : List α)
    (v : α) : ∃ r ∈ insertIfAbsent key rows v, key r = key v := by
  unfold insertIfAbsent
  by_cases hany : (rows.any (fun r => decide (key r = key v))) = true
  · rw [if_pos hany]
    obtain ⟨r, hr, hk⟩ := List.any_eq_true.mp hany
    exact ⟨r, hr, of_decide_eq_true hk⟩
  · rw [if_neg hany]
    exact ⟨v, by simp, rfl⟩

/-- A second INSERT of a row of the same key adds nothing, also after an
UPDATE that leaves the keys as they are. -/
theorem insertIfAbsent_map_insertIfAbsent {α κ : Type} [DecidableEq κ] (key : α → κ)
    (u : α → α) (rows : List α) (v v2 : α) (hk : key v2 = key v)
    (hu : ∀ r, key (u r) = key r) :
    insertIfAbsent key ((insertIfAbsent key rows v).map u) v2 =
      (insertIfAbsent key rows v).map u := by
  apply insertIfAbsent_of_present
  obtain ⟨r, hr, hrk⟩ := insertIfAbsent_has_key key rows v
  exact ⟨u r, List.mem_map.mpr ⟨r, hr, rfl⟩, by rw [hu, hrk, hk]⟩

theorem insertIfAbsent_insertIfAbsent {α κ : Type} [DecidableEq κ] (key : α → κ)
    (rows : List α) (v v2 : α) (hk : key v2 = key v) :
    insertIfAbsent key (insertIfAbsent key rows v) v2 = insertIfAbsent key rows v := by
  have h := insertIfAbsent_map_insertIfAbsent key id rows v v2 hk (fun _ => rfl)
  simpa using h

theorem updateRow_updateRow {α : Type} (sel : α → Bool) (set : α → α)
    (hset : ∀ r, set (set r) = set r) (r : α) :
    updateRow sel set (updateRow sel set r) = updateRow sel set r := by
  unfold updateRow
  by_cases h : sel r = true
  · simp only [h, if_true]
    by_cases h2 : sel (set r) = true
    · simp [h2, hset]
    · simp [h2]
  · simp [h]

theorem map_updateRow_idem {α : Type} (sel : α → Bool) (set : α → α)
    (hset : ∀ r, set (set r) = set r) (rows : List α) :
    (rows.map (updateRow sel set)).map (updateRow sel set) = rows.map (updateRow sel set) := by
  rw [List.map_map]
  apply List.map_congr_left
  intro r _
  exact updateRow_updateRow sel set hset r

theorem sqlUpdate_none {α : Type} (sel : α → Bool) (set : α → α) (rows : List α) :
    sqlUpdate sel set none rows = (rows.map (updateRow sel set), none) := rfl

theorem assign_assign (sets : List (String × Val)) (r : Row) :
    assign sets (assign sets r) = assign sets r := by
  funext c
  unfold assign
  cases sets.reverse.find? (fun p => column p.1 == c) <;> rfl

/-- A column that the assignments name has the assigned value, whatever the
row was. -/
theorem assign_of_named (sets : List (String × Val)) (r r2 : Row) (c : String)
    (hc : ∃ p ∈ sets, column p.1 = c) : assign sets r c = assign sets r2 c := by
  unfold assign
  cases hf : sets.reverse.find? (fun p => column p.1 == c) with
  | some p => rfl
  | none =>
    exfalso
    obtain ⟨p, hp, hpc⟩ := hc
    have h := List.find?_eq_none.mp hf p (List.mem_reverse.mpr hp)
    simp [hpc] at h

/-- A column that the assignments do not name keeps its value. -/
theorem assign_of_not_named (sets : List (String × Val)) (r : Row) (c : String)
    (hc : ∀ p ∈ sets, column p.1 ≠ c) : assign sets r c = r c := by
  unfold assign
  cases hf : sets.reverse.find? (fun p => column p.1 == c) with
  | none => rfl
  | some p =>
    exfalso
    have hp := List.mem_of_find?_eq_some hf
    have hpc := List.find?_some hf
    exact hc p (List.mem_reverse.mp hp) (by simpa using hpc)

theorem keyOf_assign_of_named (key : List String) (pairs : List (String × Val)) (r r2 : Row)
    (hw : ∀ c ∈ key, ∃ p ∈ pairs, column p.1 = column c) :
    keyOf key (assign pairs r) = keyOf key (assign pairs r2) := by
  unfold keyOf
  apply List.map_congr_left
  intro c hc
  exact assign_of_named pairs r r2 (column c) (hw c hc)

theorem keyOf_assign_of_not_named (key : List String) (sets : List (String × Val)) (r : Row)
    (hk : ∀ c ∈ key, ∀ p ∈ sets, column p.1 ≠ column c) :
    keyOf key (assign sets r) = keyOf key r := by
  unfold keyOf
  apply List.map_congr_left
  intro c hc
  exact assign_of_not_named sets r (column c) (hk c hc)

theorem keyOf_updateRow (key : List String) (sets cond : List (String × Val)) (r : Row)
    (hk : ∀ c ∈ key, ∀ p ∈ sets, column p.1 ≠ column c) :
    keyOf key (updateRow (whereCols cond) (assign sets) r) = keyOf key r := by
  unfold updateRow
  by_cases h : whereCols cond r = true
  · rw [if_pos h]
    exact keyOf_assign_of_not_named key sets r hk
  · rw [if_neg h]

/-- What the shared body without an upd flag does when the storage layer
executes the INSERT. -/
theorem insertIgnoreDuplicate_none (sch : Schema) (table : String)
    (pairs : List (String × Val)) (rows : Table) :
    insertIgnoreDuplicate sch table none pairs rows =
      (insertIfAbsent (keyOf (sch.key table)) rows (assign pairs (sch.defaults table rows)),
        none) := by
  unfold insertIgnoreDuplicate tableInsert
  simp only [sqlInsert_none_swallowed, ← sqlInsert_none_fst]
  rfl

/-- What the shared body with an upd flag does when the storage layer executes
its statements. -/
theorem insertThenUpdate_none (sch : Schema) (table updTable : String)
    (pairs : List (String × Val)) (upd : Bool) (sets cond : List (String × Val))
    (rows : Table) :
    insertThenUpdate sch table updTable none none pairs upd sets cond rows =
      (if upd then
          (insertIfAbsent (keyOf (sch.key table)) rows
            (assign pairs (sch.defaults table rows))).map (updateRow (whereCols cond) (assign sets))
        else
          insertIfAbsent (keyOf (sch.key table)) rows (assign pairs (sch.defaults table rows)),
        none) := by
  unfold insertThenUpdate tableInsert tableUpdate
  simp only [sqlInsert_none_swallowed, sqlUpdate_none, ← sqlInsert_none_fst]
  cases upd <;> rfl

theorem insertIgnoreDuplicate_present (sch : Schema) (table : String)
    (pairs : List (String × Val)) (rows : Table)
    (hpresent : ∃ r ∈ rows, keyOf (sch.key table) r =
      keyOf (sch.key table) (assign pairs (sch.defaults table rows))) :
    insertIgnoreDuplicate sch table none pairs rows = (rows, none) := by
  rw [insertIgnoreDuplicate_none, insertIfAbsent_of_present _ _ _ hpresent]

theorem insertThenUpdate_present (sch : Schema) (table updTable : String)
    (pairs sets cond : List (String × Val)) (rows : Table)
    (hpresent : ∃ r ∈ rows, keyOf (sch.key table) r =
      keyOf (sch.key table) (assign pairs (sch.defaults table rows))) :
    insertThenUpdate sch table updTable none none pairs false sets cond rows = (rows, none) := by
  rw [insertThenUpdate_none, insertIfAbsent_of_present _ _ _ hpresent]
  rfl

theorem insertIgnoreDuplicate_twice (sch : Schema) (table : String)
    (pairs : List (String × Val)) (rows : Table)
    (hw : ∀ c ∈ sch.key table, ∃ p ∈ pairs, column p.1 = column c) :
    (insertIgnoreDuplicate sch table none pairs
      (insertIgnoreDuplicate sch table none pairs rows).1).1 =
    (insertIgnoreDuplicate sch table none pairs rows).1 := by
  simp only [insertIgnoreDuplicate_none]
  exact insertIfAbsent_insertIfAbsent _ _ _ _ (keyOf_assign_of_named _ _ _ _ hw)

theorem insertThenUpdate_twice (sch : Schema) (table updTable : String)
    (pairs : List (String × Val)) (upd : Bool) (sets cond : List (String × Val))
    (rows : Table)
    (hw : ∀ c ∈ sch.key table, ∃ p ∈ pairs, column p.1 = column c)
    (hk : ∀ c ∈ sch.key table, ∀ p ∈ sets, column p.1 ≠ column c) :
    (insertThenUpdate sch table updTable none none pairs upd sets cond
      (insertThenUpdate sch table updTable none none pairs upd sets cond rows).1).1 =
    (insertThenUpdate sch table updTable none none pairs upd sets cond rows).1 := by
  simp only [insertThenUpdate_none]
  cases upd
  · exact insertIfAbsent_insertIfAbsent _ _ _ _ (keyOf_assign_of_named _ _ _ _ hw)
  · simp only [if_true]
    rw [insertIfAbsent_map_insertIfAbsent _ _ _ _ _ (keyOf_assign_of_named _ _ _ _ hw)
      (fun r => keyOf_updateRow _ sets cond r hk)]
    exact map_updateRow_idem _ _ (assign_assign sets) _

/-- A statement with a spliced text that the storage layer reads as one
expression is the INSERT with the value of the expression. -/
theorem tableInsertBySql_of_splice (sch : Schema) (table : String) (rows : Table)
    (before : List (String × Val)) (col text : String) (after : List (String × Val))
    (f : Row → Val) (h : sch.splice text = some f) :
    tableInsertBySql sch table none rows before col text after =
      tableInsert sch table none rows
        (before ++ (col, f (assign before (sch.defaults table rows))) :: after) := by
  unfold tableInsertBySql
  simp only [h]

/-- A statement with a spliced text that the storage layer reads as a
constant is the UPDATE that assigns the constant. -/
theorem tableUpdateBySql_of_constant (sch : Schema) (table : String) (rows : Table)
    (col text : String) (sets cond : List (String × Val))
    (c : Val) (h : sch.splice text = some (fun _ => c)) :
    tableUpdateBySql sch table none rows col text sets cond =
      tableUpdate none rows ((col, c) :: sets) cond := by
  unfold tableUpdateBySql tableUpdate
  simp only [h]

/-- The columns named by an INSERT do not depend on the value of the spliced
column. -/
theorem named_of_spliced (key : List String) (before after : List (String × Val))
    (col : String) (x y : Val)
    (hw : ∀ c ∈ key, ∃ p ∈ before ++ (col, x) :: after, column p.1 = column c) :
    ∀ c ∈ key, ∃ p ∈ before ++ (col, y) :: after, column p.1 = column c := by
  intro c hc
  obtain ⟨p, hp, hpc⟩ := hw c hc
  rcases List.mem_append.mp hp with hb | ha
  · exact ⟨p, List.mem_append.mpr (Or.inl hb), hpc⟩
  · rcases List.mem_cons.mp ha with he | ht
    · refine ⟨(col, y), List.mem_append.mpr (Or.inr (List.mem_cons_self _ _)), ?_⟩
      rw [he] at hpc
      exact hpc
    · exact ⟨p, List.mem_append.mpr (Or.inr (List.mem_cons_of_mem _ ht)), hpc⟩

/-- The columns assigned by an UPDATE do not depend on the value of the
spliced column. -/
theorem not_named_of_spliced (key : List String) (sets : List (String × Val))
    (col : String) (x y : Val)
    (hk : ∀ c ∈ key, ∀ p ∈ (col, x) :: sets, column p.1 ≠ column c) :
    ∀ c ∈ key, ∀ p ∈ (col, y) :: sets, column p.1 ≠ column c := by
  intro c hc p hp
  rcases List.mem_cons.mp hp with he | ht
  · rw [he]
    exact hk c hc (col, x) (List.mem_cons_self _ _)
  · exact hk c hc p (List.mem_cons_of_mem _ ht)

/-- What InsertCvmBlocks does when the storage layer reads the spliced block
as one expression. -/
theorem InsertCvmBlocks_of_splice (sch : Schema) (v : Entity) (rows : Table) (f : Row → Val)
    (h : sch.splice (v "Block").goString = some f) :
    InsertCvmBlocks sch none v rows =
      insertIgnoreDuplicate sch TableCvmBlocks none
        ([] ++ ("block", f (assign [] (sch.defaults TableCvmBlocks rows))) ::
          InsertCvmBlocks.pairs v) rows := by
  unfold InsertCvmBlocks insertIgnoreDuplicate
  rw [tableInsertBySql_of_splice sch TableCvmBlocks rows [] "block" _ _ f h]

/-- What InsertCamLastBlockCache does when the storage layer executes its
statement and reads the spliced block of the INSERT as one expression. -/
theorem InsertCamLastBlockCache_none (sch : Schema) (v : Entity) (upd : Bool) (rows : Table)
    (f : Row → Val) (h : sch.splice (v "CurrentBlock").goString = some f) :
    InsertCamLastBlockCache sch none none v upd rows =
      (if upd then
          rows.map (updateRow (whereCols (InsertCamLastBlockCache.cond v))
            (assign (InsertCamLastBlockCache.sets v)))
        else
          insertIfAbsent (keyOf (sch.key TableCamLastBlockCache)) rows
            (assign ([] ++ ("current_block",
                f (assign [] (sch.defaults TableCamLastBlockCache rows))) ::
                InsertCamLastBlockCache.pairs v)
              (sch.defaults TableCamLastBlockCache rows)),
        none) := by
  unfold InsertCamLastBlockCache
  rw [tableInsertBySql_of_splice sch TableCamLastBlockCache rows [] "current_block" _ _ f h]
  unfold tableInsert tableUpdate
  simp only [sqlInsert_none_swallowed, sqlUpdate_none, ← sqlInsert_none_fst]
  cases upd <;> rfl

theorem InsertCamLastBlockCache_present (sch : Schema) (v : Entity) (rows : Table)
    (f : Row → Val) (h : sch.splice (v "CurrentBlock").goString = some f)
    (hpresent : ∃ r ∈ rows, keyOf (sch.key TableCamLastBlockCache) r =
      keyOf (sch.key TableCamLastBlockCache)
        (assign ([] ++ ("current_block",
            f (assign [] (sch.defaults TableCamLastBlockCache rows))) ::
            InsertCamLastBlockCache.pairs v)
          (sch.defaults TableCamLastBlockCache rows))) :
    InsertCamLastBlockCache sch none none v false rows = (rows, none) := by
  rw [InsertCamLastBlockCache_none sch v false rows f h, insertIfAbsent_of_present _ _ _ hpresent]
  rfl

theorem InsertCamLastBlockCache_twice (sch : Schema) (v : Entity) (upd : Bool) (rows : Table)
    (c : Val) (h : sch.splice (v "CurrentBlock").goString = some (fun _ => c))
    (hw : ∀ k ∈ sch.key TableCamLastBlockCache,
      ∃ p ∈ [] ++ ("current_block", c) :: InsertCamLastBlockCache.pairs v,
        column p.1 = column k) :
    (InsertCamLastBlockCache sch none none v upd
      (InsertCamLastBlockCache sch none none v upd rows).1).1 =
    (InsertCamLastBlockCache sch none none v upd rows).1 := by
  simp only [InsertCamLastBlockCache_none sch v upd _ _ h]
  cases upd
  · exact insertIfAbsent_insertIfAbsent _ _ _ _ (keyOf_assign_of_named _ _ _ _ hw)
  · simp only [if_true]
    exact map_updateRow_idem _ _ (assign_assign _) _

/-- What InsertCvmTransactionsAtomic does without upd when the storage layer
reads the spliced block as one expression. -/
theorem InsertCvmTransactionsAtomic_of_splice (sch : Schema) (v : Entity) (rows : Table)
    (f : Row → Val) (h : sch.splice (v "Block").goString = some f) :
    InsertCvmTransactionsAtomic sch none none v false rows =
      insertThenUpdate sch TableCvmTransactionsAtomic TableCvmTransactionsAtomic none none
        (InsertCvmTransactionsAtomic.before v ++
          ("block", f (assign (InsertCvmTransactionsAtomic.before v)
            (sch.defaults TableCvmTransactionsAtomic rows))) ::
          InsertCvmTransactionsAtomic.pairs v) false [] [] rows := by
  unfold InsertCvmTransactionsAtomic insertThenUpdate
  rw [tableInsertBySql_of_splice sch TableCvmTransactionsAtomic rows _ "block" _ _ f h]
  rfl

/-- What InsertCvmTransactionsAtomic does when the storage layer reads the
spliced block as a constant. -/
theorem InsertCvmTransactionsAtomic_of_constant (sch : Schema) (v : Entity) (upd : Bool)
    (rows : Table) (c : Val) (h : sch.splice (v "Block").goString = some (fun _ => c)) :
    InsertCvmTransactionsAtomic sch none none v upd rows =
      insertThenUpdate sch TableCvmTransactionsAtomic TableCvmTransactionsAtomic none none
        (InsertCvmTransactionsAtomic.before v ++ ("block", c) ::
          InsertCvmTransactionsAtomic.pairs v) upd
        (("block", c) :: InsertCvmTransactionsAtomic.sets v)
        (InsertCvmTransactionsAtomic.cond v) rows := by
  unfold InsertCvmTransactionsAtomic insertThenUpdate
  rw [tableInsertBySql_of_splice sch TableCvmTransactionsAtomic rows _ "block" _ _ _ h]
  simp only [tableUpdateBySql_of_constant sch TableCvmTransactionsAtomic _ "block" _ _ _ c h]

theorem InsertCvmBlocks_twice (sch : Schema) (v : Entity) (rows : Table)
    (c : Val) (h : sch.splice (v "Block").goString = some (fun _ => c))
    (hw : ∀ k ∈ sch.key TableCvmBlocks,
      ∃ p ∈ [] ++ ("block", c) :: InsertCvmBlocks.pairs v, column p.1 = column k) :
    (InsertCvmBlocks sch none v (InsertCvmBlocks sch none v rows).1).1 =
      (InsertCvmBlocks sch none v rows).1 := by
  simp only [InsertCvmBlocks_of_splice sch v _ _ h]
  exact insertIgnoreDuplicate_twice sch TableCvmBlocks _ rows hw

theorem InsertCvmTransactionsAtomic_twice (sch : Schema) (v : Entity) (upd : Bool)
    (rows : Table) (c : Val) (h : sch.splice (v "Block").goString = some (fun _ => c))
    (hw : ∀ k ∈ sch.key TableCvmTransactionsAtomic,
      ∃ p ∈ InsertCvmTransactionsAtomic.before v ++ ("block", c) ::
        InsertCvmTransactionsAtomic.pairs v, column p.1 = column k)
    (hk : ∀ k ∈ sch.key TableCvmTransactionsAtomic,
      ∀ p ∈ ("block", c) :: InsertCvmTransactionsAtomic.sets v, column p.1 ≠ column k) :
    (InsertCvmTransactionsAtomic sch none none v upd
      (InsertCvmTransactionsAtomic sch none none v upd rows).1).1 =
      (InsertCvmTransactionsAtomic sch none none v upd rows).1 := by
  simp only [InsertCvmTransactionsAtomic_of_constant sch v upd _ c h]
  exact insertThenUpdate_twice sch TableCvmTransactionsAtomic TableCvmTransactionsAtomic _ upd _
    _ rows hw hk

/-- What InsertCvmAccount does when the storage layer executes its statements
and the key is present: without upd the duplicate-key signal is returned, with
upd the transaction count of the stored row is increased. -/
theorem InsertCvmAccount_present (sch : Schema) (v : Entity) (upd : Bool) (rows : Table)
    (hpresent : ∃ r ∈ rows, keyOf (sch.key TableCvmAccounts) r =
      keyOf (sch.key TableCvmAccounts)
        (assign (InsertCvmAccount.pairs v) (sch.defaults TableCvmAccounts rows))) :
    InsertCvmAccount sch none none v upd rows =
      if upd then
        (rows.map (updateRow (whereCols (InsertCvmAccount.cond v))
          (fun r => assign [("tx_count", (r (column "tx_count")).add (v "TxCount"))] r)), none)
      else
        (rows, some (EventErr TableCvmAccounts false
          (.duplicateEntry "Error 1062: Duplicate entry"))) := by
  obtain ⟨r, hr, hk⟩ := hpresent
  have hany : (rows.any (fun r => decide (keyOf (sch.key TableCvmAccounts) r =
      keyOf (sch.key TableCvmAccounts)
        (assign (InsertCvmAccount.pairs v) (sch.defaults TableCvmAccounts rows))))) = true :=
    List.any_eq_true.mpr ⟨r, hr, decide_eq_true hk⟩
  unfold InsertCvmAccount tableInsert tableIncrBy sqlInsert
  simp only [hany, if_true, sqlUpdate_none]
  cases upd <;> simp [ErrIsDuplicateEntryError, GoError.isDuplicateEntry]

/-- The table after InsertCvmAccount without upd, when the storage layer
executes the INSERT. -/
theorem InsertCvmAccount_false_fst (sch : Schema) (v : Entity) (rows : Table) :
    (InsertCvmAccount sch none none v false rows).1 =
      insertIfAbsent (keyOf (sch.key TableCvmAccounts)) rows
        (assign (InsertCvmAccount.pairs v) (sch.defaults TableCvmAccounts rows)) := by
  unfold InsertCvmAccount tableInsert sqlInsert insertIfAbsent
  by_cases hany : (rows.any (fun r => decide (keyOf (sch.key TableCvmAccounts) r =
      keyOf (sch.key TableCvmAccounts)
        (assign (InsertCvmAccount.pairs v) (sch.defaults TableCvmAccounts rows))))) = true
  · simp [hany]
  · simp [hany]

theorem InsertCvmAccount_false_twice (sch : Schema) (v : Entity) (rows : Table)
    (hw : ∀ c ∈ sch.key TableCvmAccounts,
      ∃ p ∈ InsertCvmAccount.pairs v, column p.1 = column c) :
    (InsertCvmAccount sch none none v false
      (InsertCvmAccount sch none none v false rows).1).1 =
    (InsertCvmAccount sch none none v false rows).1 := by
  simp only [InsertCvmAccount_false_fst]
  exact insertIfAbsent_insertIfAbsent _ _ _ _ (keyOf_assign_of_named _ _ _ _ hw)

/-- The assignment of InsertReward repeats a value of its INSERT. -/
theorem InsertReward_sets_pairs (v : Entity) (d : Row) :
    assign (InsertReward.sets v) (assign (InsertReward.pairs v) d) =
      assign (InsertReward.pairs v) d := by
  funext c
  unfold assign InsertReward.sets InsertReward.pairs
  by_cases h : (column "updated_at" == c) = true
  · simp [h]
  · simp [h]

/-- What InsertReward does when the storage layer executes its statement. -/
theorem InsertReward_none (sch : Schema) (v : Entity) (rows : Table) :
    InsertReward sch none v rows =
      (if rows.any (fun r => decide (keyOf (sch.key TableReward) r =
            keyOf (sch.key TableReward)
              (assign (InsertReward.pairs v) (sch.defaults TableReward rows)))) then
          rows.map (updateRow
            (fun r => decide (keyOf (sch.key TableReward) r =
              keyOf (sch.key TableReward)
                (assign (InsertReward.pairs v) (sch.defaults TableReward rows))))
            (assign (InsertReward.sets v)))
        else rows ++ [assign (InsertReward.pairs v) (sch.defaults TableReward rows)],
        none) := by
  unfold InsertReward tableUpsert updateRow
  by_cases hany : (rows.any (fun r => decide (keyOf (sch.key TableReward) r =
      keyOf (sch.key TableReward)
        (assign (InsertReward.pairs v) (sch.defaults TableReward rows))))) = true
  · simp [hany]
  · simp [hany]

theorem InsertReward_twice (sch : Schema) (v : Entity) (rows : Table)
    (hw : ∀ c ∈ sch.key TableReward, ∃ p ∈ InsertReward.pairs v, column p.1 = column c)
    (hk : ∀ c ∈ sch.key TableReward, ∀ p ∈ InsertReward.sets v, column p.1 ≠ column c) :
    (InsertReward sch none v (InsertReward sch none v rows).1).1 =
      (InsertReward sch none v rows).1 := by
  simp only [InsertReward_none]
  have hrow : ∀ rows2 : Table, keyOf (sch.key TableReward)
      (assign (InsertReward.pairs v) (sch.defaults TableReward rows2)) =
      keyOf (sch.key TableReward)
        (assign (InsertReward.pairs v) (sch.defaults TableReward rows)) :=
    fun rows2 => keyOf_assign_of_named _ _ _ _ hw
  simp only [hrow]
  by_cases hany : (rows.any (fun r => decide (keyOf (sch.key TableReward) r =
      keyOf (sch.key TableReward)
        (assign (InsertReward.pairs v) (sch.defaults TableReward rows))))) = true
  · simp only [hany, if_true]
    have hany2 : ((rows.map (updateRow
        (fun r => decide (keyOf (sch.key TableReward) r =
          keyOf (sch.key TableReward)
            (assign (InsertReward.pairs v) (sch.defaults TableReward rows))))
        (assign (InsertReward.sets v)))).any (fun r => decide (keyOf (sch.key TableReward) r =
          keyOf (sch.key TableReward)
            (assign (InsertReward.pairs v) (sch.defaults TableReward rows))))) = true := by
      obtain ⟨r, hr, hrk⟩ := List.any_eq_true.mp hany
      refine List.any_eq_true.mpr ⟨_, List.mem_map.mpr ⟨r, hr, rfl⟩, ?_⟩
      unfold updateRow
      rw [if_pos hrk]
      rw [keyOf_assign_of_not_named _ _ _ hk]
      exact hrk
    rw [if_pos hany2]
    exact map_updateRow_idem _ _ (assign_assign _) _
  · have hnone : ∀ r ∈ rows, ¬ keyOf (sch.key TableReward) r =
        keyOf (sch.key TableReward)
          (assign (InsertReward.pairs v) (sch.defaults TableReward rows)) := by
      intro r hr hrk
      exact hany (List.any_eq_true.mpr ⟨r, hr, decide_eq_true hrk⟩)
    rw [if_neg hany]
    have hany2 : ((rows ++ [assign (InsertReward.pairs v) (sch.defaults TableReward rows)]).any
        (fun r => decide (keyOf (sch.key TableReward) r =
          keyOf (sch.key TableReward)
            (assign (InsertReward.pairs v) (sch.defaults TableReward rows))))) = true :=
      List.any_eq_true.mpr ⟨_, by simp, decide_eq_true rfl⟩
    rw [if_pos hany2, List.map_append]
    congr 1
    · conv_rhs => rw [← List.map_id rows]
      apply List.map_congr_left
      intro r hr
      unfold updateRow
      rw [if_neg (by simpa using hnone r hr)]
      rfl
    · simp only [List.map_cons, List.map_nil]
      unfold updateRow
      simp only [decide_True, if_true, InsertReward_sets_pairs]

/-! ### The queue and the checkpoint table as instances -/

theorem insertRow_eq_insertIfAbsent (rows : List TxPool) (v : TxPool) :
    insertRow rows v = insertIfAbsent TxPool.ID rows v := rfl

theorem InsertTxPool_present (v : TxPool) (w : World) (hpresent : ∃ r ∈ w.txPool, r.ID = v.ID) :
    InsertTxPool none v w = (w, none) := by
  rw [InsertTxPool_none, insertRow_eq_insertIfAbsent, insertIfAbsent_of_present _ _ _ hpresent]

theorem InsertTxPool_twice (v : TxPool) (w : World) :
    (InsertTxPool none v (InsertTxPool none v w).1).1 = (InsertTxPool none v w).1 := by
  simp only [InsertTxPool_none, insertRow_eq_insertIfAbsent]
  rw [insertIfAbsent_insertIfAbsent _ _ _ _ rfl]

theorem addNodeIndex_eq_insertIfAbsent (rows : List NodeIndex) (v : NodeIndex) :
    addNodeIndex rows v = insertIfAbsent (fun r : NodeIndex => (r.Instance, r.Topic)) rows v := by
  unfold addNodeIndex insertIfAbsent
  simp only [any_key_eq_isSome_find]

theorem setIdx_eq_map_updateRow (inst topic : String) (idx : Nat) (rows : List NodeIndex) :
    setIdx inst topic idx rows =
      rows.map (updateRow (whereInstanceTopic inst topic) (fun r => { r with Idx := idx })) :=
  rfl

theorem InsertNodeIndex_present (v : NodeIndex) (w : World)
    (hpresent : ∃ r ∈ w.nodeIndex, r.Instance = v.Instance ∧ r.Topic = v.Topic) :
    InsertNodeIndex none none v false w = (w, none) := by
  rw [InsertNodeIndex_none, addNodeIndex_eq_insertIfAbsent]
  have hp : ∃ r ∈ w.nodeIndex, (fun r : NodeIndex => (r.Instance, r.Topic)) r =
      (fun r : NodeIndex => (r.Instance, r.Topic)) v := by
    obtain ⟨r, hr, h1, h2⟩ := hpresent
    exact ⟨r, hr, by simp [h1, h2]⟩
  rw [insertIfAbsent_of_present _ _ _ hp]
  rfl

theorem InsertNodeIndex_twice (v : NodeIndex) (upd : Bool) (w : World) :
    (InsertNodeIndex none none v upd (InsertNodeIndex none none v upd w).1).1 =
      (InsertNodeIndex none none v upd w).1 := by
  simp only [InsertNodeIndex_none, addNodeIndex_eq_insertIfAbsent, setIdx_eq_map_updateRow]
  cases upd
  · simp only [Bool.false_eq_true, if_false]
    rw [insertIfAbsent_insertIfAbsent _ _ _ _ rfl]
  · simp only [if_true]
    rw [insertIfAbsent_map_insertIfAbsent (fun r : NodeIndex => (r.Instance, r.Topic)) _ _ _ _ rfl
      (fun r => by unfold updateRow; split <;> rfl)]
    rw [map_updateRow_idem (whereInstanceTopic v.Instance v.Topic)
      (fun r : NodeIndex => { r with Idx := v.Idx }) (fun _ => rfl)]

/-! ## Facts about the worker loop -/

theorem keepsPolling_iff (e : Option GoError) :
    keepsPolling e = true ↔
      e = none ∨ e = some .DeadlineExceeded ∨ e = some .ErrNoMessage ∨
        ∃ err, e = some err ∧ (ChainNotReady err = true ∨ ZeroAcceptedContainers err = true) := by
  cases e with
  | none => simp [keepsPolling]
  | some err =>
    simp only [keepsPolling, Bool.or_eq_true, decide_eq_true_eq, Option.some.injEq,
      false_or, reduceCtorEq, exists_eq_left']
    constructor
    · rintro (((h | h) | h) | h)
      · exact Or.inl h
      · exact Or.inr (Or.inl h)
      · exact Or.inr (Or.inr (Or.inl h))
      · exact Or.inr (Or.inr (Or.inr h))
    · rintro (h | h | h | h)
      · exact Or.inl (Or.inl (Or.inl h))
      · exact Or.inl (Or.inl (Or.inr h))
      · exact Or.inl (Or.inr h)
      · exact Or.inr h

/-- The closure of runProcessor in terms of the result of ProcessNextMessage. -/
theorem processNextMessage_eq (p : ProducerChain) (h : Hashing) (o : Oracle)
    (pc pc1 : producerChainContainer) (w w1 : World) (e : Option GoError)
    (hres : pc.ProcessNextMessage h o w = (pc1, w1, e)) :
    p.processNextMessage h o pc w =
      (pc1,
        if e = none then p.Success w1 else if countsFailure e = true then p.Failure w1 else w1,
        if keepsPolling e = true then none else e) := by
  unfold ProducerChain.processNextMessage
  rw [hres]
  cases e with
  | none => simp [keepsPolling]
  | some err =>
    cases err with
    | DeadlineExceeded => simp [keepsPolling, countsFailure]
    | EOF =>
      have h1 : ChainNotReady .EOF = false := by decide
      have h2 : ZeroAcceptedContainers .EOF = false := by decide
      simp [keepsPolling, countsFailure, h1, h2]
    | ErrNoMessage => simp [keepsPolling, countsFailure]
    | ErrNotFound =>
      cases h1 : ChainNotReady .ErrNotFound <;> cases h2 : ZeroAcceptedContainers .ErrNotFound <;>
        simp [keepsPolling, countsFailure, h1, h2]
    | duplicateEntry msg =>
      cases h1 : ChainNotReady (.duplicateEntry msg) <;>
        cases h2 : ZeroAcceptedContainers (.duplicateEntry msg) <;>
        simp [keepsPolling, countsFailure, h1, h2]
    | lockError msg =>
      cases h1 : ChainNotReady (.lockError msg) <;>
        cases h2 : ZeroAcceptedContainers (.lockError msg) <;>
        simp [keepsPolling, countsFailure, h1, h2]
    | errorString msg =>
      cases h1 : ChainNotReady (.errorString msg) <;>
        cases h2 : ZeroAcceptedContainers (.errorString msg) <;>
        simp [keepsPolling, countsFailure, h1, h2]
    | wrapError inner suffix =>
      cases h1 : ChainNotReady (.wrapError inner suffix) <;>
        cases h2 : ZeroAcceptedContainers (.wrapError inner suffix) <;>
        simp [keepsPolling, countsFailure, h1, h2]

theorem counterIncs_Success (p : ProducerChain) (w : World) :
    counterIncs .MetricProduceSuccessCountKey (p.Success w).trace =
        counterIncs .MetricProduceSuccessCountKey w.trace + 1 ∧
      counterIncs .MetricProduceFailureCountKey (p.Success w).trace =
        counterIncs .MetricProduceFailureCountKey w.trace := by
  simp [ProducerChain.Success, World.emit, counterIncs, List.count_append, List.count_cons]

theorem counterIncs_Failure (p : ProducerChain) (w : World) :
    counterIncs .MetricProduceSuccessCountKey (p.Failure w).trace =
        counterIncs .MetricProduceSuccessCountKey w.trace ∧
      counterIncs .MetricProduceFailureCountKey (p.Failure w).trace =
        counterIncs .MetricProduceFailureCountKey w.trace + 1 := by
  simp [ProducerChain.Failure, World.emit, counterIncs, List.count_append, List.count_cons]

theorem loop_stopped (p : ProducerChain) (h : Hashing) (o : Oracle) (rest : List Poll)
    (pc : producerChainContainer) (w : World) :
    p.loop h ({ stopped := true, oracle := o } :: rest) pc w = (pc, w, some none) := by
  simp [ProducerChain.loop]

theorem loop_step (p : ProducerChain) (h : Hashing) (o : Oracle) (rest : List Poll)
    (pc : producerChainContainer) (w : World) :
    p.loop h ({ stopped := false, oracle := o } :: rest) pc w =
      match (p.processNextMessage h o pc w).2.2 with
      | some err =>
        ((p.processNextMessage h o pc w).1, (p.processNextMessage h o pc w).2.1, some (some err))
      | none =>
        p.loop h rest (p.processNextMessage h o pc w).1 (p.processNextMessage h o pc w).2.1 := by
  simp only [ProducerChain.loop, Bool.false_eq_true, if_false]
  rcases hc : p.processNextMessage h o pc w with ⟨pc1, w1, e⟩
  cases e <;> rfl

theorem runProcessor_stopped (p : ProducerChain) (performUpdates : Bool) (h : Hashing)
    (run : Run) (w : World) (hstop : run.stoppedAtStart = true) :
    p.runProcessor performUpdates h run w = (w, some none) := by
  simp [ProducerChain.runProcessor, hstop]

theorem runProcessor_start_error (p : ProducerChain) (performUpdates : Bool) (h : Hashing)
    (run : Run) (w w1 : World) (err : GoError) (hstop : run.stoppedAtStart = false)
    (hstart : newContainer performUpdates run.start p.conf p.topic p.chainID p.indexerChain
      p.metricProcessedCountKey w = (w1, .error err)) :
    p.runProcessor performUpdates h run w = (w1, some (some err)) := by
  simp [ProducerChain.runProcessor, hstop, hstart]

theorem runProcessor_started (p : ProducerChain) (performUpdates : Bool) (h : Hashing)
    (run : Run) (w w1 : World) (pc : producerChainContainer)
    (hstop : run.stoppedAtStart = false)
    (hstart : newContainer performUpdates run.start p.conf p.topic p.chainID p.indexerChain
      p.metricProcessedCountKey w = (w1, .ok pc)) :
    p.runProcessor performUpdates h run w =
      ((p.loop h run.polls pc w1).2.1, (p.loop h run.polls pc w1).2.2) := by
  simp [ProducerChain.runProcessor, hstop, hstart]

theorem Listen_step (p : ProducerChain) (performUpdates : Bool) (h : Hashing) (r : Round)
    (rest : List Round) (w w1 : World) (res : Option GoError) (hstop : r.stopped = false)
    (hrun : p.runProcessor performUpdates h r.run w = (w1, some res)) :
    p.Listen performUpdates h (r :: rest) w =
      if r.stoppedAfter = true then (w1, some none)
      else if res.isSome = true then
        p.Listen performUpdates h rest (w1.emit (.Sleep processorFailureRetryInterval))
      else p.Listen performUpdates h rest w1 := by
  simp only [ProducerChain.Listen, hstop, Bool.false_eq_true, if_false, hrun]

theorem Listen_never_error (p : ProducerChain) (performUpdates : Bool) (h : Hashing) :
    ∀ (rounds : List Round) (w : World),
      (p.Listen performUpdates h rounds w).2 = none ∨
        (p.Listen performUpdates h rounds w).2 = some none := by
  intro rounds
  induction rounds with
  | nil => intro w; exact Or.inl rfl
  | cons r rest ih =>
    intro w
    by_cases hstop : r.stopped = true
    · right
      simp [ProducerChain.Listen, hstop]
    · have hstop2 : r.stopped = false := by simpa using hstop
      rcases hrun : p.runProcessor performUpdates h r.run w with ⟨w1, res⟩
      cases res with
      | none =>
        left
        simp [ProducerChain.Listen, hstop2, hrun]
      | some res =>
        rw [Listen_step p performUpdates h r rest w w1 res hstop2 hrun]
        by_cases hafter : r.stoppedAfter = true
        · right
          simp [hafter]
        · simp only [hafter, if_false]
          by_cases hsome : res.isSome = true
          · simp only [hsome, if_true]
            exact ih _
          · simp only [hsome, if_false]
            exact ih _

theorem newContainer_trace (performUpdates : Bool) (so : StartOracle) (conf : Config)
    (topic chainID : String) (indexerChain : IndexedChain) (key : String) (w : World) :
    (newContainer performUpdates so conf topic chainID indexerChain key w).1.trace = w.trace := by
  unfold newContainer
  cases hdb : so.database with
  | some err => rfl
  | none =>
    simp only []
    have hins : ∀ (fi fu : Option Fault) (v : NodeIndex) (upd : Bool),
        (InsertNodeIndex fi fu v upd w).1.trace = w.trace := by
      intro fi fu v upd
      unfold InsertNodeIndex sqlInsert sqlUpdate
      cases fi <;> cases fu <;> cases upd <;>
        simp [ErrIsDuplicateEntryError, GoError.isDuplicateEntry] <;>
        split <;> simp [ErrIsDuplicateEntryError, GoError.isDuplicateEntry]
    unfold producerChainContainer.insertNodeIndex
    rcases hi : InsertNodeIndex so.insertFault so.updateFault
      { Instance := conf.NodeInstance, Topic := topic, Idx := 0 } performUpdates w with ⟨w1, e1⟩
    have ht : w1.trace = w.trace := by
      have := hins so.insertFault so.updateFault
        { Instance := conf.NodeInstance, Topic := topic, Idx := 0 } performUpdates
      rw [hi] at this
      exact this
    cases e1 with
    | some err => exact ht
    | none =>
      simp only []
      split <;> exact ht

/-! ## Facts about the queue id -/

/-- Two lists that agree after a first colon in the same place agree before
and after it. -/
theorem append_colon_inj :
    ∀ (ka kb ta tb : List Char), ':' ∉ ka → ':' ∉ kb →
      ka ++ ':' :: ta = kb ++ ':' :: tb → ka = kb ∧ ta = tb := by
  intro ka
  induction ka with
  | nil =>
    intro kb ta tb _ hb heq
    cases kb with
    | nil =>
      simp only [List.nil_append, List.cons.injEq, true_and] at heq
      exact ⟨rfl, heq⟩
    | cons c kb =>
      simp only [List.nil_append, List.cons_append, List.cons.injEq] at heq
      exact absurd (heq.1 ▸ List.mem_cons_self _ _) hb
  | cons a ka ih =>
    intro kb ta tb ha hb heq
    cases kb with
    | nil =>
      simp only [List.nil_append, List.cons_append, List.cons.injEq] at heq
      exact absurd (heq.1 ▸ List.mem_cons_self _ _) ha
    | cons c kb =>
      simp only [List.cons_append, List.cons.injEq] at heq
      obtain ⟨h1, h2⟩ := ih kb ta tb (fun hm => ha (List.mem_cons_of_mem _ hm))
        (fun hm => hb (List.mem_cons_of_mem _ hm)) heq.2
      exact ⟨by rw [heq.1, h1], h2⟩

theorem idsv_data (b : TxPool) : b.idsv.data = b.MsgKey.data ++ ':' :: b.Topic.data := by
  simp [TxPool.idsv, String.data_append]

theorem ProcessNextMessage_batch_of_one (h : Hashing) (o : Oracle) (p : producerChainContainer)
    (w : World) (c : Container)
    (hbatch : o.GetContainerRange p.nodeIndex.Idx MaxTxRead = .ok [c])
    (hins : ∀ k, o.insertFault k = none) (hupd : o.updateFault = none)
    (hfit : p.nodeIndex.Idx < 2 ^ 64) :
    (p.ProcessNextMessageWith MaxTxRead h o w).1 = p ∧
      (p.ProcessNextMessageWith MaxTxRead h o w).2.2 = none ∧
      enqueued (p.ProcessNextMessageWith MaxTxRead h o w).2.1.trace =
        enqueued w.trace ++ [p.txPoolOf h c] := by
  rw [ProcessNextMessageWith_ok MaxTxRead h o p w [c] hbatch (by simp) (fun k _ => hins k) hupd
    (by simpa using hfit)]
  refine ⟨?_, rfl, ?_⟩
  · simp
  · simp [enqueued, drainEvents, List.filterMap_append, MaxTxRead]

/-! ## Facts about a worker start with cfg.PerformUpdates set -/

theorem setIdx_of_find_none (inst topic : String) (idx : Nat) (rows : List NodeIndex)
    (hfind : rows.find? (whereInstanceTopic inst topic) = none) :
    setIdx inst topic idx rows = rows := by
  unfold setIdx
  conv_rhs => rw [← List.map_id rows]
  apply List.map_congr_left
  intro r hr
  have hsel := List.find?_eq_none.mp hfind r hr
  simp [hsel]

theorem setIdx_append (inst topic : String) (idx : Nat) (a b : List NodeIndex) :
    setIdx inst topic idx (a ++ b) = setIdx inst topic idx a ++ setIdx inst topic idx b := by
  simp [setIdx]

theorem setIdx_setIdx (inst topic : String) (idx : Nat) (rows : List NodeIndex) :
    setIdx inst topic idx (setIdx inst topic idx rows) = setIdx inst topic idx rows := by
  rw [setIdx_eq_map_updateRow, setIdx_eq_map_updateRow]
  exact map_updateRow_idem (whereInstanceTopic inst topic)
    (fun r : NodeIndex => { r with Idx := idx }) (fun _ => rfl) rows

/-- A worker start on a store that has the checkpoint row of (instance, topic),
with cfg.PerformUpdates true and no failure: the UPDATE of InsertNodeIndex sets
the index of the row to 0 and the cursor is 0. -/
theorem newContainer_existing_row_upd (conf : Config) (topic chainID : String)
    (indexerChain : IndexedChain) (key : String) (w : World) (r0 : NodeIndex)
    (hq : QueryNodeIndex none { Instance := conf.NodeInstance, Topic := topic, Idx := 0 } w = .ok r0) :
    newContainer true
        { database := none, insertFault := none, updateFault := none, queryFault := none }
        conf topic chainID indexerChain key w =
      ({ w with nodeIndex := setIdx conf.NodeInstance topic 0 w.nodeIndex }, .ok
        { conf := conf
          nodeIndex := { Instance := conf.NodeInstance, Topic := topic, Idx := 0 }
          nodeinstance := conf.NodeInstance
          topic := topic
          chainID := chainID
          indexerChain := indexerChain
          metricProcessedCountKey := key }) := by
  have hfind : w.nodeIndex.find? (whereInstanceTopic conf.NodeInstance topic) = some r0 := by
    rw [QueryNodeIndex_eq] at hq
    cases hf : w.nodeIndex.find? (whereInstanceTopic conf.NodeInstance topic) with
    | none => simp [hf] at hq
    | some r1 =>
      simp only [hf, Except.ok.injEq] at hq
      rw [hq]
  have hq2 := QueryNodeIndex_setIdx conf.NodeInstance topic 0 0 w w.txPool w.trace r0 hq
  unfold newContainer producerChainContainer.insertNodeIndex
  simp only [InsertNodeIndex_none, addNodeIndex, hfind, Option.isSome_some, if_true,
    producerChainContainer.getIndex, hq2]

/-- A worker start on a store without the checkpoint row of (instance, topic),
with cfg.PerformUpdates true and no failure: the row is created with index 0
and the cursor is 0. -/
theorem newContainer_absent_row_upd (conf : Config) (topic chainID : String)
    (indexerChain : IndexedChain) (key : String) (w : World)
    (hq : QueryNodeIndex none { Instance := conf.NodeInstance, Topic := topic, Idx := 0 } w =
      .error .ErrNotFound) :
    newContainer true
        { database := none, insertFault := none, updateFault := none, queryFault := none }
        conf topic chainID indexerChain key w =
      ({ w with nodeIndex :=
          w.nodeIndex ++ [{ Instance := conf.NodeInstance, Topic := topic, Idx := 0 }] }, .ok
        { conf := conf
          nodeIndex := { Instance := conf.NodeInstance, Topic := topic, Idx := 0 }
          nodeinstance := conf.NodeInstance
          topic := topic
          chainID := chainID
          indexerChain := indexerChain
          metricProcessedCountKey := key }) := by
  have hfind : w.nodeIndex.find? (whereInstanceTopic conf.NodeInstance topic) = none := by
    rw [QueryNodeIndex_eq] at hq
    cases hf : w.nodeIndex.find? (whereInstanceTopic conf.NodeInstance topic) with
    | none => rfl
    | some r1 => simp [hf] at hq
  have hfind2 := find_append_self { Instance := conf.NodeInstance, Topic := topic, Idx := 0 }
    w.nodeIndex hfind
  simp only at hfind2
  have hset : setIdx conf.NodeInstance topic 0
      (w.nodeIndex ++ [{ Instance := conf.NodeInstance, Topic := topic, Idx := 0 }]) =
      w.nodeIndex ++ [{ Instance := conf.NodeInstance, Topic := topic, Idx := 0 }] := by
    rw [setIdx_append, setIdx_of_find_none _ _ _ _ hfind]
    simp [setIdx, whereInstanceTopic]
  unfold newContainer producerChainContainer.insertNodeIndex
  simp only [InsertNodeIndex_none, addNodeIndex, hfind, Option.isSome_none, Bool.false_eq_true,
    if_false, if_true, hset, producerChainContainer.getIndex, QueryNodeIndex_eq, hfind2]

theorem setIdx_append_new (inst topic : String) (rows : List NodeIndex)
    (hfind : rows.find? (whereInstanceTopic inst topic) = none) :
    setIdx inst topic 0 (rows ++ [{ Instance := inst, Topic := topic, Idx := 0 }]) =
      rows ++ [{ Instance := inst, Topic := topic, Idx := 0 }] := by
  rw [setIdx_append, setIdx_of_find_none _ _ _ _ hfind]
  simp [setIdx, whereInstanceTopic]

/-! ## Facts about the bytes of a string -/

/-- Setting the mark of a continuation byte on six payload bits adds 128. -/
theorem or_continuation_mark (a : Nat) (h : a < 64) : a ||| 128 = a + 128 := by
  revert a; decide

theorem or_lead2_mark (a : Nat) (h : a < 32) : a ||| 192 = a + 192 := by
  revert a; decide
theorem or_lead3_mark (a : Nat) (h : a < 16) : a ||| 224 = a + 224 := by
  revert a; decide
theorem or_lead4_mark (a : Nat) (h : a < 8) : a ||| 240 = a + 240 := by
  revert a; decide

theorem and_mask63 (x : Nat) : x % 256 &&& 63 = x % 64 := by
  have := Nat.and_pow_two_sub_one_eq_mod (x % 256) 6
  simp at this
  rw [this]; omega
theorem and_mask31 (x : Nat) : x % 256 &&& 31 = x % 32 := by
  have := Nat.and_pow_two_sub_one_eq_mod (x % 256) 5
  simp at this
  rw [this]; omega
theorem and_mask15 (x : Nat) : x % 256 &&& 15 = x % 16 := by
  have := Nat.and_pow_two_sub_one_eq_mod (x % 256) 4
  simp at this
  rw [this]; omega
theorem and_mask7 (x : Nat) : x % 256 &&& 7 = x % 8 := by
  have := Nat.and_pow_two_sub_one_eq_mod (x % 256) 3
  simp at this
  rw [this]; omega

/-- The bytes of one character, as numbers: one byte up to 127, then two,
three or four bytes that carry the bits of the code point under the marks of
UTF-8. -/
theorem utf8EncodeChar_toNat (c : Char) :
    (String.utf8EncodeChar c).map UInt8.toNat =
      if c.val.toNat ≤ 127 then [c.val.toNat]
      else if c.val.toNat ≤ 2047 then
        [192 + c.val.toNat / 64 % 32, 128 + c.val.toNat % 64]
      else if c.val.toNat ≤ 65535 then
        [224 + c.val.toNat / 4096 % 16, 128 + c.val.toNat / 64 % 64, 128 + c.val.toNat % 64]
      else
        [240 + c.val.toNat / 262144 % 8, 128 + c.val.toNat / 4096 % 64,
          128 + c.val.toNat / 64 % 64, 128 + c.val.toNat % 64] := by
  have hc0 : (c.val.toUInt8 &&& 0x3f ||| 0x80).toNat = 128 + c.val.toNat % 64 := by
    have h1 : (c.val.toUInt8 &&& 0x3f ||| 0x80).toNat = ((c.val.toNat % 256) &&& 63) ||| 128 := rfl
    rw [h1, and_mask63, or_continuation_mark _ (Nat.mod_lt _ (by decide))]
    omega
  have hc6 : ((c.val >>> 6).toUInt8 &&& 0x3f ||| 0x80).toNat = 128 + c.val.toNat / 64 % 64 := by
    have h1 : ((c.val >>> 6).toUInt8 &&& 0x3f ||| 0x80).toNat
        = (((c.val.toNat >>> 6) % 256) &&& 63) ||| 128 := rfl
    rw [h1, Nat.shiftRight_eq_div_pow, and_mask63, or_continuation_mark _ (Nat.mod_lt _ (by decide))]
    omega
  have hc12 : ((c.val >>> 12).toUInt8 &&& 0x3f ||| 0x80).toNat
      = 128 + c.val.toNat / 4096 % 64 := by
    have h1 : ((c.val >>> 12).toUInt8 &&& 0x3f ||| 0x80).toNat
        = (((c.val.toNat >>> 12) % 256) &&& 63) ||| 128 := rfl
    rw [h1, Nat.shiftRight_eq_div_pow, and_mask63, or_continuation_mark _ (Nat.mod_lt _ (by decide))]
    omega
  have h2 : ((c.val >>> 6).toUInt8 &&& 0x1f ||| 0xc0).toNat = 192 + c.val.toNat / 64 % 32 := by
    have h1 : ((c.val >>> 6).toUInt8 &&& 0x1f ||| 0xc0).toNat
        = (((c.val.toNat >>> 6) % 256) &&& 31) ||| 192 := rfl
    rw [h1, Nat.shiftRight_eq_div_pow, and_mask31, or_lead2_mark _ (Nat.mod_lt _ (by decide))]
    omega
  have h3 : ((c.val >>> 12).toUInt8 &&& 0x0f ||| 0xe0).toNat = 224 + c.val.toNat / 4096 % 16 := by
    have h1 : ((c.val >>> 12).toUInt8 &&& 0x0f ||| 0xe0).toNat
        = (((c.val.toNat >>> 12) % 256) &&& 15) ||| 224 := rfl
    rw [h1, Nat.shiftRight_eq_div_pow, and_mask15, or_lead3_mark _ (Nat.mod_lt _ (by decide))]
    omega
  have h4 : ((c.val >>> 18).toUInt8 &&& 0x07 ||| 0xf0).toNat = 240 + c.val.toNat / 262144 % 8 := by
    have h1 : ((c.val >>> 18).toUInt8 &&& 0x07 ||| 0xf0).toNat
        = (((c.val.toNat >>> 18) % 256) &&& 7) ||| 240 := rfl
    rw [h1, Nat.shiftRight_eq_div_pow, and_mask7, or_lead4_mark _ (Nat.mod_lt _ (by decide))]
    omega
  have h1 : c.val.toUInt8.toNat = c.val.toNat % 256 := rfl
  have l1 : (c.val ≤ 0x7f) = (c.val.toNat ≤ 127) := rfl
  have l2 : (c.val ≤ 0x7ff) = (c.val.toNat ≤ 2047) := rfl
  have l3 : (c.val ≤ 0xffff) = (c.val.toNat ≤ 65535) := rfl
  unfold String.utf8EncodeChar
  by_cases a1 : c.val.toNat ≤ 127
  · have b1 : c.val ≤ 0x7f := l1 ▸ a1
    simp only [b1, a1, if_true, List.map_cons, List.map_nil, h1]
    congr 1
    omega
  · have b1 : ¬ c.val ≤ 0x7f := l1 ▸ a1
    by_cases a2 : c.val.toNat ≤ 2047
    · have b2 : c.val ≤ 0x7ff := l2 ▸ a2
      simp only [b1, a1, b2, a2, if_true, if_false, List.map_cons, List.map_nil, h2, hc0]
    · have b2 : ¬ c.val ≤ 0x7ff := l2 ▸ a2
      by_cases a3 : c.val.toNat ≤ 65535
      · have b3 : c.val ≤ 0xffff := l3 ▸ a3
        simp only [b1, a1, b2, a2, b3, a3, if_true, if_false, List.map_cons, List.map_nil,
          h3, hc6, hc0]
      · have b3 : ¬ c.val ≤ 0xffff := l3 ▸ a3
        simp only [b1, a1, b2, a2, b3, a3, if_true, if_false, List.map_cons, List.map_nil,
          h4, hc12, hc6, hc0]


/-- A code point is below 1114112. -/
theorem Char_val_lt (c : Char) : c.val.toNat < 1114112 := by
  have h := c.valid
  have h2 : c.val.toNat < 55296 ∨ (57343 < c.val.toNat ∧ c.val.toNat < 1114112) := h
  omega

theorem Char_eq_of_val_toNat (c d : Char) (h : c.val.toNat = d.val.toNat) : c = d := by
  have h1 : Char.ofNat c.toNat = c := Char.ofNat_toNat c
  have h2 : Char.ofNat d.toNat = d := Char.ofNat_toNat d
  have h3 : c.toNat = d.toNat := h
  rw [← h1, ← h2, h3]

/-- The encoding of a character is read back from the front of a byte string:
two characters whose bytes start the same byte string are the same character,
and what follows them is the same. -/
theorem utf8EncodeChar_append_inj (c d : Char) (r s : List Nat)
    (h : (String.utf8EncodeChar c).map UInt8.toNat ++ r =
      (String.utf8EncodeChar d).map UInt8.toNat ++ s) : c = d ∧ r = s := by
  have hc := Char_val_lt c
  have hd := Char_val_lt d
  rw [utf8EncodeChar_toNat, utf8EncodeChar_toNat] at h
  by_cases c1 : c.val.toNat ≤ 127 <;> by_cases d1 : d.val.toNat ≤ 127 <;>
    by_cases c2 : c.val.toNat ≤ 2047 <;> by_cases d2 : d.val.toNat ≤ 2047 <;>
    by_cases c3 : c.val.toNat ≤ 65535 <;> by_cases d3 : d.val.toNat ≤ 65535 <;>
    simp only [c1, d1, c2, d2, c3, d3, if_true, if_false, List.cons_append, List.nil_append,
      List.cons.injEq] at h <;>
    first
    | omega
    | exact ⟨Char_eq_of_val_toNat c d (by omega), by simp only [h]⟩

/-- Two lists of characters with the same bytes are the same list. -/
theorem utf8Encode_flatten_inj (l1 l2 : List Char)
    (h : (l1.map (fun c => (String.utf8EncodeChar c).map UInt8.toNat)).flatten =
      (l2.map (fun c => (String.utf8EncodeChar c).map UInt8.toNat)).flatten) : l1 = l2 := by
  induction l1 generalizing l2 with
  | nil =>
    cases l2 with
    | nil => rfl
    | cons d t =>
      exfalso
      have hl := congrArg List.length h
      simp only [List.map_nil, List.flatten_nil, List.length_nil, List.map_cons,
        List.flatten_cons, List.length_append, List.length_map,
        String.length_utf8EncodeChar] at hl
      have := Char.utf8Size_pos d
      omega
  | cons c t ih =>
    cases l2 with
    | nil =>
      exfalso
      have hl := congrArg List.length h
      simp only [List.map_nil, List.flatten_nil, List.length_nil, List.map_cons,
        List.flatten_cons, List.length_append, List.length_map,
        String.length_utf8EncodeChar] at hl
      have := Char.utf8Size_pos c
      omega
    | cons d t2 =>
      simp only [List.map_cons, List.flatten_cons] at h
      obtain ⟨h1, h2⟩ := utf8EncodeChar_append_inj c d _ _ h
      rw [h1, ih t2 h2]

/-- Two Go strings with the same bytes are the same string. -/
theorem stringBytes_injective : Function.Injective stringBytes := by
  intro s t h
  unfold stringBytes at h
  exact String.ext (utf8Encode_flatten_inj s.data t.data h)

/-- The example digest that keeps the first byte has a string form that tells
any two digests apart. -/
theorem exFirstByteHashing_IDString_injective :
    Function.Injective exFirstByteHashing.IDString := by
  intro x y h
  have h1 : (List.replicate (Encodable.encode x) 'a').length =
      (List.replicate (Encodable.encode y) 'a').length := by
    have h2 := congrArg String.data h
    exact congrArg List.length h2
  rw [List.length_replicate, List.length_replicate] at h1
  exact Encodable.encode_injective h1


/-! ## The claims -/

/-- C1: when the ledger returns a non-empty batch of n containers read from
the in-memory cursor i, no insert and no checkpoint update fails, the row of
(instance, topic) exists and i + n - 1 is a uint64, ProcessNextMessage returns
nil and both the durable checkpoint and the in-memory cursor are i + n - 1,
the index of the last enqueued container, which is not the count i + n. -/
theorem ProcessNextMessage_checkpoint_is_last_index (h : Hashing) (o : Oracle)
    (p : producerChainContainer) (w : World) (cs : List Container)
    (hbatch : o.GetContainerRange p.nodeIndex.Idx MaxTxRead = .ok cs)
    (hne : cs ≠ [])
    (hins : ∀ k, k < cs.length → o.insertFault k = none)
    (hupd : o.updateFault = none)
    (hrow : ∃ r, QueryNodeIndex none { Instance := p.nodeinstance, Topic := p.topic, Idx := 0 } w
      = .ok r)
    (hfit : p.nodeIndex.Idx + cs.length - 1 < 2 ^ 64) :
    (p.ProcessNextMessage h o w).2.2 = none ∧
    (p.ProcessNextMessage h o w).1.nodeIndex.Idx = p.nodeIndex.Idx + cs.length - 1 ∧
    QueryNodeIndex none { Instance := p.nodeinstance, Topic := p.topic, Idx := 0 }
        (p.ProcessNextMessage h o w).2.1 =
      .ok { Instance := p.nodeinstance, Topic := p.topic, Idx := p.nodeIndex.Idx + cs.length - 1 } ∧
    p.nodeIndex.Idx + cs.length - 1 ≠ p.nodeIndex.Idx + cs.length := by
  have hpos : 0 < cs.length := List.length_pos.mpr hne
  have hfit2 : p.nodeIndex.Idx + (cs.length - 1) < 2 ^ 64 := by omega
  have hidx : p.nodeIndex.Idx + (cs.length - 1) = p.nodeIndex.Idx + cs.length - 1 := by omega
  obtain ⟨r, hr⟩ := hrow
  unfold producerChainContainer.ProcessNextMessage
  rw [ProcessNextMessageWith_ok MaxTxRead h o p w cs hbatch hne hins hupd hfit2]
  refine ⟨rfl, hidx, ?_, by omega⟩
  simp only
  rw [QueryNodeIndex_setIdx p.nodeinstance p.topic _ 0 w _ _ r hr, hidx]

/-- C1 at a concrete input: the worker at cursor 0 reads the five containers
and ends with checkpoint and cursor 4. -/
theorem ProcessNextMessage_checkpoint_is_last_index_witness :
    (exWorker.ProcessNextMessage exHashing exOracle exWorld).2.2 = none ∧
    (exWorker.ProcessNextMessage exHashing exOracle exWorld).1.nodeIndex.Idx = 4 ∧
    QueryNodeIndex none { Instance := "default", Topic := "1-ch-decisions", Idx := 0 }
        (exWorker.ProcessNextMessage exHashing exOracle exWorld).2.1 =
      .ok { Instance := "default", Topic := "1-ch-decisions", Idx := 4 } ∧
    (4 : Nat) ≠ 5 :=
  ProcessNextMessage_checkpoint_is_last_index exHashing exOracle exWorker exWorld exChain
    (by rfl) (by decide) (fun _ _ => rfl) rfl ⟨_, rfl⟩ (by decide)

/-- C2, amended: on a non-empty batch, when the insert of the container at
position m
is the first statement to fail (m < n), or every insert succeeds and the
checkpoint update fails (m = n), ProcessNextMessage returns the error of that
statement (the EventErr wrapping that InsertTxPool or UpdateNodeIndex
returns), the worker and so its cursor are unchanged, the checkpoint table is
unchanged, the rows that were queued stay, each container before position m
has a row with its id, no row was added for a container at position m or
later, and a worker restarted afterwards by newContainer (no failure) reads
the index of the unchanged checkpoint row when cfg.PerformUpdates is false;
when cfg.PerformUpdates is true the start sets the index of the checkpoint row
to 0 and the worker reads 0. -/
theorem ProcessNextMessage_failure_keeps_checkpoint (h : Hashing) (o : Oracle)
    (p : producerChainContainer) (w : World) (cs : List Container) (m : Nat) (f : Fault)
    (r0 : NodeIndex)
    (hbatch : o.GetContainerRange p.nodeIndex.Idx MaxTxRead = .ok cs)
    (hne : cs ≠ [])
    (hbefore : ∀ j, j < m → o.insertFault j = none)
    (hfail : (m < cs.length ∧ o.insertFault m = some f) ∨
      (m = cs.length ∧ o.updateFault = some f))
    (hinst : p.nodeinstance = p.conf.NodeInstance)
    (hrow : QueryNodeIndex none { Instance := p.nodeinstance, Topic := p.topic, Idx := 0 } w
      = .ok r0) :
    (p.ProcessNextMessage h o w).2.2 =
      some (if m < cs.length then EventErr TableTxPool false f.toError
        else EventErr TableNodeIndex true f.toError) ∧
    (p.ProcessNextMessage h o w).1 = p ∧
    (p.ProcessNextMessage h o w).2.1.nodeIndex = w.nodeIndex ∧
    (∀ r, r ∈ w.txPool → r ∈ (p.ProcessNextMessage h o w).2.1.txPool) ∧
    (∀ j c, j < m → cs[j]? = some c →
      ∃ r ∈ (p.ProcessNextMessage h o w).2.1.txPool, r.ID = (p.txPoolOf h c).ID) ∧
    (∀ r, r ∈ (p.ProcessNextMessage h o w).2.1.txPool →
      r ∈ w.txPool ∨ ∃ j c, j < m ∧ cs[j]? = some c ∧ r = p.txPoolOf h c) ∧
    newContainer false
        { database := none, insertFault := none, updateFault := none, queryFault := none }
        p.conf p.topic p.chainID p.indexerChain p.metricProcessedCountKey
        (p.ProcessNextMessage h o w).2.1 =
      ((p.ProcessNextMessage h o w).2.1, .ok
        { conf := p.conf
          nodeIndex := { Instance := p.nodeinstance, Topic := p.topic, Idx := r0.Idx }
          nodeinstance := p.nodeinstance
          topic := p.topic
          chainID := p.chainID
          indexerChain := p.indexerChain
          metricProcessedCountKey := p.metricProcessedCountKey }) ∧
    newContainer true
        { database := none, insertFault := none, updateFault := none, queryFault := none }
        p.conf p.topic p.chainID p.indexerChain p.metricProcessedCountKey
        (p.ProcessNextMessage h o w).2.1 =
      ({ (p.ProcessNextMessage h o w).2.1 with
          nodeIndex := setIdx p.nodeinstance p.topic 0 w.nodeIndex }, .ok
        { conf := p.conf
          nodeIndex := { Instance := p.nodeinstance, Topic := p.topic, Idx := 0 }
          nodeinstance := p.nodeinstance
          topic := p.topic
          chainID := p.chainID
          indexerChain := p.indexerChain
          metricProcessedCountKey := p.metricProcessedCountKey }) := by
  have hq := queue_after_prefix h p cs m w.txPool
  have hrestart2 : ∀ (rows : List TxPool) (tr : List Event),
      newContainer true
          { database := none, insertFault := none, updateFault := none, queryFault := none }
          p.conf p.topic p.chainID p.indexerChain p.metricProcessedCountKey
          { txPool := rows, nodeIndex := w.nodeIndex, trace := tr } =
        ({ txPool := rows, nodeIndex := setIdx p.nodeinstance p.topic 0 w.nodeIndex,
           trace := tr }, .ok
          { conf := p.conf
            nodeIndex := { Instance := p.nodeinstance, Topic := p.topic, Idx := 0 }
            nodeinstance := p.nodeinstance
            topic := p.topic
            chainID := p.chainID
            indexerChain := p.indexerChain
            metricProcessedCountKey := p.metricProcessedCountKey }) := by
    intro rows tr
    rw [hinst] at hrow ⊢
    exact newContainer_existing_row_upd p.conf p.topic p.chainID p.indexerChain
      p.metricProcessedCountKey _ r0 hrow
  have hrestart : ∀ (rows : List TxPool) (tr : List Event),
      newContainer false
          { database := none, insertFault := none, updateFault := none, queryFault := none }
          p.conf p.topic p.chainID p.indexerChain p.metricProcessedCountKey
          { txPool := rows, nodeIndex := w.nodeIndex, trace := tr } =
        ({ txPool := rows, nodeIndex := w.nodeIndex, trace := tr }, .ok
          { conf := p.conf
            nodeIndex := { Instance := p.nodeinstance, Topic := p.topic, Idx := r0.Idx }
            nodeinstance := p.nodeinstance
            topic := p.topic
            chainID := p.chainID
            indexerChain := p.indexerChain
            metricProcessedCountKey := p.metricProcessedCountKey }) := by
    intro rows tr
    rw [hinst] at hrow ⊢
    exact newContainer_existing_row p.conf p.topic p.chainID p.indexerChain
      p.metricProcessedCountKey _ r0 hrow
  unfold producerChainContainer.ProcessNextMessage
  rcases hfail with ⟨hm, hat⟩ | ⟨hm, hupd⟩
  · rw [ProcessNextMessageWith_insert_fault MaxTxRead h o p w cs m f hbatch hm hbefore hat]
    simp only [hm, if_true]
    exact ⟨trivial, trivial, trivial, hq.1, hq.2.1, hq.2.2, hrestart _ _, hrestart2 _ _⟩
  · have hins : ∀ k, k < cs.length → o.insertFault k = none := by
      intro k hk; exact hbefore k (by omega)
    rw [ProcessNextMessageWith_update_fault MaxTxRead h o p w cs f hbatch hne hins hupd]
    have hnlt : ¬ m < cs.length := by omega
    simp only [hnlt, if_false]
    have htake : cs.take m = cs := by rw [hm]; exact List.take_length cs
    rw [htake] at hq
    exact ⟨trivial, trivial, trivial, hq.1, hq.2.1, hq.2.2, hrestart _ _, hrestart2 _ _⟩

/-- C2, amended, at a concrete input: the insert of the container at position
2 of the
five hits a storage failure; the call returns that error, the worker and the
checkpoint table are unchanged and a restarted worker reads index 0. -/
theorem ProcessNextMessage_failure_keeps_checkpoint_witness :
    (exWorker.ProcessNextMessage exHashing exFaultyOracle exWorld).2.2 =
      some (EventErr TableTxPool false (Fault.failure "connection lost").toError) ∧
    (exWorker.ProcessNextMessage exHashing exFaultyOracle exWorld).1 = exWorker ∧
    (exWorker.ProcessNextMessage exHashing exFaultyOracle exWorld).2.1.nodeIndex =
      exWorld.nodeIndex :=
  have t := ProcessNextMessage_failure_keeps_checkpoint exHashing exFaultyOracle exWorker exWorld
    exChain 2 (Fault.failure "connection lost")
    { Instance := "default", Topic := "1-ch-decisions", Idx := 0 }
    (by rfl) (by decide) (by decide) (Or.inl ⟨by decide, rfl⟩) rfl rfl
  ⟨t.1, t.2.1, t.2.2.1⟩

/-- C3, as the claim states it, fails: after a call in which the ledger read
ran into its deadline the cursor is still the initial cursor 0, so index 0
lies between the initial and the current cursor, and the container at index 0
has not been inserted into the queue. -/
theorem calls_container_at_initial_cursor_not_queued :
    exWorker.nodeIndex.Idx ≤ 0 ∧
    0 ≤ (exWorker.calls exHashing [exDownOracle] exWorld false).1.nodeIndex.Idx ∧
    ¬ queued exHashing exWorker (exWorker.calls exHashing [exDownOracle] exWorld false).2.1
      (exChainAt 0) := by
  refine ⟨by decide, by decide, ?_⟩
  rintro ⟨r, hr, _⟩
  have hempty : (exWorker.calls exHashing [exDownOracle] exWorld false).2.1.txPool = [] := by
    decide
  rw [hempty] at hr
  simp at hr

/-- C3, amended: over every sequence of ProcessNextMessage calls of one worker
that starts with its cursor equal to the durable checkpoint, with a ledger
that serves contiguous ranges and no uint64 overflow, the cursor is
non-decreasing (from the start to any point of the sequence and from there to
the end), the durable checkpoint equals the cursor, every container whose
index is at least the initial cursor and below the current cursor has a row in
the queue, and the container at the current cursor has one too once a call has
completed a non-empty batch. -/
theorem calls_checkpoint_monotone_no_skip (h : Hashing) (chain : Nat → Container)
    (os1 os2 : List Oracle) (p : producerChainContainer) (w : World)
    (hserve : ∀ o, o ∈ os1 ++ os2 → servesChain chain o)
    (hrow : QueryNodeIndex none { Instance := p.nodeinstance, Topic := p.topic, Idx := 0 } w =
      .ok { Instance := p.nodeinstance, Topic := p.topic, Idx := p.nodeIndex.Idx }) :
    p.nodeIndex.Idx ≤ (p.calls h os1 w false).1.nodeIndex.Idx ∧
    (p.calls h os1 w false).1.nodeIndex.Idx ≤ (p.calls h (os1 ++ os2) w false).1.nodeIndex.Idx ∧
    QueryNodeIndex none { Instance := p.nodeinstance, Topic := p.topic, Idx := 0 }
        (p.calls h (os1 ++ os2) w false).2.1 =
      .ok { Instance := p.nodeinstance, Topic := p.topic,
            Idx := (p.calls h (os1 ++ os2) w false).1.nodeIndex.Idx } ∧
    (∀ j, p.nodeIndex.Idx ≤ j → j < (p.calls h (os1 ++ os2) w false).1.nodeIndex.Idx →
      queued h p (p.calls h (os1 ++ os2) w false).2.1 (chain j)) ∧
    ((p.calls h (os1 ++ os2) w false).2.2 = true →
      queued h p (p.calls h (os1 ++ os2) w false).2.1
        (chain (p.calls h (os1 ++ os2) w false).1.nodeIndex.Idx)) := by
  have hinit : producerInv h chain p p w false := by
    refine ⟨rfl, le_refl _, hrow, ?_, ?_⟩
    · intro j hj1 hj2; omega
    · intro hf; cases hf
  obtain ⟨hinv1, hle1⟩ := producerInv_calls h chain p os1 p w false hinit
    (fun o ho => hserve o (List.mem_append_left _ ho))
  obtain ⟨hinv2, hle2⟩ := producerInv_calls h chain p os2 _ _ _ hinv1
    (fun o ho => hserve o (List.mem_append_right _ ho))
  rw [calls_append]
  obtain ⟨_, _, hq, hbelow, hat⟩ := hinv2
  exact ⟨hle1, hle2, hq, hbelow, hat⟩

/-- C3, amended, at a concrete input: a failed ledger read followed by two
calls on the ledger of five containers. -/
theorem calls_checkpoint_monotone_no_skip_witness :
    exWorker.nodeIndex.Idx ≤ (exWorker.calls exHashing [exDownOracle] exWorld false).1.nodeIndex.Idx ∧
    (exWorker.calls exHashing [exDownOracle] exWorld false).1.nodeIndex.Idx ≤
      (exWorker.calls exHashing ([exDownOracle] ++ [exOracle, exOracle]) exWorld
        false).1.nodeIndex.Idx :=
  have hserve : ∀ o, o ∈ [exDownOracle] ++ [exOracle, exOracle] → servesChain exChainAt o := by
    intro o ho
    simp only [List.cons_append, List.nil_append, List.mem_cons, List.mem_singleton,
      List.mem_nil_iff, or_false, or_self] at ho
    rcases ho with ho | ho
    · subst ho
      intro start limit cs hcs
      simp [exDownOracle] at hcs
    · subst ho
      exact listLedger_servesChain exChainAt exChain _ _ (by decide) (by decide)
  have t := calls_checkpoint_monotone_no_skip exHashing exChainAt [exDownOracle]
    [exOracle, exOracle] exWorker exWorld hserve rfl
  ⟨t.1, t.2.1⟩

/-- C4: with the queue table a map keyed by TxPool.ID (no two rows share an
id) and both INSERT statements executed by the storage layer, for every queue
state and every two entries e and e2 with e2.ID = e.ID, InsertTxPool(e)
followed by InsertTxPool(e2) returns nil both times, the second call leaves
the store exactly as the first one left it, and the queue has exactly one row
with that id.  Its fields are those of the first insert of the id and never
those of e2: the row is e itself when the id was not queued before, and the
row that was queued before otherwise. -/
theorem InsertTxPool_twice_one_row (w : World) (e e2 : TxPool)
    (hmap : (w.txPool.map TxPool.ID).Nodup)
    (hid : e2.ID = e.ID) :
    (InsertTxPool none e w).2 = none ∧
    (InsertTxPool none e2 (InsertTxPool none e w).1).2 = none ∧
    (InsertTxPool none e2 (InsertTxPool none e w).1).1 = (InsertTxPool none e w).1 ∧
    rowsWithID e.ID (InsertTxPool none e2 (InsertTxPool none e w).1).1.txPool = 1 ∧
    (rowsWithID e.ID w.txPool = 0 →
      QueryTxPool none e2 (InsertTxPool none e2 (InsertTxPool none e w).1).1 = .ok e) ∧
    (∀ r0, QueryTxPool none e w = .ok r0 →
      QueryTxPool none e2 (InsertTxPool none e2 (InsertTxPool none e w).1).1 = .ok r0) := by
  simp only [InsertTxPool_none, insertRow_insertRow_same_id w.txPool e e2 hid]
  refine ⟨trivial, trivial, trivial, ?_, ?_, ?_⟩
  rotate_left 2
  · intro r0 hr0
    have hfind : w.txPool.find? (fun r => decide (r.ID = e.ID)) = some r0 := by
      unfold QueryTxPool sqlLoadOne at hr0
      simp only at hr0
      cases hf : w.txPool.find? (fun r => decide (r.ID = e.ID)) with
      | none => simp [hf] at hr0
      | some r1 =>
        rw [hf] at hr0
        simp only [Except.ok.injEq] at hr0
        rw [hr0]
    have hany : (w.txPool.any (fun r => decide (r.ID = e.ID))) = true :=
      List.any_eq_true.mpr ⟨r0, List.mem_of_find?_eq_some hfind,
        List.find?_some (p := fun r : TxPool => decide (r.ID = e.ID)) hfind⟩
    simp only [QueryTxPool, sqlLoadOne, insertRow, hany, if_true, hid, hfind]
  · by_cases hany : (w.txPool.any (fun r => decide (r.ID = e.ID))) = true
    · simp only [insertRow, hany, if_true]
      exact rowsWithID_of_any e.ID w.txPool hmap hany
    · have h0 := rowsWithID_of_not_any e.ID w.txPool hany
      simp only [insertRow, hany, Bool.false_eq_true, if_false]
      unfold rowsWithID at h0 ⊢
      rw [List.countP_append, h0]
      simp
  · intro h0
    have hnone : ∀ r, r ∈ w.txPool → ¬ r.ID = e.ID := by
      intro r hr hrid
      unfold rowsWithID at h0
      rw [List.countP_eq_zero] at h0
      exact h0 r hr (by simpa using hrid)
    have hany : ¬ (w.txPool.any (fun r => decide (r.ID = e.ID))) = true := by
      intro hany
      obtain ⟨r, hr, hrid⟩ := List.any_eq_true.mp hany
      exact hnone r hr (of_decide_eq_true hrid)
    have hfind : (w.txPool ++ [e]).find? (fun r => decide (r.ID = e2.ID)) = some e := by
      rw [List.find?_append]
      have h1 : w.txPool.find? (fun r => decide (r.ID = e2.ID)) = none := by
        rw [List.find?_eq_none]
        intro r hr
        simpa [hid] using hnone r hr
      rw [h1]
      simp [List.find?, hid]
    simp only [QueryTxPool, sqlLoadOne, insertRow, hany, Bool.false_eq_true, if_false, hfind]

/-- C4 at a concrete input: an entry and a second one with the same id and
another payload, inserted into the empty queue. -/
theorem InsertTxPool_twice_one_row_witness :
    (InsertTxPool none exEntryOther (InsertTxPool none exEntry exWorld).1).2 = none ∧
    rowsWithID "q1" (InsertTxPool none exEntryOther (InsertTxPool none exEntry exWorld).1).1.txPool
      = 1 ∧
    QueryTxPool none exEntryOther (InsertTxPool none exEntryOther (InsertTxPool none exEntry
      exWorld).1).1 = .ok exEntry :=
  have t := InsertTxPool_twice_one_row exWorld exEntry exEntryOther (by decide) rfl
  ⟨t.2.1, t.2.2.2.1, t.2.2.2.2.1 (by decide)⟩

/-- C5: TxPool.ComputeID sets ID to the string form of the digest of the bytes
of MsgKey + ":" + Topic and changes no other field; hence two entries with
equal MsgKey and equal Topic get equal IDs whatever their NetworkID, ChainID,
Serialization, CreatedAt and previous ID are, and a second ComputeID leaves
the entry, and so its ID, unchanged.  The digest and the string form are those
of the library, for which the statement holds whatever they compute. -/
theorem ComputeID_deterministic (h : Hashing) (b b2 : TxPool)
    (hkey : b2.MsgKey = b.MsgKey) (htopic : b2.Topic = b.Topic) :
    (b.ComputeID h).ID =
      h.IDString (h.ComputeHash256Array (stringBytes (b.MsgKey ++ ":" ++ b.Topic))) ∧
    b.ComputeID h = { b with ID := (b.ComputeID h).ID } ∧
    (b2.ComputeID h).ID = (b.ComputeID h).ID ∧
    (b.ComputeID h).ComputeID h = b.ComputeID h := by
  refine ⟨rfl, rfl, ?_, rfl⟩
  simp only [TxPool.ComputeID, TxPool.idsv, hkey, htopic]

/-- C5 at a concrete input: two entries with the same MsgKey and Topic that
differ in NetworkID, ChainID, Serialization and CreatedAt. -/
theorem ComputeID_deterministic_witness :
    (exEntryOther.ComputeID exHashing).ID = (exEntry.ComputeID exHashing).ID ∧
    (exEntry.ComputeID exHashing).ComputeID exHashing = exEntry.ComputeID exHashing :=
  have t := ComputeID_deterministic exHashing exEntry exEntryOther rfl rfl
  ⟨t.2.2.1, t.2.2.2⟩

/-- C6, amended: for a batch of N containers with pairwise distinct queue ids
read from checkpoint i and every k < N, when a first ProcessNextMessage stops
at the insert of the container at position k (only the first k are inserted,
the checkpoint is not updated), a worker restarted by newContainer with
cfg.PerformUpdates false reads checkpoint i, and a second ProcessNextMessage
over the same N containers returns nil, ends with cursor and durable
checkpoint i + N - 1 and with exactly N queue rows for the batch, and its
queue table, checkpoint table and cursor are those of one uninterrupted run.
A worker restarted with cfg.PerformUpdates true sets the index of the
checkpoint row to 0 and reads 0. -/
theorem ProcessNextMessage_crash_resume (h : Hashing) (o1 o2 : Oracle)
    (p : producerChainContainer) (w : World) (cs : List Container) (k : Nat) (f : Fault)
    (hbatch1 : o1.GetContainerRange p.nodeIndex.Idx MaxTxRead = .ok cs)
    (hbatch2 : o2.GetContainerRange p.nodeIndex.Idx MaxTxRead = .ok cs)
    (hk : k < cs.length)
    (hbefore : ∀ j, j < k → o1.insertFault j = none)
    (hstop : o1.insertFault k = some f)
    (hins2 : ∀ j, j < cs.length → o2.insertFault j = none)
    (hupd2 : o2.updateFault = none)
    (hdistinct : ((cs.map (p.txPoolOf h)).map TxPool.ID).Nodup)
    (hmap : (w.txPool.map TxPool.ID).Nodup)
    (hinst : p.nodeinstance = p.conf.NodeInstance)
    (hrow : QueryNodeIndex none { Instance := p.nodeinstance, Topic := p.topic, Idx := 0 } w =
      .ok { Instance := p.nodeinstance, Topic := p.topic, Idx := p.nodeIndex.Idx })
    (hfit : p.nodeIndex.Idx + cs.length - 1 < 2 ^ 64) :
    (∃ p2 : producerChainContainer,
      newContainer false
          { database := none, insertFault := none, updateFault := none, queryFault := none }
          p.conf p.topic p.chainID p.indexerChain p.metricProcessedCountKey
          (p.ProcessNextMessage h o1 w).2.1 = ((p.ProcessNextMessage h o1 w).2.1, .ok p2) ∧
      p2.nodeIndex.Idx = p.nodeIndex.Idx ∧
      (p2.ProcessNextMessage h o2 (p.ProcessNextMessage h o1 w).2.1).2.2 = none ∧
      (p2.ProcessNextMessage h o2 (p.ProcessNextMessage h o1 w).2.1).1.nodeIndex.Idx =
        p.nodeIndex.Idx + cs.length - 1 ∧
      QueryNodeIndex none { Instance := p.nodeinstance, Topic := p.topic, Idx := 0 }
          (p2.ProcessNextMessage h o2 (p.ProcessNextMessage h o1 w).2.1).2.1 =
        .ok { Instance := p.nodeinstance, Topic := p.topic,
              Idx := p.nodeIndex.Idx + cs.length - 1 } ∧
      rowsWithIDs ((cs.map (p.txPoolOf h)).map TxPool.ID)
          (p2.ProcessNextMessage h o2 (p.ProcessNextMessage h o1 w).2.1).2.1.txPool =
        cs.length ∧
      (p2.ProcessNextMessage h o2 (p.ProcessNextMessage h o1 w).2.1).2.1.txPool =
        (p.ProcessNextMessage h o2 w).2.1.txPool ∧
      (p2.ProcessNextMessage h o2 (p.ProcessNextMessage h o1 w).2.1).2.1.nodeIndex =
        (p.ProcessNextMessage h o2 w).2.1.nodeIndex ∧
      (p2.ProcessNextMessage h o2 (p.ProcessNextMessage h o1 w).2.1).1.nodeIndex.Idx =
        (p.ProcessNextMessage h o2 w).1.nodeIndex.Idx) ∧
    (∃ p3 : producerChainContainer,
      newContainer true
          { database := none, insertFault := none, updateFault := none, queryFault := none }
          p.conf p.topic p.chainID p.indexerChain p.metricProcessedCountKey
          (p.ProcessNextMessage h o1 w).2.1 =
        ({ (p.ProcessNextMessage h o1 w).2.1 with
            nodeIndex := setIdx p.nodeinstance p.topic 0
              (p.ProcessNextMessage h o1 w).2.1.nodeIndex }, .ok p3) ∧
      p3.nodeIndex.Idx = 0 ∧
      QueryNodeIndex none { Instance := p.nodeinstance, Topic := p.topic, Idx := 0 }
          { (p.ProcessNextMessage h o1 w).2.1 with
            nodeIndex := setIdx p.nodeinstance p.topic 0
              (p.ProcessNextMessage h o1 w).2.1.nodeIndex } =
        .ok { Instance := p.nodeinstance, Topic := p.topic, Idx := 0 }) := by
  have hne : cs ≠ [] := by
    intro hc; rw [hc] at hk; simp at hk
  have hpos : 0 < cs.length := List.length_pos.mpr hne
  have hfit2 : p.nodeIndex.Idx + (cs.length - 1) < 2 ^ 64 := by omega
  have hidx : p.nodeIndex.Idx + (cs.length - 1) = p.nodeIndex.Idx + cs.length - 1 := by omega
  -- the first, interrupted call
  have hfirst := ProcessNextMessageWith_insert_fault MaxTxRead h o1 p w cs k f hbatch1 hk hbefore
    hstop
  -- the restarted worker
  have hrow1 : QueryNodeIndex none
      { Instance := p.conf.NodeInstance, Topic := p.topic, Idx := 0 }
      (p.ProcessNextMessageWith MaxTxRead h o1 w).2.1 =
      .ok { Instance := p.nodeinstance, Topic := p.topic, Idx := p.nodeIndex.Idx } := by
    rw [QueryNodeIndex_congr none _ w _ (by rw [hfirst]), ← hinst]
    exact hrow
  have hrestart := newContainer_existing_row p.conf p.topic p.chainID p.indexerChain
    p.metricProcessedCountKey (p.ProcessNextMessageWith MaxTxRead h o1 w).2.1 _ hrow1
  simp only [← hinst] at hrestart
  -- the second call, by the restarted worker, and the uninterrupted one
  have hsecond := ProcessNextMessageWith_ok MaxTxRead h o2
    { conf := p.conf
      nodeIndex := { Instance := p.nodeinstance, Topic := p.topic, Idx := p.nodeIndex.Idx }
      nodeinstance := p.nodeinstance
      topic := p.topic
      chainID := p.chainID
      indexerChain := p.indexerChain
      metricProcessedCountKey := p.metricProcessedCountKey }
    (p.ProcessNextMessageWith MaxTxRead h o1 w).2.1 cs hbatch2 hne hins2 hupd2 hfit2
  simp only at hsecond
  have hsingle := ProcessNextMessageWith_ok MaxTxRead h o2 p w cs hbatch2 hne hins2 hupd2 hfit2
  have hentry : producerChainContainer.txPoolOf h
      { conf := p.conf
        nodeIndex := { Instance := p.nodeinstance, Topic := p.topic, Idx := p.nodeIndex.Idx }
        nodeinstance := p.nodeinstance
        topic := p.topic
        chainID := p.chainID
        indexerChain := p.indexerChain
        metricProcessedCountKey := p.metricProcessedCountKey } = p.txPoolOf h := rfl
  have hqueue : (cs.map (p.txPoolOf h)).foldl insertRow
      (p.ProcessNextMessageWith MaxTxRead h o1 w).2.1.txPool =
      (cs.map (p.txPoolOf h)).foldl insertRow w.txPool := by
    rw [hfirst]
    simp only
    rw [List.map_take]
    exact foldl_insertRow_resume _ _ k
  have hnode : (p.ProcessNextMessageWith MaxTxRead h o1 w).2.1.nodeIndex = w.nodeIndex := by
    rw [hfirst]
  have hrestart2 := newContainer_existing_row_upd p.conf p.topic p.chainID p.indexerChain
    p.metricProcessedCountKey (p.ProcessNextMessageWith MaxTxRead h o1 w).2.1 _ hrow1
  simp only [← hinst] at hrestart2
  have hrowA : QueryNodeIndex none
      { Instance := p.nodeinstance, Topic := p.topic, Idx := 0 }
      (p.ProcessNextMessageWith MaxTxRead h o1 w).2.1 =
      .ok { Instance := p.nodeinstance, Topic := p.topic, Idx := p.nodeIndex.Idx } := by
    rw [QueryNodeIndex_congr none _ w _ (by rw [hfirst])]
    exact hrow
  have hquery2 := QueryNodeIndex_setIdx p.nodeinstance p.topic 0 0
    (p.ProcessNextMessageWith MaxTxRead h o1 w).2.1
    (p.ProcessNextMessageWith MaxTxRead h o1 w).2.1.txPool
    (p.ProcessNextMessageWith MaxTxRead h o1 w).2.1.trace _ hrowA
  unfold producerChainContainer.ProcessNextMessage
  refine ⟨?_, ⟨_, hrestart2, rfl, hquery2⟩⟩
  refine ⟨_, hrestart, rfl, ?_⟩
  rw [hsecond, hsingle]
  simp only [hentry, hqueue, hnode, hidx]
  refine ⟨trivial, trivial, ?_, ?_, trivial, trivial, trivial⟩
  · rw [← hidx]
    exact QueryNodeIndex_setIdx p.nodeinstance p.topic _ 0 w _ _ _ hrow
  · have hcount := rowsWithIDs_eq_length ((cs.map (p.txPoolOf h)).map TxPool.ID)
      ((cs.map (p.txPoolOf h)).foldl insertRow w.txPool) hdistinct
      (foldl_insertRow_nodup _ _ hmap)
    simp only [List.length_map] at hcount
    apply hcount
    intro id hid
    obtain ⟨v, hv, hvid⟩ := List.mem_map.mp hid
    obtain ⟨r, hr, hrid⟩ := foldl_insertRow_has_id _ w.txPool v hv
    rw [← hvid, ← hrid]
    exact List.mem_map_of_mem _ hr

/-- C6, amended, at a concrete input: the first call over the five containers
stops at
the insert at position 2; after the restart the second call ends with
checkpoint 4 and five rows for the batch. -/
theorem ProcessNextMessage_crash_resume_witness :
    ∃ p2 : producerChainContainer,
      p2.nodeIndex.Idx = 0 ∧
      (p2.ProcessNextMessage exHashing exOracle
        (exWorker.ProcessNextMessage exHashing exFaultyOracle exWorld).2.1).1.nodeIndex.Idx = 4 ∧
      rowsWithIDs ((exChain.map (exWorker.txPoolOf exHashing)).map TxPool.ID)
        (p2.ProcessNextMessage exHashing exOracle
          (exWorker.ProcessNextMessage exHashing exFaultyOracle exWorld).2.1).2.1.txPool = 5 :=
  have t := ProcessNextMessage_crash_resume exHashing exFaultyOracle exOracle exWorker exWorld
    exChain 2 (Fault.failure "connection lost") (by rfl) (by rfl) (by decide) (by decide) rfl
    (fun _ _ => rfl) rfl (by decide) (by decide) rfl rfl (by decide)
  t.1.elim fun p2 hp2 => ⟨p2, hp2.2.1, hp2.2.2.2.1, hp2.2.2.2.2.2.1⟩

set_option maxRecDepth 100000 in
/-- C7, as the claim states it, fails: with the five containers, batch limit 2
and initial checkpoint 0, the first three polls return the containers [0,1],
[1,2] and [2,3], not [0,1], [2,3] and [4]; after them the checkpoint is 3 and
the queue holds 4 rows, and the fourth poll is non-empty too. -/
theorem five_containers_three_polls :
    polledBatches exOracle (exWorker.repeatWith 2 exHashing exOracle 3 exWorld).2.trace =
      [[exChainAt 0, exChainAt 1], [exChainAt 1, exChainAt 2], [exChainAt 2, exChainAt 3]] ∧
    polledBatches exOracle (exWorker.repeatWith 2 exHashing exOracle 3 exWorld).2.trace ≠
      [[exChainAt 0, exChainAt 1], [exChainAt 2, exChainAt 3], [exChainAt 4]] ∧
    (exWorker.repeatWith 2 exHashing exOracle 3 exWorld).1.nodeIndex.Idx = 3 ∧
    (exWorker.repeatWith 2 exHashing exOracle 3 exWorld).2.txPool.length = 4 ∧
    polledBatches exOracle (exWorker.repeatWith 2 exHashing exOracle 4 exWorld).2.trace =
      [[exChainAt 0, exChainAt 1], [exChainAt 1, exChainAt 2], [exChainAt 2, exChainAt 3],
        [exChainAt 3, exChainAt 4]] := by
  decide

set_option maxRecDepth 100000 in
/-- C7, amended: with the ledger of five containers at the indices 0 to 4,
batch limit 2 and initial checkpoint 0, the first five polls return the
containers [0,1], [1,2], [2,3], [3,4] and [4] in that order, after which the
cursor and the durable checkpoint are 4 and the queue holds 5 rows; each of
the n polls that follow returns [4] again and leaves the worker, the
checkpoint table and the queue table as they are. -/
theorem five_containers_scenario (n : Nat) :
    polledBatches exOracle (exWorker.repeatWith 2 exHashing exOracle 5 exWorld).2.trace =
      [[exChainAt 0, exChainAt 1], [exChainAt 1, exChainAt 2], [exChainAt 2, exChainAt 3],
        [exChainAt 3, exChainAt 4], [exChainAt 4]] ∧
    (exWorker.repeatWith 2 exHashing exOracle 5 exWorld).1.nodeIndex.Idx = 4 ∧
    QueryNodeIndex none { Instance := "default", Topic := "1-ch-decisions", Idx := 0 }
        (exWorker.repeatWith 2 exHashing exOracle 5 exWorld).2 =
      .ok { Instance := "default", Topic := "1-ch-decisions", Idx := 4 } ∧
    (exWorker.repeatWith 2 exHashing exOracle 5 exWorld).2.txPool.length = 5 ∧
    polledBatches exOracle (exWorker.repeatWith 2 exHashing exOracle (5 + n) exWorld).2.trace =
      [[exChainAt 0, exChainAt 1], [exChainAt 1, exChainAt 2], [exChainAt 2, exChainAt 3],
        [exChainAt 3, exChainAt 4], [exChainAt 4]] ++ List.replicate n [exChainAt 4] ∧
    (exWorker.repeatWith 2 exHashing exOracle (5 + n) exWorld).1 =
      (exWorker.repeatWith 2 exHashing exOracle 5 exWorld).1 ∧
    (exWorker.repeatWith 2 exHashing exOracle (5 + n) exWorld).2.nodeIndex =
      (exWorker.repeatWith 2 exHashing exOracle 5 exWorld).2.nodeIndex ∧
    (exWorker.repeatWith 2 exHashing exOracle (5 + n) exWorld).2.txPool =
      (exWorker.repeatWith 2 exHashing exOracle 5 exWorld).2.txPool := by
  have hpolls : polledBatches exOracle
      (exWorker.repeatWith 2 exHashing exOracle 5 exWorld).2.trace =
      [[exChainAt 0, exChainAt 1], [exChainAt 1, exChainAt 2], [exChainAt 2, exChainAt 3],
        [exChainAt 3, exChainAt 4], [exChainAt 4]] := by decide
  have hworker : (exWorker.repeatWith 2 exHashing exOracle 5 exWorld).1 = exWorkerAt 4 := by
    decide
  have hqueue : (exWorker.repeatWith 2 exHashing exOracle 5 exWorld).2.txPool =
      exChain.map (exWorker.txPoolOf exHashing) := by decide
  have hnode : (exWorker.repeatWith 2 exHashing exOracle 5 exWorld).2.nodeIndex =
      [{ Instance := "default", Topic := "1-ch-decisions", Idx := 4 }] := by decide
  obtain ⟨h1, h2, h3, h4⟩ := exWorkerAt_four_repeat n
    (exWorker.repeatWith 2 exHashing exOracle 5 exWorld).2 hqueue hnode
  rw [repeatWith_add, hworker, h1, h2, h3, h4, hpolls]
  refine ⟨rfl, rfl, ?_, ?_, rfl, rfl, rfl, rfl⟩
  · simp only [QueryNodeIndex, sqlLoadOne, hnode]
    rfl
  · rw [hqueue]; rfl

/-- C8, as the claim states it, fails: after the call that enqueued the
containers at the indices 0 to 4, the following call requests the range that
starts at index 4 (500 containers from index 4 on), which contains index 4,
and the ledger returns the container at index 4 again. -/
theorem next_poll_contains_last_index :
    (exWorker.ProcessNextMessage exHashing exOracle exWorld).2.2 = none ∧
    (exWorker.ProcessNextMessage exHashing exOracle exWorld).2.1.txPool =
      exChain.map (exWorker.txPoolOf exHashing) ∧
    requests (exWorker.repeatWith MaxTxRead exHashing exOracle 2 exWorld).2.trace =
      [(0, 500), (4, 500)] ∧
    (4 ≤ 0 + 5 - 1 ∧ 0 + 5 - 1 < 4 + 500) ∧
    polledBatches exOracle (exWorker.repeatWith MaxTxRead exHashing exOracle 2 exWorld).2.trace =
      [exChain, [exChainAt 4]] := by
  decide

/-- C8, amended: after a successful ProcessNextMessage that enqueued the
containers at the indices i to i + n - 1, the following ProcessNextMessage,
whatever its environment, requests the range that starts at index i + n - 1,
the index of the last container enqueued; that container is already in the
queue, so inserting its entry again returns nil and changes nothing. -/
theorem next_poll_starts_at_last_index (h : Hashing) (o o2 : Oracle)
    (p : producerChainContainer) (w : World) (cs : List Container)
    (hbatch : o.GetContainerRange p.nodeIndex.Idx MaxTxRead = .ok cs)
    (hne : cs ≠ [])
    (hins : ∀ k, k < cs.length → o.insertFault k = none)
    (hupd : o.updateFault = none)
    (hfit : p.nodeIndex.Idx + cs.length - 1 < 2 ^ 64) :
    (∃ rest,
      ((p.ProcessNextMessage h o w).1.ProcessNextMessage h o2
          (p.ProcessNextMessage h o w).2.1).2.1.trace =
        (p.ProcessNextMessage h o w).2.1.trace ++
          Event.GetContainerRange (p.nodeIndex.Idx + cs.length - 1) MaxTxRead :: rest) ∧
    InsertTxPool none (p.txPoolOf h (cs.getLast hne)) (p.ProcessNextMessage h o w).2.1 =
      ((p.ProcessNextMessage h o w).2.1, none) := by
  have hpos : 0 < cs.length := List.length_pos.mpr hne
  have hfit2 : p.nodeIndex.Idx + (cs.length - 1) < 2 ^ 64 := by omega
  have hidx : p.nodeIndex.Idx + (cs.length - 1) = p.nodeIndex.Idx + cs.length - 1 := by omega
  have hok := ProcessNextMessageWith_ok MaxTxRead h o p w cs hbatch hne hins hupd hfit2
  constructor
  · obtain ⟨rest, hrest⟩ := ProcessNextMessageWith_requests_cursor MaxTxRead h o2
      (p.ProcessNextMessageWith MaxTxRead h o w).1 (p.ProcessNextMessageWith MaxTxRead h o w).2.1
    refine ⟨rest, ?_⟩
    unfold producerChainContainer.ProcessNextMessage
    rw [hrest]
    have hcur : (p.ProcessNextMessageWith MaxTxRead h o w).1.nodeIndex.Idx =
        p.nodeIndex.Idx + cs.length - 1 := by rw [hok]; exact hidx
    rw [hcur]
  · unfold producerChainContainer.ProcessNextMessage
    rw [hok, InsertTxPool_none]
    have hmem : p.txPoolOf h (cs.getLast hne) ∈ cs.map (p.txPoolOf h) :=
      List.mem_map_of_mem _ (List.getLast_mem hne)
    obtain ⟨r, hr, hid⟩ := foldl_insertRow_has_id _ w.txPool _ hmem
    have hnoop := insertRow_of_any ((cs.map (p.txPoolOf h)).foldl insertRow w.txPool)
      (p.txPoolOf h (cs.getLast hne)) (List.any_eq_true.mpr ⟨r, hr, decide_eq_true hid⟩)
    simp only [hnoop]

/-- C8, amended, at a concrete input: after the five containers were enqueued
from cursor 0, the following call requests the range that starts at index 4. -/
theorem next_poll_starts_at_last_index_witness :
    ∃ rest,
      ((exWorker.ProcessNextMessage exHashing exOracle exWorld).1.ProcessNextMessage exHashing
          exOracle (exWorker.ProcessNextMessage exHashing exOracle exWorld).2.1).2.1.trace =
        (exWorker.ProcessNextMessage exHashing exOracle exWorld).2.1.trace ++
          Event.GetContainerRange 4 MaxTxRead :: rest :=
  (next_poll_starts_at_last_index exHashing exOracle exOracle exWorker exWorld exChain
    (by rfl) (by decide) (fun _ _ => rfl) rfl (by decide)).1

/-- C9: for every k, when the decoder returns a lock error on each of its
first k attempts for the message and a result r that is not a lock error on
attempt k + 1, consumerDB.Consume (with fuel for more than k attempts, the
loop having no cap of its own) makes exactly k + 1 decoder attempts and
returns r; when r is nil the calls it made are the k retried attempts, the
last attempt, the two increments of Success, BalanceManager.Exec and the
deferred Collect, so that each success counter is incremented exactly once
and no failure counter is incremented. -/
theorem Consume_retries_lock_errors (c : consumerDB) (d : Decoder) (msg : Message) (w : World)
    (op : DecoderOp) (k fuel : Nat)
    (hop : (c.eventType = EventTypeDecisions ∧ op = .Consume) ∨
      (c.eventType = EventTypeConsensus ∧ op = .ConsumeConsensus))
    (hlock : ∀ j, j < k → ErrIsLockError (d op j msg) = true)
    (hres : ErrIsLockError (d op k msg) = false)
    (hfuel : k < fuel) :
    ∃ w2, c.Consume d fuel msg w = some (w2, d op k msg) ∧
      decodeCalls w2.trace = decodeCalls w.trace + (k + 1) ∧
      (d op k msg = none →
        w2.trace = w.trace ++ retryEvents op msg k ++
          [Event.Decode op msg, Event.CounterInc (.key c.metricSuccessCountKey),
            Event.CounterInc .MetricConsumeSuccessCountKey, Event.BalanceManagerExec,
            Event.CollectorsCollect] ∧
        counterIncs (.key c.metricSuccessCountKey) w2.trace =
          counterIncs (.key c.metricSuccessCountKey) w.trace + 1 ∧
        counterIncs .MetricConsumeSuccessCountKey w2.trace =
          counterIncs .MetricConsumeSuccessCountKey w.trace + 1 ∧
        counterIncs .MetricConsumeFailureCountKey w2.trace =
          counterIncs .MetricConsumeFailureCountKey w.trace ∧
        (c.metricFailureCountKey ≠ c.metricSuccessCountKey →
          counterIncs (.key c.metricFailureCountKey) w2.trace =
            counterIncs (.key c.metricFailureCountKey) w.trace)) := by
  have hloop := retryLoop_ends c d msg op hop k fuel 0 w
    (by intro j hj; simpa using hlock j hj) (by simpa using hres) hfuel
  simp only [Nat.zero_add] at hloop
  cases hr : d op k msg with
  | some e =>
    rw [hr] at hloop
    refine ⟨(((c.Failure { w with trace := w.trace ++ retryEvents op msg k ++ [Event.Decode op msg] }).emit
      .CollectorsError).emit .CollectorsCollect), ?_, ?_, ?_⟩
    · simp only [consumerDB.Consume, hloop]
    · simp only [consumerDB.Failure, emit_trace, decodeCalls_append, decodeCalls_retryEvents]
      simp [decodeCalls, List.countP_cons]
      omega
    · intro hnone; cases hnone
  | none =>
    rw [hr] at hloop
    refine ⟨(((c.Success { w with trace := w.trace ++ retryEvents op msg k ++ [Event.Decode op msg] }).emit
      .BalanceManagerExec).emit .CollectorsCollect), ?_, ?_, ?_⟩
    · simp only [consumerDB.Consume, hloop]
    · simp only [consumerDB.Success, emit_trace, decodeCalls_append, decodeCalls_retryEvents]
      simp [decodeCalls, List.countP_cons]
      omega
    · intro _
      refine ⟨?_, ?_, ?_, ?_, ?_⟩
      · simp [consumerDB.Success, List.append_assoc]
      · simp only [consumerDB.Success, emit_trace, counterIncs_append, counterIncs_retryEvents]
        simp [counterIncs, List.count_cons]
      · simp only [consumerDB.Success, emit_trace, counterIncs_append, counterIncs_retryEvents]
        simp [counterIncs, List.count_cons]
      · simp only [consumerDB.Success, emit_trace, counterIncs_append, counterIncs_retryEvents]
        simp [counterIncs, List.count_cons]
      · intro hkeys
        simp only [consumerDB.Success, emit_trace, counterIncs_append, counterIncs_retryEvents]
        simp [counterIncs, List.count_cons, hkeys.symm]

/-- C9 at k = 2: two lock errors and then success are 3 attempts, nil is
returned, the success counters are incremented once and the failure counters
are not incremented. -/
theorem Consume_retries_lock_errors_witness :
    ∃ w2, exConsumer.Consume exLockTwice 3 exMessage exWorld = some (w2, none) ∧
      decodeCalls w2.trace = decodeCalls exWorld.trace + 3 ∧
      counterIncs (.key "consume_records_success_ch") w2.trace =
        counterIncs (.key "consume_records_success_ch") exWorld.trace + 1 ∧
      counterIncs .MetricConsumeFailureCountKey w2.trace =
        counterIncs .MetricConsumeFailureCountKey exWorld.trace ∧
      counterIncs (.key "consume_records_failure_ch") w2.trace =
        counterIncs (.key "consume_records_failure_ch") exWorld.trace :=
  (Consume_retries_lock_errors exConsumer exLockTwice exMessage exWorld .Consume 2 3
    (Or.inl ⟨rfl, rfl⟩) (by decide) (by decide) (by decide)).elim
    fun w2 hw2 => ⟨w2, hw2.1, hw2.2.1, (hw2.2.2 rfl).2.1, (hw2.2.2 rfl).2.2.2.1,
      (hw2.2.2 rfl).2.2.2.2 (by decide)⟩

/-- C10: when the decoder's first result for the message that is not a lock
error is an error err (after k lock errors), consumerDB.Consume returns
exactly err; the calls it made are the k retried attempts, the last attempt,
the two increments of Failure, collectors.Error and the deferred Collect, so
that each failure counter is incremented exactly once, no success counter is
incremented and BalanceManager.Exec is not run; the queue table and the
checkpoint table are left as they are. -/
theorem Consume_error_counts_failure (c : consumerDB) (d : Decoder) (msg : Message) (w : World)
    (op : DecoderOp) (k fuel : Nat) (err : GoError)
    (hop : (c.eventType = EventTypeDecisions ∧ op = .Consume) ∨
      (c.eventType = EventTypeConsensus ∧ op = .ConsumeConsensus))
    (hlock : ∀ j, j < k → ErrIsLockError (d op j msg) = true)
    (herr : d op k msg = some err)
    (hres : ErrIsLockError (some err) = false)
    (hfuel : k < fuel) :
    ∃ w2, c.Consume d fuel msg w = some (w2, some err) ∧
      w2.trace = w.trace ++ retryEvents op msg k ++
        [Event.Decode op msg, Event.CounterInc (.key c.metricFailureCountKey),
          Event.CounterInc .MetricConsumeFailureCountKey, Event.CollectorsError,
          Event.CollectorsCollect] ∧
      counterIncs (.key c.metricFailureCountKey) w2.trace =
        counterIncs (.key c.metricFailureCountKey) w.trace + 1 ∧
      counterIncs .MetricConsumeFailureCountKey w2.trace =
        counterIncs .MetricConsumeFailureCountKey w.trace + 1 ∧
      counterIncs .MetricConsumeSuccessCountKey w2.trace =
        counterIncs .MetricConsumeSuccessCountKey w.trace ∧
      (c.metricSuccessCountKey ≠ c.metricFailureCountKey →
        counterIncs (.key c.metricSuccessCountKey) w2.trace =
          counterIncs (.key c.metricSuccessCountKey) w.trace) ∧
      w2.trace.count Event.BalanceManagerExec = w.trace.count Event.BalanceManagerExec ∧
      w2.txPool = w.txPool ∧
      w2.nodeIndex = w.nodeIndex := by
  have hloop := retryLoop_ends c d msg op hop k fuel 0 w
    (by intro j hj; simpa using hlock j hj) (by simpa [herr] using hres) hfuel
  simp only [Nat.zero_add, herr] at hloop
  refine ⟨(((c.Failure { w with trace := w.trace ++ retryEvents op msg k ++ [Event.Decode op msg] }).emit
      .CollectorsError).emit .CollectorsCollect), ?_, ?_, ?_, ?_, ?_, ?_, ?_, rfl, rfl⟩
  · simp only [consumerDB.Consume, hloop]
  · simp [consumerDB.Failure, List.append_assoc]
  · simp only [consumerDB.Failure, emit_trace, counterIncs_append, counterIncs_retryEvents]
    simp [counterIncs, List.count_cons]
  · simp only [consumerDB.Failure, emit_trace, counterIncs_append, counterIncs_retryEvents]
    simp [counterIncs, List.count_cons]
  · simp only [consumerDB.Failure, emit_trace, counterIncs_append, counterIncs_retryEvents]
    simp [counterIncs, List.count_cons]
  · intro hkeys
    simp only [consumerDB.Failure, emit_trace, counterIncs_append, counterIncs_retryEvents]
    simp [counterIncs, List.count_cons, hkeys.symm]
  · simp only [consumerDB.Failure, emit_trace, List.count_append, count_balance_retryEvents]
    simp [List.count_cons]

/-- C10 at a concrete input: two lock errors and then the error "unknown tx
type"; that error is returned, the failure counters are incremented once and
the tables are unchanged. -/
theorem Consume_error_counts_failure_witness :
    ∃ w2, exConsumer.Consume exLockTwiceThenReject 3 exMessage exWorld =
        some (w2, some (.errorString "unknown tx type")) ∧
      counterIncs (.key "consume_records_failure_ch") w2.trace =
        counterIncs (.key "consume_records_failure_ch") exWorld.trace + 1 ∧
      counterIncs (.key "consume_records_success_ch") w2.trace =
        counterIncs (.key "consume_records_success_ch") exWorld.trace ∧
      w2.txPool = exWorld.txPool ∧
      w2.nodeIndex = exWorld.nodeIndex :=
  (Consume_error_counts_failure exConsumer exLockTwiceThenReject exMessage exWorld .Consume 2 3
    (.errorString "unknown tx type") (Or.inl ⟨rfl, rfl⟩) (by decide) rfl rfl (by decide)).elim
    fun w2 hw2 => ⟨w2, hw2.1, hw2.2.2.1, hw2.2.2.2.2.2.1 (by decide), hw2.2.2.2.2.2.2.2.1,
      hw2.2.2.2.2.2.2.2.2⟩

/-- C11: one attempt of consumerDB.persistConsume invokes exactly one decoder
operation, chosen by the consumer's eventType alone: Consume when it is
"decisions" and ConsumeConsensus when it is "consensus", and it returns what
that operation returns; for every other eventType it invokes no decoder
operation and returns the error "invalid eventType" followed by the type. -/
theorem persistConsume_dispatch (c : consumerDB) (d : Decoder) (attempt : Nat) (msg : Message)
    (w : World) :
    (c.eventType = "decisions" →
      (c.persistConsume d attempt msg w).1.trace = w.trace ++ [Event.Decode .Consume msg] ∧
      (c.persistConsume d attempt msg w).2 = d .Consume attempt msg) ∧
    (c.eventType = "consensus" →
      (c.persistConsume d attempt msg w).1.trace =
        w.trace ++ [Event.Decode .ConsumeConsensus msg] ∧
      (c.persistConsume d attempt msg w).2 = d .ConsumeConsensus attempt msg) ∧
    (c.eventType ≠ "decisions" → c.eventType ≠ "consensus" →
      (c.persistConsume d attempt msg w).1 = w ∧
      decodeCalls (c.persistConsume d attempt msg w).1.trace = decodeCalls w.trace ∧
      (c.persistConsume d attempt msg w).2 =
        some (.errorString ("invalid eventType " ++ c.eventType)) ∧
      stringsHasPrefix
        ((GoError.errorString ("invalid eventType " ++ c.eventType)).Error)
        "invalid eventType" = true) ∧
    decodeCalls (c.persistConsume d attempt msg w).1.trace ≤ decodeCalls w.trace + 1 ∧
    (c.persistConsume d attempt msg w).1.txPool = w.txPool ∧
    (c.persistConsume d attempt msg w).1.nodeIndex = w.nodeIndex := by
  refine ⟨?_, ?_, ?_, ?_, ?_, ?_⟩
  · intro hc
    rw [persistConsume_op c d attempt msg w .Consume (Or.inl ⟨hc, rfl⟩)]
    exact ⟨rfl, rfl⟩
  · intro hc
    rw [persistConsume_op c d attempt msg w .ConsumeConsensus (Or.inr ⟨hc, rfl⟩)]
    exact ⟨rfl, rfl⟩
  · intro h1 h2
    have h1b : ¬ c.eventType = EventTypeDecisions := h1
    have h2b : ¬ c.eventType = EventTypeConsensus := h2
    simp only [consumerDB.persistConsume, h1b, h2b, if_false]
    refine ⟨trivial, trivial, trivial, ?_⟩
    simp only [GoError.Error, stringsHasPrefix, String.data_append]
    rfl
  · unfold consumerDB.persistConsume
    split
    · simp [decodeCalls, List.countP_append]
    · split
      · simp [decodeCalls, List.countP_append]
      · simp
  · unfold consumerDB.persistConsume
    split
    · rfl
    · split <;> rfl
  · unfold consumerDB.persistConsume
    split
    · rfl
    · split <;> rfl

/-- C14, amended: with cfg.PerformUpdates false and no failure, the checkpoint
initialisation of newContainer (insertNodeIndex with Idx = 0) is
insert-if-absent and idempotent.  When a row of (instance, topic) exists, with
index k, the store is left as it is, the row still has index k and getIndex
loads k into the cursor; when no row exists, one row with index 0 is added and
the cursor is 0; and a second start leaves the store of the first one as it is
and gives the same worker.  With cfg.PerformUpdates true the initialisation
also runs its UPDATE: an existing row is set to index 0, whatever k was, and
getIndex loads 0; when no row exists the start does what it does with
cfg.PerformUpdates false; a second start changes nothing more. -/
theorem newContainer_checkpoint_init (conf : Config) (topic chainID : String)
    (indexerChain : IndexedChain) (key : String) (w : World) :
    (∀ r0, QueryNodeIndex none { Instance := conf.NodeInstance, Topic := topic, Idx := 0 } w =
        .ok r0 →
      (newContainer false
        { database := none, insertFault := none, updateFault := none, queryFault := none }
        conf topic chainID indexerChain key w).1 = w ∧
      (newContainer false
        { database := none, insertFault := none, updateFault := none, queryFault := none }
        conf topic chainID indexerChain key w).2 = .ok
          { conf := conf
            nodeIndex := { Instance := conf.NodeInstance, Topic := topic, Idx := r0.Idx }
            nodeinstance := conf.NodeInstance
            topic := topic
            chainID := chainID
            indexerChain := indexerChain
            metricProcessedCountKey := key }) ∧
    (QueryNodeIndex none { Instance := conf.NodeInstance, Topic := topic, Idx := 0 } w =
        .error .ErrNotFound →
      (newContainer false
        { database := none, insertFault := none, updateFault := none, queryFault := none }
        conf topic chainID indexerChain key w).1 =
        { w with nodeIndex :=
            w.nodeIndex ++ [{ Instance := conf.NodeInstance, Topic := topic, Idx := 0 }] } ∧
      QueryNodeIndex none { Instance := conf.NodeInstance, Topic := topic, Idx := 0 }
        (newContainer false
          { database := none, insertFault := none, updateFault := none, queryFault := none }
          conf topic chainID indexerChain key w).1 =
        .ok { Instance := conf.NodeInstance, Topic := topic, Idx := 0 } ∧
      (newContainer false
        { database := none, insertFault := none, updateFault := none, queryFault := none }
        conf topic chainID indexerChain key w).2 = .ok
          { conf := conf
            nodeIndex := { Instance := conf.NodeInstance, Topic := topic, Idx := 0 }
            nodeinstance := conf.NodeInstance
            topic := topic
            chainID := chainID
            indexerChain := indexerChain
            metricProcessedCountKey := key }) ∧
    newContainer false
        { database := none, insertFault := none, updateFault := none, queryFault := none }
        conf topic chainID indexerChain key
        (newContainer false
          { database := none, insertFault := none, updateFault := none, queryFault := none }
          conf topic chainID indexerChain key w).1 =
      newContainer false
        { database := none, insertFault := none, updateFault := none, queryFault := none }
        conf topic chainID indexerChain key w ∧
    (∀ r0, QueryNodeIndex none { Instance := conf.NodeInstance, Topic := topic, Idx := 0 } w =
        .ok r0 →
      newContainer true
          { database := none, insertFault := none, updateFault := none, queryFault := none }
          conf topic chainID indexerChain key w =
        ({ w with nodeIndex := setIdx conf.NodeInstance topic 0 w.nodeIndex }, .ok
          { conf := conf
            nodeIndex := { Instance := conf.NodeInstance, Topic := topic, Idx := 0 }
            nodeinstance := conf.NodeInstance
            topic := topic
            chainID := chainID
            indexerChain := indexerChain
            metricProcessedCountKey := key }) ∧
      QueryNodeIndex none { Instance := conf.NodeInstance, Topic := topic, Idx := 0 }
          { w with nodeIndex := setIdx conf.NodeInstance topic 0 w.nodeIndex } =
        .ok { Instance := conf.NodeInstance, Topic := topic, Idx := 0 }) ∧
    (QueryNodeIndex none { Instance := conf.NodeInstance, Topic := topic, Idx := 0 } w =
        .error .ErrNotFound →
      newContainer true
          { database := none, insertFault := none, updateFault := none, queryFault := none }
          conf topic chainID indexerChain key w =
        newContainer false
          { database := none, insertFault := none, updateFault := none, queryFault := none }
          conf topic chainID indexerChain key w) ∧
    newContainer true
        { database := none, insertFault := none, updateFault := none, queryFault := none }
        conf topic chainID indexerChain key
        (newContainer true
          { database := none, insertFault := none, updateFault := none, queryFault := none }
          conf topic chainID indexerChain key w).1 =
      newContainer true
        { database := none, insertFault := none, updateFault := none, queryFault := none }
        conf topic chainID indexerChain key w := by
  have hafter : QueryNodeIndex none { Instance := conf.NodeInstance, Topic := topic, Idx := 0 } w =
      .error .ErrNotFound →
      QueryNodeIndex none { Instance := conf.NodeInstance, Topic := topic, Idx := 0 }
        { w with nodeIndex :=
            w.nodeIndex ++ [{ Instance := conf.NodeInstance, Topic := topic, Idx := 0 }] } =
        .ok { Instance := conf.NodeInstance, Topic := topic, Idx := 0 } := by
    intro hq
    have hfind : w.nodeIndex.find? (whereInstanceTopic conf.NodeInstance topic) = none := by
      rw [QueryNodeIndex_eq] at hq
      cases hf : w.nodeIndex.find? (whereInstanceTopic conf.NodeInstance topic) with
      | none => rfl
      | some r1 => simp [hf] at hq
    have hfind2 := find_append_self { Instance := conf.NodeInstance, Topic := topic, Idx := 0 }
      w.nodeIndex hfind
    simp only at hfind2
    rw [QueryNodeIndex_eq]
    simp only [hfind2]
  have hnone : ∀ e, QueryNodeIndex none
      { Instance := conf.NodeInstance, Topic := topic, Idx := 0 } w = .error e →
      e = .ErrNotFound ∧
        w.nodeIndex.find? (whereInstanceTopic conf.NodeInstance topic) = none := by
    intro e hq
    rw [QueryNodeIndex_eq] at hq
    cases hf : w.nodeIndex.find? (whereInstanceTopic conf.NodeInstance topic) with
    | none => simp [hf] at hq; exact ⟨hq.symm, rfl⟩
    | some r1 => simp [hf] at hq
  refine ⟨?_, ?_, ?_, ?_, ?_, ?_⟩
  rotate_left 3
  · intro r0 hq
    exact ⟨newContainer_existing_row_upd conf topic chainID indexerChain key w r0 hq,
      QueryNodeIndex_setIdx conf.NodeInstance topic 0 0 w w.txPool w.trace r0 hq⟩
  · intro hq
    rw [newContainer_absent_row_upd conf topic chainID indexerChain key w hq,
      newContainer_absent_row conf topic chainID indexerChain key w hq]
  · cases hq : QueryNodeIndex none
        { Instance := conf.NodeInstance, Topic := topic, Idx := 0 } w with
    | ok r0 =>
      rw [newContainer_existing_row_upd conf topic chainID indexerChain key w r0 hq]
      have hq1 := QueryNodeIndex_setIdx conf.NodeInstance topic 0 0 w w.txPool w.trace r0 hq
      rw [newContainer_existing_row_upd conf topic chainID indexerChain key _ _ hq1]
      simp only [setIdx_setIdx]
    | error e =>
      obtain ⟨he, hfind⟩ := hnone e hq
      subst he
      rw [newContainer_absent_row_upd conf topic chainID indexerChain key w hq]
      rw [newContainer_existing_row_upd conf topic chainID indexerChain key _ _ (hafter hq)]
      simp only [setIdx_append_new _ _ _ hfind]
  · intro r0 hq
    rw [newContainer_existing_row conf topic chainID indexerChain key w r0 hq]
    exact ⟨rfl, rfl⟩
  · intro hq
    rw [newContainer_absent_row conf topic chainID indexerChain key w hq]
    exact ⟨rfl, hafter hq, rfl⟩
  · cases hq : QueryNodeIndex none
        { Instance := conf.NodeInstance, Topic := topic, Idx := 0 } w with
    | ok r0 =>
      rw [newContainer_existing_row conf topic chainID indexerChain key w r0 hq]
      exact newContainer_existing_row conf topic chainID indexerChain key w r0 hq
    | error e =>
      have he : e = .ErrNotFound := by
        rw [QueryNodeIndex_eq] at hq
        cases hf : w.nodeIndex.find? (whereInstanceTopic conf.NodeInstance topic) with
        | none => simp [hf] at hq; exact hq.symm
        | some r1 => simp [hf] at hq
      subst he
      rw [newContainer_absent_row conf topic chainID indexerChain key w hq]
      exact newContainer_existing_row conf topic chainID indexerChain key _ _ (hafter hq)

/-- C15: for every NodeIndex v and every table state, with the statements
executed by the storage layer: after InsertNodeIndex(v, upd = true),
QueryNodeIndex for (v.Instance, v.Topic) returns a row equal to v, whether or
not a row existed before; after UpdateNodeIndex(v) on an existing row,
QueryNodeIndex returns v.  The update has no condition on the stored index,
so it is applied also when v.Idx is lower; it keeps the number of rows, leaves
every row of another (instance, topic) in the table and changes no answer of
QueryNodeIndex for another (instance, topic). -/
theorem NodeIndex_insert_update_query (v : NodeIndex) (w : World) :
    (InsertNodeIndex none none v true w).2 = none ∧
    QueryNodeIndex none v (InsertNodeIndex none none v true w).1 = .ok v ∧
    (UpdateNodeIndex none v w).2 = none ∧
    (∀ r0, QueryNodeIndex none v w = .ok r0 →
      QueryNodeIndex none v (UpdateNodeIndex none v w).1 = .ok v) ∧
    (UpdateNodeIndex none v w).1.nodeIndex.length = w.nodeIndex.length ∧
    (∀ r, r ∈ w.nodeIndex → ¬ (r.Instance = v.Instance ∧ r.Topic = v.Topic) →
      r ∈ (UpdateNodeIndex none v w).1.nodeIndex) ∧
    (∀ q : NodeIndex, ¬ (q.Instance = v.Instance ∧ q.Topic = v.Topic) →
      QueryNodeIndex none q (UpdateNodeIndex none v w).1 = QueryNodeIndex none q w) := by
  have hv : ({ Instance := v.Instance, Topic := v.Topic, Idx := v.Idx } : NodeIndex) = v := rfl
  have hset : ∀ rows : List NodeIndex, ∀ r0,
      rows.find? (whereInstanceTopic v.Instance v.Topic) = some r0 →
      (setIdx v.Instance v.Topic v.Idx rows).find? (whereInstanceTopic v.Instance v.Topic) =
        some v := by
    intro rows r0 hfind
    rw [find_setIdx, hfind]
    have hsel := (whereInstanceTopic_iff v.Instance v.Topic r0).mp (List.find?_some hfind)
    simp [hsel.1, hsel.2]
  refine ⟨?_, ?_, ?_, ?_, ?_, ?_, ?_⟩
  · rw [InsertNodeIndex_none]
  · rw [InsertNodeIndex_none, QueryNodeIndex_eq]
    simp only [if_true, addNodeIndex]
    cases hf : w.nodeIndex.find? (whereInstanceTopic v.Instance v.Topic) with
    | some r0 =>
      simp only [Option.isSome_some, if_true, hset w.nodeIndex r0 hf]
    | none =>
      simp only [Option.isSome_none, Bool.false_eq_true, if_false,
        hset (w.nodeIndex ++ [v]) v (find_append_self v w.nodeIndex hf)]
  · rw [UpdateNodeIndex_none]
  · intro r0 hq
    rw [UpdateNodeIndex_none, QueryNodeIndex_eq]
    rw [QueryNodeIndex_eq] at hq
    cases hf : w.nodeIndex.find? (whereInstanceTopic v.Instance v.Topic) with
    | some r1 => simp only [hset w.nodeIndex r1 hf]
    | none => simp [hf] at hq
  · rw [UpdateNodeIndex_none]
    simp [setIdx]
  · intro r hr hne
    rw [UpdateNodeIndex_none]
    simp only [setIdx]
    apply List.mem_map.mpr
    refine ⟨r, hr, ?_⟩
    have hsel : whereInstanceTopic v.Instance v.Topic r = false := by
      apply Bool.eq_false_iff.mpr
      intro hs
      exact hne ((whereInstanceTopic_iff _ _ _).mp hs)
    simp [hsel]
  · intro q hne
    rw [UpdateNodeIndex_none, QueryNodeIndex_eq, QueryNodeIndex_eq]
    simp only
    rw [find_setIdx_other v.Instance v.Topic q.Instance q.Topic v.Idx w.nodeIndex hne]

/-- C16: for every networkID, every chainID that contains no hyphen and every
eventType of "decisions" and "consensus", GetTopicName returns the decimal
digits of networkID, a hyphen, chainID, a hyphen and eventType; splitting
that string at the hyphens yields exactly the three parts; and GetTopicName is
injective on such triples. -/
theorem GetTopicName_three_parts (networkID : Nat) (chainID : String) (eventType : EventType)
    (hchain : ∀ c, c ∈ chainID.data → c ≠ '-')
    (hevent : eventType = EventTypeDecisions ∨ eventType = EventTypeConsensus) :
    GetTopicName networkID chainID eventType =
      decimal networkID ++ "-" ++ chainID ++ "-" ++ eventType ∧
    stringsSplit (GetTopicName networkID chainID eventType) '-' =
      [decimal networkID, chainID, eventType] ∧
    (∀ (n2 : Nat) (c2 : String) (e2 : EventType), (∀ c, c ∈ c2.data → c ≠ '-') →
      (e2 = EventTypeDecisions ∨ e2 = EventTypeConsensus) →
      GetTopicName networkID chainID eventType = GetTopicName n2 c2 e2 →
      networkID = n2 ∧ chainID = c2 ∧ eventType = e2) := by
  have hsplit := stringsSplit_GetTopicName networkID chainID eventType hchain
    (eventType_no_hyphen eventType hevent)
  refine ⟨rfl, hsplit, ?_⟩
  intro n2 c2 e2 hc2 he2 heq
  have hsplit2 := stringsSplit_GetTopicName n2 c2 e2 hc2 (eventType_no_hyphen e2 he2)
  rw [heq, hsplit2] at hsplit
  simp only [List.cons.injEq, and_true] at hsplit
  exact ⟨(decimal_injective _ _ hsplit.1).symm, hsplit.2.1.symm, hsplit.2.2.symm⟩

/-- C16 at a concrete input: network 1002, chain id "ch" and decisions give
the topic "1002-ch-decisions" and the parts "1002", "ch" and "decisions". -/
theorem GetTopicName_three_parts_witness :
    GetTopicName 1002 "ch" "decisions" = "1002-ch-decisions" ∧
    stringsSplit (GetTopicName 1002 "ch" "decisions") '-' = ["1002", "ch", "decisions"] :=
  have t := GetTopicName_three_parts 1002 "ch" "decisions" (by decide) (Or.inl rfl)
  ⟨t.1.trans (by decide), t.2.1.trans (by decide)⟩

/-- C17: the queue entries that ProcessNextMessage builds and enqueues for the
containers of a batch (those of some first m containers, all of them when the
call returns nil) have, for the container c: MsgKey the string form of the
ledger-supplied c.ID when the worker indexes the C chain and the string form
of the digest of c.Bytes for every other chain, Serialization c.Bytes, Topic
and ChainID those of the worker, NetworkID the configured one, CreatedAt
time.Unix(c.Timestamp, 0), and ID the ComputeID value, the string form of the
digest of the bytes of MsgKey + ":" + Topic. -/
theorem ProcessNextMessage_queue_entries (h : Hashing) (o : Oracle)
    (p : producerChainContainer) (w : World) (cs : List Container)
    (hbatch : o.GetContainerRange p.nodeIndex.Idx MaxTxRead = .ok cs) :
    (∃ m, m ≤ cs.length ∧
      enqueued (p.ProcessNextMessage h o w).2.1.trace =
        enqueued w.trace ++ (cs.take m).map (p.txPoolOf h) ∧
      ((p.ProcessNextMessage h o w).2.2 = none → m = cs.length)) ∧
    (∀ c : Container,
      (p.indexerChain = IndexCChain → (p.txPoolOf h c).MsgKey = h.IDString c.ID) ∧
      (p.indexerChain ≠ IndexCChain →
        (p.txPoolOf h c).MsgKey = h.IDString (h.ComputeHash256Array c.Bytes)) ∧
      (p.txPoolOf h c).Serialization = c.Bytes ∧
      (p.txPoolOf h c).Topic = p.topic ∧
      (p.txPoolOf h c).ChainID = p.chainID ∧
      (p.txPoolOf h c).NetworkID = p.conf.NetworkID ∧
      (p.txPoolOf h c).CreatedAt = { sec := c.Timestamp, nsec := 0 } ∧
      (p.txPoolOf h c).ID =
        h.IDString (h.ComputeHash256Array
          (stringBytes ((p.txPoolOf h c).MsgKey ++ ":" ++ (p.txPoolOf h c).Topic))) ∧
      ((p.txPoolOf h c).ComputeID h).ID = (p.txPoolOf h c).ID) := by
  refine ⟨ProcessNextMessageWith_enqueued MaxTxRead h o p w cs hbatch, ?_⟩
  intro c
  refine ⟨?_, ?_, rfl, rfl, rfl, rfl, rfl, rfl, rfl⟩
  · intro hc
    simp [producerChainContainer.txPoolOf, TxPool.ComputeID, hc]
  · intro hc
    simp [producerChainContainer.txPoolOf, TxPool.ComputeID, hc]

/-- C17 at a concrete input: the five entries of the example batch are
enqueued, and the entry of the first container has the digest of its bytes as
MsgKey and the ledger timestamp 1000 as CreatedAt. -/
theorem ProcessNextMessage_queue_entries_witness :
    (∃ m, m ≤ exChain.length ∧
      enqueued (exWorker.ProcessNextMessage exHashing exOracle exWorld).2.1.trace =
        enqueued exWorld.trace ++ (exChain.take m).map (exWorker.txPoolOf exHashing) ∧
      ((exWorker.ProcessNextMessage exHashing exOracle exWorld).2.2 = none →
        m = exChain.length)) ∧
    (exWorker.txPoolOf exHashing (exChainAt 0)).Serialization = [65] ∧
    (exWorker.txPoolOf exHashing (exChainAt 0)).CreatedAt = { sec := 1000, nsec := 0 } :=
  have t := ProcessNextMessage_queue_entries exHashing exOracle exWorker exWorld exChain (by rfl)
  ⟨t.1, (t.2 (exChainAt 0)).2.2.1, (t.2 (exChainAt 0)).2.2.2.2.2.2.1⟩

/-- C18: when the ledger read fails with an error e for which IndexNotReady(e)
holds, ProcessNextMessage inserts nothing, leaves the checkpoint table and the
worker with its cursor unchanged, sleeps once and returns nil; the closure of
runProcessor then increments the success counters, increments no failure
counter and returns nil, and the loop, when not stopped, goes on to the next
poll. -/
theorem not_ready_keeps_polling (p : ProducerChain) (h : Hashing) (o : Oracle)
    (pc : producerChainContainer) (w : World) (e : GoError) (rest : List Poll)
    (hread : o.GetContainerRange pc.nodeIndex.Idx MaxTxRead = .error e)
    (hnr : IndexNotReady e = true) :
    pc.ProcessNextMessage h o w =
      (pc,
        { w with trace := w.trace ++
            [Event.GetContainerRange pc.nodeIndex.Idx MaxTxRead, Event.Sleep readRPCTimeout] },
        none) ∧
    (pc.ProcessNextMessage h o w).2.1.txPool = w.txPool ∧
    (pc.ProcessNextMessage h o w).2.1.nodeIndex = w.nodeIndex ∧
    p.processNextMessage h o pc w =
      (pc,
        { w with trace := w.trace ++
            [Event.GetContainerRange pc.nodeIndex.Idx MaxTxRead, Event.Sleep readRPCTimeout,
              Event.CounterInc (.key p.metricSuccessCountKey),
              Event.CounterInc .MetricProduceSuccessCountKey] },
        none) ∧
    counterIncs .MetricProduceFailureCountKey (p.processNextMessage h o pc w).2.1.trace =
      counterIncs .MetricProduceFailureCountKey w.trace ∧
    (p.metricFailureCountKey ≠ p.metricSuccessCountKey →
      counterIncs (.key p.metricFailureCountKey) (p.processNextMessage h o pc w).2.1.trace =
        counterIncs (.key p.metricFailureCountKey) w.trace) ∧
    p.loop h ({ stopped := false, oracle := o } :: rest) pc w =
      p.loop h rest pc (p.processNextMessage h o pc w).2.1 := by
  have hcall := ProcessNextMessage_ledger_error h o pc w e hread
  simp only [hnr, if_true] at hcall
  have hclosure : p.processNextMessage h o pc w =
      (pc,
        { w with trace := w.trace ++
            [Event.GetContainerRange pc.nodeIndex.Idx MaxTxRead, Event.Sleep readRPCTimeout,
              Event.CounterInc (.key p.metricSuccessCountKey),
              Event.CounterInc .MetricProduceSuccessCountKey] },
        none) := by
    simp only [ProducerChain.processNextMessage, hcall, ProducerChain.Success, World.emit,
      List.append_assoc, List.cons_append, List.nil_append]
  refine ⟨hcall, by rw [hcall], by rw [hcall], hclosure, ?_, ?_, ?_⟩
  · rw [hclosure]
    simp [counterIncs, List.count_append, List.count_cons]
  · intro hkeys
    rw [hclosure]
    simp [counterIncs, List.count_append, List.count_cons, hkeys.symm]
  · simp only [ProducerChain.loop, Bool.false_eq_true, if_false, hclosure]

/-- C18 at a concrete input: the ledger answers "start index (5) > last
accepted index (4)"; the call returns nil and the loop goes on. -/
theorem not_ready_keeps_polling_witness :
    (exWorkerAt 5).ProcessNextMessage exHashing exNotReadyOracle exWorld =
      (exWorkerAt 5,
        { exWorld with trace := exWorld.trace ++
            [Event.GetContainerRange 5 MaxTxRead, Event.Sleep readRPCTimeout] },
        none) ∧
    exProducer.loop exHashing [{ stopped := false, oracle := exNotReadyOracle }] (exWorkerAt 5)
        exWorld =
      exProducer.loop exHashing [] (exWorkerAt 5)
        (exProducer.processNextMessage exHashing exNotReadyOracle (exWorkerAt 5) exWorld).2.1 :=
  have t := not_ready_keeps_polling exProducer exHashing exNotReadyOracle (exWorkerAt 5) exWorld
    (.errorString "start index (5) > last accepted index (4)") [] rfl (by decide)
  ⟨t.1, t.2.2.2.2.2.2⟩

/-- C19, as the claim states it, fails: for the ledger's not-ready error
ProcessNextMessage returns nil and the worker increments its success counter,
for a ledger read that returns zero containers ProcessNextMessage returns
ErrNoMessage and the success counter is not incremented. -/
theorem not_ready_differs_from_empty :
    ((exWorkerAt 5).ProcessNextMessage exHashing exNotReadyOracle exWorld).2.2 = none ∧
    ((exWorkerAt 5).ProcessNextMessage exHashing exEmptyOracle exWorld).2.2 =
      some .ErrNoMessage ∧
    counterIncs (.key "produce_records_success_ch_decisions")
      (exProducer.processNextMessage exHashing exNotReadyOracle (exWorkerAt 5)
        exWorld).2.1.trace = 1 ∧
    counterIncs (.key "produce_records_success_ch_decisions")
      (exProducer.processNextMessage exHashing exEmptyOracle (exWorkerAt 5)
        exWorld).2.1.trace = 0 := by
  decide

/-- C19, amended: for a ledger read that fails with an IndexNotReady error and
for a ledger read that returns zero containers, ProcessNextMessage leaves the
worker as it is and ends in the same state (one sleep after the read, no
insert, no checkpoint change), and in both cases the closure of runProcessor
returns nil, increments no failure counter and the loop goes on; but
ProcessNextMessage returns nil in the first case and ErrNoMessage in the
second, and the success counters are incremented in the first case only. -/
theorem not_ready_and_empty (p : ProducerChain) (h : Hashing) (o1 o2 : Oracle)
    (pc : producerChainContainer) (w : World) (e : GoError) (rest : List Poll)
    (hread1 : o1.GetContainerRange pc.nodeIndex.Idx MaxTxRead = .error e)
    (hnr : IndexNotReady e = true)
    (hread2 : o2.GetContainerRange pc.nodeIndex.Idx MaxTxRead = .ok []) :
    (pc.ProcessNextMessage h o1 w).1 = pc ∧
    (pc.ProcessNextMessage h o2 w).1 = pc ∧
    (pc.ProcessNextMessage h o1 w).2.1 = (pc.ProcessNextMessage h o2 w).2.1 ∧
    (pc.ProcessNextMessage h o2 w).2.1 =
      { w with trace := w.trace ++
          [Event.GetContainerRange pc.nodeIndex.Idx MaxTxRead, Event.Sleep readRPCTimeout] } ∧
    (pc.ProcessNextMessage h o1 w).2.2 = none ∧
    (pc.ProcessNextMessage h o2 w).2.2 = some .ErrNoMessage ∧
    (p.processNextMessage h o1 pc w).2.2 = none ∧
    (p.processNextMessage h o2 pc w).2.2 = none ∧
    (p.processNextMessage h o2 pc w).2.1 = (pc.ProcessNextMessage h o2 w).2.1 ∧
    (p.processNextMessage h o1 pc w).2.1 = p.Success (p.processNextMessage h o2 pc w).2.1 ∧
    counterIncs .MetricProduceFailureCountKey (p.processNextMessage h o1 pc w).2.1.trace =
      counterIncs .MetricProduceFailureCountKey w.trace ∧
    counterIncs .MetricProduceFailureCountKey (p.processNextMessage h o2 pc w).2.1.trace =
      counterIncs .MetricProduceFailureCountKey w.trace ∧
    counterIncs .MetricProduceSuccessCountKey (p.processNextMessage h o1 pc w).2.1.trace =
      counterIncs .MetricProduceSuccessCountKey w.trace + 1 ∧
    counterIncs .MetricProduceSuccessCountKey (p.processNextMessage h o2 pc w).2.1.trace =
      counterIncs .MetricProduceSuccessCountKey w.trace ∧
    p.loop h ({ stopped := false, oracle := o1 } :: rest) pc w =
      p.loop h rest pc (p.processNextMessage h o1 pc w).2.1 ∧
    p.loop h ({ stopped := false, oracle := o2 } :: rest) pc w =
      p.loop h rest pc (p.processNextMessage h o2 pc w).2.1 := by
  have hcall1 := ProcessNextMessage_ledger_error h o1 pc w e hread1
  simp only [hnr, if_true] at hcall1
  have hcall2 := ProcessNextMessage_empty h o2 pc w hread2
  have hclosure1 : p.processNextMessage h o1 pc w =
      (pc, p.Success { w with trace := w.trace ++
          [Event.GetContainerRange pc.nodeIndex.Idx MaxTxRead, Event.Sleep readRPCTimeout] },
        none) := by
    simp only [ProducerChain.processNextMessage, hcall1]
  have hclosure2 : p.processNextMessage h o2 pc w =
      (pc, { w with trace := w.trace ++
          [Event.GetContainerRange pc.nodeIndex.Idx MaxTxRead, Event.Sleep readRPCTimeout] },
        none) := by
    simp only [ProducerChain.processNextMessage, hcall2]
  refine ⟨by rw [hcall1], by rw [hcall2], by rw [hcall1, hcall2], by rw [hcall2],
    by rw [hcall1], by rw [hcall2], by rw [hclosure1], by rw [hclosure2],
    by rw [hclosure2, hcall2], by rw [hclosure1, hclosure2], ?_, ?_, ?_, ?_, ?_, ?_⟩
  · rw [hclosure1]
    simp [ProducerChain.Success, counterIncs, List.count_append, List.count_cons]
  · rw [hclosure2]
    simp [counterIncs, List.count_append, List.count_cons]
  · rw [hclosure1]
    simp [ProducerChain.Success, counterIncs, List.count_append, List.count_cons]
  · rw [hclosure2]
    simp [counterIncs, List.count_append, List.count_cons]
  · simp only [ProducerChain.loop, Bool.false_eq_true, if_false, hclosure1]
  · simp only [ProducerChain.loop, Bool.false_eq_true, if_false, hclosure2]

/-- C19, amended, at a concrete input: the not-ready answer and the empty
answer at cursor 5 leave the same state behind ProcessNextMessage. -/
theorem not_ready_and_empty_witness :
    ((exWorkerAt 5).ProcessNextMessage exHashing exNotReadyOracle exWorld).2.1 =
      ((exWorkerAt 5).ProcessNextMessage exHashing exEmptyOracle exWorld).2.1 ∧
    (exProducer.processNextMessage exHashing exNotReadyOracle (exWorkerAt 5) exWorld).2.2 =
      none ∧
    (exProducer.processNextMessage exHashing exEmptyOracle (exWorkerAt 5) exWorld).2.2 = none :=
  have t := not_ready_and_empty exProducer exHashing exNotReadyOracle exEmptyOracle
    (exWorkerAt 5) exWorld (.errorString "start index (5) > last accepted index (4)") []
    rfl (by decide) rfl
  ⟨t.2.2.1, t.2.2.2.2.2.2.1, t.2.2.2.2.2.2.2.1⟩

/-- C20, as the claim states it, fails: the message "no last accepted index"
contains the substring "last accepted index", and IndexNotReady does not
classify the error as not-ready, because the message does not begin with
"start index". -/
theorem IndexNotReady_needs_start_index :
    stringsContains (GoError.errorString "no last accepted index").Error "last accepted index" =
      true ∧
    IndexNotReady (.errorString "no last accepted index") = false := by
  decide

/-- C20, amended: IndexNotReady classifies as not-ready exactly the errors
whose message begins with "start index" and contains "last accepted index",
and the errors whose message begins with "received status code '404'". -/
theorem IndexNotReady_iff (e : GoError) :
    IndexNotReady e = true ↔
      ((∃ t, e.Error.data = "start index".data ++ t) ∧
        (∃ a b, e.Error.data = a ++ "last accepted index".data ++ b)) ∨
      (∃ t, e.Error.data = "received status code '404'".data ++ t) := by
  unfold IndexNotReady stringsHasPrefix stringsContains
  rw [← hasPrefixChars_iff, ← containsChars_iff, ← hasPrefixChars_iff]
  by_cases h1 : (hasPrefixChars e.Error.data "start index".data &&
      containsChars e.Error.data "last accepted index".data) = true
  · simp only [h1, if_true, true_iff]
    exact Or.inl (by simpa using h1)
  · simp only [h1, Bool.false_eq_true, if_false]
    have h1b : ¬ (hasPrefixChars e.Error.data "start index".data = true ∧
        containsChars e.Error.data "last accepted index".data = true) := by
      simpa using h1
    by_cases h2 : hasPrefixChars e.Error.data "received status code '404'".data = true
    · simp only [h2, if_true, true_iff]
      exact Or.inr trivial
    · simp only [h2, Bool.false_eq_true, if_false, false_iff]
      rintro (h3 | h3)
      · exact h1b h3
      · exact h3


/-- C12, counterexample: InsertCvmAccount called without a request to update
for an address whose row is stored returns the duplicate-key signal, wrapped by
EventErr, instead of nil; the stored row keeps its transaction count.  And
InsertCamLastBlockCache called without a request to update for chain 7, whose
row is stored, with the empty string as CurrentBlock, which is spliced into
the text of the INSERT and is not an expression, returns the syntax error of
the storage layer wrapped by EventErr, not nil; the stored row is as it was. -/
theorem InsertCvmAccount_returns_duplicate :
    keyOf (exSchema.key TableCvmAccounts) exAccountRow =
        keyOf (exSchema.key TableCvmAccounts)
          (assign (InsertCvmAccount.pairs exAccount)
            (exSchema.defaults TableCvmAccounts [exAccountRow])) ∧
      (InsertCvmAccount exSchema none none exAccount false [exAccountRow]).2 =
        some (EventErr TableCvmAccounts false (.duplicateEntry "Error 1062: Duplicate entry")) ∧
      ((InsertCvmAccount exSchema none none exAccount false [exAccountRow]).1.map
        (fun r => r "tx_count")) = [.number 1] ∧
      (InsertCamLastBlockCache exSchema none none exBlockCacheEmpty false
        [exBlockCacheRow]).2 =
        some (EventErr TableCamLastBlockCache false
          (.errorString "Error 1064: You have an error in your SQL syntax")) ∧
      ((InsertCamLastBlockCache exSchema none none exBlockCacheEmpty false
        [exBlockCacheRow]).1.map (fun r => (r "chainid", r "current_block"))) =
        [(.text "7", .text "41")] := by
  decide

/-- C12, amended: every Insert operation of db.Persist other than
InsertCvmAccount and InsertReward, InsertCamLastBlockCache among them, called
without a request to update for a key whose row is stored, returns nil and
leaves the table as it is; for InsertCvmBlocks, InsertCamLastBlockCache and
InsertCvmTransactionsAtomic, which splice the block text of the struct into
the text of the INSERT, this is so when the storage layer reads that text as
one expression, and the key is the key of the row that the INSERT then makes.
InsertCvmAccount without upd leaves the table as it is and returns the
duplicate-key signal wrapped by EventErr.  InsertReward raises no
duplicate-key signal: it returns nil and assigns updated_at in the stored row
of the key. -/
theorem Insert_swallows_duplicate (sch : Schema) (accounts : Table) :
    (∀ op ∈ persistInserts sch accounts,
      op.name ≠ "InsertCvmAccount" → op.name ≠ "InsertReward" →
      ∀ (v : op.Ent) (s : op.State), op.present v s → op.run v false s = (s, none)) ∧
    (∀ (v : Entity) (rows : Table),
      (∃ r ∈ rows, keyOf (sch.key TableCvmAccounts) r =
        keyOf (sch.key TableCvmAccounts)
          (assign (InsertCvmAccount.pairs v) (sch.defaults TableCvmAccounts rows))) →
      InsertCvmAccount sch none none v false rows =
        (rows, some (EventErr TableCvmAccounts false
          (.duplicateEntry "Error 1062: Duplicate entry")))) ∧
    (∀ (v : Entity) (rows : Table),
      (∃ r ∈ rows, keyOf (sch.key TableReward) r =
        keyOf (sch.key TableReward)
          (assign (InsertReward.pairs v) (sch.defaults TableReward rows))) →
      InsertReward sch none v rows =
        (rows.map (updateRow
          (fun r => decide (keyOf (sch.key TableReward) r =
            keyOf (sch.key TableReward)
              (assign (InsertReward.pairs v) (sch.defaults TableReward rows))))
          (assign (InsertReward.sets v))), none)) := by
  refine ⟨?_, ?_, ?_⟩
  · intro op hop hacc hrew v s hp
    simp only [persistInserts, List.mem_cons, List.mem_singleton, List.mem_nil_iff,
      or_false] at hop
    rcases hop with rfl | rfl | rfl | rfl | rfl | rfl | rfl | rfl | rfl | rfl | rfl | rfl | rfl | rfl | rfl | rfl | rfl | rfl | rfl | rfl | rfl | rfl | rfl | rfl | rfl | rfl | rfl | rfl | rfl | rfl
    · exact insertThenUpdate_present sch TableTransactions TableTransactions (InsertTransactions.pairs v) (InsertTransactions.sets v)
        (InsertTransactions.cond v) s hp
    · exact insertThenUpdate_present sch TableOutputsRedeeming TableOutputsRedeeming (InsertOutputsRedeeming.pairs v) (InsertOutputsRedeeming.sets v)
        (InsertOutputsRedeeming.cond v) s hp
    · exact insertThenUpdate_present sch TableOutputs TableOutputs (InsertOutputs.pairs v) (InsertOutputs.sets v)
        (InsertOutputs.cond v) s hp
    · exact insertThenUpdate_present sch TableAssets TableAssets (InsertAssets.pairs v) (InsertAssets.sets v)
        (InsertAssets.cond v) s hp
    · exact insertThenUpdate_present sch TableAddresses TableAddresses (InsertAddresses.pairs v) (InsertAddresses.sets v)
        (InsertAddresses.cond v) s hp
    · exact insertThenUpdate_present sch TableAddressChain TableAddressChain (InsertAddressChain.pairs v) (InsertAddressChain.sets v)
        (InsertAddressChain.cond v) s hp
    · exact insertThenUpdate_present sch TableOutputAddresses TableOutputAddresses (InsertOutputAddresses.pairs v) (InsertOutputAddresses.sets v)
        (InsertOutputAddresses.cond v) s hp
    · exact insertThenUpdate_present sch TableTransactionsEpochs TableTransactionsEpochs (InsertTransactionsEpoch.pairs v) (InsertTransactionsEpoch.sets v)
        (InsertTransactionsEpoch.cond v) s hp
    · obtain ⟨f, hf, hp2⟩ := hp
      exact (InsertCvmBlocks_of_splice sch v s f hf).trans
        (insertIgnoreDuplicate_present sch TableCvmBlocks _ s hp2)
    · obtain ⟨f, hf, hp2⟩ := hp
      exact InsertCamLastBlockCache_present sch v s f hf hp2
    · exact insertThenUpdate_present sch TableCvmAddresses TableCvmAddresses (InsertCvmAddresses.pairs v) (InsertCvmAddresses.sets v)
        (InsertCvmAddresses.cond v) s hp
    · obtain ⟨f, hf, hp2⟩ := hp
      exact (InsertCvmTransactionsAtomic_of_splice sch v s f hf).trans
        (insertThenUpdate_present sch TableCvmTransactionsAtomic TableCvmTransactionsAtomic _
          [] [] s hp2)
    · exact insertThenUpdate_present sch TableCvmTransactionsTxdata TableCvmTransactionsTxdata (InsertCvmTransactionsTxdata.pairs accounts v)
        (InsertCvmTransactionsTxdata.sets accounts v) (InsertCvmTransactionsTxdata.cond v) s hp
    · exact absurd rfl hacc
    · exact insertThenUpdate_present sch TablePvmBlocks TablePvmBlocks (InsertPvmBlocks.pairs v) (InsertPvmBlocks.sets v)
        (InsertPvmBlocks.cond v) s hp
    · exact insertThenUpdate_present sch TableTransactionsValidator TableTransactionsValidator (InsertTransactionsValidator.pairs v) (InsertTransactionsValidator.sets v)
        (InsertTransactionsValidator.cond v) s hp
    · exact insertThenUpdate_present sch TableTransactionsBlock TableTransactionsBlock (InsertTransactionsBlock.pairs v) (InsertTransactionsBlock.sets v)
        (InsertTransactionsBlock.cond v) s hp
    · exact insertThenUpdate_present sch TableAddressBech32 TableAddressBech32 (InsertAddressBech32.pairs v) (InsertAddressBech32.sets v)
        (InsertAddressBech32.cond v) s hp
    · exact insertThenUpdate_present sch TableOutputAddressAccumulateOut TableAddressBech32 (InsertOutputAddressAccumulateOut.pairs v) (InsertOutputAddressAccumulateOut.sets v)
        (InsertOutputAddressAccumulateOut.cond v) s hp
    · exact insertThenUpdate_present sch TableOutputAddressAccumulateIn TableAddressBech32 (InsertOutputAddressAccumulateIn.pairs v) (InsertOutputAddressAccumulateIn.sets v)
        (InsertOutputAddressAccumulateIn.cond v) s hp
    · exact insertIgnoreDuplicate_present sch TableOutputTxsAccumulate (InsertOutputTxsAccumulate.pairs v) s hp
    · exact insertIgnoreDuplicate_present sch TableAccumulateBalancesReceived (InsertAccumulateBalancesReceived.pairs v) s hp
    · exact insertIgnoreDuplicate_present sch TableAccumulateBalancesSent (InsertAccumulateBalancesSent.pairs v) s hp
    · exact insertIgnoreDuplicate_present sch TableAccumulateBalancesTransactions (InsertAccumulateBalancesTransactions.pairs v) s hp
    · exact InsertTxPool_present v s hp
    · exact insertIgnoreDuplicate_present sch TableKeyValueStore (InsertKeyValueStore.pairs v) s hp
    · exact InsertNodeIndex_present v s hp
    · exact insertIgnoreDuplicate_present sch TableMultisigAliases (InsertMultisigAlias.pairs v) s hp
    · exact insertIgnoreDuplicate_present sch TableRewardOwner (InsertRewardOwner.pairs v) s hp
    · exact absurd rfl hrew
  · intro v rows hp
    rw [InsertCvmAccount_present sch v false rows hp]
    rfl
  · intro v rows hp
    obtain ⟨r, hr, hk⟩ := hp
    rw [InsertReward_none, if_pos (List.any_eq_true.mpr ⟨r, hr, decide_eq_true hk⟩)]

/-- C12, the amended claim at InsertCamLastBlockCache: chain 7 has a stored
row, at block 41; the call for block 42 without upd returns nil and the table
is as it was. -/
theorem Insert_swallows_duplicate_witness :
    InsertCamLastBlockCache exSchema none none exBlockCache false [exBlockCacheRow] =
      ([exBlockCacheRow], none) :=
  (Insert_swallows_duplicate exSchema []).1
    (.onSpliced exSchema "InsertCamLastBlockCache" TableCamLastBlockCache
      (fun v => (v "CurrentBlock").goString) (fun _ => []) "current_block"
      InsertCamLastBlockCache.pairs InsertCamLastBlockCache.sets
      (fun v upd rows => InsertCamLastBlockCache exSchema none none v upd rows))
    (by simp [persistInserts]) (by decide) (by decide) exBlockCache [exBlockCacheRow]
    ⟨fun _ => .number 42, rfl, exBlockCacheRow, List.mem_singleton.mpr rfl, by decide⟩

/-- C13, counterexample: InsertCvmAccount with upd set, for an account with
one transaction and an empty table: after one call the stored count is 1,
after two calls it is 2; both calls return nil.  And
InsertCvmTransactionsAtomic with upd set, for the stored transaction tx1 at
block 5 and the text block+1 as Block, which is spliced into the text of the
UPDATE and read there as an expression over the stored row: after one call
the stored block is 6, after two calls it is 7; both calls return nil. -/
theorem InsertCvmAccount_twice_counts_twice :
    ((InsertCvmAccount exSchema none none exAccount true []).1.map
        (fun r => r "tx_count")) = [.number 1] ∧
      ((InsertCvmAccount exSchema none none exAccount true
        (InsertCvmAccount exSchema none none exAccount true []).1).1.map
        (fun r => r "tx_count")) = [.number 2] ∧
      (InsertCvmAccount exSchema none none exAccount true []).2 = none ∧
      (InsertCvmAccount exSchema none none exAccount true
        (InsertCvmAccount exSchema none none exAccount true []).1).2 = none ∧
      ((InsertCvmTransactionsAtomic exSchema none none exAtomicIncr true [exAtomicRow]).1.map
        (fun r => r "block")) = [.number 6] ∧
      ((InsertCvmTransactionsAtomic exSchema none none exAtomicIncr true
        (InsertCvmTransactionsAtomic exSchema none none exAtomicIncr true [exAtomicRow]).1).1.map
        (fun r => r "block")) = [.number 7] ∧
      (InsertCvmTransactionsAtomic exSchema none none exAtomicIncr true [exAtomicRow]).2 =
        none ∧
      (InsertCvmTransactionsAtomic exSchema none none exAtomicIncr true
        (InsertCvmTransactionsAtomic exSchema none none exAtomicIncr true [exAtomicRow]).1).2 =
        none := by
  decide

/-- C13, amended: for every Insert operation of db.Persist on a table whose
key is made of columns that the INSERT names and the UPDATE does not assign,
every struct, every table state and every value of the upd flag, except
InsertCvmAccount with upd set, two calls in a row leave the state that one
call leaves; for InsertCvmBlocks, InsertCamLastBlockCache and
InsertCvmTransactionsAtomic, which splice the block text of the struct into
the text of their statements, this is so for a struct whose block text the
storage layer reads as a constant.  InsertCvmAccount with upd set, for an
address whose row is stored, adds v.TxCount to the stored transaction count at
every call. -/
theorem Insert_twice_same_state (sch : Schema) (accounts : Table) :
    (∀ op ∈ persistInserts sch accounts, op.keyOk →
      ∀ (v : op.Ent) (upd : Bool) (s : op.State), op.constant v →
        (op.name = "InsertCvmAccount" → upd = false) →
        (op.run v upd (op.run v upd s).1).1 = (op.run v upd s).1) ∧
    (∀ (v : Entity) (rows : Table),
      (∃ r ∈ rows, keyOf (sch.key TableCvmAccounts) r =
        keyOf (sch.key TableCvmAccounts)
          (assign (InsertCvmAccount.pairs v) (sch.defaults TableCvmAccounts rows))) →
      InsertCvmAccount sch none none v true rows =
        (rows.map (updateRow (whereCols (InsertCvmAccount.cond v))
          (fun r => assign [("tx_count", (r (column "tx_count")).add (v "TxCount"))] r)),
          none)) := by
  refine ⟨?_, ?_⟩
  · intro op hop hk v upd s hconst hupd
    simp only [persistInserts, List.mem_cons, List.mem_singleton, List.mem_nil_iff,
      or_false] at hop
    rcases hop with rfl | rfl | rfl | rfl | rfl | rfl | rfl | rfl | rfl | rfl | rfl | rfl | rfl | rfl | rfl | rfl | rfl | rfl | rfl | rfl | rfl | rfl | rfl | rfl | rfl | rfl | rfl | rfl | rfl | rfl
    · exact insertThenUpdate_twice sch TableTransactions TableTransactions (InsertTransactions.pairs v) upd (InsertTransactions.sets v)
        (InsertTransactions.cond v) s (hk.1 v) (hk.2 v)
    · exact insertThenUpdate_twice sch TableOutputsRedeeming TableOutputsRedeeming (InsertOutputsRedeeming.pairs v) upd (InsertOutputsRedeeming.sets v)
        (InsertOutputsRedeeming.cond v) s (hk.1 v) (hk.2 v)
    · exact insertThenUpdate_twice sch TableOutputs TableOutputs (InsertOutputs.pairs v) upd (InsertOutputs.sets v)
        (InsertOutputs.cond v) s (hk.1 v) (hk.2 v)
    · exact insertThenUpdate_twice sch TableAssets TableAssets (InsertAssets.pairs v) upd (InsertAssets.sets v)
        (InsertAssets.cond v) s (hk.1 v) (hk.2 v)
    · exact insertThenUpdate_twice sch TableAddresses TableAddresses (InsertAddresses.pairs v) upd (InsertAddresses.sets v)
        (InsertAddresses.cond v) s (hk.1 v) (hk.2 v)
    · exact insertThenUpdate_twice sch TableAddressChain TableAddressChain (InsertAddressChain.pairs v) upd (InsertAddressChain.sets v)
        (InsertAddressChain.cond v) s (hk.1 v) (hk.2 v)
    · exact insertThenUpdate_twice sch TableOutputAddresses TableOutputAddresses (InsertOutputAddresses.pairs v) upd (InsertOutputAddresses.sets v)
        (InsertOutputAddresses.cond v) s (hk.1 v) (hk.2 v)
    · exact insertThenUpdate_twice sch TableTransactionsEpochs TableTransactionsEpochs (InsertTransactionsEpoch.pairs v) upd (InsertTransactionsEpoch.sets v)
        (InsertTransactionsEpoch.cond v) s (hk.1 v) (hk.2 v)
    · obtain ⟨c, hc⟩ := hconst
      exact InsertCvmBlocks_twice sch v s c hc
        (named_of_spliced _ [] _ "block" Val.null c (hk.1 v))
    · obtain ⟨c, hc⟩ := hconst
      exact InsertCamLastBlockCache_twice sch v upd s c hc
        (named_of_spliced _ [] _ "current_block" Val.null c (hk.1 v))
    · exact insertThenUpdate_twice sch TableCvmAddresses TableCvmAddresses (InsertCvmAddresses.pairs v) upd (InsertCvmAddresses.sets v)
        (InsertCvmAddresses.cond v) s (hk.1 v) (hk.2 v)
    · obtain ⟨c, hc⟩ := hconst
      exact InsertCvmTransactionsAtomic_twice sch v upd s c hc
        (named_of_spliced _ _ _ "block" Val.null c (hk.1 v))
        (not_named_of_spliced _ _ "block" Val.null c (hk.2 v))
    · exact insertThenUpdate_twice sch TableCvmTransactionsTxdata TableCvmTransactionsTxdata (InsertCvmTransactionsTxdata.pairs accounts v) upd
        (InsertCvmTransactionsTxdata.sets accounts v) (InsertCvmTransactionsTxdata.cond v) s (hk.1 v) (hk.2 v)
    · cases hupd rfl
      exact InsertCvmAccount_false_twice sch v s (hk.1 v)
    · exact insertThenUpdate_twice sch TablePvmBlocks TablePvmBlocks (InsertPvmBlocks.pairs v) upd (InsertPvmBlocks.sets v)
        (InsertPvmBlocks.cond v) s (hk.1 v) (hk.2 v)
    · exact insertThenUpdate_twice sch TableTransactionsValidator TableTransactionsValidator (InsertTransactionsValidator.pairs v) upd (InsertTransactionsValidator.sets v)
        (InsertTransactionsValidator.cond v) s (hk.1 v) (hk.2 v)
    · exact insertThenUpdate_twice sch TableTransactionsBlock TableTransactionsBlock (InsertTransactionsBlock.pairs v) upd (InsertTransactionsBlock.sets v)
        (InsertTransactionsBlock.cond v) s (hk.1 v) (hk.2 v)
    · exact insertThenUpdate_twice sch TableAddressBech32 TableAddressBech32 (InsertAddressBech32.pairs v) upd (InsertAddressBech32.sets v)
        (InsertAddressBech32.cond v) s (hk.1 v) (hk.2 v)
    · exact insertThenUpdate_twice sch TableOutputAddressAccumulateOut TableAddressBech32 (InsertOutputAddressAccumulateOut.pairs v) upd (InsertOutputAddressAccumulateOut.sets v)
        (InsertOutputAddressAccumulateOut.cond v) s (hk.1 v) (hk.2 v)
    · exact insertThenUpdate_twice sch TableOutputAddressAccumulateIn TableAddressBech32 (InsertOutputAddressAccumulateIn.pairs v) upd (InsertOutputAddressAccumulateIn.sets v)
        (InsertOutputAddressAccumulateIn.cond v) s (hk.1 v) (hk.2 v)
    · exact insertIgnoreDuplicate_twice sch TableOutputTxsAccumulate (InsertOutputTxsAccumulate.pairs v) s (hk.1 v)
    · exact insertIgnoreDuplicate_twice sch TableAccumulateBalancesReceived (InsertAccumulateBalancesReceived.pairs v) s (hk.1 v)
    · exact insertIgnoreDuplicate_twice sch TableAccumulateBalancesSent (InsertAccumulateBalancesSent.pairs v) s (hk.1 v)
    · exact insertIgnoreDuplicate_twice sch TableAccumulateBalancesTransactions (InsertAccumulateBalancesTransactions.pairs v) s (hk.1 v)
    · exact InsertTxPool_twice v s
    · exact insertIgnoreDuplicate_twice sch TableKeyValueStore (InsertKeyValueStore.pairs v) s (hk.1 v)
    · exact InsertNodeIndex_twice v upd s
    · exact insertIgnoreDuplicate_twice sch TableMultisigAliases (InsertMultisigAlias.pairs v) s (hk.1 v)
    · exact insertIgnoreDuplicate_twice sch TableRewardOwner (InsertRewardOwner.pairs v) s (hk.1 v)
    · exact InsertReward_twice sch v s (hk.1 v) (hk.2 v)
  · intro v rows hp
    rw [InsertCvmAccount_present sch v true rows hp]
    rfl

/-- C13, the amended claim at InsertCvmTransactionsAtomic with upd set, for
the transaction tx1 whose spliced block 42 is read as a constant, on the
empty table keyed by transaction_id. -/
theorem Insert_twice_same_state_witness :
    (InsertCvmTransactionsAtomic exSchema none none exAtomic true
      (InsertCvmTransactionsAtomic exSchema none none exAtomic true []).1).1 =
      (InsertCvmTransactionsAtomic exSchema none none exAtomic true []).1 :=
  (Insert_twice_same_state exSchema []).1
    (.onSpliced exSchema "InsertCvmTransactionsAtomic" TableCvmTransactionsAtomic
      (fun v => (v "Block").goString) InsertCvmTransactionsAtomic.before "block"
      InsertCvmTransactionsAtomic.pairs
      (fun v => ("block", Val.null) :: InsertCvmTransactionsAtomic.sets v)
      (fun v upd rows => InsertCvmTransactionsAtomic exSchema none none v upd rows))
    (by simp [persistInserts])
    ⟨fun v c hc => ⟨("transaction_id", v "TransactionID"),
        by simp [InsertCvmTransactionsAtomic.before],
        by
          have hc2 : c = "transaction_id" := by
            simpa [exSchema, TableCvmTransactionsAtomic, TableCvmAccounts,
              TableCamLastBlockCache] using hc
          rw [hc2]⟩,
      fun v c hc p hp => by
        have hc2 : c = "transaction_id" := by
          simpa [exSchema, TableCvmTransactionsAtomic, TableCvmAccounts,
            TableCamLastBlockCache] using hc
        rw [hc2]
        simp only [InsertCvmTransactionsAtomic.sets, List.mem_cons, List.mem_singleton,
          List.mem_nil_iff, or_false] at hp
        rcases hp with rfl | rfl | rfl | rfl <;> (dsimp only; decide)⟩
    exAtomic true [] ⟨.number 42, rfl⟩ (fun h => absurd h (by decide))

/-- C21, as the claim states it, fails: the ledger read fails with the
transport error "dial tcp: connection refused", which is not the not-ready
signal; the loop of runProcessor ends at that poll, without making the next
one, and runProcessor returns the error. -/
theorem transport_error_ends_runProcessor :
    IndexNotReady (.errorString "dial tcp: connection refused") = false ∧
      (exProducer.loop exHashing
        [{ stopped := false, oracle := exRefusedOracle }, { stopped := false, oracle := exOracle }]
        exWorker exWorld).2.2 = some (some (.errorString "dial tcp: connection refused")) ∧
      (exProducer.runProcessor false exHashing
        { stoppedAtStart := false, start := exStart,
          polls := [{ stopped := false, oracle := exRefusedOracle },
            { stopped := false, oracle := exOracle }] }
        exWorld).2 = some (some (.errorString "dial tcp: connection refused")) ∧
      requests (exProducer.runProcessor false exHashing
        { stoppedAtStart := false, start := exStart,
          polls := [{ stopped := false, oracle := exRefusedOracle },
            { stopped := false, oracle := exOracle }] }
        exWorld).1.trace = [(0, MaxTxRead)] := by
  decide

/-- C21, amended: when the ledger read fails with an error e that is not the
not-ready signal, ProcessNextMessage sleeps the short interval, changes
nothing else and returns e.  The loop of runProcessor goes on exactly when e
is context.DeadlineExceeded, ErrNoMessage or an error that
ZeroAcceptedContainers recognises, and then no failure is counted.  Every
other e ends the loop and is returned by runProcessor, after the failure
counters are incremented unless e is io.EOF; Listen then does not return: it
waits processorFailureRetryInterval and calls runProcessor again, unless it is
stopped, in which case it returns nil. -/
theorem ledger_error_sleeps_then_classified (p : ProducerChain) (h : Hashing) (o : Oracle)
    (pc : producerChainContainer) (w : World) (e : GoError) (rest : List Poll)
    (hread : o.GetContainerRange pc.nodeIndex.Idx MaxTxRead = .error e)
    (hnr : IndexNotReady e = false) :
    pc.ProcessNextMessage h o w =
      (pc,
        { w with trace := w.trace ++
            [Event.GetContainerRange pc.nodeIndex.Idx MaxTxRead, Event.Sleep readRPCTimeout] },
        some e) ∧
    (keepsPolling (some e) = true ↔
      e = .DeadlineExceeded ∨ e = .ErrNoMessage ∨ ZeroAcceptedContainers e = true) ∧
    (keepsPolling (some e) = true →
      p.processNextMessage h o pc w =
        (pc,
          { w with trace := w.trace ++
              [Event.GetContainerRange pc.nodeIndex.Idx MaxTxRead, Event.Sleep readRPCTimeout] },
          none) ∧
      p.loop h ({ stopped := false, oracle := o } :: rest) pc w =
        p.loop h rest pc
          { w with trace := w.trace ++
              [Event.GetContainerRange pc.nodeIndex.Idx MaxTxRead,
                Event.Sleep readRPCTimeout] }) ∧
    (keepsPolling (some e) = false →
      p.loop h ({ stopped := false, oracle := o } :: rest) pc w =
        (pc,
          (if e = .EOF then
            { w with trace := w.trace ++
                [Event.GetContainerRange pc.nodeIndex.Idx MaxTxRead,
                  Event.Sleep readRPCTimeout] }
          else
            p.Failure { w with trace := w.trace ++
                [Event.GetContainerRange pc.nodeIndex.Idx MaxTxRead,
                  Event.Sleep readRPCTimeout] }),
          some (some e)) ∧
      ∀ (performUpdates : Bool) (r : Round) (rounds : List Round) (w0 : World),
        r.stopped = false → r.run.stoppedAtStart = false →
        newContainer performUpdates r.run.start p.conf p.topic p.chainID p.indexerChain
          p.metricProcessedCountKey w0 = (w, .ok pc) →
        r.run.polls = { stopped := false, oracle := o } :: rest →
        (p.runProcessor performUpdates h r.run w0).2 = some (some e) ∧
        p.Listen performUpdates h (r :: rounds) w0 =
          if r.stoppedAfter = true then
            ((p.runProcessor performUpdates h r.run w0).1, some none)
          else
            p.Listen performUpdates h rounds
              ((p.runProcessor performUpdates h r.run w0).1.emit
                (.Sleep processorFailureRetryInterval))) := by
  have hcall := ProcessNextMessage_ledger_error h o pc w e hread
  simp only [hnr, Bool.false_eq_true, if_false] at hcall
  have hcnr : ChainNotReady e = false := by
    cases hc : ChainNotReady e with
    | false => rfl
    | true =>
      have : IndexNotReady e = true := by
        unfold IndexNotReady
        unfold ChainNotReady at hc
        simp [hc]
      rw [hnr] at this
      exact absurd this (by decide)
  have hclosure := processNextMessage_eq p h o pc pc w _ (some e) hcall
  refine ⟨hcall, ?_, ?_, ?_⟩
  · simp [keepsPolling, hcnr, or_assoc]
  · intro hk
    have hclosure2 : p.processNextMessage h o pc w =
        (pc,
          { w with trace := w.trace ++
              [Event.GetContainerRange pc.nodeIndex.Idx MaxTxRead, Event.Sleep readRPCTimeout] },
          none) := by
      rw [hclosure]
      simp [hk, countsFailure]
    refine ⟨hclosure2, ?_⟩
    rw [loop_step, hclosure2]
  · intro hk
    have hclosure2 : p.processNextMessage h o pc w =
        (pc,
          (if e = .EOF then
            { w with trace := w.trace ++
                [Event.GetContainerRange pc.nodeIndex.Idx MaxTxRead,
                  Event.Sleep readRPCTimeout] }
          else
            p.Failure { w with trace := w.trace ++
                [Event.GetContainerRange pc.nodeIndex.Idx MaxTxRead,
                  Event.Sleep readRPCTimeout] }),
          some e) := by
      rw [hclosure]
      by_cases he : e = .EOF
      · subst he
        simp [hk, countsFailure]
      · simp [hk, countsFailure, he]
    have hloop : p.loop h ({ stopped := false, oracle := o } :: rest) pc w =
        (pc,
          (if e = .EOF then
            { w with trace := w.trace ++
                [Event.GetContainerRange pc.nodeIndex.Idx MaxTxRead,
                  Event.Sleep readRPCTimeout] }
          else
            p.Failure { w with trace := w.trace ++
                [Event.GetContainerRange pc.nodeIndex.Idx MaxTxRead,
                  Event.Sleep readRPCTimeout] }),
          some (some e)) := by
      rw [loop_step, hclosure2]
    refine ⟨hloop, ?_⟩
    intro performUpdates r rounds w0 hstop hstart hnew hpolls
    have hrun := runProcessor_started p performUpdates h r.run w0 w pc hstart hnew
    rw [hpolls, hloop] at hrun
    refine ⟨by rw [hrun], ?_⟩
    rw [Listen_step p performUpdates h r rounds w0 _ (some e) hstop hrun, hrun]
    simp

/-- C21, amended, at a concrete input: the read fails with "dial tcp:
connection refused"; ProcessNextMessage sleeps and returns the error. -/
theorem ledger_error_sleeps_then_classified_witness :
    exWorker.ProcessNextMessage exHashing exRefusedOracle exWorld =
      (exWorker,
        { exWorld with trace := exWorld.trace ++
            [Event.GetContainerRange 0 MaxTxRead, Event.Sleep readRPCTimeout] },
        some (.errorString "dial tcp: connection refused")) :=
  (ledger_error_sleeps_then_classified exProducer exHashing exRefusedOracle exWorker exWorld
    (.errorString "dial tcp: connection refused") [] rfl (by decide)).1

/-- C22, as the claim states it, fails: the database connections cannot be
obtained at the start of the worker, the running control is stopped after the
retry wait, and Listen returns nil. -/
theorem Listen_returns_nil_after_failed_start :
    (newContainer false exNoDatabase exProducer.conf exProducer.topic exProducer.chainID
        exProducer.indexerChain exProducer.metricProcessedCountKey exWorld).2 =
      .error (.errorString "dial tcp: connection refused") ∧
    exProducer.Listen false exHashing
        [{ stopped := false, run := exFailedRun, stoppedAfter := false },
          { stopped := true, run := exFailedRun, stoppedAfter := true }] exWorld =
      ({ exWorld with trace := [Event.Sleep processorFailureRetryInterval] }, some none) :=
  ⟨rfl, by decide⟩

/-- C22, amended: when the start of the worker fails (newContainer returns an
error), runProcessor makes no ledger read and returns that error; Listen does
not return it: when the running control is stopped by then Listen returns nil,
otherwise it waits processorFailureRetryInterval and calls runProcessor
again.  Listen returns no other value than nil. -/
theorem start_error_is_retried (p : ProducerChain) (performUpdates : Bool) (h : Hashing)
    (r : Round) (rounds : List Round) (w w1 : World) (err : GoError)
    (hstop : r.stopped = false) (hstart : r.run.stoppedAtStart = false)
    (hnew : newContainer performUpdates r.run.start p.conf p.topic p.chainID p.indexerChain
      p.metricProcessedCountKey w = (w1, .error err)) :
    p.runProcessor performUpdates h r.run w = (w1, some (some err)) ∧
    w1.trace = w.trace ∧
    p.Listen performUpdates h (r :: rounds) w =
      (if r.stoppedAfter = true then (w1, some none)
      else p.Listen performUpdates h rounds (w1.emit (.Sleep processorFailureRetryInterval))) ∧
    (∀ (rounds2 : List Round) (w2 : World),
      (p.Listen performUpdates h rounds2 w2).2 = none ∨
        (p.Listen performUpdates h rounds2 w2).2 = some none) := by
  have hrun := runProcessor_start_error p performUpdates h r.run w w1 err hstart hnew
  refine ⟨hrun, ?_, ?_, Listen_never_error p performUpdates h⟩
  · have ht := newContainer_trace performUpdates r.run.start p.conf p.topic p.chainID
      p.indexerChain p.metricProcessedCountKey w
    rw [hnew] at ht
    exact ht
  · rw [Listen_step p performUpdates h r rounds w w1 (some err) hstop hrun]
    simp

/-- C22, amended, at a concrete input: the database connections cannot be
obtained; runProcessor returns the error. -/
theorem start_error_is_retried_witness :
    exProducer.runProcessor false exHashing exFailedRun exWorld =
      (exWorld, some (some (.errorString "dial tcp: connection refused"))) :=
  (start_error_is_retried exProducer false exHashing
    { stopped := false, run := exFailedRun, stoppedAfter := false } [] exWorld exWorld
    (.errorString "dial tcp: connection refused") rfl rfl rfl).1

/-- C27: the closure of runProcessor classifies the result e of
ProcessNextMessage.  The success counter is incremented exactly when e is nil;
the closure returns nil, and the loop goes on, exactly when e is nil,
context.DeadlineExceeded, ErrNoMessage or an error that ChainNotReady or
ZeroAcceptedContainers recognises; the failure counter is incremented exactly
when e is none of those and is not io.EOF; io.EOF and every other error end
the loop and runProcessor returns that error.  With a running control stopped
at the top of an iteration, or at the entry of runProcessor, ProcessNextMessage
is not called: the state is as it was and runProcessor returns nil. -/
theorem runProcessor_classifies_result (p : ProducerChain) (h : Hashing) (o : Oracle)
    (pc pc1 : producerChainContainer) (w w1 : World) (e : Option GoError) (rest : List Poll)
    (hres : pc.ProcessNextMessage h o w = (pc1, w1, e)) :
    (p.processNextMessage h o pc w).2.1 =
      (if e = none then p.Success w1 else if countsFailure e = true then p.Failure w1 else w1) ∧
    counterIncs .MetricProduceSuccessCountKey (p.processNextMessage h o pc w).2.1.trace =
      counterIncs .MetricProduceSuccessCountKey w1.trace + (if e = none then 1 else 0) ∧
    counterIncs .MetricProduceFailureCountKey (p.processNextMessage h o pc w).2.1.trace =
      counterIncs .MetricProduceFailureCountKey w1.trace +
        (if countsFailure e = true then 1 else 0) ∧
    ((p.processNextMessage h o pc w).2.2 = none ↔ keepsPolling e = true) ∧
    (keepsPolling e = true ↔
      e = none ∨ e = some .DeadlineExceeded ∨ e = some .ErrNoMessage ∨
        ∃ err, e = some err ∧
          (ChainNotReady err = true ∨ ZeroAcceptedContainers err = true)) ∧
    (countsFailure e = true ↔ keepsPolling e = false ∧ e ≠ some .EOF) ∧
    (keepsPolling e = true →
      p.loop h ({ stopped := false, oracle := o } :: rest) pc w =
        p.loop h rest pc1 (p.processNextMessage h o pc w).2.1) ∧
    (∀ err, e = some err → keepsPolling e = false →
      (p.processNextMessage h o pc w).2.2 = some err ∧
      p.loop h ({ stopped := false, oracle := o } :: rest) pc w =
        (pc1, (p.processNextMessage h o pc w).2.1, some (some err)) ∧
      ∀ (performUpdates : Bool) (run : Run) (w0 : World),
        run.stoppedAtStart = false →
        newContainer performUpdates run.start p.conf p.topic p.chainID p.indexerChain
          p.metricProcessedCountKey w0 = (w, .ok pc) →
        run.polls = { stopped := false, oracle := o } :: rest →
        (p.runProcessor performUpdates h run w0).2 = some (some err)) ∧
    p.loop h ({ stopped := true, oracle := o } :: rest) pc w = (pc, w, some none) ∧
    (∀ (performUpdates : Bool) (run : Run), run.stoppedAtStart = true →
      p.runProcessor performUpdates h run w = (w, some none)) := by
  have hclosure := processNextMessage_eq p h o pc pc1 w w1 e hres
  refine ⟨by rw [hclosure], ?_, ?_, ?_, keepsPolling_iff e, ?_, ?_, ?_,
    loop_stopped p h o rest pc w, ?_⟩
  · rw [hclosure]
    by_cases he : e = none
    · simp [he, (counterIncs_Success p w1).1]
    · by_cases hf : countsFailure e = true
      · simp [he, hf, (counterIncs_Failure p w1).1]
      · simp [he, hf]
  · rw [hclosure]
    by_cases he : e = none
    · simp [he, (counterIncs_Success p w1).2, countsFailure, keepsPolling]
    · by_cases hf : countsFailure e = true
      · simp [he, hf, (counterIncs_Failure p w1).2]
      · simp [he, hf]
  · rw [hclosure]
    by_cases hk : keepsPolling e = true
    · simp [hk]
    · have hk2 : keepsPolling e = false := by simpa using hk
      simp only [hk2, Bool.false_eq_true, if_false, iff_false]
      intro he
      rw [he] at hk2
      exact absurd hk2 (by decide)
  · simp [countsFailure]
  · intro hk
    rw [loop_step, hclosure]
    simp [hk]
  · intro err he hk
    subst he
    have hclosure2 : (p.processNextMessage h o pc w).2.2 = some err := by
      rw [hclosure]
      simp [hk]
    have hloop : p.loop h ({ stopped := false, oracle := o } :: rest) pc w =
        (pc1, (p.processNextMessage h o pc w).2.1, some (some err)) := by
      rw [loop_step, hclosure2]
      simp only []
      rw [hclosure]
    refine ⟨hclosure2, hloop, ?_⟩
    intro performUpdates run w0 hstart hnew hpolls
    rw [runProcessor_started p performUpdates h run w0 w pc hstart hnew, hpolls, hloop]
  · intro performUpdates run hstop
    exact runProcessor_stopped p performUpdates h run w hstop

/-- C27 at a concrete input: the ledger read runs into its deadline; the
closure returns nil and counts neither a success nor a failure. -/
theorem runProcessor_classifies_result_witness :
    (exProducer.processNextMessage exHashing exDownOracle exWorker exWorld).2.2 = none ∧
    counterIncs .MetricProduceSuccessCountKey
      (exProducer.processNextMessage exHashing exDownOracle exWorker exWorld).2.1.trace = 0 ∧
    counterIncs .MetricProduceFailureCountKey
      (exProducer.processNextMessage exHashing exDownOracle exWorker exWorld).2.1.trace = 0 :=
  have t := runProcessor_classifies_result exProducer exHashing exDownOracle exWorker exWorker
    exWorld
    { exWorld with trace := exWorld.trace ++
        [Event.GetContainerRange 0 MaxTxRead, Event.Sleep readRPCTimeout] }
    (some .DeadlineExceeded) [] (by decide)
  ⟨t.2.2.2.1.mpr (by decide), t.2.1.trans (by decide), t.2.2.1.trans (by decide)⟩

/-- C30: for entries whose MsgKey contains no colon, the string that
TxPool.ComputeID hashes, MsgKey followed by a colon and Topic, and the bytes
of that string, which are the input of the hash, are the same for two entries
exactly when they have the same MsgKey and the same Topic.  So two such
entries that differ in MsgKey or in Topic give the hash two different inputs,
and if they get the same id, whose string form tells digests apart, the two
different inputs have the same digest: a collision of the hash. -/
theorem idsv_determines_key_and_topic (h : Hashing) (a b : TxPool)
    (ha : ':' ∉ a.MsgKey.data) (hb : ':' ∉ b.MsgKey.data) :
    (a.idsv = b.idsv ↔ a.MsgKey = b.MsgKey ∧ a.Topic = b.Topic) ∧
    (stringBytes a.idsv = stringBytes b.idsv ↔ a.MsgKey = b.MsgKey ∧ a.Topic = b.Topic) ∧
    ((a.MsgKey ≠ b.MsgKey ∨ a.Topic ≠ b.Topic) →
      a.idsv ≠ b.idsv ∧ stringBytes a.idsv ≠ stringBytes b.idsv) ∧
    ((a.MsgKey ≠ b.MsgKey ∨ a.Topic ≠ b.Topic) → Function.Injective h.IDString →
      (a.ComputeID h).ID = (b.ComputeID h).ID →
      stringBytes a.idsv ≠ stringBytes b.idsv ∧
        h.ComputeHash256Array (stringBytes a.idsv) =
          h.ComputeHash256Array (stringBytes b.idsv)) := by
  have hiff : a.idsv = b.idsv ↔ a.MsgKey = b.MsgKey ∧ a.Topic = b.Topic := by
    constructor
    · intro heq
      have hd : a.idsv.data = b.idsv.data := by rw [heq]
      rw [idsv_data, idsv_data] at hd
      obtain ⟨h1, h2⟩ := append_colon_inj _ _ _ _ ha hb hd
      exact ⟨String.ext h1, String.ext h2⟩
    · rintro ⟨h1, h2⟩
      simp [TxPool.idsv, h1, h2]
  have hbytes : stringBytes a.idsv = stringBytes b.idsv ↔
      a.MsgKey = b.MsgKey ∧ a.Topic = b.Topic :=
    ⟨fun heq => hiff.mp (stringBytes_injective heq), fun heq => by rw [hiff.mpr heq]⟩
  have hne : (a.MsgKey ≠ b.MsgKey ∨ a.Topic ≠ b.Topic) →
      stringBytes a.idsv ≠ stringBytes b.idsv := by
    intro hdiff heq
    obtain ⟨h1, h2⟩ := hbytes.mp heq
    rcases hdiff with hd | hd
    · exact hd h1
    · exact hd h2
  exact ⟨hiff, hbytes,
    fun hdiff => ⟨fun heq => hne hdiff (by rw [heq]), hne hdiff⟩,
    fun hdiff hinj hid => ⟨hne hdiff, hinj hid⟩⟩

/-- C30 at a concrete input: the keys "key1" and "key2" on the topic
"topic1" give the hash different bytes; under the digest that keeps the first
byte the two entries get the same id, and the two inputs have the same
digest. -/
theorem idsv_determines_key_and_topic_witness :
    stringBytes exEntry.idsv ≠ stringBytes { exEntry with MsgKey := "key2" }.idsv ∧
      exFirstByteHashing.ComputeHash256Array (stringBytes exEntry.idsv) =
        exFirstByteHashing.ComputeHash256Array
          (stringBytes { exEntry with MsgKey := "key2" }.idsv) :=
  (idsv_determines_key_and_topic exFirstByteHashing exEntry { exEntry with MsgKey := "key2" }
    (by decide) (by decide)).2.2.2 (Or.inl (by decide))
    exFirstByteHashing_IDString_injective rfl

/-- C26: UpdateTxPool returns the result of InsertTxPool and leaves the tables
as InsertTxPool leaves them; it hands the entry to the in-process notification
exactly when that result is nil.  For an entry whose id is in the queue and an
INSERT that the storage layer executes, the result is nil, the queue is as it
was and the entry is notified again.  A worker whose read at its cursor returns
one container leaves its cursor where it is and notifies the entry of that
container at every poll. -/
theorem UpdateTxPool_notifies_when_inserted (fault : Option Fault) (v : TxPool) (w : World) :
    (UpdateTxPool fault v w).2 = (InsertTxPool fault v w).2 ∧
    (UpdateTxPool fault v w).1.txPool = (InsertTxPool fault v w).1.txPool ∧
    (UpdateTxPool fault v w).1.nodeIndex = (InsertTxPool fault v w).1.nodeIndex ∧
    (UpdateTxPool fault v w).1.trace =
      (if (InsertTxPool fault v w).2 = none then w.trace ++ [Event.Enqueue v] else w.trace) ∧
    ((∃ r ∈ w.txPool, r.ID = v.ID) →
      UpdateTxPool none v w = ({ w with trace := w.trace ++ [Event.Enqueue v] }, none)) ∧
    (∀ (h : Hashing) (o : Oracle) (p : producerChainContainer) (c : Container) (n : Nat),
      o.GetContainerRange p.nodeIndex.Idx MaxTxRead = .ok [c] →
      (∀ k, o.insertFault k = none) → o.updateFault = none → p.nodeIndex.Idx < 2 ^ 64 →
      (p.repeatWith MaxTxRead h o n w).1 = p ∧
        enqueued (p.repeatWith MaxTxRead h o n w).2.trace =
          enqueued w.trace ++ List.replicate n (p.txPoolOf h c)) := by
  refine ⟨?_, ?_, ?_, ?_, ?_, ?_⟩
  · cases fault with
    | none => simp [UpdateTxPool_none, InsertTxPool_none]
    | some f => simp [UpdateTxPool_fault, InsertTxPool_fault]
  · cases fault with
    | none => simp [UpdateTxPool_none, InsertTxPool_none]
    | some f => simp [UpdateTxPool_fault, InsertTxPool_fault]
  · cases fault with
    | none => simp [UpdateTxPool_none, InsertTxPool_none]
    | some f => simp [UpdateTxPool_fault, InsertTxPool_fault]
  · cases fault with
    | none => simp [UpdateTxPool_none, InsertTxPool_none]
    | some f => simp [UpdateTxPool_fault, InsertTxPool_fault]
  · intro hpresent
    rw [UpdateTxPool_none, insertRow_eq_insertIfAbsent,
      insertIfAbsent_of_present _ _ _ hpresent]
  · intro h o p c n hbatch hins hupd hfit
    induction n generalizing w with
    | zero => simp [producerChainContainer.repeatWith]
    | succ n ih =>
      obtain ⟨h1, _, h3⟩ := ProcessNextMessage_batch_of_one h o p w c hbatch hins hupd hfit
      simp only [producerChainContainer.repeatWith]
      rw [h1]
      obtain ⟨i1, i2⟩ := ih (p.ProcessNextMessageWith MaxTxRead h o w).2.1
      refine ⟨i1, ?_⟩
      rw [i2, h3, List.append_assoc]
      congr 1

/-- C26 at a concrete input: the worker at cursor 4 of the ledger of five
containers reads the one container at index 4 at every poll and notifies its
entry each time, here three times. -/
theorem UpdateTxPool_notifies_when_inserted_witness :
    enqueued ((exWorkerAt 4).repeatWith MaxTxRead exHashing exOracle 3 exWorld).2.trace =
      enqueued exWorld.trace ++ List.replicate 3 ((exWorkerAt 4).txPoolOf exHashing (exChainAt 4)) :=
  ((UpdateTxPool_notifies_when_inserted none exEntry exWorld).2.2.2.2.2 exHashing exOracle
    (exWorkerAt 4) (exChainAt 4) 3 rfl (fun _ => rfl) rfl (by decide)).2

/-- C24 at the failing input: the output "id1" is stored with redeemed_at at
time 1000 and other values in every column; InsertOutputsRedeeming with upd
set, for the same id with RedeemedAt at time 2000, returns nil, and
QueryOutputsRedeeming then returns the values of v in every field but
RedeemedAt, which is still time 1000: the UPDATE does not assign redeemed_at. -/
theorem InsertOutputsRedeeming_keeps_redeemed_at :
    (InsertOutputsRedeeming exSchema none none exRedeeming true [exRedeemingRow]).2 = none ∧
    (QueryOutputsRedeeming none exRedeeming
      (InsertOutputsRedeeming exSchema none none exRedeeming true
        [exRedeemingRow]).1).toOption.map
        (fun fv => OutputsRedeeming.fields.map (fun p => fv p.1)) =
      some [.text "id1", .time (Time.Unix 1000), .text "rtxid1", .number 102, .number 3,
        .text "intx2", .text "aid2", .text "cid2", .time (Time.Unix 2000)] ∧
    OutputsRedeeming.fields.map (fun p => exRedeeming p.1) =
      [.text "id1", .time (Time.Unix 2000), .text "rtxid1", .number 102, .number 3,
        .text "intx2", .text "aid2", .text "cid2", .time (Time.Unix 2000)] := by
  decide

/-- C29 at the failing input: both maps hold the asset "avax", with UTXO
counts 1 and 5; in the result the transaction count and the three amounts are
the sums, and the UTXO count is 2, twice the count of the first map, not 6. -/
theorem addAssetInfoMap_doubles_UTXOCount :
    addAssetInfoMap (some exAssets) (some exAssets2) =
      .ok (some [("avax",
        { TransactionCount := 3
          UTXOCount := 2
          Balance := "15"
          TotalReceived := "37"
          TotalSent := "22" })]) := by
  rfl

/-- C23: a transaction whose unsigned type is not listed is rejected by avm
Writer.insertTxInternal and by pvm Writer.indexTransaction with the error
"unknown tx type" followed by the type, and a block whose type is not listed
is rejected by pvm Writer.indexBlock with the error "unknown type" followed
by the type; in each case no call is made, so nothing is written.  Inside a
block of a listed type such a transaction adds no call either: its error is
kept and the loop goes on with the next transaction. -/
theorem unknown_variant_is_rejected (env : DecoderEnv) (ctx : ConsumerCtx)
    (calls : List WriterCall) (goType : String) :
    (∀ (txID : ByteSlice),
      avm.insertTxInternal env ctx { ID := txID, Unsigned := .other goType } calls =
        (calls, some (.errorString ("unknown tx type " ++ goType)))) ∧
    (∀ (w : pvm.Writer) (blkID txID : ByteSlice) (genesis : Bool),
      w.indexTransaction env ctx blkID { ID := txID, Unsigned := .other goType } genesis calls =
        (calls, some (.errorString ("unknown tx type " ++ goType)))) ∧
    (∀ (w : pvm.Writer) (lib : pvm.Library) (h : Hashing) (performUpdates : Bool)
        (blockBytes : ByteSlice) (blk : pvm.Block),
      lib.blocksParse
          (match lib.proposerParse blockBytes with
            | .error _ => blockBytes
            | .ok b => b.Block) = .ok blk →
      blk.kind = .other goType →
      w.indexBlock lib env h performUpdates ctx blockBytes calls =
        (ctx, calls, some (.errorString ("unknown type " ++ goType)))) ∧
    (∀ (w : pvm.Writer) (blkID txID : ByteSlice) (txs : List pvm.Tx) (errs : Option GoError),
      w.indexTransactions env ctx blkID ({ ID := txID, Unsigned := .other goType } :: txs)
          (calls, errs) =
        w.indexTransactions env ctx blkID txs
          (calls, errsAdd errs (some (.errorString ("unknown tx type " ++ goType))))) := by
  refine ⟨fun _ => rfl, fun _ _ _ _ => rfl, ?_, fun _ _ _ _ _ => rfl⟩
  intro w lib h performUpdates blockBytes blk hparse hkind
  unfold pvm.Writer.indexBlock
  simp only [hparse, hkind]

/-- C25: Writer.indexCommonBlock makes one call, InsertPvmBlocks with the
value of cfg.PerformUpdates, for the row that has the string of the block id,
the chain id of the writer, the given type, the string of the parent id, the
height, the context time, the proposer and its time, and as serialization the
bytes b when len(b) is at most 16*1024*1024 - 1 and no bytes otherwise; it
returns what that call returns. -/
theorem indexCommonBlock_one_insert (w : pvm.Writer) (env : DecoderEnv) (h : Hashing)
    (performUpdates : Bool) (ctx : ConsumerCtx) (blkID : ByteSlice) (blkType : BlockType)
    (blk : CommonBlock) (proposer : BlockProposal) (b : ByteSlice) (calls : List WriterCall) :
    w.indexCommonBlock env h performUpdates ctx blkID blkType blk proposer b calls =
      (calls ++ [WriterCall.InsertPvmBlocks
          { ID := h.IDString blkID
            ChainID := w.chainID
            Typ := blkType
            ParentID := h.IDString blk.PrntID
            Serialization := if b.length ≤ 16 * 1024 * 1024 - 1 then b else []
            CreatedAt := ctx.Time
            Height := blk.Hght
            Proposer := proposer.Proposer
            ProposerTime := proposer.TimeStamp } performUpdates],
        env.answer calls (WriterCall.InsertPvmBlocks
          { ID := h.IDString blkID
            ChainID := w.chainID
            Typ := blkType
            ParentID := h.IDString blk.PrntID
            Serialization := if b.length ≤ 16 * 1024 * 1024 - 1 then b else []
            CreatedAt := ctx.Time
            Height := blk.Hght
            Proposer := proposer.Proposer
            ProposerTime := proposer.TimeStamp } performUpdates)) := by
  have hser : (if b.length > MaxSerializationLen then ([] : ByteSlice) else b) =
      (if b.length ≤ 16 * 1024 * 1024 - 1 then b else []) := by
    by_cases hlen : b.length ≤ 16 * 1024 * 1024 - 1
    · rw [if_pos hlen, if_neg (by simpa [MaxSerializationLen] using hlen)]
    · rw [if_neg hlen, if_pos (by simpa [MaxSerializationLen] using hlen)]
  unfold pvm.Writer.indexCommonBlock DecoderEnv.call
  simp only [hser]

/-- C28 at the failing input: a Banff proposal block with timestamp
1700000000 is stored by indexBlock under BlockTypeStandard, not under
BlockTypeProposal; the time of the row and of the context is the timestamp of
the block. -/
theorem indexBlock_BanffProposal_stored_as_standard :
    exPvmWriter.indexBlock exLibrary exDecoderEnv exHashing false { time := Time.Unix 5 } [7] [] =
      ({ time := Time.Unix 1700000000 },
        [WriterCall.InsertPvmBlocks
          { ID := exHashing.IDString [9]
            ChainID := "pchain"
            Typ := .BlockTypeStandard
            ParentID := exHashing.IDString [1]
            Serialization := [7]
            CreatedAt := Time.Unix 1700000000
            Height := 8
            Proposer := ""
            ProposerTime := some (Time.Unix 1700000000) } false],
        none) := by
  decide

/-- C2, as the claim states it, fails: the worker at checkpoint 2 reads the
containers 2, 3 and 4, the insert at position 2 of the batch fails and the
checkpoint is still 2; the worker restarted afterwards with
cfg.PerformUpdates true does not read 2: the start sets the checkpoint row to
0 and the cursor is 0. -/
theorem restart_with_updates_reads_zero :
    ((exWorkerAt 2).ProcessNextMessage exHashing exFaultyOracle (exWorldAt 2)).2.2 =
      some (EventErr TableTxPool false (Fault.failure "connection lost").toError) ∧
    checkpoint "default" "1-ch-decisions"
      ((exWorkerAt 2).ProcessNextMessage exHashing exFaultyOracle (exWorldAt 2)).2.1 = some 2 ∧
    (newContainer true exStart exProducer.conf exProducer.topic exProducer.chainID
      exProducer.indexerChain exProducer.metricProcessedCountKey
      ((exWorkerAt 2).ProcessNextMessage exHashing exFaultyOracle (exWorldAt 2)).2.1).2.toOption =
      some (exWorkerAt 0) ∧
    checkpoint "default" "1-ch-decisions"
      (newContainer true exStart exProducer.conf exProducer.topic exProducer.chainID
        exProducer.indexerChain exProducer.metricProcessedCountKey
        ((exWorkerAt 2).ProcessNextMessage exHashing exFaultyOracle (exWorldAt 2)).2.1).1 =
      some 0 := by
  decide

/-- C6, as the claim states it, fails: the worker at checkpoint 1 reads the
containers 1 to 4 and stops at the insert at position 2, so two rows are
queued; the worker restarted with cfg.PerformUpdates true reads 0, not 1, its
next call asks the ledger for the range that starts at 0, and the queue ends
with five rows where one uninterrupted run from checkpoint 1 ends with four. -/
theorem restart_with_updates_rereads_from_zero :
    (newContainer true exStart exProducer.conf exProducer.topic exProducer.chainID
      exProducer.indexerChain exProducer.metricProcessedCountKey
      ((exWorkerAt 1).ProcessNextMessage exHashing exFaultyOracle (exWorldAt 1)).2.1).2.toOption =
      some (exWorkerAt 0) ∧
    requests ((exWorkerAt 0).ProcessNextMessage exHashing exOracle
      { (newContainer true exStart exProducer.conf exProducer.topic exProducer.chainID
          exProducer.indexerChain exProducer.metricProcessedCountKey
          ((exWorkerAt 1).ProcessNextMessage exHashing exFaultyOracle (exWorldAt 1)).2.1).1
        with trace := [] }).2.1.trace = [(0, MaxTxRead)] ∧
    ((exWorkerAt 0).ProcessNextMessage exHashing exOracle
      (newContainer true exStart exProducer.conf exProducer.topic exProducer.chainID
        exProducer.indexerChain exProducer.metricProcessedCountKey
        ((exWorkerAt 1).ProcessNextMessage exHashing exFaultyOracle
          (exWorldAt 1)).2.1).1).2.1.txPool.length = 5 ∧
    ((exWorkerAt 1).ProcessNextMessage exHashing exOracle (exWorldAt 1)).2.1.txPool.length =
      4 := by
  decide

/-- C14, as the claim states it, fails: the checkpoint row of the worker has
index 5; a start with cfg.PerformUpdates true leaves the row with index 0 and
getIndex loads 0 into the cursor. -/
theorem start_with_updates_resets_index :
    checkpoint "default" "1-ch-decisions" (exWorldAt 5) = some 5 ∧
    checkpoint "default" "1-ch-decisions"
      (newContainer true exStart exProducer.conf exProducer.topic exProducer.chainID
        exProducer.indexerChain exProducer.metricProcessedCountKey (exWorldAt 5)).1 = some 0 ∧
    (newContainer true exStart exProducer.conf exProducer.topic exProducer.chainID
      exProducer.indexerChain exProducer.metricProcessedCountKey (exWorldAt 5)).2.toOption =
      some (exWorkerAt 0) := by
  decide

end Ortelius
